import Mathlib

/-!
# lib60870-C information objects: a shallow embedding of the codec layer

Source: `src/iec60870/apl/information_objects.c` and `src/inc/api/information_objects.h`.

Conventions of the embedding
* a C `int` is an `Int`; none of the modelled computations can leave the 32-bit range
  for the inputs the theorems quantify over, and the places where a value is narrowed
  to `uint8_t` carry an explicit `% 256` (`toU8`);
* a `uint8_t` is a `Nat` (the theorems assume `< 256` where a byte is an input);
* C `/` and `%` on `int` truncate toward zero: `Int.tdiv`, `Int.tmod`;
* C `&` on `int` is `Int.land` (two's complement), on `uint8_t` it is `&&&` on `Nat`;
* a buffer `uint8_t* msg` is a `List Nat`, a struct is a Lean structure, a function that
  writes through `self` returns the updated structure;
* `self == NULL` on entry is `none`; allocation is taken to succeed; where a decoder
  leaves a field of freshly `GLOBAL_MALLOC`ed storage unassigned, that storage's content is
  a parameter of the embedding.
-/

namespace IEC60870

set_option linter.unusedVariables false

/-! ## C arithmetic helpers -/

/-- The conversion `(uint8_t) x` of a C `int`: reduction modulo 256. -/
def toU8 (x : Int) : Nat := (x % 256).toNat

/-- The read `msg [i]` of a byte buffer. Reading outside the array is undefined in C;
the model yields 0 there. -/
def readByte (msg : List Nat) (i : Int) : Nat :=
  if i < 0 then 0 else msg.getD i.toNat 0

/-! ## Scaled value codec (`getScaledValue`, `setScaledValue`) -/

/-- Embeds `static int getScaledValue(uint8_t* encodedValue)`. -/
def getScaledValue (encodedValue : Nat × Nat) : Int :=
  let value : Int := (encodedValue.1 : Int)
  let value : Int := value + ((encodedValue.2 : Int) * 0x100)
  if value > 32767 then value - 65536 else value

/-- Embeds `static void setScaledValue(uint8_t* encodedValue, int value)`: the two bytes written. -/
def setScaledValue (value : Int) : Nat × Nat :=
  let valueToEncode : Int := if value < 0 then value + 65536 else value
  (toU8 (Int.tmod valueToEncode 256), toU8 (Int.tdiv valueToEncode 256))

/-! ## Collaborators declared outside `information_objects.c` -/

/-- Modelled from the spec: the `ConnectionParameters` collaborator (declared in
`iec60870_common.h`, not part of the sources at hand), which "exposes at minimum
`addressFieldWidth ∈ {1,2,3}`"; the code reads it as `parameters->sizeOfIOA`. -/
structure ConnectionParameters where
  sizeOfIOA : Int
  deriving DecidableEq, Repr

/-- Modelled from the spec: the `Frame` collaborator (`frame.h`, not part of the sources
at hand), "an append-only output cursor"; here the list of the bytes written so far. -/
abbrev Frame := List Nat

/-- Modelled from the spec: `Frame_setNextByte` (`frame.h`), the `writeByte` of the
append-only output cursor: the byte is appended after the bytes already written. -/
def Frame_setNextByte (frame : Frame) (byte : Nat) : Frame := frame ++ [byte]

/-- Modelled from the spec: the type tags of `iec60870_common.h` (not part of the sources
at hand) that the initialisers below assign; `unset` is the all-zero content of freshly
allocated storage, which is no IEC type identifier. -/
inductive TypeID where
  | unset
  | M_SP_NA_1
  | M_ST_NA_1
  | M_ME_NA_1
  | M_ME_NB_1
  | C_SC_NA_1
  | M_DP_NA_1
  | M_BO_NA_1
  | M_BO_TA_1
  | M_BO_TB_1
  | M_IT_NA_1
  | C_DC_NA_1
  | C_RC_NA_1
  | C_SC_TA_1
  | C_SE_NA_1
  | C_SE_NB_1
  | C_SE_NC_1
  | C_BO_NA_1
  | C_RD_NA_1
  | C_CS_NA_1
  | C_IC_NA_1
  | M_SP_TA_1
  | M_ST_TB_1
  | M_ME_TA_1
  | M_ME_TD_1
  | M_ME_TB_1
  | M_ME_TE_1
  | M_ME_NC_1
  | M_ME_TC_1
  | M_ME_TF_1
  | M_IT_TA_1
  | M_IT_TB_1
  | M_SP_TB_1
  | M_DP_TA_1
  | M_DP_TB_1
  | M_ST_TA_1
  deriving DecidableEq, Repr

/-- The dispatch tables `struct sInformationObjectVFT ...VFT` defined in the source, by
name; `null` is the all-zero content of freshly allocated storage. -/
inductive InformationObjectVFT where
  | null
  | singlePointInformationVFT
  | stepPositionInformationVFT
  | measuredValueNormalizedVFT
  | measuredValueScaledVFT
  | singleCommandVFT
  | doublePointInformationVFT
  | bitString32VFT
  | bitstring32WithCP24Time2aVFT
  | bitstring32WithCP56Time2aVFT
  | integratedTotalsVFT
  | doubleCommandVFT
  | stepCommandVFT
  | singleCommandWithCP56Time2aVFT
  | setpointCommandNormalizedVFT
  | setpointCommandScaledVFT
  | setpointCommandShortVFT
  | bitstring32CommandVFT
  | readCommandVFT
  | clockSynchronizationCommandVFT
  | interrogationCommandVFT
  | singlePointWithCP24Time2aVFT
  | stepPositionWithCP56Time2aVFT
  | measuredValueNormalizedWithCP24Time2aVFT
  | measuredValueNormalizedWithCP56Time2aVFT
  | measuredValueScaledWithCP24Time2aVFT
  | measuredValueScaledWithCP56Time2aVFT
  | measuredValueShortVFT
  | measuredValueShortWithCP24Time2aVFT
  | measuredValueShortWithCP56Time2aVFT
  | integratedTotalsWithCP24Time2aVFT
  | integratedTotalsWithCP56Time2aVFT
  | singlePointWithCP56Time2aVFT
  | doublePointWithCP24Time2aVFT
  | doublePointWithCP56Time2aVFT
  | stepPositionWithCP24Time2aVFT
  deriving DecidableEq, Repr

/-! ## InformationObject (base class) -/

/-- Embeds `struct sInformationObject`. -/
structure InformationObject where
  objectAddress : Int
  type : TypeID
  virtualFunctionTable : InformationObjectVFT
  deriving DecidableEq, Repr

/-- Zero-filled storage for the base fields. -/
def InformationObject.zeroed : InformationObject :=
  { objectAddress := 0, type := TypeID.unset, virtualFunctionTable := InformationObjectVFT.null }

/-- Embeds `static void InformationObject_encodeBase(self, frame, parameters)`. -/
def InformationObject_encodeBase (self : InformationObject) (frame : Frame)
    (parameters : ConnectionParameters) : Frame :=
  let frame := Frame_setNextByte frame (toU8 (Int.land self.objectAddress 0xff))
  let frame :=
    if parameters.sizeOfIOA > 1 then
      Frame_setNextByte frame (toU8 (Int.land (Int.tdiv self.objectAddress 0x100) 0xff))
    else frame
  let frame :=
    if parameters.sizeOfIOA > 2 then
      Frame_setNextByte frame (toU8 (Int.land (Int.tdiv self.objectAddress 0x10000) 0xff))
    else frame
  frame

/-- Embeds `static void InformationObject_getFromBuffer(self, parameters, msg, startIndex)`. -/
def InformationObject_getFromBuffer (self : InformationObject)
    (parameters : ConnectionParameters) (msg : List Nat) (startIndex : Int) :
    InformationObject :=
  let objectAddress : Int := (readByte msg startIndex : Int)
  let objectAddress : Int :=
    if parameters.sizeOfIOA > 1 then
      objectAddress + ((readByte msg (startIndex + 1) : Int) * 0x100)
    else objectAddress
  let objectAddress : Int :=
    if parameters.sizeOfIOA > 2 then
      objectAddress + ((readByte msg (startIndex + 2) : Int) * 0x10000)
    else objectAddress
  { self with objectAddress := objectAddress }

/-! ## SinglePointInformation -/

/-- Embeds `struct sSinglePointInformation`. -/
structure SinglePointInformation extends InformationObject where
  value : Bool
  quality : Nat
  deriving DecidableEq, Repr

/-- Zero-filled storage (`GLOBAL_CALLOC`); also stands for the storage `GLOBAL_MALLOC`
returns, every field of which is assigned before it is read. -/
def SinglePointInformation.zeroed : SinglePointInformation :=
  { toInformationObject := InformationObject.zeroed, value := false, quality := 0 }

/-- Embeds `static void SinglePointInformation_encode(self, frame, parameters)`. -/
def SinglePointInformation_encode (self : SinglePointInformation) (frame : Frame)
    (parameters : ConnectionParameters) : Frame :=
  let frame := InformationObject_encodeBase self.toInformationObject frame parameters
  let val : Nat := self.quality % 256
  let val : Nat := if self.value then (val + 1) % 256 else val
  Frame_setNextByte frame val

/-- Embeds `static void SinglePointInformation_initialize(self)`. -/
def SinglePointInformation_initialize (self : SinglePointInformation) :
    SinglePointInformation :=
  { self with
    virtualFunctionTable := InformationObjectVFT.singlePointInformationVFT
    type := TypeID.M_SP_NA_1 }

/-- Embeds `SinglePointInformation_create(self, ioa, value, quality)`. -/
def SinglePointInformation_create (self : Option SinglePointInformation) (ioa : Int)
    (value : Bool) (quality : Nat) : SinglePointInformation :=
  let self := match self with
    | none => SinglePointInformation.zeroed
    | some s => s
  let self := SinglePointInformation_initialize self
  { self with objectAddress := ioa, value := value, quality := quality }

/-- Embeds `SinglePointInformation_getFromBuffer(self, parameters, msg, msgSize, startIndex)`;
`msgSize` is not consulted (`//TODO check message size`). -/
def SinglePointInformation_getFromBuffer (self : Option SinglePointInformation)
    (parameters : ConnectionParameters) (msg : List Nat) (msgSize : Int) (startIndex : Int) :
    SinglePointInformation :=
  let self := match self with
    | none => SinglePointInformation_initialize SinglePointInformation.zeroed
    | some s => s
  let base := InformationObject_getFromBuffer self.toInformationObject parameters msg startIndex
  let self := { self with toInformationObject := base }
  let startIndex := startIndex + parameters.sizeOfIOA
  let siq : Nat := readByte msg startIndex
  { self with value := ((siq &&& 0x01) == 0x01), quality := (siq &&& 0xf0) % 256 }

/-- Embeds `SinglePointInformation_getValue`. -/
def SinglePointInformation_getValue (self : SinglePointInformation) : Bool := self.value

/-- Embeds `SinglePointInformation_getQuality`. -/
def SinglePointInformation_getQuality (self : SinglePointInformation) : Nat := self.quality

/-! ## StepPositionInformation -/

/-- Embeds `struct sStepPositionInformation`. -/
structure StepPositionInformation extends InformationObject where
  vti : Nat
  quality : Nat
  deriving DecidableEq, Repr

/-- Zero-filled storage (`GLOBAL_CALLOC`); also stands for the storage `GLOBAL_MALLOC`
returns, every field of which is assigned before it is read. -/
def StepPositionInformation.zeroed : StepPositionInformation :=
  { toInformationObject := InformationObject.zeroed, vti := 0, quality := 0 }

/-- Embeds `static void StepPositionInformation_encode(self, frame, parameters)`. -/
def StepPositionInformation_encode (self : StepPositionInformation) (frame : Frame)
    (parameters : ConnectionParameters) : Frame :=
  let frame := InformationObject_encodeBase self.toInformationObject frame parameters
  let frame := Frame_setNextByte frame self.vti
  Frame_setNextByte frame (self.quality % 256)

/-- Embeds `static void StepPositionInformation_initialize(self)`. -/
def StepPositionInformation_initialize (self : StepPositionInformation) :
    StepPositionInformation :=
  { self with
    virtualFunctionTable := InformationObjectVFT.stepPositionInformationVFT
    type := TypeID.M_ST_NA_1 }

/-- Embeds `StepPositionInformation_create(self, ioa, value, isTransient, quality)`. -/
def StepPositionInformation_create (self : Option StepPositionInformation) (ioa : Int)
    (value : Int) (isTransient : Bool) (quality : Nat) : StepPositionInformation :=
  let self := match self with
    | none => StepPositionInformation.zeroed
    | some s => s
  let self := StepPositionInformation_initialize self
  let value : Int := if value > 63 then 63 else if value < -64 then -64 else value
  let value : Int := if value < 0 then value + 128 else value
  let vti : Nat := toU8 value
  let vti : Nat := if isTransient then (vti ||| 0x80) % 256 else vti
  { self with objectAddress := ioa, vti := vti, quality := quality }

/-- Embeds `StepPositionInformation_getObjectAddress`. -/
def StepPositionInformation_getObjectAddress (self : StepPositionInformation) : Int :=
  self.objectAddress

/-- Embeds `StepPositionInformation_getValue`. -/
def StepPositionInformation_getValue (self : StepPositionInformation) : Int :=
  let value : Int := ((self.vti &&& 0x7f : Nat) : Int)
  if value > 63 then value - 128 else value

/-- Embeds `StepPositionInformation_isTransient`. -/
def StepPositionInformation_isTransient (self : StepPositionInformation) : Bool :=
  (self.vti &&& 0x80) == 0x80

/-- Embeds `StepPositionInformation_getQuality`. -/
def StepPositionInformation_getQuality (self : StepPositionInformation) : Nat := self.quality

/-- Embeds `StepPositionInformation_getFromBuffer(self, parameters, msg, msgSize, startIndex)`;
`msgSize` is not consulted (`//TODO check message size`). -/
def StepPositionInformation_getFromBuffer (self : Option StepPositionInformation)
    (parameters : ConnectionParameters) (msg : List Nat) (msgSize : Int) (startIndex : Int) :
    StepPositionInformation :=
  let self := match self with
    | none => StepPositionInformation_initialize StepPositionInformation.zeroed
    | some s => s
  let base := InformationObject_getFromBuffer self.toInformationObject parameters msg startIndex
  let self := { self with toInformationObject := base }
  let startIndex := startIndex + parameters.sizeOfIOA
  let vti : Nat := readByte msg startIndex
  let startIndex := startIndex + 1
  { self with vti := vti, quality := readByte msg startIndex }

/-! ## Arithmetic of the C type `float`

A C `float` is an IEEE 754 binary32 value, modelled by the rational it denotes (finite
values; NaN and the infinities are not represented). The result of an arithmetic operation
on `float` operands is the exact result rounded to binary32, to the nearest value, a tie
going to the value with the even significand (the default rounding mode; the operations are
evaluated in binary32). -/

/-- Rounding of a rational to the nearest integer, a tie going to the even one. -/
def roundHalfEven (q : ℚ) : Int :=
  if q - (⌊q⌋ : ℚ) < 1 / 2 then ⌊q⌋
  else if 1 / 2 < q - (⌊q⌋ : ℚ) then ⌊q⌋ + 1
  else if ⌊q⌋ % 2 = 0 then ⌊q⌋ else ⌊q⌋ + 1

/-- The spacing of the binary32 values at `q`: `2 ^ (e - 23)` where `2 ^ e ≤ |q| < 2 ^ (e + 1)`
(24-bit significand), and `2 ^ -149` below `2 ^ -126` (subnormal values). -/
def f32Quantum (q : ℚ) : ℚ := 2 ^ (max (Int.log 2 |q|) (-126) - 23)

/-- Rounding of a rational to binary32: the nearest multiple of the spacing, a tie going to
the even multiple. A magnitude of `2 ^ 128` or more (an infinity in C) is outside the
model. -/
def f32 (q : ℚ) : ℚ := (roundHalfEven (q / f32Quantum q) : ℚ) * f32Quantum q

/-- The rationals that are finite binary32 values: the values a C `float` can hold. -/
def isBinary32 (q : ℚ) : Prop := f32 q = q ∧ |q| < 2 ^ 128

instance (q : ℚ) : Decidable (isBinary32 q) :=
  inferInstanceAs (Decidable (f32 q = q ∧ |q| < 2 ^ 128))

/-- The product `a * b` of two C `float` values. -/
def floatMul (a b : ℚ) : ℚ := f32 (a * b)

/-- The quotient `a / b` of two C `float` values. -/
def floatDiv (a b : ℚ) : ℚ := f32 (a / b)

/-- The conversion `(float) n` of a C `int`. -/
def intToFloat (n : Int) : ℚ := f32 (n : ℚ)

/-- The conversion `(int) f` of a C `float`: truncation toward zero. The conversion is
undefined in C when the truncated value is not an `int`; the model then still truncates. -/
def floatToInt (f : ℚ) : Int := Int.tdiv f.num (f.den : Int)

/-! ## MeasuredValueNormalized -/

/-- Embeds `struct sMeasuredValueNormalized`. -/
structure MeasuredValueNormalized extends InformationObject where
  encodedValue : Nat × Nat
  quality : Nat
  deriving DecidableEq, Repr

/-- Zero-filled storage (`GLOBAL_CALLOC`); also stands for the storage `GLOBAL_MALLOC`
returns, every field of which is assigned before it is read. -/
def MeasuredValueNormalized.zeroed : MeasuredValueNormalized :=
  { toInformationObject := InformationObject.zeroed, encodedValue := (0, 0), quality := 0 }

/-- Embeds `static void MeasuredValueNormalized_encode(self, frame, parameters)`. -/
def MeasuredValueNormalized_encode (self : MeasuredValueNormalized) (frame : Frame)
    (parameters : ConnectionParameters) : Frame :=
  let frame := InformationObject_encodeBase self.toInformationObject frame parameters
  let frame := Frame_setNextByte frame self.encodedValue.1
  let frame := Frame_setNextByte frame self.encodedValue.2
  Frame_setNextByte frame (self.quality % 256)

/-- Embeds `static void MeasuredValueNormalized_initialize(self)`. -/
def MeasuredValueNormalized_initialize (self : MeasuredValueNormalized) :
    MeasuredValueNormalized :=
  { self with
    virtualFunctionTable := InformationObjectVFT.measuredValueNormalizedVFT
    type := TypeID.M_ME_NA_1 }

/-- Embeds `MeasuredValueNormalized_getValue`:
`(float) (getScaledValue(self->encodedValue)) / 32767.f`. -/
def MeasuredValueNormalized_getValue (self : MeasuredValueNormalized) : ℚ :=
  let nv : ℚ := floatDiv (intToFloat (getScaledValue self.encodedValue)) 32767
  nv

/-- Embeds `MeasuredValueNormalized_setValue(self, value)`; `value` is a `float`, and the
stored integer is `(int)(value * 32767.f)`. -/
def MeasuredValueNormalized_setValue (self : MeasuredValueNormalized) (value : ℚ) :
    MeasuredValueNormalized :=
  let value : ℚ := if value > 1 then 1 else if value < -1 then -1 else value
  let scaledValue : Int := floatToInt (floatMul value 32767)
  { self with encodedValue := setScaledValue scaledValue }

/-- Embeds `MeasuredValueNormalized_create(self, ioa, value, quality)`. -/
def MeasuredValueNormalized_create (self : Option MeasuredValueNormalized) (ioa : Int)
    (value : ℚ) (quality : Nat) : MeasuredValueNormalized :=
  let self := match self with
    | none => MeasuredValueNormalized.zeroed
    | some s => s
  let self := MeasuredValueNormalized_initialize self
  let self := { self with objectAddress := ioa }
  let self := MeasuredValueNormalized_setValue self value
  { self with quality := quality }

/-- Embeds `MeasuredValueNormalized_getQuality`. -/
def MeasuredValueNormalized_getQuality (self : MeasuredValueNormalized) : Nat := self.quality

/-- Embeds `MeasuredValueNormalized_getFromBuffer(self, parameters, msg, msgSize, startIndex)`;
`msgSize` is not consulted (`//TODO check message size`). -/
def MeasuredValueNormalized_getFromBuffer (self : Option MeasuredValueNormalized)
    (parameters : ConnectionParameters) (msg : List Nat) (msgSize : Int) (startIndex : Int) :
    MeasuredValueNormalized :=
  let self := match self with
    | none => MeasuredValueNormalized_initialize MeasuredValueNormalized.zeroed
    | some s => s
  let base := InformationObject_getFromBuffer self.toInformationObject parameters msg startIndex
  let self := { self with toInformationObject := base }
  let startIndex := startIndex + parameters.sizeOfIOA
  let b0 : Nat := readByte msg startIndex
  let startIndex := startIndex + 1
  let b1 : Nat := readByte msg startIndex
  let startIndex := startIndex + 1
  { self with encodedValue := (b0, b1), quality := readByte msg startIndex }

/-! ## MeasuredValueScaled -/

/-- Embeds `struct sMeasuredValueScaled`. -/
structure MeasuredValueScaled extends InformationObject where
  encodedValue : Nat × Nat
  quality : Nat
  deriving DecidableEq, Repr

/-- Zero-filled storage (`GLOBAL_CALLOC`); also stands for the storage `GLOBAL_MALLOC`
returns, every field of which is assigned before it is read. -/
def MeasuredValueScaled.zeroed : MeasuredValueScaled :=
  { toInformationObject := InformationObject.zeroed, encodedValue := (0, 0), quality := 0 }

/-- The pointer cast `(MeasuredValueNormalized) self`: both structs have the same layout. -/
def MeasuredValueScaled.asNormalized (self : MeasuredValueScaled) : MeasuredValueNormalized :=
  { toInformationObject := self.toInformationObject
    encodedValue := self.encodedValue
    quality := self.quality }

/-- Embeds `static void MeasuredValueScaled_encode(self, frame, parameters)`. -/
def MeasuredValueScaled_encode (self : MeasuredValueScaled) (frame : Frame)
    (parameters : ConnectionParameters) : Frame :=
  MeasuredValueNormalized_encode self.asNormalized frame parameters

/-- Embeds `static void MeasuredValueScaled_initialize(self)`. -/
def MeasuredValueScaled_initialize (self : MeasuredValueScaled) : MeasuredValueScaled :=
  { self with
    virtualFunctionTable := InformationObjectVFT.measuredValueScaledVFT
    type := TypeID.M_ME_NB_1 }

/-- Embeds `MeasuredValueScaled_create(self, ioa, value, quality)`. -/
def MeasuredValueScaled_create (self : Option MeasuredValueScaled) (ioa : Int)
    (value : Int) (quality : Nat) : MeasuredValueScaled :=
  let self := match self with
    | none => MeasuredValueScaled.zeroed
    | some s => s
  let self := MeasuredValueScaled_initialize self
  { self with objectAddress := ioa, encodedValue := setScaledValue value, quality := quality }

/-- Embeds `MeasuredValueScaled_getValue`. -/
def MeasuredValueScaled_getValue (self : MeasuredValueScaled) : Int :=
  getScaledValue self.encodedValue

/-- Embeds `MeasuredValueScaled_setValue(self, value)` (`//TODO check boundaries`). -/
def MeasuredValueScaled_setValue (self : MeasuredValueScaled) (value : Int) :
    MeasuredValueScaled :=
  { self with encodedValue := setScaledValue value }

/-- Embeds `MeasuredValueScaled_getQuality`. -/
def MeasuredValueScaled_getQuality (self : MeasuredValueScaled) : Nat := self.quality

/-- Embeds `MeasuredValueScaled_setQuality(self, quality)`. -/
def MeasuredValueScaled_setQuality (self : MeasuredValueScaled) (quality : Nat) :
    MeasuredValueScaled :=
  { self with quality := quality }

/-- Embeds `MeasuredValueScaled_getFromBuffer(self, parameters, msg, msgSize, startIndex)`;
`msgSize` is not consulted (`//TODO check message size`). -/
def MeasuredValueScaled_getFromBuffer (self : Option MeasuredValueScaled)
    (parameters : ConnectionParameters) (msg : List Nat) (msgSize : Int) (startIndex : Int) :
    MeasuredValueScaled :=
  let self := match self with
    | none => MeasuredValueScaled_initialize MeasuredValueScaled.zeroed
    | some s => s
  let base := InformationObject_getFromBuffer self.toInformationObject parameters msg startIndex
  let self := { self with toInformationObject := base }
  let startIndex := startIndex + parameters.sizeOfIOA
  let b0 : Nat := readByte msg startIndex
  let startIndex := startIndex + 1
  let b1 : Nat := readByte msg startIndex
  let startIndex := startIndex + 1
  { self with encodedValue := (b0, b1), quality := readByte msg startIndex }

/-! ## SingleCommand -/

/-- Embeds `struct sSingleCommand`. -/
structure SingleCommand extends InformationObject where
  sco : Nat
  deriving DecidableEq, Repr

/-- Stands for the storage `GLOBAL_MALLOC` returns, every field of which is assigned
before it is read. -/
def SingleCommand.zeroed : SingleCommand :=
  { toInformationObject := InformationObject.zeroed, sco := 0 }

/-- Embeds `static void SingleCommand_encode(self, frame, parameters)`. -/
def SingleCommand_encode (self : SingleCommand) (frame : Frame)
    (parameters : ConnectionParameters) : Frame :=
  let frame := InformationObject_encodeBase self.toInformationObject frame parameters
  Frame_setNextByte frame self.sco

/-- Embeds `static void SingleCommand_initialize(self)`. -/
def SingleCommand_initialize (self : SingleCommand) : SingleCommand :=
  { self with
    virtualFunctionTable := InformationObjectVFT.singleCommandVFT
    type := TypeID.C_SC_NA_1 }

/-- Embeds `SingleCommand_create(self, ioa, command, selectCommand, qu)`; supplied storage is
not re-initialised. -/
def SingleCommand_create (self : Option SingleCommand) (ioa : Int) (command : Bool)
    (selectCommand : Bool) (qu : Int) : SingleCommand :=
  let self := match self with
    | none => SingleCommand_initialize SingleCommand.zeroed
    | some s => s
  let sco : Nat := toU8 ((Int.land qu 0x1f) * 4)
  let sco : Nat := if command then (sco ||| 0x01) % 256 else sco
  let sco : Nat := if selectCommand then (sco ||| 0x80) % 256 else sco
  { self with objectAddress := ioa, sco := sco }

/-- Embeds `SingleCommand_getQU`. -/
def SingleCommand_getQU (self : SingleCommand) : Int :=
  Int.tdiv ((self.sco &&& 0x7c : Nat) : Int) 4

/-- Embeds `SingleCommand_getState`. -/
def SingleCommand_getState (self : SingleCommand) : Bool := (self.sco &&& 0x01) == 0x01

/-- Embeds `SingleCommand_isSelect`. -/
def SingleCommand_isSelect (self : SingleCommand) : Bool := (self.sco &&& 0x80) == 0x80

/-! ## DoublePointInformation -/

/-- The enumerator `IEC60870_DOUBLE_POINT_INTERMEDIATE` of `DoublePointValue`. -/
def IEC60870_DOUBLE_POINT_INTERMEDIATE : Nat := 0

/-- The enumerator `IEC60870_DOUBLE_POINT_OFF` of `DoublePointValue`. -/
def IEC60870_DOUBLE_POINT_OFF : Nat := 1

/-- The enumerator `IEC60870_DOUBLE_POINT_ON` of `DoublePointValue`. -/
def IEC60870_DOUBLE_POINT_ON : Nat := 2

/-- The enumerator `IEC60870_DOUBLE_POINT_INDETERMINATE` of `DoublePointValue`. -/
def IEC60870_DOUBLE_POINT_INDETERMINATE : Nat := 3

/-- Embeds `struct sDoublePointInformation`; the enum `DoublePointValue` is its integer
value. -/
structure DoublePointInformation extends InformationObject where
  value : Nat
  quality : Nat
  deriving DecidableEq, Repr

/-- Zero-filled storage (`GLOBAL_CALLOC`); also stands for the storage `GLOBAL_MALLOC`
returns, every field of which is assigned before it is read. -/
def DoublePointInformation.zeroed : DoublePointInformation :=
  { toInformationObject := InformationObject.zeroed, value := 0, quality := 0 }

/-- Embeds `static void DoublePointInformation_encode(self, frame, parameters)`. -/
def DoublePointInformation_encode (self : DoublePointInformation) (frame : Frame)
    (parameters : ConnectionParameters) : Frame :=
  let frame := InformationObject_encodeBase self.toInformationObject frame parameters
  let val : Nat := self.quality % 256
  let val : Nat := (val + self.value) % 256
  Frame_setNextByte frame val

/-- Embeds `static void DoublePointInformation_initialize(self)`. -/
def DoublePointInformation_initialize (self : DoublePointInformation) :
    DoublePointInformation :=
  { self with
    virtualFunctionTable := InformationObjectVFT.doublePointInformationVFT
    type := TypeID.M_DP_NA_1 }

/-- Embeds `DoublePointInformation_create(self, ioa, value, quality)`. -/
def DoublePointInformation_create (self : Option DoublePointInformation) (ioa : Int)
    (value : Nat) (quality : Nat) : DoublePointInformation :=
  let self := match self with
    | none => DoublePointInformation.zeroed
    | some s => s
  let self := DoublePointInformation_initialize self
  { self with objectAddress := ioa, value := value, quality := quality }

/-- Embeds `DoublePointInformation_getValue`. -/
def DoublePointInformation_getValue (self : DoublePointInformation) : Nat := self.value

/-- Embeds `DoublePointInformation_getQuality`. -/
def DoublePointInformation_getQuality (self : DoublePointInformation) : Nat := self.quality

/-- Embeds `DoublePointInformation_getFromBuffer(self, parameters, msg, msgSize, startIndex)`;
`msgSize` is not consulted (`//TODO check message size`). The value is the C truth value
(0 or 1) of `(siq & 0x01) == 0x03`, converted to `DoublePointValue`. -/
def DoublePointInformation_getFromBuffer (self : Option DoublePointInformation)
    (parameters : ConnectionParameters) (msg : List Nat) (msgSize : Int) (startIndex : Int) :
    DoublePointInformation :=
  let self := match self with
    | none => DoublePointInformation_initialize DoublePointInformation.zeroed
    | some s => s
  let base := InformationObject_getFromBuffer self.toInformationObject parameters msg startIndex
  let self := { self with toInformationObject := base }
  let startIndex := startIndex + parameters.sizeOfIOA
  let siq : Nat := readByte msg startIndex
  { self with
    value := (if (siq &&& 0x01) == 0x03 then 1 else 0)
    quality := (siq &&& 0xf0) % 256 }

/-! ## DoubleCommand -/

/-- Embeds `struct sDoubleCommand`. -/
structure DoubleCommand extends InformationObject where
  dcq : Nat
  deriving DecidableEq, Repr

/-- Stands for the storage `GLOBAL_MALLOC` returns, every field of which is assigned
before it is read. -/
def DoubleCommand.zeroed : DoubleCommand :=
  { toInformationObject := InformationObject.zeroed, dcq := 0 }

/-- Embeds `static void DoubleCommand_encode(self, frame, parameters)`. -/
def DoubleCommand_encode (self : DoubleCommand) (frame : Frame)
    (parameters : ConnectionParameters) : Frame :=
  let frame := InformationObject_encodeBase self.toInformationObject frame parameters
  Frame_setNextByte frame self.dcq

/-- Embeds `static void DoubleCommand_initialize(self)`. -/
def DoubleCommand_initialize (self : DoubleCommand) : DoubleCommand :=
  { self with
    virtualFunctionTable := InformationObjectVFT.doubleCommandVFT
    type := TypeID.C_DC_NA_1 }

/-- Embeds `DoubleCommand_create(self, ioa, command, selectCommand, qu)`; supplied storage
is not re-initialised. -/
def DoubleCommand_create (self : Option DoubleCommand) (ioa : Int) (command : Int)
    (selectCommand : Bool) (qu : Int) : DoubleCommand :=
  let self := match self with
    | none => DoubleCommand_initialize DoubleCommand.zeroed
    | some s => s
  let dcq : Nat := toU8 ((Int.land qu 0x1f) * 4)
  let dcq : Nat := (dcq + toU8 (Int.land command 0x03)) % 256
  let dcq : Nat := if selectCommand then (dcq ||| 0x80) % 256 else dcq
  { self with objectAddress := ioa, dcq := dcq }

/-- Embeds `DoubleCommand_getQU`. -/
def DoubleCommand_getQU (self : DoubleCommand) : Int :=
  Int.tdiv ((self.dcq &&& 0x7c : Nat) : Int) 4

/-- Embeds `DoubleCommand_getState`. -/
def DoubleCommand_getState (self : DoubleCommand) : Int := ((self.dcq &&& 0x03 : Nat) : Int)

/-- Embeds `DoubleCommand_isSelect`. -/
def DoubleCommand_isSelect (self : DoubleCommand) : Bool := (self.dcq &&& 0x80) == 0x80

/-- Embeds `DoubleCommand_getFromBuffer(self, parameters, msg, msgSize, startIndex)`;
`none` is the `NULL` returned when the length check fails. -/
def DoubleCommand_getFromBuffer (self : Option DoubleCommand)
    (parameters : ConnectionParameters) (msg : List Nat) (msgSize : Int) (startIndex : Int) :
    Option DoubleCommand :=
  if (msgSize - startIndex) < (parameters.sizeOfIOA + 1) then none
  else
    let self := match self with
      | none => DoubleCommand_initialize DoubleCommand.zeroed
      | some s => s
    let base :=
      InformationObject_getFromBuffer self.toInformationObject parameters msg startIndex
    let self := { self with toInformationObject := base }
    let startIndex := startIndex + parameters.sizeOfIOA
    some { self with dcq := readByte msg startIndex }

/-! ## StepCommand -/

/-- Embeds `struct sStepCommand`. -/
structure StepCommand extends InformationObject where
  dcq : Nat
  deriving DecidableEq, Repr

/-- Stands for the storage `GLOBAL_MALLOC` returns, every field of which is assigned
before it is read. -/
def StepCommand.zeroed : StepCommand :=
  { toInformationObject := InformationObject.zeroed, dcq := 0 }

/-- Embeds `static void StepCommand_encode(self, frame, parameters)`. -/
def StepCommand_encode (self : StepCommand) (frame : Frame)
    (parameters : ConnectionParameters) : Frame :=
  let frame := InformationObject_encodeBase self.toInformationObject frame parameters
  Frame_setNextByte frame self.dcq

/-- Embeds `static void StepCommand_initialize(self)`. -/
def StepCommand_initialize (self : StepCommand) : StepCommand :=
  { self with
    virtualFunctionTable := InformationObjectVFT.stepCommandVFT
    type := TypeID.C_RC_NA_1 }

/-- Embeds `StepCommand_create(self, ioa, command, selectCommand, qu)`; supplied storage is
not re-initialised. -/
def StepCommand_create (self : Option StepCommand) (ioa : Int) (command : Int)
    (selectCommand : Bool) (qu : Int) : StepCommand :=
  let self := match self with
    | none => StepCommand_initialize StepCommand.zeroed
    | some s => s
  let dcq : Nat := toU8 ((Int.land qu 0x1f) * 4)
  let dcq : Nat := (dcq + toU8 (Int.land command 0x03)) % 256
  let dcq : Nat := if selectCommand then (dcq ||| 0x80) % 256 else dcq
  { self with objectAddress := ioa, dcq := dcq }

/-- Embeds `StepCommand_getQU`. -/
def StepCommand_getQU (self : StepCommand) : Int :=
  Int.tdiv ((self.dcq &&& 0x7c : Nat) : Int) 4

/-- Embeds `StepCommand_getState`. -/
def StepCommand_getState (self : StepCommand) : Int := ((self.dcq &&& 0x03 : Nat) : Int)

/-- Embeds `StepCommand_isSelect`. -/
def StepCommand_isSelect (self : StepCommand) : Bool := (self.dcq &&& 0x80) == 0x80

/-- Embeds `StepCommand_getFromBuffer(self, parameters, msg, msgSize, startIndex)`; `none`
is the `NULL` returned when the length check fails. -/
def StepCommand_getFromBuffer (self : Option StepCommand)
    (parameters : ConnectionParameters) (msg : List Nat) (msgSize : Int) (startIndex : Int) :
    Option StepCommand :=
  if (msgSize - startIndex) < (parameters.sizeOfIOA + 1) then none
  else
    let self := match self with
      | none => StepCommand_initialize StepCommand.zeroed
      | some s => s
    let base :=
      InformationObject_getFromBuffer self.toInformationObject parameters msg startIndex
    let self := { self with toInformationObject := base }
    let startIndex := startIndex + parameters.sizeOfIOA
    some { self with dcq := readByte msg startIndex }

/-! ## BitString32 and its time-tagged variants -/

/-- The conversion of a `uint32_t` to `int` in `int value = self->value;`: the value is
kept when it is below `2^31` and wraps to the negative two's complement value otherwise
(what the supported compilers do for this implementation-defined conversion). -/
def toInt32 (x : Nat) : Int :=
  if x % 2 ^ 32 < 2 ^ 31 then ((x % 2 ^ 32 : Nat) : Int) else ((x % 2 ^ 32 : Nat) : Int) - 2 ^ 32

/-- Modelled from the spec: `Frame_appendBytes` (`frame.h`, not part of the sources at
hand), the `writeBytes` of the append-only output cursor: the first `numberOfBytes` bytes
are appended after the bytes already written. -/
def Frame_appendBytes (frame : Frame) (bytes : List Nat) (numberOfBytes : Nat) : Frame :=
  frame ++ bytes.take numberOfBytes

/-- Modelled from the spec: `struct sCP24Time2a` (`iec60870_common.h`, not part of the
sources at hand), the already-encoded 3-byte short time tag, read by the code as
`timestamp.encodedValue`. -/
structure CP24Time2a where
  encodedValue : List Nat
  deriving DecidableEq, Repr

/-- Modelled from the spec: `struct sCP56Time2a` (`iec60870_common.h`, not part of the
sources at hand), the already-encoded 7-byte long time tag, read by the code as
`timestamp.encodedValue`. -/
structure CP56Time2a where
  encodedValue : List Nat
  deriving DecidableEq, Repr

/-- Embeds `struct sBitString32`; `value` is a `uint32_t`. -/
structure BitString32 extends InformationObject where
  value : Nat
  quality : Nat
  deriving DecidableEq, Repr

/-- Zero-filled storage (`GLOBAL_CALLOC`). -/
def BitString32.zeroed : BitString32 :=
  { toInformationObject := InformationObject.zeroed, value := 0, quality := 0 }

/-- Embeds `static void BitString32_encode(self, frame, parameters)`. -/
def BitString32_encode (self : BitString32) (frame : Frame)
    (parameters : ConnectionParameters) : Frame :=
  let frame := InformationObject_encodeBase self.toInformationObject frame parameters
  let value : Int := toInt32 self.value
  let frame := Frame_setNextByte frame (toU8 (Int.tmod value 0x100))
  let frame := Frame_setNextByte frame (toU8 (Int.tmod (Int.tdiv value 0x100) 0x100))
  let frame := Frame_setNextByte frame (toU8 (Int.tmod (Int.tdiv value 0x10000) 0x100))
  let frame := Frame_setNextByte frame (toU8 (Int.tdiv value 0x1000000))
  Frame_setNextByte frame (self.quality % 256)

/-- Embeds `static void BitString32_initialize(self)`. -/
def BitString32_initialize (self : BitString32) : BitString32 :=
  { self with
    virtualFunctionTable := InformationObjectVFT.bitString32VFT
    type := TypeID.M_BO_NA_1 }

/-- Embeds `BitString32_create(self, ioa, value)`; the quality field is not assigned. -/
def BitString32_create (self : Option BitString32) (ioa : Int) (value : Nat) : BitString32 :=
  let self := match self with
    | none => BitString32.zeroed
    | some s => s
  let self := BitString32_initialize self
  { self with objectAddress := ioa, value := value }

/-- Embeds `BitString32_getValue`. -/
def BitString32_getValue (self : BitString32) : Nat := self.value

/-- Embeds `BitString32_getQuality`. -/
def BitString32_getQuality (self : BitString32) : Nat := self.quality

/-- Embeds `BitString32_getFromBuffer(self, parameters, msg, msgSize, startIndex)`;
`msgSize` is not consulted (`//TODO check message size`). The four value bytes are summed
into the local `uint32_t value`, which is not stored into `self`; `mallocContent` is the
indeterminate content of the storage `GLOBAL_MALLOC` returns when `self` is `NULL`. -/
def BitString32_getFromBuffer (self : Option BitString32)
    (parameters : ConnectionParameters) (msg : List Nat) (msgSize : Int) (startIndex : Int)
    (mallocContent : BitString32) : BitString32 :=
  let self := match self with
    | none => BitString32_initialize mallocContent
    | some s => s
  let base := InformationObject_getFromBuffer self.toInformationObject parameters msg startIndex
  let self := { self with toInformationObject := base }
  let startIndex := startIndex + parameters.sizeOfIOA
  let value : Nat := readByte msg startIndex
  let startIndex := startIndex + 1
  let value : Nat := (value + (readByte msg startIndex * 0x100) % 2 ^ 32) % 2 ^ 32
  let startIndex := startIndex + 1
  let value : Nat := (value + (readByte msg startIndex * 0x10000) % 2 ^ 32) % 2 ^ 32
  let startIndex := startIndex + 1
  let value : Nat := (value + (readByte msg startIndex * 0x1000000) % 2 ^ 32) % 2 ^ 32
  let startIndex := startIndex + 1
  { self with quality := readByte msg startIndex }

/-- Embeds `struct sBitstring32WithCP24Time2a`. -/
structure Bitstring32WithCP24Time2a extends InformationObject where
  value : Nat
  quality : Nat
  timestamp : CP24Time2a
  deriving DecidableEq, Repr

/-- Zero-filled storage (`GLOBAL_CALLOC`). -/
def Bitstring32WithCP24Time2a.zeroed : Bitstring32WithCP24Time2a :=
  { toInformationObject := InformationObject.zeroed, value := 0, quality := 0,
    timestamp := ⟨[0, 0, 0]⟩ }

/-- Embeds `static void Bitstring32WithCP24Time2a_encode(self, frame, parameters)`. -/
def Bitstring32WithCP24Time2a_encode (self : Bitstring32WithCP24Time2a) (frame : Frame)
    (parameters : ConnectionParameters) : Frame :=
  let frame := InformationObject_encodeBase self.toInformationObject frame parameters
  let value : Int := toInt32 self.value
  let frame := Frame_setNextByte frame (toU8 (Int.tmod value 0x100))
  let frame := Frame_setNextByte frame (toU8 (Int.tmod (Int.tdiv value 0x100) 0x100))
  let frame := Frame_setNextByte frame (toU8 (Int.tmod (Int.tdiv value 0x10000) 0x100))
  let frame := Frame_setNextByte frame (toU8 (Int.tdiv value 0x1000000))
  let frame := Frame_setNextByte frame (self.quality % 256)
  Frame_appendBytes frame self.timestamp.encodedValue 3

/-- Embeds `static void Bitstring32WithCP24Time2a_initialize(self)`. -/
def Bitstring32WithCP24Time2a_initialize (self : Bitstring32WithCP24Time2a) :
    Bitstring32WithCP24Time2a :=
  { self with
    virtualFunctionTable := InformationObjectVFT.bitstring32WithCP24Time2aVFT
    type := TypeID.M_BO_TA_1 }

/-- Embeds `Bitstring32WithCP24Time2a_create(self, ioa, value, timestamp)`; the quality
field is not assigned. -/
def Bitstring32WithCP24Time2a_create (self : Option Bitstring32WithCP24Time2a) (ioa : Int)
    (value : Nat) (timestamp : CP24Time2a) : Bitstring32WithCP24Time2a :=
  let self := match self with
    | none => Bitstring32WithCP24Time2a.zeroed
    | some s => s
  let self := Bitstring32WithCP24Time2a_initialize self
  { self with objectAddress := ioa, value := value, timestamp := timestamp }

/-- Embeds `struct sBitstring32WithCP56Time2a`. -/
structure Bitstring32WithCP56Time2a extends InformationObject where
  value : Nat
  quality : Nat
  timestamp : CP56Time2a
  deriving DecidableEq, Repr

/-- Zero-filled storage (`GLOBAL_CALLOC`). -/
def Bitstring32WithCP56Time2a.zeroed : Bitstring32WithCP56Time2a :=
  { toInformationObject := InformationObject.zeroed, value := 0, quality := 0,
    timestamp := ⟨[0, 0, 0, 0, 0, 0, 0]⟩ }

/-- Embeds `static void Bitstring32WithCP56Time2a_encode(self, frame, parameters)`. -/
def Bitstring32WithCP56Time2a_encode (self : Bitstring32WithCP56Time2a) (frame : Frame)
    (parameters : ConnectionParameters) : Frame :=
  let frame := InformationObject_encodeBase self.toInformationObject frame parameters
  let value : Int := toInt32 self.value
  let frame := Frame_setNextByte frame (toU8 (Int.tmod value 0x100))
  let frame := Frame_setNextByte frame (toU8 (Int.tmod (Int.tdiv value 0x100) 0x100))
  let frame := Frame_setNextByte frame (toU8 (Int.tmod (Int.tdiv value 0x10000) 0x100))
  let frame := Frame_setNextByte frame (toU8 (Int.tdiv value 0x1000000))
  let frame := Frame_setNextByte frame (self.quality % 256)
  Frame_appendBytes frame self.timestamp.encodedValue 7

/-- Embeds `static void Bitstring32WithCP56Time2a_initialize(self)`. -/
def Bitstring32WithCP56Time2a_initialize (self : Bitstring32WithCP56Time2a) :
    Bitstring32WithCP56Time2a :=
  { self with
    virtualFunctionTable := InformationObjectVFT.bitstring32WithCP56Time2aVFT
    type := TypeID.M_BO_TB_1 }

/-- Embeds `Bitstring32WithCP56Time2a_create(self, ioa, value, timestamp)`; the quality
field is not assigned. -/
def Bitstring32WithCP56Time2a_create (self : Option Bitstring32WithCP56Time2a) (ioa : Int)
    (value : Nat) (timestamp : CP56Time2a) : Bitstring32WithCP56Time2a :=
  let self := match self with
    | none => Bitstring32WithCP56Time2a.zeroed
    | some s => s
  let self := Bitstring32WithCP56Time2a_initialize self
  { self with objectAddress := ioa, value := value, timestamp := timestamp }

/-! ## IntegratedTotals -/

/-- Modelled from the spec: `struct sBinaryCounterReading` (`iec60870_common.h`, not part
of the sources at hand), the "5-byte packed integrated-totals value", read by the code as
`totals.encodedValue`. -/
structure BinaryCounterReading where
  encodedValue : List Nat
  deriving DecidableEq, Repr

/-- Embeds `struct sIntegratedTotals`. -/
structure IntegratedTotals extends InformationObject where
  totals : BinaryCounterReading
  deriving DecidableEq, Repr

/-- Zero-filled storage (`GLOBAL_CALLOC`); also stands for the storage `GLOBAL_MALLOC`
returns, every field of which is assigned before it is read. -/
def IntegratedTotals.zeroed : IntegratedTotals :=
  { toInformationObject := InformationObject.zeroed, totals := ⟨[0, 0, 0, 0, 0]⟩ }

/-- Embeds `static void IntegratedTotals_encode(self, frame, parameters)`. -/
def IntegratedTotals_encode (self : IntegratedTotals) (frame : Frame)
    (parameters : ConnectionParameters) : Frame :=
  let frame := InformationObject_encodeBase self.toInformationObject frame parameters
  Frame_appendBytes frame self.totals.encodedValue 5

/-- Embeds `static void IntegratedTotals_initialize(self)`. -/
def IntegratedTotals_initialize (self : IntegratedTotals) : IntegratedTotals :=
  { self with
    virtualFunctionTable := InformationObjectVFT.integratedTotalsVFT
    type := TypeID.M_IT_NA_1 }

/-- Embeds `IntegratedTotals_create(self, ioa, value)`. -/
def IntegratedTotals_create (self : Option IntegratedTotals) (ioa : Int)
    (value : BinaryCounterReading) : IntegratedTotals :=
  let self := match self with
    | none => IntegratedTotals.zeroed
    | some s => s
  let self := IntegratedTotals_initialize self
  { self with objectAddress := ioa, totals := value }

/-- Embeds `IntegratedTotals_getBCR`. -/
def IntegratedTotals_getBCR (self : IntegratedTotals) : BinaryCounterReading := self.totals

/-- Embeds `IntegratedTotals_setBCR(self, value)`: the loop `for (i = 0; i < 5; i++)`. -/
def IntegratedTotals_setBCR (self : IntegratedTotals) (value : BinaryCounterReading) :
    IntegratedTotals :=
  { self with
    totals := ⟨(List.range 5).map (fun (i : Nat) => value.encodedValue.getD i 0)⟩ }

/-- Embeds `IntegratedTotals_getFromBuffer(self, parameters, msg, msgSize, startIndex)`;
`msgSize` is not consulted (`//TODO check message size`). The loop
`for (i = 0; i < 5; i++)` copies `msg [startIndex++]`. -/
def IntegratedTotals_getFromBuffer (self : Option IntegratedTotals)
    (parameters : ConnectionParameters) (msg : List Nat) (msgSize : Int) (startIndex : Int) :
    IntegratedTotals :=
  let self := match self with
    | none => IntegratedTotals_initialize IntegratedTotals.zeroed
    | some s => s
  let base := InformationObject_getFromBuffer self.toInformationObject parameters msg startIndex
  let self := { self with toInformationObject := base }
  let startIndex := startIndex + parameters.sizeOfIOA
  { self with
    totals := ⟨(List.range 5).map (fun (i : Nat) => readByte msg (startIndex + (i : Int)))⟩ }

/-! ## Normalized value, in the words of the specification

"Normalized value: `encode = clamp(value,-1,1) * 32767` truncated to int, then
scaled-value codec; `decode = scaledInt / 32767.0`." -/

/-- The specification's `clamp(value, lo, hi)`. -/
def clampSpec (value lo hi : ℚ) : ℚ := max lo (min value hi)

/-- The specification's truncation to an integer, toward zero: the floor of a non-negative
value and the ceiling of a negative one. -/
def truncSpec (q : ℚ) : Int := if 0 ≤ q then Int.floor q else Int.ceil q

/-- The specification's normalized encoder: clamp, scale by 32767, truncate, then the
scaled-value codec. -/
def encodeNormalizedSpec (value : ℚ) : Nat × Nat :=
  setScaledValue (truncSpec (clampSpec value (-1) 1 * 32767))

/-- The specification's normalized decoder: the scaled integer divided by 32767. -/
def decodeNormalizedSpec (encodedValue : Nat × Nat) : ℚ :=
  ((getScaledValue encodedValue : Int) : ℚ) / 32767

/-- The normalized encoder with the product taken in binary32: clamp, scale by 32767 and
round the product to binary32, truncate, then the scaled-value codec. -/
def encodeNormalizedRoundedSpec (value : ℚ) : Nat × Nat :=
  setScaledValue (truncSpec (f32 (clampSpec value (-1) 1 * 32767)))

/-- The normalized decoder with the quotient taken in binary32: the scaled integer divided
by 32767, rounded to binary32. -/
def decodeNormalizedRoundedSpec (encodedValue : Nat × Nat) : ℚ :=
  f32 (((getScaledValue encodedValue : Int) : ℚ) / 32767)

/-! ## Time tag codec (declared outside `information_objects.c`) -/

/-- Modelled from the spec: `CP24Time2a_getFromBuffer` (`iec60870_common.h`, not part of
the sources at hand), the `decodeShort(bytes) -> timestamp` of the time-tag codec, taken as
the codec that copies its 3 bytes from the offset it is given. -/
def CP24Time2a_getFromBuffer (self : CP24Time2a) (msg : List Nat) (msgSize : Int)
    (startIndex : Int) : CP24Time2a :=
  ⟨(List.range 3).map (fun (i : Nat) => readByte msg (startIndex + (i : Int)))⟩

/-- Modelled from the spec: `CP56Time2a_getFromBuffer` (`iec60870_common.h`, not part of
the sources at hand), the `decodeLong(bytes) -> timestamp` of the time-tag codec, taken as
the codec that copies its 7 bytes from the offset it is given. -/
def CP56Time2a_getFromBuffer (self : CP56Time2a) (msg : List Nat) (msgSize : Int)
    (startIndex : Int) : CP56Time2a :=
  ⟨(List.range 7).map (fun (i : Nat) => readByte msg (startIndex + (i : Int)))⟩

/-! ## SingleCommand decoder and SingleCommandWithCP56Time2a -/

/-- Embeds `SingleCommand_getFromBuffer(self, parameters, msg, msgSize, startIndex)`; `none` is
the `NULL` returned when the length check fails. -/
def SingleCommand_getFromBuffer (self : Option SingleCommand)
    (parameters : ConnectionParameters) (msg : List Nat) (msgSize : Int) (startIndex : Int) :
    Option SingleCommand :=
  if (msgSize - startIndex) < (parameters.sizeOfIOA + 1) then none
  else
    let self := match self with
      | none => SingleCommand_initialize SingleCommand.zeroed
      | some s => s
    let base :=
      InformationObject_getFromBuffer self.toInformationObject parameters msg startIndex
    let self := { self with toInformationObject := base }
    let startIndex := startIndex + parameters.sizeOfIOA
    some { self with sco := readByte msg startIndex }

/-- Embeds `struct sSingleCommandWithCP56Time2a`. -/
structure SingleCommandWithCP56Time2a extends InformationObject where
  sco : Nat
  timestamp : CP56Time2a
  deriving DecidableEq, Repr

/-- Stands for the storage `GLOBAL_MALLOC` returns, every field of which is assigned
before it is read. -/
def SingleCommandWithCP56Time2a.zeroed : SingleCommandWithCP56Time2a :=
  { toInformationObject := InformationObject.zeroed, sco := 0,
    timestamp := ⟨[0, 0, 0, 0, 0, 0, 0]⟩ }

/-- Embeds `static void SingleCommandWithCP56Time2a_initialize(self)`. -/
def SingleCommandWithCP56Time2a_initialize (self : SingleCommandWithCP56Time2a) :
    SingleCommandWithCP56Time2a :=
  { self with
    virtualFunctionTable := InformationObjectVFT.singleCommandWithCP56Time2aVFT
    type := TypeID.C_SC_TA_1 }

/-- Embeds `SingleCommandWithCP56Time2a_getFromBuffer(self, parameters, msg, msgSize,
startIndex)`; `none` is the `NULL` returned when the length check fails. The time tag is
read with `startIndex` as it stands after the address was skipped. -/
def SingleCommandWithCP56Time2a_getFromBuffer (self : Option SingleCommandWithCP56Time2a)
    (parameters : ConnectionParameters) (msg : List Nat) (msgSize : Int) (startIndex : Int) :
    Option SingleCommandWithCP56Time2a :=
  if (msgSize - startIndex) < (parameters.sizeOfIOA + 1) then none
  else
    let self := match self with
      | none => SingleCommandWithCP56Time2a_initialize SingleCommandWithCP56Time2a.zeroed
      | some s => s
    let base :=
      InformationObject_getFromBuffer self.toInformationObject parameters msg startIndex
    let self := { self with toInformationObject := base }
    let startIndex := startIndex + parameters.sizeOfIOA
    let self := { self with sco := readByte msg startIndex }
    some { self with
      timestamp := CP56Time2a_getFromBuffer self.timestamp msg msgSize startIndex }

/-! ## SetpointCommandNormalized -/

/-- Embeds `struct sSetpointCommandNormalized`. -/
structure SetpointCommandNormalized extends InformationObject where
  encodedValue : Nat × Nat
  qos : Nat
  deriving DecidableEq, Repr

/-- Stands for the storage `GLOBAL_MALLOC` returns, every field of which is assigned
before it is read. -/
def SetpointCommandNormalized.zeroed : SetpointCommandNormalized :=
  { toInformationObject := InformationObject.zeroed, encodedValue := (0, 0), qos := 0 }

/-- Embeds `static void SetpointCommandNormalized_encode(self, frame, parameters)`. -/
def SetpointCommandNormalized_encode (self : SetpointCommandNormalized) (frame : Frame)
    (parameters : ConnectionParameters) : Frame :=
  let frame := InformationObject_encodeBase self.toInformationObject frame parameters
  let frame := Frame_appendBytes frame [self.encodedValue.1, self.encodedValue.2] 2
  Frame_setNextByte frame self.qos

/-- Embeds `static void SetpointCommandNormalized_initialize(self)`. -/
def SetpointCommandNormalized_initialize (self : SetpointCommandNormalized) :
    SetpointCommandNormalized :=
  { self with
    virtualFunctionTable := InformationObjectVFT.setpointCommandNormalizedVFT
    type := TypeID.C_SE_NA_1 }

/-- Embeds `SetpointCommandNormalized_create(self, ioa, value, selectCommand, ql)`; the
value is scaled without a range guard and `ql` is narrowed to `uint8_t` without a mask;
supplied storage is not re-initialised. -/
def SetpointCommandNormalized_create (self : Option SetpointCommandNormalized) (ioa : Int)
    (value : ℚ) (selectCommand : Bool) (ql : Int) : SetpointCommandNormalized :=
  let self := match self with
    | none => SetpointCommandNormalized_initialize SetpointCommandNormalized.zeroed
    | some s => s
  let scaledValue : Int := floatToInt (floatMul value 32767)
  let qos : Nat := toU8 ql
  let qos : Nat := if selectCommand then (qos ||| 0x80) % 256 else qos
  { self with objectAddress := ioa, encodedValue := setScaledValue scaledValue, qos := qos }

/-- Embeds `SetpointCommandNormalized_getValue`:
`(float) (getScaledValue(self->encodedValue)) / 32767.f`. -/
def SetpointCommandNormalized_getValue (self : SetpointCommandNormalized) : ℚ :=
  let nv : ℚ := floatDiv (intToFloat (getScaledValue self.encodedValue)) 32767
  nv

/-- Embeds `SetPointCommandNormalized_getQL`. -/
def SetPointCommandNormalized_getQL (self : SetpointCommandNormalized) : Int :=
  ((self.qos &&& 0x7f : Nat) : Int)

/-- Embeds `SetpointCommandNormalized_isSelect`. -/
def SetpointCommandNormalized_isSelect (self : SetpointCommandNormalized) : Bool :=
  (self.qos &&& 0x80) == 0x80

/-- Embeds `SetpointCommandNormalized_getFromBuffer(self, parameters, msg, msgSize, startIndex)`; `none` is
the `NULL` returned when the length check fails. -/
def SetpointCommandNormalized_getFromBuffer (self : Option SetpointCommandNormalized)
    (parameters : ConnectionParameters) (msg : List Nat) (msgSize : Int) (startIndex : Int) :
    Option SetpointCommandNormalized :=
  if (msgSize - startIndex) < (parameters.sizeOfIOA + 3) then none
  else
    let self := match self with
      | none => SetpointCommandNormalized_initialize SetpointCommandNormalized.zeroed
      | some s => s
    let base :=
      InformationObject_getFromBuffer self.toInformationObject parameters msg startIndex
    let self := { self with toInformationObject := base }
    let startIndex := startIndex + parameters.sizeOfIOA
    let b0 : Nat := readByte msg startIndex
    let startIndex := startIndex + 1
    let b1 : Nat := readByte msg startIndex
    let startIndex := startIndex + 1
    some { self with encodedValue := (b0, b1), qos := readByte msg startIndex }

/-! ## SetpointCommandScaled -/

/-- Embeds `struct sSetpointCommandScaled`. -/
structure SetpointCommandScaled extends InformationObject where
  encodedValue : Nat × Nat
  qos : Nat
  deriving DecidableEq, Repr

/-- Stands for the storage `GLOBAL_MALLOC` returns, every field of which is assigned
before it is read. -/
def SetpointCommandScaled.zeroed : SetpointCommandScaled :=
  { toInformationObject := InformationObject.zeroed, encodedValue := (0, 0), qos := 0 }

/-- Embeds `static void SetpointCommandScaled_encode(self, frame, parameters)`. -/
def SetpointCommandScaled_encode (self : SetpointCommandScaled) (frame : Frame)
    (parameters : ConnectionParameters) : Frame :=
  let frame := InformationObject_encodeBase self.toInformationObject frame parameters
  let frame := Frame_appendBytes frame [self.encodedValue.1, self.encodedValue.2] 2
  Frame_setNextByte frame self.qos

/-- Embeds `static void SetpointCommandScaled_initialize(self)`. -/
def SetpointCommandScaled_initialize (self : SetpointCommandScaled) :
    SetpointCommandScaled :=
  { self with
    virtualFunctionTable := InformationObjectVFT.setpointCommandScaledVFT
    type := TypeID.C_SE_NB_1 }

/-- Embeds `SetpointCommandScaled_create(self, ioa, value, selectCommand, ql)`: the
parameter is declared `float value` and the stored integer is `(int)(value * 32767.f)`,
as in the normalized variant; `ql` is narrowed to `uint8_t` without a mask; supplied
storage is not re-initialised. -/
def SetpointCommandScaled_create (self : Option SetpointCommandScaled) (ioa : Int)
    (value : ℚ) (selectCommand : Bool) (ql : Int) : SetpointCommandScaled :=
  let self := match self with
    | none => SetpointCommandScaled_initialize SetpointCommandScaled.zeroed
    | some s => s
  let scaledValue : Int := floatToInt (floatMul value 32767)
  let qos : Nat := toU8 ql
  let qos : Nat := if selectCommand then (qos ||| 0x80) % 256 else qos
  { self with objectAddress := ioa, encodedValue := setScaledValue scaledValue, qos := qos }

/-- Embeds `SetpointCommandScaled_getValue`. -/
def SetpointCommandScaled_getValue (self : SetpointCommandScaled) : Int :=
  getScaledValue self.encodedValue

/-- Embeds `SetpointCommandScaled_getQL`. -/
def SetpointCommandScaled_getQL (self : SetpointCommandScaled) : Int :=
  ((self.qos &&& 0x7f : Nat) : Int)

/-- Embeds `SetpointCommandScaled_isSelect`. -/
def SetpointCommandScaled_isSelect (self : SetpointCommandScaled) : Bool :=
  (self.qos &&& 0x80) == 0x80

/-- Embeds `SetpointCommandScaled_getFromBuffer(self, parameters, msg, msgSize, startIndex)`; `none` is
the `NULL` returned when the length check fails. -/
def SetpointCommandScaled_getFromBuffer (self : Option SetpointCommandScaled)
    (parameters : ConnectionParameters) (msg : List Nat) (msgSize : Int) (startIndex : Int) :
    Option SetpointCommandScaled :=
  if (msgSize - startIndex) < (parameters.sizeOfIOA + 3) then none
  else
    let self := match self with
      | none => SetpointCommandScaled_initialize SetpointCommandScaled.zeroed
      | some s => s
    let base :=
      InformationObject_getFromBuffer self.toInformationObject parameters msg startIndex
    let self := { self with toInformationObject := base }
    let startIndex := startIndex + parameters.sizeOfIOA
    let b0 : Nat := readByte msg startIndex
    let startIndex := startIndex + 1
    let b1 : Nat := readByte msg startIndex
    let startIndex := startIndex + 1
    some { self with encodedValue := (b0, b1), qos := readByte msg startIndex }

/-! ## SetpointCommandShort

The `float value` of this variant is only stored and copied byte by byte. It is modelled
by its 32-bit pattern (a `Nat` below `2^32`); both `ORDER_LITTLE_ENDIAN` branches write and
read that pattern least significant byte first. -/

/-- The four bytes of a 32-bit pattern in wire order, least significant first: what
`Frame_appendBytes(frame, valueBytes, 4)` writes on a little-endian host and what the four
`Frame_setNextByte(frame, valueBytes[3..0])` calls write on a big-endian one. -/
def valueBytes (bits : Nat) : List Nat :=
  [bits % 0x100, bits / 0x100 % 0x100, bits / 0x10000 % 0x100, bits / 0x1000000 % 0x100]

/-- The 32-bit pattern assembled from four wire bytes, least significant first: what the
assignments `valueBytes[0..3] = msg [startIndex++]` (little-endian host) or
`valueBytes[3..0] = msg [startIndex++]` (big-endian host) store. -/
def valueOfBytes (b0 b1 b2 b3 : Nat) : Nat :=
  b0 % 0x100 + b1 % 0x100 * 0x100 + b2 % 0x100 * 0x10000 + b3 % 0x100 * 0x1000000

/-- Embeds `struct sSetpointCommandShort`. -/
structure SetpointCommandShort extends InformationObject where
  value : Nat
  qos : Nat
  deriving DecidableEq, Repr

/-- Stands for the storage `GLOBAL_MALLOC` returns, every field of which is assigned
before it is read. -/
def SetpointCommandShort.zeroed : SetpointCommandShort :=
  { toInformationObject := InformationObject.zeroed, value := 0, qos := 0 }

/-- Embeds `static void SetpointCommandShort_encode(self, frame, parameters)`. -/
def SetpointCommandShort_encode (self : SetpointCommandShort) (frame : Frame)
    (parameters : ConnectionParameters) : Frame :=
  let frame := InformationObject_encodeBase self.toInformationObject frame parameters
  let frame := Frame_appendBytes frame (valueBytes self.value) 4
  Frame_setNextByte frame self.qos

/-- Embeds `static void SetpointCommandShort_initialize(self)`. -/
def SetpointCommandShort_initialize (self : SetpointCommandShort) : SetpointCommandShort :=
  { self with
    virtualFunctionTable := InformationObjectVFT.setpointCommandShortVFT
    type := TypeID.C_SE_NC_1 }

/-- Embeds `SetpointCommandShort_create(self, ioa, value, selectCommand, ql)`; supplied
storage is not re-initialised. -/
def SetpointCommandShort_create (self : Option SetpointCommandShort) (ioa : Int)
    (value : Nat) (selectCommand : Bool) (ql : Int) : SetpointCommandShort :=
  let self := match self with
    | none => SetpointCommandShort_initialize SetpointCommandShort.zeroed
    | some s => s
  let qos : Nat := toU8 (Int.land ql 0x7f)
  let qos : Nat := if selectCommand then (qos ||| 0x80) % 256 else qos
  { self with objectAddress := ioa, value := value, qos := qos }

/-- Embeds `SetpointCommandShort_getValue`. -/
def SetpointCommandShort_getValue (self : SetpointCommandShort) : Nat := self.value

/-- Embeds `SetpointCommandShort_getQL`. -/
def SetpointCommandShort_getQL (self : SetpointCommandShort) : Int :=
  ((self.qos &&& 0x7f : Nat) : Int)

/-- Embeds `SetpointCommandShort_isSelect`. -/
def SetpointCommandShort_isSelect (self : SetpointCommandShort) : Bool :=
  (self.qos &&& 0x80) == 0x80

/-- Embeds `SetpointCommandShort_getFromBuffer(self, parameters, msg, msgSize, startIndex)`; `none` is
the `NULL` returned when the length check fails. -/
def SetpointCommandShort_getFromBuffer (self : Option SetpointCommandShort)
    (parameters : ConnectionParameters) (msg : List Nat) (msgSize : Int) (startIndex : Int) :
    Option SetpointCommandShort :=
  if (msgSize - startIndex) < (parameters.sizeOfIOA + 5) then none
  else
    let self := match self with
      | none => SetpointCommandShort_initialize SetpointCommandShort.zeroed
      | some s => s
    let base :=
      InformationObject_getFromBuffer self.toInformationObject parameters msg startIndex
    let self := { self with toInformationObject := base }
    let startIndex := startIndex + parameters.sizeOfIOA
    let b0 : Nat := readByte msg startIndex
    let startIndex := startIndex + 1
    let b1 : Nat := readByte msg startIndex
    let startIndex := startIndex + 1
    let b2 : Nat := readByte msg startIndex
    let startIndex := startIndex + 1
    let b3 : Nat := readByte msg startIndex
    let startIndex := startIndex + 1
    some { self with value := valueOfBytes b0 b1 b2 b3, qos := readByte msg startIndex }

/-! ## Bitstring32Command -/

/-- Embeds `struct sBitstring32Command`; `value` is a `uint32_t`, whose bytes are written
and read least significant first under both `ORDER_LITTLE_ENDIAN` branches. -/
structure Bitstring32Command extends InformationObject where
  value : Nat
  deriving DecidableEq, Repr

/-- Stands for the storage `GLOBAL_MALLOC` returns, every field of which is assigned
before it is read. -/
def Bitstring32Command.zeroed : Bitstring32Command :=
  { toInformationObject := InformationObject.zeroed, value := 0 }

/-- Embeds `static void Bitstring32Command_encode(self, frame, parameters)`. -/
def Bitstring32Command_encode (self : Bitstring32Command) (frame : Frame)
    (parameters : ConnectionParameters) : Frame :=
  let frame := InformationObject_encodeBase self.toInformationObject frame parameters
  Frame_appendBytes frame (valueBytes self.value) 4

/-- Embeds `static void Bitstring32Command_initialize(self)`. -/
def Bitstring32Command_initialize (self : Bitstring32Command) : Bitstring32Command :=
  { self with
    virtualFunctionTable := InformationObjectVFT.bitstring32CommandVFT
    type := TypeID.C_BO_NA_1 }

/-- Embeds `Bitstring32Command_create(self, ioa, value)`; supplied storage is not
re-initialised. -/
def Bitstring32Command_create (self : Option Bitstring32Command) (ioa : Int) (value : Nat) :
    Bitstring32Command :=
  let self := match self with
    | none => Bitstring32Command_initialize Bitstring32Command.zeroed
    | some s => s
  { self with objectAddress := ioa, value := value }

/-- Embeds `Bitstring32Command_getValue`. -/
def Bitstring32Command_getValue (self : Bitstring32Command) : Nat := self.value

/-- Embeds `Bitstring32Command_getFromBuffer(self, parameters, msg, msgSize, startIndex)`; `none` is
the `NULL` returned when the length check fails. -/
def Bitstring32Command_getFromBuffer (self : Option Bitstring32Command)
    (parameters : ConnectionParameters) (msg : List Nat) (msgSize : Int) (startIndex : Int) :
    Option Bitstring32Command :=
  if (msgSize - startIndex) < (parameters.sizeOfIOA + 4) then none
  else
    let self := match self with
      | none => Bitstring32Command_initialize Bitstring32Command.zeroed
      | some s => s
    let base :=
      InformationObject_getFromBuffer self.toInformationObject parameters msg startIndex
    let self := { self with toInformationObject := base }
    let startIndex := startIndex + parameters.sizeOfIOA
    let b0 : Nat := readByte msg startIndex
    let startIndex := startIndex + 1
    let b1 : Nat := readByte msg startIndex
    let startIndex := startIndex + 1
    let b2 : Nat := readByte msg startIndex
    let startIndex := startIndex + 1
    let b3 : Nat := readByte msg startIndex
    some { self with value := valueOfBytes b0 b1 b2 b3 }

/-! ## ReadCommand -/

/-- Embeds `struct sReadCommand`. -/
structure ReadCommand extends InformationObject where
  deriving DecidableEq, Repr

/-- Stands for the storage `GLOBAL_MALLOC` returns, every field of which is assigned
before it is read. -/
def ReadCommand.zeroed : ReadCommand :=
  { toInformationObject := InformationObject.zeroed }

/-- Embeds `static void ReadCommand_encode(self, frame, parameters)`. -/
def ReadCommand_encode (self : ReadCommand) (frame : Frame)
    (parameters : ConnectionParameters) : Frame :=
  InformationObject_encodeBase self.toInformationObject frame parameters

/-- Embeds `static void ReadCommand_initialize(self)`. -/
def ReadCommand_initialize (self : ReadCommand) : ReadCommand :=
  { self with
    virtualFunctionTable := InformationObjectVFT.readCommandVFT
    type := TypeID.C_RD_NA_1 }

/-- Embeds `ReadCommand_create(self, ioa)`; supplied storage is not re-initialised. -/
def ReadCommand_create (self : Option ReadCommand) (ioa : Int) : ReadCommand :=
  let self := match self with
    | none => ReadCommand_initialize ReadCommand.zeroed
    | some s => s
  { self with objectAddress := ioa }

/-- Embeds `ReadCommand_getFromBuffer(self, parameters, msg, msgSize, startIndex)`; `none` is
the `NULL` returned when the length check fails. -/
def ReadCommand_getFromBuffer (self : Option ReadCommand)
    (parameters : ConnectionParameters) (msg : List Nat) (msgSize : Int) (startIndex : Int) :
    Option ReadCommand :=
  if (msgSize - startIndex) < (parameters.sizeOfIOA) then none
  else
    let self := match self with
      | none => ReadCommand_initialize ReadCommand.zeroed
      | some s => s
    let base :=
      InformationObject_getFromBuffer self.toInformationObject parameters msg startIndex
    let self := { self with toInformationObject := base }
    some self

/-! ## ClockSynchronizationCommand -/

/-- Embeds `struct sClockSynchronizationCommand`. -/
structure ClockSynchronizationCommand extends InformationObject where
  timestamp : CP56Time2a
  deriving DecidableEq, Repr

/-- Stands for the storage `GLOBAL_MALLOC` returns to the decoder, every field of which is
assigned before it is read. -/
def ClockSynchronizationCommand.zeroed : ClockSynchronizationCommand :=
  { toInformationObject := InformationObject.zeroed, timestamp := ⟨[0, 0, 0, 0, 0, 0, 0]⟩ }

/-- Embeds `static void ClockSynchronizationCommand_encode(self, frame, parameters)`. -/
def ClockSynchronizationCommand_encode (self : ClockSynchronizationCommand) (frame : Frame)
    (parameters : ConnectionParameters) : Frame :=
  let frame := InformationObject_encodeBase self.toInformationObject frame parameters
  Frame_appendBytes frame self.timestamp.encodedValue 7

/-- Embeds `static void ClockSynchronizationCommand_initialize(self)`. -/
def ClockSynchronizationCommand_initialize (self : ClockSynchronizationCommand) :
    ClockSynchronizationCommand :=
  { self with
    virtualFunctionTable := InformationObjectVFT.clockSynchronizationCommandVFT
    type := TypeID.C_CS_NA_1 }

/-- Embeds `ClockSynchronizationCommand_getTime`. -/
def ClockSynchronizationCommand_getTime (self : ClockSynchronizationCommand) : CP56Time2a :=
  self.timestamp

/-- Embeds `ClockSynchronizationCommand_getFromBuffer(self, parameters, msg, msgSize, startIndex)`; `none` is
the `NULL` returned when the length check fails. -/
def ClockSynchronizationCommand_getFromBuffer (self : Option ClockSynchronizationCommand)
    (parameters : ConnectionParameters) (msg : List Nat) (msgSize : Int) (startIndex : Int) :
    Option ClockSynchronizationCommand :=
  if (msgSize - startIndex) < (parameters.sizeOfIOA + 7) then none
  else
    let self := match self with
      | none => ClockSynchronizationCommand_initialize ClockSynchronizationCommand.zeroed
      | some s => s
    let base :=
      InformationObject_getFromBuffer self.toInformationObject parameters msg startIndex
    let self := { self with toInformationObject := base }
    let startIndex := startIndex + parameters.sizeOfIOA
    some { self with
      timestamp := CP56Time2a_getFromBuffer self.timestamp msg msgSize startIndex }

/-! ## InterrogationCommand -/

/-- Embeds `struct sInterrogationCommand`. -/
structure InterrogationCommand extends InformationObject where
  qoi : Nat
  deriving DecidableEq, Repr

/-- Stands for the storage `GLOBAL_MALLOC` returns, every field of which is assigned
before it is read. -/
def InterrogationCommand.zeroed : InterrogationCommand :=
  { toInformationObject := InformationObject.zeroed, qoi := 0 }

/-- Embeds `static void InterrogationCommand_encode(self, frame, parameters)`. -/
def InterrogationCommand_encode (self : InterrogationCommand) (frame : Frame)
    (parameters : ConnectionParameters) : Frame :=
  let frame := InformationObject_encodeBase self.toInformationObject frame parameters
  Frame_setNextByte frame self.qoi

/-- Embeds `static void InterrogationCommand_initialize(self)`. -/
def InterrogationCommand_initialize (self : InterrogationCommand) : InterrogationCommand :=
  { self with
    virtualFunctionTable := InformationObjectVFT.interrogationCommandVFT
    type := TypeID.C_IC_NA_1 }

/-- Embeds `InterrogationCommand_create(self, ioa, qoi)`; supplied storage is not
re-initialised. -/
def InterrogationCommand_create (self : Option InterrogationCommand) (ioa : Int)
    (qoi : Nat) : InterrogationCommand :=
  let self := match self with
    | none => InterrogationCommand_initialize InterrogationCommand.zeroed
    | some s => s
  { self with objectAddress := ioa, qoi := qoi }

/-- Embeds `InterrogationCommand_getQOI`. -/
def InterrogationCommand_getQOI (self : InterrogationCommand) : Nat := self.qoi

/-- Embeds `InterrogationCommand_getFromBuffer(self, parameters, msg, msgSize, startIndex)`; `none` is
the `NULL` returned when the length check fails. -/
def InterrogationCommand_getFromBuffer (self : Option InterrogationCommand)
    (parameters : ConnectionParameters) (msg : List Nat) (msgSize : Int) (startIndex : Int) :
    Option InterrogationCommand :=
  if (msgSize - startIndex) < (parameters.sizeOfIOA + 1) then none
  else
    let self := match self with
      | none => InterrogationCommand_initialize InterrogationCommand.zeroed
      | some s => s
    let base :=
      InformationObject_getFromBuffer self.toInformationObject parameters msg startIndex
    let self := { self with toInformationObject := base }
    let startIndex := startIndex + parameters.sizeOfIOA
    some { self with qoi := readByte msg startIndex }

/-! ## SinglePointWithCP24Time2a -/

/-- Embeds `struct sSinglePointWithCP24Time2a`. -/
structure SinglePointWithCP24Time2a extends InformationObject where
  value : Bool
  quality : Nat
  timestamp : CP24Time2a
  deriving DecidableEq, Repr

/-- Zero-filled storage (`GLOBAL_CALLOC`). -/
def SinglePointWithCP24Time2a.zeroed : SinglePointWithCP24Time2a :=
  { toInformationObject := InformationObject.zeroed, value := false, quality := 0,
    timestamp := ⟨[0, 0, 0]⟩ }

/-- Embeds `static void SinglePointWithCP24Time2a_encode(self, frame, parameters)`. -/
def SinglePointWithCP24Time2a_encode (self : SinglePointWithCP24Time2a) (frame : Frame)
    (parameters : ConnectionParameters) : Frame :=
  let frame := InformationObject_encodeBase self.toInformationObject frame parameters
  let val : Nat := self.quality % 256
  let val : Nat := if self.value then (val + 1) % 256 else val
  let frame := Frame_setNextByte frame val
  Frame_appendBytes frame self.timestamp.encodedValue 3

/-- Embeds `static void SinglePointWithCP24Time2a_initialize(self)`. -/
def SinglePointWithCP24Time2a_initialize (self : SinglePointWithCP24Time2a) :
    SinglePointWithCP24Time2a :=
  { self with
    virtualFunctionTable := InformationObjectVFT.singlePointWithCP24Time2aVFT
    type := TypeID.M_SP_TA_1 }

/-- Embeds `SinglePointWithCP24Time2a_create(self, ioa, value, quality, timestamp)`. -/
def SinglePointWithCP24Time2a_create (self : Option SinglePointWithCP24Time2a) (ioa : Int)
    (value : Bool) (quality : Nat) (timestamp : CP24Time2a) : SinglePointWithCP24Time2a :=
  let self := match self with
    | none => SinglePointWithCP24Time2a.zeroed
    | some s => s
  let self := SinglePointWithCP24Time2a_initialize self
  { self with objectAddress := ioa, value := value, quality := quality,
              timestamp := timestamp }

/-- Embeds `SinglePointWithCP24Time2a_getTimestamp`. -/
def SinglePointWithCP24Time2a_getTimestamp (self : SinglePointWithCP24Time2a) : CP24Time2a :=
  self.timestamp

/-! ## StepPositionWithCP56Time2a -/

/-- Embeds `struct sStepPositionWithCP56Time2a`. -/
structure StepPositionWithCP56Time2a extends InformationObject where
  vti : Nat
  quality : Nat
  timestamp : CP56Time2a
  deriving DecidableEq, Repr

/-- Zero-filled storage (`GLOBAL_CALLOC`). -/
def StepPositionWithCP56Time2a.zeroed : StepPositionWithCP56Time2a :=
  { toInformationObject := InformationObject.zeroed, vti := 0, quality := 0,
    timestamp := ⟨[0, 0, 0, 0, 0, 0, 0]⟩ }

/-- Embeds `static void StepPositionWithCP56Time2a_encode(self, frame, parameters)`. -/
def StepPositionWithCP56Time2a_encode (self : StepPositionWithCP56Time2a) (frame : Frame)
    (parameters : ConnectionParameters) : Frame :=
  let frame := InformationObject_encodeBase self.toInformationObject frame parameters
  let frame := Frame_setNextByte frame self.vti
  let frame := Frame_setNextByte frame (self.quality % 256)
  Frame_appendBytes frame self.timestamp.encodedValue 7

/-- Embeds `static void StepPositionWithCP56Time2a_initialize(self)`. -/
def StepPositionWithCP56Time2a_initialize (self : StepPositionWithCP56Time2a) :
    StepPositionWithCP56Time2a :=
  { self with
    virtualFunctionTable := InformationObjectVFT.stepPositionWithCP56Time2aVFT
    type := TypeID.M_ST_TB_1 }

/-- Embeds `StepPositionWithCP56Time2a_create(self, ioa, value, isTransient, quality,
timestamp)`. -/
def StepPositionWithCP56Time2a_create (self : Option StepPositionWithCP56Time2a) (ioa : Int)
    (value : Int) (isTransient : Bool) (quality : Nat) (timestamp : CP56Time2a) :
    StepPositionWithCP56Time2a :=
  let self := match self with
    | none => StepPositionWithCP56Time2a.zeroed
    | some s => s
  let self := StepPositionWithCP56Time2a_initialize self
  let value : Int := if value > 63 then 63 else if value < -64 then -64 else value
  let value : Int := if value < 0 then value + 128 else value
  let vti : Nat := toU8 value
  let vti : Nat := if isTransient then (vti ||| 0x80) % 256 else vti
  { self with objectAddress := ioa, vti := vti, quality := quality, timestamp := timestamp }

/-- Embeds `StepPositionWithCP56Time2a_getTimestamp`. -/
def StepPositionWithCP56Time2a_getTimestamp (self : StepPositionWithCP56Time2a) :
    CP56Time2a :=
  self.timestamp

/-! ## MeasuredValueNormalizedWithCP24Time2a -/

/-- Embeds `struct sMeasuredValueNormalizedWithCP24Time2a`. -/
structure MeasuredValueNormalizedWithCP24Time2a extends InformationObject where
  encodedValue : Nat × Nat
  quality : Nat
  timestamp : CP24Time2a
  deriving DecidableEq, Repr

/-- Zero-filled storage (`GLOBAL_CALLOC`); also stands for the storage `GLOBAL_MALLOC`
returns, every field of which is assigned before it is read. -/
def MeasuredValueNormalizedWithCP24Time2a.zeroed : MeasuredValueNormalizedWithCP24Time2a :=
  { toInformationObject := InformationObject.zeroed, encodedValue := (0, 0), quality := 0,
    timestamp := ⟨[0, 0, 0]⟩ }

/-- The pointer cast `(MeasuredValueNormalized) self`: the struct starts with the fields of
`struct sMeasuredValueNormalized`. -/
def MeasuredValueNormalizedWithCP24Time2a.asNormalized (self : MeasuredValueNormalizedWithCP24Time2a) :
    MeasuredValueNormalized :=
  { toInformationObject := self.toInformationObject
    encodedValue := self.encodedValue
    quality := self.quality }

/-- Embeds `static void MeasuredValueNormalizedWithCP24Time2a_encode(self, frame, parameters)`. -/
def MeasuredValueNormalizedWithCP24Time2a_encode (self : MeasuredValueNormalizedWithCP24Time2a)
    (frame : Frame) (parameters : ConnectionParameters) : Frame :=
  let frame := MeasuredValueNormalized_encode self.asNormalized frame parameters
  Frame_appendBytes frame self.timestamp.encodedValue 3

/-- Embeds `static void MeasuredValueNormalizedWithCP24Time2a_initialize(self)`. -/
def MeasuredValueNormalizedWithCP24Time2a_initialize (self : MeasuredValueNormalizedWithCP24Time2a) :
    MeasuredValueNormalizedWithCP24Time2a :=
  { self with
    virtualFunctionTable := InformationObjectVFT.measuredValueNormalizedWithCP24Time2aVFT
    type := TypeID.M_ME_TA_1 }

/-- Embeds `MeasuredValueNormalizedWithCP24Time2a_create(self, ioa, value, quality, timestamp)`, the value being stored by
`MeasuredValueNormalized_setValue` through the cast pointer. -/
def MeasuredValueNormalizedWithCP24Time2a_create (self : Option MeasuredValueNormalizedWithCP24Time2a)
    (ioa : Int) (value : ℚ) (quality : Nat) (timestamp : CP24Time2a) :
    MeasuredValueNormalizedWithCP24Time2a :=
  let self := match self with
    | none => MeasuredValueNormalizedWithCP24Time2a.zeroed
    | some s => s
  let self := MeasuredValueNormalizedWithCP24Time2a_initialize self
  let self := { self with objectAddress := ioa }
  let self := { self with encodedValue := (MeasuredValueNormalized_setValue self.asNormalized value).encodedValue }
  { self with quality := quality, timestamp := timestamp }

/-- Embeds `MeasuredValueNormalizedWithCP24Time2a_getTimestamp`. -/
def MeasuredValueNormalizedWithCP24Time2a_getTimestamp (self : MeasuredValueNormalizedWithCP24Time2a) :
    CP24Time2a :=
  self.timestamp

/-- Embeds `MeasuredValueNormalizedWithCP24Time2a_getFromBuffer(self, parameters, msg, msgSize,
startIndex)`; `msgSize` is not consulted by the decoder itself
(`//TODO check message size`). -/
def MeasuredValueNormalizedWithCP24Time2a_getFromBuffer (self : Option MeasuredValueNormalizedWithCP24Time2a)
    (parameters : ConnectionParameters) (msg : List Nat) (msgSize : Int) (startIndex : Int) :
    MeasuredValueNormalizedWithCP24Time2a :=
  let self := match self with
    | none => MeasuredValueNormalizedWithCP24Time2a_initialize MeasuredValueNormalizedWithCP24Time2a.zeroed
    | some s => s
  let base := InformationObject_getFromBuffer self.toInformationObject parameters msg startIndex
  let self := { self with toInformationObject := base }
  let startIndex := startIndex + parameters.sizeOfIOA
  let b0 : Nat := readByte msg startIndex
  let startIndex := startIndex + 1
  let b1 : Nat := readByte msg startIndex
  let startIndex := startIndex + 1
  let self := { self with encodedValue := (b0, b1), quality := readByte msg startIndex }
  let startIndex := startIndex + 1
  { self with timestamp := CP24Time2a_getFromBuffer self.timestamp msg msgSize startIndex }

/-! ## MeasuredValueNormalizedWithCP56Time2a -/

/-- Embeds `struct sMeasuredValueNormalizedWithCP56Time2a`. -/
structure MeasuredValueNormalizedWithCP56Time2a extends InformationObject where
  encodedValue : Nat × Nat
  quality : Nat
  timestamp : CP56Time2a
  deriving DecidableEq, Repr

/-- Zero-filled storage (`GLOBAL_CALLOC`); also stands for the storage `GLOBAL_MALLOC`
returns, every field of which is assigned before it is read. -/
def MeasuredValueNormalizedWithCP56Time2a.zeroed : MeasuredValueNormalizedWithCP56Time2a :=
  { toInformationObject := InformationObject.zeroed, encodedValue := (0, 0), quality := 0,
    timestamp := ⟨[0, 0, 0, 0, 0, 0, 0]⟩ }

/-- The pointer cast `(MeasuredValueNormalized) self`: the struct starts with the fields of
`struct sMeasuredValueNormalized`. -/
def MeasuredValueNormalizedWithCP56Time2a.asNormalized (self : MeasuredValueNormalizedWithCP56Time2a) :
    MeasuredValueNormalized :=
  { toInformationObject := self.toInformationObject
    encodedValue := self.encodedValue
    quality := self.quality }

/-- Embeds `static void MeasuredValueNormalizedWithCP56Time2a_encode(self, frame, parameters)`. -/
def MeasuredValueNormalizedWithCP56Time2a_encode (self : MeasuredValueNormalizedWithCP56Time2a)
    (frame : Frame) (parameters : ConnectionParameters) : Frame :=
  let frame := MeasuredValueNormalized_encode self.asNormalized frame parameters
  Frame_appendBytes frame self.timestamp.encodedValue 7

/-- Embeds `static void MeasuredValueNormalizedWithCP56Time2a_initialize(self)`. -/
def MeasuredValueNormalizedWithCP56Time2a_initialize (self : MeasuredValueNormalizedWithCP56Time2a) :
    MeasuredValueNormalizedWithCP56Time2a :=
  { self with
    virtualFunctionTable := InformationObjectVFT.measuredValueNormalizedWithCP56Time2aVFT
    type := TypeID.M_ME_TD_1 }

/-- Embeds `MeasuredValueNormalizedWithCP56Time2a_create(self, ioa, value, quality, timestamp)`, the value being stored by
`MeasuredValueNormalized_setValue` through the cast pointer. -/
def MeasuredValueNormalizedWithCP56Time2a_create (self : Option MeasuredValueNormalizedWithCP56Time2a)
    (ioa : Int) (value : ℚ) (quality : Nat) (timestamp : CP56Time2a) :
    MeasuredValueNormalizedWithCP56Time2a :=
  let self := match self with
    | none => MeasuredValueNormalizedWithCP56Time2a.zeroed
    | some s => s
  let self := MeasuredValueNormalizedWithCP56Time2a_initialize self
  let self := { self with objectAddress := ioa }
  let self := { self with encodedValue := (MeasuredValueNormalized_setValue self.asNormalized value).encodedValue }
  { self with quality := quality, timestamp := timestamp }

/-- Embeds `MeasuredValueNormalizedWithCP56Time2a_getTimestamp`. -/
def MeasuredValueNormalizedWithCP56Time2a_getTimestamp (self : MeasuredValueNormalizedWithCP56Time2a) :
    CP56Time2a :=
  self.timestamp

/-- Embeds `MeasuredValueNormalizedWithCP56Time2a_getFromBuffer(self, parameters, msg, msgSize,
startIndex)`; `msgSize` is not consulted by the decoder itself
(`//TODO check message size`). -/
def MeasuredValueNormalizedWithCP56Time2a_getFromBuffer (self : Option MeasuredValueNormalizedWithCP56Time2a)
    (parameters : ConnectionParameters) (msg : List Nat) (msgSize : Int) (startIndex : Int) :
    MeasuredValueNormalizedWithCP56Time2a :=
  let self := match self with
    | none => MeasuredValueNormalizedWithCP56Time2a_initialize MeasuredValueNormalizedWithCP56Time2a.zeroed
    | some s => s
  let base := InformationObject_getFromBuffer self.toInformationObject parameters msg startIndex
  let self := { self with toInformationObject := base }
  let startIndex := startIndex + parameters.sizeOfIOA
  let b0 : Nat := readByte msg startIndex
  let startIndex := startIndex + 1
  let b1 : Nat := readByte msg startIndex
  let startIndex := startIndex + 1
  let self := { self with encodedValue := (b0, b1), quality := readByte msg startIndex }
  let startIndex := startIndex + 1
  { self with timestamp := CP56Time2a_getFromBuffer self.timestamp msg msgSize startIndex }

/-! ## MeasuredValueScaledWithCP24Time2a -/

/-- Embeds `struct sMeasuredValueScaledWithCP24Time2a`. -/
structure MeasuredValueScaledWithCP24Time2a extends InformationObject where
  encodedValue : Nat × Nat
  quality : Nat
  timestamp : CP24Time2a
  deriving DecidableEq, Repr

/-- Zero-filled storage (`GLOBAL_CALLOC`); also stands for the storage `GLOBAL_MALLOC`
returns, every field of which is assigned before it is read. -/
def MeasuredValueScaledWithCP24Time2a.zeroed : MeasuredValueScaledWithCP24Time2a :=
  { toInformationObject := InformationObject.zeroed, encodedValue := (0, 0), quality := 0,
    timestamp := ⟨[0, 0, 0]⟩ }

/-- The pointer cast `(MeasuredValueNormalized) self`: the struct starts with the fields of
`struct sMeasuredValueNormalized`. -/
def MeasuredValueScaledWithCP24Time2a.asNormalized (self : MeasuredValueScaledWithCP24Time2a) :
    MeasuredValueNormalized :=
  { toInformationObject := self.toInformationObject
    encodedValue := self.encodedValue
    quality := self.quality }

/-- Embeds `static void MeasuredValueScaledWithCP24Time2a_encode(self, frame, parameters)`. -/
def MeasuredValueScaledWithCP24Time2a_encode (self : MeasuredValueScaledWithCP24Time2a)
    (frame : Frame) (parameters : ConnectionParameters) : Frame :=
  let frame := MeasuredValueNormalized_encode self.asNormalized frame parameters
  Frame_appendBytes frame self.timestamp.encodedValue 3

/-- Embeds `static void MeasuredValueScaledWithCP24Time2a_initialize(self)`. -/
def MeasuredValueScaledWithCP24Time2a_initialize (self : MeasuredValueScaledWithCP24Time2a) :
    MeasuredValueScaledWithCP24Time2a :=
  { self with
    virtualFunctionTable := InformationObjectVFT.measuredValueScaledWithCP24Time2aVFT
    type := TypeID.M_ME_TB_1 }

/-- Embeds `MeasuredValueScaledWithCP24Time2a_create(self, ioa, value, quality, timestamp)`. -/
def MeasuredValueScaledWithCP24Time2a_create (self : Option MeasuredValueScaledWithCP24Time2a)
    (ioa : Int) (value : Int) (quality : Nat) (timestamp : CP24Time2a) :
    MeasuredValueScaledWithCP24Time2a :=
  let self := match self with
    | none => MeasuredValueScaledWithCP24Time2a.zeroed
    | some s => s
  let self := MeasuredValueScaledWithCP24Time2a_initialize self
  let self := { self with objectAddress := ioa }
  let self := { self with encodedValue := setScaledValue value }
  { self with quality := quality, timestamp := timestamp }

/-- Embeds `MeasuredValueScaledWithCP24Time2a_getTimestamp`. -/
def MeasuredValueScaledWithCP24Time2a_getTimestamp (self : MeasuredValueScaledWithCP24Time2a) :
    CP24Time2a :=
  self.timestamp

/-- Embeds `MeasuredValueScaledWithCP24Time2a_getFromBuffer(self, parameters, msg, msgSize,
startIndex)`; `msgSize` is not consulted by the decoder itself
(`//TODO check message size`). -/
def MeasuredValueScaledWithCP24Time2a_getFromBuffer (self : Option MeasuredValueScaledWithCP24Time2a)
    (parameters : ConnectionParameters) (msg : List Nat) (msgSize : Int) (startIndex : Int) :
    MeasuredValueScaledWithCP24Time2a :=
  let self := match self with
    | none => MeasuredValueScaledWithCP24Time2a_initialize MeasuredValueScaledWithCP24Time2a.zeroed
    | some s => s
  let base := InformationObject_getFromBuffer self.toInformationObject parameters msg startIndex
  let self := { self with toInformationObject := base }
  let startIndex := startIndex + parameters.sizeOfIOA
  let b0 : Nat := readByte msg startIndex
  let startIndex := startIndex + 1
  let b1 : Nat := readByte msg startIndex
  let startIndex := startIndex + 1
  let self := { self with encodedValue := (b0, b1), quality := readByte msg startIndex }
  let startIndex := startIndex + 1
  { self with timestamp := CP24Time2a_getFromBuffer self.timestamp msg msgSize startIndex }

/-! ## MeasuredValueScaledWithCP56Time2a -/

/-- Embeds `struct sMeasuredValueScaledWithCP56Time2a`. -/
structure MeasuredValueScaledWithCP56Time2a extends InformationObject where
  encodedValue : Nat × Nat
  quality : Nat
  timestamp : CP56Time2a
  deriving DecidableEq, Repr

/-- Zero-filled storage (`GLOBAL_CALLOC`); also stands for the storage `GLOBAL_MALLOC`
returns, every field of which is assigned before it is read. -/
def MeasuredValueScaledWithCP56Time2a.zeroed : MeasuredValueScaledWithCP56Time2a :=
  { toInformationObject := InformationObject.zeroed, encodedValue := (0, 0), quality := 0,
    timestamp := ⟨[0, 0, 0, 0, 0, 0, 0]⟩ }

/-- The pointer cast `(MeasuredValueNormalized) self`: the struct starts with the fields of
`struct sMeasuredValueNormalized`. -/
def MeasuredValueScaledWithCP56Time2a.asNormalized (self : MeasuredValueScaledWithCP56Time2a) :
    MeasuredValueNormalized :=
  { toInformationObject := self.toInformationObject
    encodedValue := self.encodedValue
    quality := self.quality }

/-- Embeds `static void MeasuredValueScaledWithCP56Time2a_encode(self, frame, parameters)`. -/
def MeasuredValueScaledWithCP56Time2a_encode (self : MeasuredValueScaledWithCP56Time2a)
    (frame : Frame) (parameters : ConnectionParameters) : Frame :=
  let frame := MeasuredValueNormalized_encode self.asNormalized frame parameters
  Frame_appendBytes frame self.timestamp.encodedValue 7

/-- Embeds `static void MeasuredValueScaledWithCP56Time2a_initialize(self)`. -/
def MeasuredValueScaledWithCP56Time2a_initialize (self : MeasuredValueScaledWithCP56Time2a) :
    MeasuredValueScaledWithCP56Time2a :=
  { self with
    virtualFunctionTable := InformationObjectVFT.measuredValueScaledWithCP56Time2aVFT
    type := TypeID.M_ME_TE_1 }

/-- Embeds `MeasuredValueScaledWithCP56Time2a_create(self, ioa, value, quality, timestamp)`. -/
def MeasuredValueScaledWithCP56Time2a_create (self : Option MeasuredValueScaledWithCP56Time2a)
    (ioa : Int) (value : Int) (quality : Nat) (timestamp : CP56Time2a) :
    MeasuredValueScaledWithCP56Time2a :=
  let self := match self with
    | none => MeasuredValueScaledWithCP56Time2a.zeroed
    | some s => s
  let self := MeasuredValueScaledWithCP56Time2a_initialize self
  let self := { self with objectAddress := ioa }
  let self := { self with encodedValue := setScaledValue value }
  { self with quality := quality, timestamp := timestamp }

/-- Embeds `MeasuredValueScaledWithCP56Time2a_getTimestamp`. -/
def MeasuredValueScaledWithCP56Time2a_getTimestamp (self : MeasuredValueScaledWithCP56Time2a) :
    CP56Time2a :=
  self.timestamp

/-- Embeds `MeasuredValueScaledWithCP56Time2a_getFromBuffer(self, parameters, msg, msgSize,
startIndex)`; `msgSize` is not consulted by the decoder itself
(`//TODO check message size`). -/
def MeasuredValueScaledWithCP56Time2a_getFromBuffer (self : Option MeasuredValueScaledWithCP56Time2a)
    (parameters : ConnectionParameters) (msg : List Nat) (msgSize : Int) (startIndex : Int) :
    MeasuredValueScaledWithCP56Time2a :=
  let self := match self with
    | none => MeasuredValueScaledWithCP56Time2a_initialize MeasuredValueScaledWithCP56Time2a.zeroed
    | some s => s
  let base := InformationObject_getFromBuffer self.toInformationObject parameters msg startIndex
  let self := { self with toInformationObject := base }
  let startIndex := startIndex + parameters.sizeOfIOA
  let b0 : Nat := readByte msg startIndex
  let startIndex := startIndex + 1
  let b1 : Nat := readByte msg startIndex
  let startIndex := startIndex + 1
  let self := { self with encodedValue := (b0, b1), quality := readByte msg startIndex }
  let startIndex := startIndex + 1
  { self with timestamp := CP56Time2a_getFromBuffer self.timestamp msg msgSize startIndex }

/-! ## MeasuredValueShort

As for `SetpointCommandShort`, the `float value` is only stored and copied byte by byte and
is modelled by its 32-bit pattern. -/

/-- Embeds `struct sMeasuredValueShort`. -/
structure MeasuredValueShort extends InformationObject where
  value : Nat
  quality : Nat
  deriving DecidableEq, Repr

/-- Zero-filled storage (`GLOBAL_CALLOC`); also stands for the storage `GLOBAL_MALLOC`
returns, every field of which is assigned before it is read. -/
def MeasuredValueShort.zeroed : MeasuredValueShort :=
  { toInformationObject := InformationObject.zeroed, value := 0, quality := 0 }

/-- Embeds `static void MeasuredValueShort_encode(self, frame, parameters)`. -/
def MeasuredValueShort_encode (self : MeasuredValueShort) (frame : Frame)
    (parameters : ConnectionParameters) : Frame :=
  let frame := InformationObject_encodeBase self.toInformationObject frame parameters
  let frame := Frame_appendBytes frame (valueBytes self.value) 4
  Frame_setNextByte frame (self.quality % 256)

/-- Embeds `static void MeasuredValueShort_initialize(self)`. -/
def MeasuredValueShort_initialize (self : MeasuredValueShort) : MeasuredValueShort :=
  { self with
    virtualFunctionTable := InformationObjectVFT.measuredValueShortVFT
    type := TypeID.M_ME_NC_1 }

/-- Embeds `MeasuredValueShort_create(self, ioa, value, quality)`. -/
def MeasuredValueShort_create (self : Option MeasuredValueShort) (ioa : Int) (value : Nat)
    (quality : Nat) : MeasuredValueShort :=
  let self := match self with
    | none => MeasuredValueShort.zeroed
    | some s => s
  let self := MeasuredValueShort_initialize self
  { self with objectAddress := ioa, value := value, quality := quality }

/-- Embeds `MeasuredValueShort_getValue`. -/
def MeasuredValueShort_getValue (self : MeasuredValueShort) : Nat := self.value

/-- Embeds `MeasuredValueShort_getQuality`. -/
def MeasuredValueShort_getQuality (self : MeasuredValueShort) : Nat := self.quality

/-- Embeds `MeasuredValueShort_getFromBuffer(self, parameters, msg, msgSize, startIndex)`;
`msgSize` is not consulted (`//TODO check message size`). -/
def MeasuredValueShort_getFromBuffer (self : Option MeasuredValueShort)
    (parameters : ConnectionParameters) (msg : List Nat) (msgSize : Int) (startIndex : Int) :
    MeasuredValueShort :=
  let self := match self with
    | none => MeasuredValueShort_initialize MeasuredValueShort.zeroed
    | some s => s
  let base := InformationObject_getFromBuffer self.toInformationObject parameters msg startIndex
  let self := { self with toInformationObject := base }
  let startIndex := startIndex + parameters.sizeOfIOA
  let b0 : Nat := readByte msg startIndex
  let startIndex := startIndex + 1
  let b1 : Nat := readByte msg startIndex
  let startIndex := startIndex + 1
  let b2 : Nat := readByte msg startIndex
  let startIndex := startIndex + 1
  let b3 : Nat := readByte msg startIndex
  let startIndex := startIndex + 1
  { self with value := valueOfBytes b0 b1 b2 b3, quality := readByte msg startIndex }

/-! ## MeasuredValueShortWithCP24Time2a -/

/-- Embeds `struct sMeasuredValueShortWithCP24Time2a`. -/
structure MeasuredValueShortWithCP24Time2a extends InformationObject where
  value : Nat
  quality : Nat
  timestamp : CP24Time2a
  deriving DecidableEq, Repr

/-- Zero-filled storage (`GLOBAL_CALLOC`); also stands for the storage `GLOBAL_MALLOC`
returns, every field of which is assigned before it is read. -/
def MeasuredValueShortWithCP24Time2a.zeroed : MeasuredValueShortWithCP24Time2a :=
  { toInformationObject := InformationObject.zeroed, value := 0, quality := 0,
    timestamp := ⟨[0, 0, 0]⟩ }

/-- The pointer cast `(MeasuredValueShort) self`: the struct starts with the fields of
`struct sMeasuredValueShort`. -/
def MeasuredValueShortWithCP24Time2a.asShort (self : MeasuredValueShortWithCP24Time2a) : MeasuredValueShort :=
  { toInformationObject := self.toInformationObject
    value := self.value
    quality := self.quality }

/-- Embeds `static void MeasuredValueShortWithCP24Time2a_encode(self, frame, parameters)`. -/
def MeasuredValueShortWithCP24Time2a_encode (self : MeasuredValueShortWithCP24Time2a) (frame : Frame)
    (parameters : ConnectionParameters) : Frame :=
  let frame := MeasuredValueShort_encode self.asShort frame parameters
  Frame_appendBytes frame self.timestamp.encodedValue 3

/-- Embeds `static void MeasuredValueShortWithCP24Time2a_initialize(self)`. -/
def MeasuredValueShortWithCP24Time2a_initialize (self : MeasuredValueShortWithCP24Time2a) :
    MeasuredValueShortWithCP24Time2a :=
  { self with
    virtualFunctionTable := InformationObjectVFT.measuredValueShortWithCP24Time2aVFT
    type := TypeID.M_ME_TC_1 }

/-- Embeds `MeasuredValueShortWithCP24Time2a_create(self, ioa, value, quality, timestamp)`. -/
def MeasuredValueShortWithCP24Time2a_create (self : Option MeasuredValueShortWithCP24Time2a) (ioa : Int)
    (value : Nat) (quality : Nat) (timestamp : CP24Time2a) : MeasuredValueShortWithCP24Time2a :=
  let self := match self with
    | none => MeasuredValueShortWithCP24Time2a.zeroed
    | some s => s
  let self := MeasuredValueShortWithCP24Time2a_initialize self
  { self with objectAddress := ioa, value := value, quality := quality,
              timestamp := timestamp }

/-- Embeds `MeasuredValueShortWithCP24Time2a_getTimestamp`. -/
def MeasuredValueShortWithCP24Time2a_getTimestamp (self : MeasuredValueShortWithCP24Time2a) : CP24Time2a :=
  self.timestamp

/-- Embeds `MeasuredValueShortWithCP24Time2a_getFromBuffer(self, parameters, msg, msgSize,
startIndex)`; `msgSize` is not consulted by the decoder itself
(`//TODO check message size`). -/
def MeasuredValueShortWithCP24Time2a_getFromBuffer (self : Option MeasuredValueShortWithCP24Time2a)
    (parameters : ConnectionParameters) (msg : List Nat) (msgSize : Int) (startIndex : Int) :
    MeasuredValueShortWithCP24Time2a :=
  let self := match self with
    | none => MeasuredValueShortWithCP24Time2a_initialize MeasuredValueShortWithCP24Time2a.zeroed
    | some s => s
  let base := InformationObject_getFromBuffer self.toInformationObject parameters msg startIndex
  let self := { self with toInformationObject := base }
  let startIndex := startIndex + parameters.sizeOfIOA
  let b0 : Nat := readByte msg startIndex
  let startIndex := startIndex + 1
  let b1 : Nat := readByte msg startIndex
  let startIndex := startIndex + 1
  let b2 : Nat := readByte msg startIndex
  let startIndex := startIndex + 1
  let b3 : Nat := readByte msg startIndex
  let startIndex := startIndex + 1
  let self := { self with value := valueOfBytes b0 b1 b2 b3, quality := readByte msg startIndex }
  let startIndex := startIndex + 1
  { self with timestamp := CP24Time2a_getFromBuffer self.timestamp msg msgSize startIndex }

/-! ## MeasuredValueShortWithCP56Time2a -/

/-- Embeds `struct sMeasuredValueShortWithCP56Time2a`. -/
structure MeasuredValueShortWithCP56Time2a extends InformationObject where
  value : Nat
  quality : Nat
  timestamp : CP56Time2a
  deriving DecidableEq, Repr

/-- Zero-filled storage (`GLOBAL_CALLOC`); also stands for the storage `GLOBAL_MALLOC`
returns, every field of which is assigned before it is read. -/
def MeasuredValueShortWithCP56Time2a.zeroed : MeasuredValueShortWithCP56Time2a :=
  { toInformationObject := InformationObject.zeroed, value := 0, quality := 0,
    timestamp := ⟨[0, 0, 0, 0, 0, 0, 0]⟩ }

/-- The pointer cast `(MeasuredValueShort) self`: the struct starts with the fields of
`struct sMeasuredValueShort`. -/
def MeasuredValueShortWithCP56Time2a.asShort (self : MeasuredValueShortWithCP56Time2a) : MeasuredValueShort :=
  { toInformationObject := self.toInformationObject
    value := self.value
    quality := self.quality }

/-- Embeds `static void MeasuredValueShortWithCP56Time2a_encode(self, frame, parameters)`. -/
def MeasuredValueShortWithCP56Time2a_encode (self : MeasuredValueShortWithCP56Time2a) (frame : Frame)
    (parameters : ConnectionParameters) : Frame :=
  let frame := MeasuredValueShort_encode self.asShort frame parameters
  Frame_appendBytes frame self.timestamp.encodedValue 7

/-- Embeds `static void MeasuredValueShortWithCP56Time2a_initialize(self)`. -/
def MeasuredValueShortWithCP56Time2a_initialize (self : MeasuredValueShortWithCP56Time2a) :
    MeasuredValueShortWithCP56Time2a :=
  { self with
    virtualFunctionTable := InformationObjectVFT.measuredValueShortWithCP56Time2aVFT
    type := TypeID.M_ME_TF_1 }

/-- Embeds `MeasuredValueShortWithCP56Time2a_create(self, ioa, value, quality, timestamp)`. -/
def MeasuredValueShortWithCP56Time2a_create (self : Option MeasuredValueShortWithCP56Time2a) (ioa : Int)
    (value : Nat) (quality : Nat) (timestamp : CP56Time2a) : MeasuredValueShortWithCP56Time2a :=
  let self := match self with
    | none => MeasuredValueShortWithCP56Time2a.zeroed
    | some s => s
  let self := MeasuredValueShortWithCP56Time2a_initialize self
  { self with objectAddress := ioa, value := value, quality := quality,
              timestamp := timestamp }

/-- Embeds `MeasuredValueShortWithCP56Time2a_getTimestamp`. -/
def MeasuredValueShortWithCP56Time2a_getTimestamp (self : MeasuredValueShortWithCP56Time2a) : CP56Time2a :=
  self.timestamp

/-- Embeds `MeasuredValueShortWithCP56Time2a_getFromBuffer(self, parameters, msg, msgSize,
startIndex)`; `msgSize` is not consulted by the decoder itself
(`//TODO check message size`). -/
def MeasuredValueShortWithCP56Time2a_getFromBuffer (self : Option MeasuredValueShortWithCP56Time2a)
    (parameters : ConnectionParameters) (msg : List Nat) (msgSize : Int) (startIndex : Int) :
    MeasuredValueShortWithCP56Time2a :=
  let self := match self with
    | none => MeasuredValueShortWithCP56Time2a_initialize MeasuredValueShortWithCP56Time2a.zeroed
    | some s => s
  let base := InformationObject_getFromBuffer self.toInformationObject parameters msg startIndex
  let self := { self with toInformationObject := base }
  let startIndex := startIndex + parameters.sizeOfIOA
  let b0 : Nat := readByte msg startIndex
  let startIndex := startIndex + 1
  let b1 : Nat := readByte msg startIndex
  let startIndex := startIndex + 1
  let b2 : Nat := readByte msg startIndex
  let startIndex := startIndex + 1
  let b3 : Nat := readByte msg startIndex
  let startIndex := startIndex + 1
  let self := { self with value := valueOfBytes b0 b1 b2 b3, quality := readByte msg startIndex }
  let startIndex := startIndex + 1
  { self with timestamp := CP56Time2a_getFromBuffer self.timestamp msg msgSize startIndex }

/-! ## Decoders of the time-tagged bit strings -/

/-- Embeds `Bitstring32WithCP24Time2a_getTimestamp`. -/
def Bitstring32WithCP24Time2a_getTimestamp (self : Bitstring32WithCP24Time2a) : CP24Time2a :=
  self.timestamp

/-- Embeds `Bitstring32WithCP24Time2a_getFromBuffer(self, parameters, msg, msgSize,
startIndex)`; `msgSize` is not consulted by the decoder itself
(`//TODO check message size`). As in `BitString32_getFromBuffer` the four value bytes are
summed into a local variable that is not stored, and `mallocContent` is the indeterminate
content of freshly allocated storage. -/
def Bitstring32WithCP24Time2a_getFromBuffer (self : Option Bitstring32WithCP24Time2a)
    (parameters : ConnectionParameters) (msg : List Nat) (msgSize : Int) (startIndex : Int)
    (mallocContent : Bitstring32WithCP24Time2a) : Bitstring32WithCP24Time2a :=
  let self := match self with
    | none => Bitstring32WithCP24Time2a_initialize mallocContent
    | some s => s
  let base := InformationObject_getFromBuffer self.toInformationObject parameters msg startIndex
  let self := { self with toInformationObject := base }
  let startIndex := startIndex + parameters.sizeOfIOA
  let value : Nat := readByte msg startIndex
  let startIndex := startIndex + 1
  let value : Nat := (value + (readByte msg startIndex * 0x100) % 2 ^ 32) % 2 ^ 32
  let startIndex := startIndex + 1
  let value : Nat := (value + (readByte msg startIndex * 0x10000) % 2 ^ 32) % 2 ^ 32
  let startIndex := startIndex + 1
  let value : Nat := (value + (readByte msg startIndex * 0x1000000) % 2 ^ 32) % 2 ^ 32
  let startIndex := startIndex + 1
  let self := { self with quality := readByte msg startIndex }
  let startIndex := startIndex + 1
  { self with timestamp := CP24Time2a_getFromBuffer self.timestamp msg msgSize startIndex }

/-- Embeds `Bitstring32WithCP56Time2a_getTimestamp`. -/
def Bitstring32WithCP56Time2a_getTimestamp (self : Bitstring32WithCP56Time2a) : CP56Time2a :=
  self.timestamp

/-- Embeds `Bitstring32WithCP56Time2a_getFromBuffer(self, parameters, msg, msgSize,
startIndex)`; `msgSize` is not consulted by the decoder itself
(`//TODO check message size`). As in `BitString32_getFromBuffer` the four value bytes are
summed into a local variable that is not stored, and `mallocContent` is the indeterminate
content of freshly allocated storage. -/
def Bitstring32WithCP56Time2a_getFromBuffer (self : Option Bitstring32WithCP56Time2a)
    (parameters : ConnectionParameters) (msg : List Nat) (msgSize : Int) (startIndex : Int)
    (mallocContent : Bitstring32WithCP56Time2a) : Bitstring32WithCP56Time2a :=
  let self := match self with
    | none => Bitstring32WithCP56Time2a_initialize mallocContent
    | some s => s
  let base := InformationObject_getFromBuffer self.toInformationObject parameters msg startIndex
  let self := { self with toInformationObject := base }
  let startIndex := startIndex + parameters.sizeOfIOA
  let value : Nat := readByte msg startIndex
  let startIndex := startIndex + 1
  let value : Nat := (value + (readByte msg startIndex * 0x100) % 2 ^ 32) % 2 ^ 32
  let startIndex := startIndex + 1
  let value : Nat := (value + (readByte msg startIndex * 0x10000) % 2 ^ 32) % 2 ^ 32
  let startIndex := startIndex + 1
  let value : Nat := (value + (readByte msg startIndex * 0x1000000) % 2 ^ 32) % 2 ^ 32
  let startIndex := startIndex + 1
  let self := { self with quality := readByte msg startIndex }
  let startIndex := startIndex + 1
  { self with timestamp := CP56Time2a_getFromBuffer self.timestamp msg msgSize startIndex }

/-! ## IntegratedTotalsWithCP24Time2a -/

/-- Embeds `struct sIntegratedTotalsWithCP24Time2a`. -/
structure IntegratedTotalsWithCP24Time2a extends InformationObject where
  totals : BinaryCounterReading
  timestamp : CP24Time2a
  deriving DecidableEq, Repr

/-- Zero-filled storage (`GLOBAL_CALLOC`); also stands for the storage `GLOBAL_MALLOC`
returns, every field of which is assigned before it is read. -/
def IntegratedTotalsWithCP24Time2a.zeroed : IntegratedTotalsWithCP24Time2a :=
  { toInformationObject := InformationObject.zeroed, totals := ⟨[0, 0, 0, 0, 0]⟩,
    timestamp := ⟨[0, 0, 0]⟩ }

/-- The pointer cast `(IntegratedTotals) self`: the struct starts with the fields of
`struct sIntegratedTotals`. -/
def IntegratedTotalsWithCP24Time2a.asIntegratedTotals (self : IntegratedTotalsWithCP24Time2a) : IntegratedTotals :=
  { toInformationObject := self.toInformationObject
    totals := self.totals }

/-- Embeds `static void IntegratedTotalsWithCP24Time2a_encode(self, frame, parameters)`. -/
def IntegratedTotalsWithCP24Time2a_encode (self : IntegratedTotalsWithCP24Time2a) (frame : Frame)
    (parameters : ConnectionParameters) : Frame :=
  let frame := IntegratedTotals_encode self.asIntegratedTotals frame parameters
  Frame_appendBytes frame self.timestamp.encodedValue 3

/-- Embeds `static void IntegratedTotalsWithCP24Time2a_initialize(self)`. -/
def IntegratedTotalsWithCP24Time2a_initialize (self : IntegratedTotalsWithCP24Time2a) :
    IntegratedTotalsWithCP24Time2a :=
  { self with
    virtualFunctionTable := InformationObjectVFT.integratedTotalsWithCP24Time2aVFT
    type := TypeID.M_IT_TA_1 }

/-- Embeds `IntegratedTotalsWithCP24Time2a_create(self, ioa, value, timestamp)`. -/
def IntegratedTotalsWithCP24Time2a_create (self : Option IntegratedTotalsWithCP24Time2a) (ioa : Int)
    (value : BinaryCounterReading) (timestamp : CP24Time2a) : IntegratedTotalsWithCP24Time2a :=
  let self := match self with
    | none => IntegratedTotalsWithCP24Time2a.zeroed
    | some s => s
  let self := IntegratedTotalsWithCP24Time2a_initialize self
  { self with objectAddress := ioa, totals := value, timestamp := timestamp }

/-- Embeds `IntegratedTotalsWithCP24Time2a_getTimestamp`. -/
def IntegratedTotalsWithCP24Time2a_getTimestamp (self : IntegratedTotalsWithCP24Time2a) : CP24Time2a :=
  self.timestamp

/-- Embeds `IntegratedTotalsWithCP24Time2a_getFromBuffer(self, parameters, msg, msgSize,
startIndex)`; `msgSize` is not consulted by the decoder itself
(`//TODO check message size`). The loop `for (i = 0; i < 5; i++)` copies
`msg [startIndex++]`, which leaves `startIndex` five bytes further. -/
def IntegratedTotalsWithCP24Time2a_getFromBuffer (self : Option IntegratedTotalsWithCP24Time2a)
    (parameters : ConnectionParameters) (msg : List Nat) (msgSize : Int) (startIndex : Int) :
    IntegratedTotalsWithCP24Time2a :=
  let self := match self with
    | none => IntegratedTotalsWithCP24Time2a_initialize IntegratedTotalsWithCP24Time2a.zeroed
    | some s => s
  let base := InformationObject_getFromBuffer self.toInformationObject parameters msg startIndex
  let self := { self with toInformationObject := base }
  let startIndex := startIndex + parameters.sizeOfIOA
  let self := { self with
    totals := ⟨(List.range 5).map (fun (i : Nat) => readByte msg (startIndex + (i : Int)))⟩ }
  let startIndex := startIndex + 5
  { self with timestamp := CP24Time2a_getFromBuffer self.timestamp msg msgSize startIndex }

/-! ## IntegratedTotalsWithCP56Time2a -/

/-- Embeds `struct sIntegratedTotalsWithCP56Time2a`. -/
structure IntegratedTotalsWithCP56Time2a extends InformationObject where
  totals : BinaryCounterReading
  timestamp : CP56Time2a
  deriving DecidableEq, Repr

/-- Zero-filled storage (`GLOBAL_CALLOC`); also stands for the storage `GLOBAL_MALLOC`
returns, every field of which is assigned before it is read. -/
def IntegratedTotalsWithCP56Time2a.zeroed : IntegratedTotalsWithCP56Time2a :=
  { toInformationObject := InformationObject.zeroed, totals := ⟨[0, 0, 0, 0, 0]⟩,
    timestamp := ⟨[0, 0, 0, 0, 0, 0, 0]⟩ }

/-- The pointer cast `(IntegratedTotals) self`: the struct starts with the fields of
`struct sIntegratedTotals`. -/
def IntegratedTotalsWithCP56Time2a.asIntegratedTotals (self : IntegratedTotalsWithCP56Time2a) : IntegratedTotals :=
  { toInformationObject := self.toInformationObject
    totals := self.totals }

/-- Embeds `static void IntegratedTotalsWithCP56Time2a_encode(self, frame, parameters)`. -/
def IntegratedTotalsWithCP56Time2a_encode (self : IntegratedTotalsWithCP56Time2a) (frame : Frame)
    (parameters : ConnectionParameters) : Frame :=
  let frame := IntegratedTotals_encode self.asIntegratedTotals frame parameters
  Frame_appendBytes frame self.timestamp.encodedValue 7

/-- Embeds `static void IntegratedTotalsWithCP56Time2a_initialize(self)`. -/
def IntegratedTotalsWithCP56Time2a_initialize (self : IntegratedTotalsWithCP56Time2a) :
    IntegratedTotalsWithCP56Time2a :=
  { self with
    virtualFunctionTable := InformationObjectVFT.integratedTotalsWithCP56Time2aVFT
    type := TypeID.M_IT_TB_1 }

/-- Embeds `IntegratedTotalsWithCP56Time2a_create(self, ioa, value, timestamp)`. -/
def IntegratedTotalsWithCP56Time2a_create (self : Option IntegratedTotalsWithCP56Time2a) (ioa : Int)
    (value : BinaryCounterReading) (timestamp : CP56Time2a) : IntegratedTotalsWithCP56Time2a :=
  let self := match self with
    | none => IntegratedTotalsWithCP56Time2a.zeroed
    | some s => s
  let self := IntegratedTotalsWithCP56Time2a_initialize self
  { self with objectAddress := ioa, totals := value, timestamp := timestamp }

/-- Embeds `IntegratedTotalsWithCP56Time2a_getTimestamp`. -/
def IntegratedTotalsWithCP56Time2a_getTimestamp (self : IntegratedTotalsWithCP56Time2a) : CP56Time2a :=
  self.timestamp

/-- Embeds `IntegratedTotalsWithCP56Time2a_getFromBuffer(self, parameters, msg, msgSize,
startIndex)`; `msgSize` is not consulted by the decoder itself
(`//TODO check message size`). The loop `for (i = 0; i < 5; i++)` copies
`msg [startIndex++]`, which leaves `startIndex` five bytes further. -/
def IntegratedTotalsWithCP56Time2a_getFromBuffer (self : Option IntegratedTotalsWithCP56Time2a)
    (parameters : ConnectionParameters) (msg : List Nat) (msgSize : Int) (startIndex : Int) :
    IntegratedTotalsWithCP56Time2a :=
  let self := match self with
    | none => IntegratedTotalsWithCP56Time2a_initialize IntegratedTotalsWithCP56Time2a.zeroed
    | some s => s
  let base := InformationObject_getFromBuffer self.toInformationObject parameters msg startIndex
  let self := { self with toInformationObject := base }
  let startIndex := startIndex + parameters.sizeOfIOA
  let self := { self with
    totals := ⟨(List.range 5).map (fun (i : Nat) => readByte msg (startIndex + (i : Int)))⟩ }
  let startIndex := startIndex + 5
  { self with timestamp := CP56Time2a_getFromBuffer self.timestamp msg msgSize startIndex }

/-! ## SingleEvent -/

/-- Embeds `SingleEvent_setEventState(self, eventState)`: the byte `*self` after the call;
the enum `EventState` is its integer value. -/
def SingleEvent_setEventState (self : Nat) (eventState : Nat) : Nat :=
  let value : Nat := self
  let value : Nat := (value &&& 0xfc) % 256
  let value : Nat := (value + eventState) % 256
  value

/-- Embeds `SingleEvent_getEventState`. -/
def SingleEvent_getEventState (self : Nat) : Nat := self &&& 0x3

/-- Embeds `SingleEvent_setQDP(self, qdp)`: the byte `*self` after the call. -/
def SingleEvent_setQDP (self : Nat) (qdp : Nat) : Nat :=
  let value : Nat := self
  let value : Nat := (value &&& 0x03) % 256
  let value : Nat := (value + qdp) % 256
  value

/-- Embeds `SingleEvent_getQDP`. -/
def SingleEvent_getQDP (self : Nat) : Nat := (self &&& 0xfc) % 256

/-! ## Decoder of SinglePointWithCP24Time2a -/

/-- Embeds `SinglePointWithCP24Time2a_getFromBuffer(self, parameters, msg, msgSize,
startIndex)`; `msgSize` is not consulted by the decoder itself
(`//TODO check message size`). `startIndex` is not advanced after the byte `siq` is read,
and is passed as it stands to the time-tag codec. -/
def SinglePointWithCP24Time2a_getFromBuffer (self : Option SinglePointWithCP24Time2a)
    (parameters : ConnectionParameters) (msg : List Nat) (msgSize : Int) (startIndex : Int) :
    SinglePointWithCP24Time2a :=
  let self := match self with
    | none => SinglePointWithCP24Time2a_initialize SinglePointWithCP24Time2a.zeroed
    | some s => s
  let base := InformationObject_getFromBuffer self.toInformationObject parameters msg startIndex
  let self := { self with toInformationObject := base }
  let startIndex := startIndex + parameters.sizeOfIOA
  let siq : Nat := readByte msg startIndex
  let self := { self with value := ((siq &&& 0x01) == 0x01), quality := (siq &&& 0xf0) % 256 }
  { self with timestamp := CP24Time2a_getFromBuffer self.timestamp msg msgSize startIndex }

/-! ## SinglePointWithCP56Time2a -/

/-- Embeds `struct sSinglePointWithCP56Time2a`. -/
structure SinglePointWithCP56Time2a extends InformationObject where
  value : Bool
  quality : Nat
  timestamp : CP56Time2a
  deriving DecidableEq, Repr

/-- Zero-filled storage (`GLOBAL_CALLOC`); also stands for the storage `GLOBAL_MALLOC`
returns, every field of which is assigned before it is read. -/
def SinglePointWithCP56Time2a.zeroed : SinglePointWithCP56Time2a :=
  { toInformationObject := InformationObject.zeroed, value := false, quality := 0,
    timestamp := ⟨[0, 0, 0, 0, 0, 0, 0]⟩ }

/-- Embeds `static void SinglePointWithCP56Time2a_encode(self, frame, parameters)`. -/
def SinglePointWithCP56Time2a_encode (self : SinglePointWithCP56Time2a) (frame : Frame)
    (parameters : ConnectionParameters) : Frame :=
  let frame := InformationObject_encodeBase self.toInformationObject frame parameters
  let val : Nat := self.quality % 256
  let val : Nat := if self.value then (val + 1) % 256 else val
  let frame := Frame_setNextByte frame val
  Frame_appendBytes frame self.timestamp.encodedValue 7

/-- Embeds `static void SinglePointWithCP56Time2a_initialize(self)`. -/
def SinglePointWithCP56Time2a_initialize (self : SinglePointWithCP56Time2a) :
    SinglePointWithCP56Time2a :=
  { self with
    virtualFunctionTable := InformationObjectVFT.singlePointWithCP56Time2aVFT
    type := TypeID.M_SP_TB_1 }

/-- Embeds `SinglePointWithCP56Time2a_create(self, ioa, value, quality, timestamp)`. -/
def SinglePointWithCP56Time2a_create (self : Option SinglePointWithCP56Time2a) (ioa : Int)
    (value : Bool) (quality : Nat) (timestamp : CP56Time2a) : SinglePointWithCP56Time2a :=
  let self := match self with
    | none => SinglePointWithCP56Time2a.zeroed
    | some s => s
  let self := SinglePointWithCP56Time2a_initialize self
  { self with objectAddress := ioa, value := value, quality := quality,
              timestamp := timestamp }

/-- Embeds `SinglePointWithCP56Time2a_getTimestamp`. -/
def SinglePointWithCP56Time2a_getTimestamp (self : SinglePointWithCP56Time2a) : CP56Time2a :=
  self.timestamp

/-- Embeds `SinglePointWithCP56Time2a_getFromBuffer(self, parameters, msg, msgSize,
startIndex)`; `msgSize` is not consulted by the decoder itself
(`//TODO check message size`). `startIndex` is not advanced after the byte `siq` is read,
and is passed as it stands to the time-tag codec. -/
def SinglePointWithCP56Time2a_getFromBuffer (self : Option SinglePointWithCP56Time2a)
    (parameters : ConnectionParameters) (msg : List Nat) (msgSize : Int) (startIndex : Int) :
    SinglePointWithCP56Time2a :=
  let self := match self with
    | none => SinglePointWithCP56Time2a_initialize SinglePointWithCP56Time2a.zeroed
    | some s => s
  let base := InformationObject_getFromBuffer self.toInformationObject parameters msg startIndex
  let self := { self with toInformationObject := base }
  let startIndex := startIndex + parameters.sizeOfIOA
  let siq : Nat := readByte msg startIndex
  let self := { self with value := ((siq &&& 0x01) == 0x01), quality := (siq &&& 0xf0) % 256 }
  { self with timestamp := CP56Time2a_getFromBuffer self.timestamp msg msgSize startIndex }

/-! ## DoublePointWithCP24Time2a -/

/-- Embeds `struct sDoublePointWithCP24Time2a`; the enum `DoublePointValue` is its integer value. -/
structure DoublePointWithCP24Time2a extends InformationObject where
  value : Nat
  quality : Nat
  timestamp : CP24Time2a
  deriving DecidableEq, Repr

/-- Zero-filled storage (`GLOBAL_CALLOC`); also stands for the storage `GLOBAL_MALLOC`
returns, every field of which is assigned before it is read. -/
def DoublePointWithCP24Time2a.zeroed : DoublePointWithCP24Time2a :=
  { toInformationObject := InformationObject.zeroed, value := 0, quality := 0,
    timestamp := ⟨[0, 0, 0]⟩ }

/-- Embeds `static void DoublePointWithCP24Time2a_encode(self, frame, parameters)`. -/
def DoublePointWithCP24Time2a_encode (self : DoublePointWithCP24Time2a) (frame : Frame)
    (parameters : ConnectionParameters) : Frame :=
  let frame := InformationObject_encodeBase self.toInformationObject frame parameters
  let val : Nat := self.quality % 256
  let val : Nat := (val + self.value) % 256
  let frame := Frame_setNextByte frame val
  Frame_appendBytes frame self.timestamp.encodedValue 3

/-- Embeds `static void DoublePointWithCP24Time2a_initialize(self)`. -/
def DoublePointWithCP24Time2a_initialize (self : DoublePointWithCP24Time2a) :
    DoublePointWithCP24Time2a :=
  { self with
    virtualFunctionTable := InformationObjectVFT.doublePointWithCP24Time2aVFT
    type := TypeID.M_DP_TA_1 }

/-- Embeds `DoublePointWithCP24Time2a_create(self, ioa, value, quality, timestamp)`. -/
def DoublePointWithCP24Time2a_create (self : Option DoublePointWithCP24Time2a) (ioa : Int)
    (value : Nat) (quality : Nat) (timestamp : CP24Time2a) : DoublePointWithCP24Time2a :=
  let self := match self with
    | none => DoublePointWithCP24Time2a.zeroed
    | some s => s
  let self := DoublePointWithCP24Time2a_initialize self
  { self with objectAddress := ioa, value := value, quality := quality,
              timestamp := timestamp }

/-- Embeds `DoublePointWithCP24Time2a_getTimestamp`. -/
def DoublePointWithCP24Time2a_getTimestamp (self : DoublePointWithCP24Time2a) : CP24Time2a :=
  self.timestamp

/-- Embeds `DoublePointWithCP24Time2a_getFromBuffer(self, parameters, msg, msgSize,
startIndex)`; `msgSize` is not consulted by the decoder itself
(`//TODO check message size`). `startIndex` is not advanced after the byte `siq` is read,
and is passed as it stands to the time-tag codec. -/
def DoublePointWithCP24Time2a_getFromBuffer (self : Option DoublePointWithCP24Time2a)
    (parameters : ConnectionParameters) (msg : List Nat) (msgSize : Int) (startIndex : Int) :
    DoublePointWithCP24Time2a :=
  let self := match self with
    | none => DoublePointWithCP24Time2a_initialize DoublePointWithCP24Time2a.zeroed
    | some s => s
  let base := InformationObject_getFromBuffer self.toInformationObject parameters msg startIndex
  let self := { self with toInformationObject := base }
  let startIndex := startIndex + parameters.sizeOfIOA
  let siq : Nat := readByte msg startIndex
  let self := { self with value := (if (siq &&& 0x01) == 0x03 then 1 else 0), quality := (siq &&& 0xf0) % 256 }
  { self with timestamp := CP24Time2a_getFromBuffer self.timestamp msg msgSize startIndex }

/-! ## DoublePointWithCP56Time2a -/

/-- Embeds `struct sDoublePointWithCP56Time2a`; the enum `DoublePointValue` is its integer value. -/
structure DoublePointWithCP56Time2a extends InformationObject where
  value : Nat
  quality : Nat
  timestamp : CP56Time2a
  deriving DecidableEq, Repr

/-- Zero-filled storage (`GLOBAL_CALLOC`); also stands for the storage `GLOBAL_MALLOC`
returns, every field of which is assigned before it is read. -/
def DoublePointWithCP56Time2a.zeroed : DoublePointWithCP56Time2a :=
  { toInformationObject := InformationObject.zeroed, value := 0, quality := 0,
    timestamp := ⟨[0, 0, 0, 0, 0, 0, 0]⟩ }

/-- Embeds `static void DoublePointWithCP56Time2a_encode(self, frame, parameters)`. -/
def DoublePointWithCP56Time2a_encode (self : DoublePointWithCP56Time2a) (frame : Frame)
    (parameters : ConnectionParameters) : Frame :=
  let frame := InformationObject_encodeBase self.toInformationObject frame parameters
  let val : Nat := self.quality % 256
  let val : Nat := (val + self.value) % 256
  let frame := Frame_setNextByte frame val
  Frame_appendBytes frame self.timestamp.encodedValue 7

/-- Embeds `static void DoublePointWithCP56Time2a_initialize(self)`. -/
def DoublePointWithCP56Time2a_initialize (self : DoublePointWithCP56Time2a) :
    DoublePointWithCP56Time2a :=
  { self with
    virtualFunctionTable := InformationObjectVFT.doublePointWithCP56Time2aVFT
    type := TypeID.M_DP_TB_1 }

/-- Embeds `DoublePointWithCP56Time2a_create(self, ioa, value, quality, timestamp)`. -/
def DoublePointWithCP56Time2a_create (self : Option DoublePointWithCP56Time2a) (ioa : Int)
    (value : Nat) (quality : Nat) (timestamp : CP56Time2a) : DoublePointWithCP56Time2a :=
  let self := match self with
    | none => DoublePointWithCP56Time2a.zeroed
    | some s => s
  let self := DoublePointWithCP56Time2a_initialize self
  { self with objectAddress := ioa, value := value, quality := quality,
              timestamp := timestamp }

/-- Embeds `DoublePointWithCP56Time2a_getTimestamp`. -/
def DoublePointWithCP56Time2a_getTimestamp (self : DoublePointWithCP56Time2a) : CP56Time2a :=
  self.timestamp

/-- Embeds `DoublePointWithCP56Time2a_getFromBuffer(self, parameters, msg, msgSize,
startIndex)`; `msgSize` is not consulted by the decoder itself
(`//TODO check message size`). `startIndex` is not advanced after the byte `siq` is read,
and is passed as it stands to the time-tag codec. -/
def DoublePointWithCP56Time2a_getFromBuffer (self : Option DoublePointWithCP56Time2a)
    (parameters : ConnectionParameters) (msg : List Nat) (msgSize : Int) (startIndex : Int) :
    DoublePointWithCP56Time2a :=
  let self := match self with
    | none => DoublePointWithCP56Time2a_initialize DoublePointWithCP56Time2a.zeroed
    | some s => s
  let base := InformationObject_getFromBuffer self.toInformationObject parameters msg startIndex
  let self := { self with toInformationObject := base }
  let startIndex := startIndex + parameters.sizeOfIOA
  let siq : Nat := readByte msg startIndex
  let self := { self with value := (if (siq &&& 0x01) == 0x03 then 1 else 0), quality := (siq &&& 0xf0) % 256 }
  { self with timestamp := CP56Time2a_getFromBuffer self.timestamp msg msgSize startIndex }

/-! ## StepPositionWithCP24Time2a -/

/-- Embeds `struct sStepPositionWithCP24Time2a`. -/
structure StepPositionWithCP24Time2a extends InformationObject where
  vti : Nat
  quality : Nat
  timestamp : CP24Time2a
  deriving DecidableEq, Repr

/-- Zero-filled storage (`GLOBAL_CALLOC`); also stands for the storage `GLOBAL_MALLOC`
returns, every field of which is assigned before it is read. -/
def StepPositionWithCP24Time2a.zeroed : StepPositionWithCP24Time2a :=
  { toInformationObject := InformationObject.zeroed, vti := 0, quality := 0,
    timestamp := ⟨[0, 0, 0]⟩ }

/-- Embeds `static void StepPositionWithCP24Time2a_encode(self, frame, parameters)`. The
source declares `self` as `StepPositionWithCP56Time2a`; the function is installed in the
dispatch table of the CP24 variant and the fields it reads sit at the same place in both
structs, so it is embedded on the CP24 struct. -/
def StepPositionWithCP24Time2a_encode (self : StepPositionWithCP24Time2a) (frame : Frame)
    (parameters : ConnectionParameters) : Frame :=
  let frame := InformationObject_encodeBase self.toInformationObject frame parameters
  let frame := Frame_setNextByte frame self.vti
  let frame := Frame_setNextByte frame (self.quality % 256)
  Frame_appendBytes frame self.timestamp.encodedValue 3

/-- Embeds `static void StepPositionWithCP24Time2a_initialize(self)`. -/
def StepPositionWithCP24Time2a_initialize (self : StepPositionWithCP24Time2a) :
    StepPositionWithCP24Time2a :=
  { self with
    virtualFunctionTable := InformationObjectVFT.stepPositionWithCP24Time2aVFT
    type := TypeID.M_ST_TA_1 }

/-- Embeds `StepPositionWithCP24Time2a_create(self, ioa, value, isTransient, quality,
timestamp)`. -/
def StepPositionWithCP24Time2a_create (self : Option StepPositionWithCP24Time2a) (ioa : Int)
    (value : Int) (isTransient : Bool) (quality : Nat) (timestamp : CP24Time2a) :
    StepPositionWithCP24Time2a :=
  let self := match self with
    | none => StepPositionWithCP24Time2a.zeroed
    | some s => s
  let self := StepPositionWithCP24Time2a_initialize self
  let value : Int := if value > 63 then 63 else if value < -64 then -64 else value
  let value : Int := if value < 0 then value + 128 else value
  let vti : Nat := toU8 value
  let vti : Nat := if isTransient then (vti ||| 0x80) % 256 else vti
  { self with objectAddress := ioa, vti := vti, quality := quality, timestamp := timestamp }

/-- Embeds `StepPositionWithCP24Time2a_getTimestamp`. -/
def StepPositionWithCP24Time2a_getTimestamp (self : StepPositionWithCP24Time2a) :
    CP24Time2a :=
  self.timestamp

/-- Embeds `StepPositionWithCP24Time2a_getFromBuffer(self, parameters, msg, msgSize,
startIndex)`; `msgSize` is not consulted by the decoder itself
(`//TODO check message size`). `startIndex` is advanced after the byte `vti` only, not
after the quality byte, and is passed as it stands to the time-tag codec. -/
def StepPositionWithCP24Time2a_getFromBuffer (self : Option StepPositionWithCP24Time2a)
    (parameters : ConnectionParameters) (msg : List Nat) (msgSize : Int) (startIndex : Int) :
    StepPositionWithCP24Time2a :=
  let self := match self with
    | none => StepPositionWithCP24Time2a_initialize StepPositionWithCP24Time2a.zeroed
    | some s => s
  let base := InformationObject_getFromBuffer self.toInformationObject parameters msg startIndex
  let self := { self with toInformationObject := base }
  let startIndex := startIndex + parameters.sizeOfIOA
  let vti : Nat := readByte msg startIndex
  let startIndex := startIndex + 1
  let self := { self with vti := vti, quality := readByte msg startIndex }
  { self with timestamp := CP24Time2a_getFromBuffer self.timestamp msg msgSize startIndex }

/-! ## Decoder of StepPositionWithCP56Time2a -/

/-- Embeds `StepPositionWithCP56Time2a_getFromBuffer(self, parameters, msg, msgSize,
startIndex)`; `msgSize` is not consulted by the decoder itself
(`//TODO check message size`). `startIndex` is advanced after the byte `vti` only, not
after the quality byte, and is passed as it stands to the time-tag codec. -/
def StepPositionWithCP56Time2a_getFromBuffer (self : Option StepPositionWithCP56Time2a)
    (parameters : ConnectionParameters) (msg : List Nat) (msgSize : Int) (startIndex : Int) :
    StepPositionWithCP56Time2a :=
  let self := match self with
    | none => StepPositionWithCP56Time2a_initialize StepPositionWithCP56Time2a.zeroed
    | some s => s
  let base := InformationObject_getFromBuffer self.toInformationObject parameters msg startIndex
  let self := { self with toInformationObject := base }
  let startIndex := startIndex + parameters.sizeOfIOA
  let vti : Nat := readByte msg startIndex
  let startIndex := startIndex + 1
  let self := { self with vti := vti, quality := readByte msg startIndex }
  { self with timestamp := CP56Time2a_getFromBuffer self.timestamp msg msgSize startIndex }

/-! ## SingleCommandWithCP56Time2a: encoder and constructor -/

/-- The pointer cast `(SingleCommand) self`: the struct starts with the fields of
`struct sSingleCommand`. -/
def SingleCommandWithCP56Time2a.asSingleCommand (self : SingleCommandWithCP56Time2a) :
    SingleCommand :=
  { toInformationObject := self.toInformationObject
    sco := self.sco }

/-- Embeds `static void SingleCommandWithCP56Time2a_encode(self, frame, parameters)`. -/
def SingleCommandWithCP56Time2a_encode (self : SingleCommandWithCP56Time2a) (frame : Frame)
    (parameters : ConnectionParameters) : Frame :=
  let frame := SingleCommand_encode self.asSingleCommand frame parameters
  Frame_appendBytes frame self.timestamp.encodedValue 7

/-- Embeds `SingleCommandWithCP56Time2a_create(self, ioa, command, selectCommand, qu,
timestamp)`; the loop `for (i = 0; i < 7; i++)` copies the time-tag bytes; supplied storage
is not re-initialised. -/
def SingleCommandWithCP56Time2a_create (self : Option SingleCommandWithCP56Time2a)
    (ioa : Int) (command : Bool) (selectCommand : Bool) (qu : Int) (timestamp : CP56Time2a) :
    SingleCommandWithCP56Time2a :=
  let self := match self with
    | none => SingleCommandWithCP56Time2a_initialize SingleCommandWithCP56Time2a.zeroed
    | some s => s
  let sco : Nat := toU8 ((Int.land qu 0x1f) * 4)
  let sco : Nat := if command then (sco ||| 0x01) % 256 else sco
  let sco : Nat := if selectCommand then (sco ||| 0x80) % 256 else sco
  { self with
    objectAddress := ioa
    sco := sco
    timestamp := ⟨(List.range 7).map (fun (i : Nat) => timestamp.encodedValue.getD i 0)⟩ }

/-- Embeds `SingleCommandWithCP56Time2a_getTimestamp`. -/
def SingleCommandWithCP56Time2a_getTimestamp (self : SingleCommandWithCP56Time2a) :
    CP56Time2a :=
  self.timestamp

/-! ## ClockSynchronizationCommand: constructor -/

/-- Embeds `ClockSynchronizationCommand_create(self, ioa)` as defined in
`information_objects.c`: the definition has no `timestamp` parameter (the header declares
one) and assigns the address only. `mallocContent` is the indeterminate content of the
storage `GLOBAL_MALLOC` returns when `self` is `NULL`, whose time tag is not assigned. -/
def ClockSynchronizationCommand_create (self : Option ClockSynchronizationCommand)
    (ioa : Int) (mallocContent : ClockSynchronizationCommand) : ClockSynchronizationCommand :=
  let self := match self with
    | none => ClockSynchronizationCommand_initialize mallocContent
    | some s => s
  { self with objectAddress := ioa }

/-! ## Buffer indices read by the command decoders

Each list holds, in order, the indices `i` of the expressions `msg [i]` that the decoder
evaluates; it is empty when the decoder returns `NULL` at its length check. -/

/-- The indices read by `InformationObject_getFromBuffer`: `msg [startIndex]`, then
`msg [startIndex + 1]` and `msg [startIndex + 2]` under their guards. -/
def InformationObject_getFromBuffer_reads (parameters : ConnectionParameters)
    (startIndex : Int) : List Int :=
  let reads : List Int := [startIndex]
  let reads := if parameters.sizeOfIOA > 1 then reads ++ [startIndex + 1] else reads
  let reads := if parameters.sizeOfIOA > 2 then reads ++ [startIndex + 2] else reads
  reads

/-- The indices read by `SingleCommand_getFromBuffer`. -/
def SingleCommand_getFromBuffer_reads (parameters : ConnectionParameters)
    (msgSize : Int) (startIndex : Int) : List Int :=
  if (msgSize - startIndex) < (parameters.sizeOfIOA + 1) then []
  else
    let reads := InformationObject_getFromBuffer_reads parameters startIndex
    let startIndex := startIndex + parameters.sizeOfIOA
    reads ++ [startIndex]

/-- The indices read by `SetpointCommandNormalized_getFromBuffer`. -/
def SetpointCommandNormalized_getFromBuffer_reads (parameters : ConnectionParameters)
    (msgSize : Int) (startIndex : Int) : List Int :=
  if (msgSize - startIndex) < (parameters.sizeOfIOA + 3) then []
  else
    let reads := InformationObject_getFromBuffer_reads parameters startIndex
    let startIndex := startIndex + parameters.sizeOfIOA
    let reads := reads ++ [startIndex]
    let startIndex := startIndex + 1
    let reads := reads ++ [startIndex]
    let startIndex := startIndex + 1
    reads ++ [startIndex]

/-- The indices read by `SetpointCommandShort_getFromBuffer`. -/
def SetpointCommandShort_getFromBuffer_reads (parameters : ConnectionParameters)
    (msgSize : Int) (startIndex : Int) : List Int :=
  if (msgSize - startIndex) < (parameters.sizeOfIOA + 5) then []
  else
    let reads := InformationObject_getFromBuffer_reads parameters startIndex
    let startIndex := startIndex + parameters.sizeOfIOA
    let reads := reads ++ [startIndex]
    let startIndex := startIndex + 1
    let reads := reads ++ [startIndex]
    let startIndex := startIndex + 1
    let reads := reads ++ [startIndex]
    let startIndex := startIndex + 1
    let reads := reads ++ [startIndex]
    let startIndex := startIndex + 1
    reads ++ [startIndex]

/-- The indices read by `Bitstring32Command_getFromBuffer`. -/
def Bitstring32Command_getFromBuffer_reads (parameters : ConnectionParameters)
    (msgSize : Int) (startIndex : Int) : List Int :=
  if (msgSize - startIndex) < (parameters.sizeOfIOA + 4) then []
  else
    let reads := InformationObject_getFromBuffer_reads parameters startIndex
    let startIndex := startIndex + parameters.sizeOfIOA
    let reads := reads ++ [startIndex]
    let startIndex := startIndex + 1
    let reads := reads ++ [startIndex]
    let startIndex := startIndex + 1
    let reads := reads ++ [startIndex]
    let startIndex := startIndex + 1
    reads ++ [startIndex]

/-- The indices read by `ReadCommand_getFromBuffer`. -/
def ReadCommand_getFromBuffer_reads (parameters : ConnectionParameters)
    (msgSize : Int) (startIndex : Int) : List Int :=
  if (msgSize - startIndex) < (parameters.sizeOfIOA) then []
  else InformationObject_getFromBuffer_reads parameters startIndex

/-- The indices read by `InterrogationCommand_getFromBuffer`. -/
def InterrogationCommand_getFromBuffer_reads (parameters : ConnectionParameters)
    (msgSize : Int) (startIndex : Int) : List Int :=
  if (msgSize - startIndex) < (parameters.sizeOfIOA + 1) then []
  else
    let reads := InformationObject_getFromBuffer_reads parameters startIndex
    let startIndex := startIndex + parameters.sizeOfIOA
    reads ++ [startIndex]

/-! ## Theorems -/

set_option maxRecDepth 100000
set_option maxHeartbeats 2000000

theorem toU8_lt (x : Int) : toU8 x < 256 := by
  unfold toU8
  omega

theorem toU8_of_nat_lt (n : Nat) (h : n < 256) : toU8 (n : Int) = n := by
  unfold toU8
  omega

/-- Shape of `setScaledValue` on the representable range, in terms of `/` and `%`. -/
theorem setScaledValue_eq (x : Int) (hlo : -32768 ≤ x) (hhi : x ≤ 32767) :
    setScaledValue x =
      (((if x < 0 then x + 65536 else x) % 256).toNat,
       ((if x < 0 then x + 65536 else x) / 256).toNat) := by
  unfold setScaledValue toU8
  have h0 : (0 : Int) ≤ (if x < 0 then x + 65536 else x) := by split <;> omega
  have h1 : (if x < 0 then x + 65536 else x) < 65536 := by split <;> omega
  simp only [Int.tmod_eq_emod h0 (by decide : (0 : Int) ≤ 256),
    Int.tdiv_eq_ediv h0 (by decide : (0 : Int) ≤ 256)]
  congr 1
  · congr 1; omega
  · congr 1; omega

theorem getScaledValue_setScaledValue (x : Int) (hlo : -32768 ≤ x) (hhi : x ≤ 32767) :
    getScaledValue (setScaledValue x) = x := by
  rw [setScaledValue_eq x hlo hhi]
  unfold getScaledValue
  by_cases hx : x < 0
  · simp only [hx, if_true]
    split <;> omega
  · simp only [hx, if_false]
    split <;> omega

theorem setScaledValue_getScaledValue (b0 b1 : Nat) (h0 : b0 < 256) (h1 : b1 < 256) :
    setScaledValue (getScaledValue (b0, b1)) = (b0, b1) := by
  have hr : -32768 ≤ getScaledValue (b0, b1) ∧ getScaledValue (b0, b1) ≤ 32767 := by
    unfold getScaledValue
    simp only
    split <;> omega
  rw [setScaledValue_eq _ hr.1 hr.2]
  unfold getScaledValue
  simp only
  by_cases hv : (b0 : Int) + (b1 : Int) * 0x100 > 32767
  · simp only [hv, if_true]
    ext
    · simp only; split <;> omega
    · simp only; split <;> omega
  · simp only [hv, if_false]
    ext
    · simp only; split <;> omega
    · simp only; split <;> omega

/-- C1: for every integer `x` with `-32768 ≤ x ≤ 32767`, `getScaledValue` applied to the
two bytes written by `setScaledValue x` returns `x`. -/
theorem C1_getScaledValue_setScaledValue (x : Int) (hlo : -32768 ≤ x) (hhi : x ≤ 32767) :
    getScaledValue (setScaledValue x) = x :=
  getScaledValue_setScaledValue x hlo hhi

theorem C1_getScaledValue_setScaledValue_witness :
    getScaledValue (setScaledValue (-1)) = -1 :=
  C1_getScaledValue_setScaledValue (-1) (by decide) (by decide)

/-- C2: for every pair of wire bytes `(b0, b1)`, `setScaledValue` applied to
`getScaledValue (b0, b1)` writes back exactly `(b0, b1)`; the decoded value lies in
`-32768..32767`, and conversely every integer of that range is written as two bytes from
which `getScaledValue` recovers it, so the codec is a bijection between the 16-bit wire
values and the integers `-32768..32767`. -/
theorem C2_setScaledValue_getScaledValue (b0 b1 : Nat) (h0 : b0 < 256) (h1 : b1 < 256) :
    setScaledValue (getScaledValue (b0, b1)) = (b0, b1) ∧
    (-32768 ≤ getScaledValue (b0, b1) ∧ getScaledValue (b0, b1) ≤ 32767) ∧
    (∀ x : Int, -32768 ≤ x → x ≤ 32767 →
      (setScaledValue x).1 < 256 ∧ (setScaledValue x).2 < 256 ∧
      getScaledValue (setScaledValue x) = x) := by
  refine ⟨setScaledValue_getScaledValue b0 b1 h0 h1, ?_, ?_⟩
  · unfold getScaledValue
    simp only
    split <;> omega
  · intro x hlo hhi
    exact ⟨toU8_lt _, toU8_lt _, getScaledValue_setScaledValue x hlo hhi⟩

theorem C2_setScaledValue_getScaledValue_witness :
    setScaledValue (getScaledValue (0x01, 0x80)) = (0x01, 0x80) ∧
    (-32768 ≤ getScaledValue (0x01, 0x80) ∧ getScaledValue (0x01, 0x80) ≤ 32767) ∧
    (∀ x : Int, -32768 ≤ x → x ≤ 32767 →
      (setScaledValue x).1 < 256 ∧ (setScaledValue x).2 < 256 ∧
      getScaledValue (setScaledValue x) = x) :=
  C2_setScaledValue_getScaledValue 0x01 0x80 (by decide) (by decide)

/-! ### Addressing -/

theorem land_0xff (a : Int) (h : 0 ≤ a) : Int.land a 0xff = a % 256 := by
  obtain ⟨n, rfl⟩ := Int.eq_ofNat_of_zero_le h
  show ((n &&& 255 : Nat) : Int) = _
  rw [show (255 : Nat) = 2 ^ 8 - 1 from rfl, Nat.and_pow_two_sub_one_eq_mod]
  omega

/-- Encoders only append: the bytes already in the frame are kept. -/
theorem encodeBase_append (self : InformationObject) (frame : Frame)
    (parameters : ConnectionParameters) :
    InformationObject_encodeBase self frame parameters =
      frame ++ InformationObject_encodeBase self [] parameters := by
  unfold InformationObject_encodeBase Frame_setNextByte
  by_cases h1 : parameters.sizeOfIOA > 1 <;> by_cases h2 : parameters.sizeOfIOA > 2 <;>
    simp [h1, h2]

/-- The address field has `sizeOfIOA` bytes when that is 1, 2 or 3, whatever the address. -/
theorem encodeBase_length (self : InformationObject) (w : Nat)
    (hw : w = 1 ∨ w = 2 ∨ w = 3) :
    (InformationObject_encodeBase self [] ⟨(w : Int)⟩).length = w := by
  unfold InformationObject_encodeBase Frame_setNextByte
  rcases hw with rfl | rfl | rfl <;> simp

theorem readByte_append (pre l : List Nat) (k : Nat) :
    readByte (pre ++ l) ((pre.length : Int) + (k : Int)) = l.getD k 0 := by
  unfold readByte
  have h : ¬ ((pre.length : Int) + (k : Int) < 0) := by omega
  rw [if_neg h]
  have e : ((pre.length : Int) + (k : Int)).toNat = pre.length + k := by omega
  rw [e]
  simp [List.getD_eq_getElem?_getD, List.getElem?_append_right]

theorem readByte_append_zero (pre l : List Nat) :
    readByte (pre ++ l) (pre.length : Int) = l.getD 0 0 := by
  have h := readByte_append pre l 0
  simpa using h

/-- The address bytes written for a non-negative address: its little-endian low-order
bytes. -/
theorem encodeBase_bytes (self : InformationObject) (w : Nat)
    (hw : w = 1 ∨ w = 2 ∨ w = 3) (h0 : 0 ≤ self.objectAddress) :
    InformationObject_encodeBase self [] ⟨(w : Int)⟩ =
      (List.range w).map (fun i => (self.objectAddress / 256 ^ i % 256).toNat) := by
  have d1 : Int.tdiv self.objectAddress 0x100 = self.objectAddress / 256 :=
    Int.tdiv_eq_ediv h0 (by decide)
  have d2 : Int.tdiv self.objectAddress 0x10000 = self.objectAddress / 65536 :=
    Int.tdiv_eq_ediv h0 (by decide)
  have n1 : 0 ≤ self.objectAddress / 256 := by omega
  have n2 : 0 ≤ self.objectAddress / 65536 := by omega
  unfold InformationObject_encodeBase Frame_setNextByte toU8
  rw [d1, d2, land_0xff _ h0, land_0xff _ n1, land_0xff _ n2]
  rcases hw with rfl | rfl | rfl <;> simp [List.range_succ]

/-- Reading the address back from a buffer that holds, from `startIndex` on, the address
bytes of `self` followed by anything. -/
theorem getFromBuffer_encodeBase (self other : InformationObject) (pre rest : List Nat)
    (w : Nat) (hw : w = 1 ∨ w = 2 ∨ w = 3) (h0 : 0 ≤ self.objectAddress) :
    (InformationObject_getFromBuffer other ⟨(w : Int)⟩
        (InformationObject_encodeBase self pre ⟨(w : Int)⟩ ++ rest)
        (pre.length : Int)).objectAddress = self.objectAddress % 256 ^ w := by
  rw [encodeBase_append, encodeBase_bytes self w hw h0, List.append_assoc]
  unfold InformationObject_getFromBuffer
  have r0 := readByte_append pre
    ((List.range w).map (fun i => (self.objectAddress / 256 ^ i % 256).toNat) ++ rest) 0
  have r1 := readByte_append pre
    ((List.range w).map (fun i => (self.objectAddress / 256 ^ i % 256).toNat) ++ rest) 1
  have r2 := readByte_append pre
    ((List.range w).map (fun i => (self.objectAddress / 256 ^ i % 256).toNat) ++ rest) 2
  simp only [Nat.cast_zero, add_zero, Nat.cast_one, Nat.cast_ofNat] at r0 r1 r2
  simp only [r0, r1, r2]
  rcases hw with rfl | rfl | rfl
  · simp [List.range_succ]
    omega
  · simp [List.range_succ]
    omega
  · simp [List.range_succ]
    omega

/-- C3: for every address width `w ∈ {1,2,3}` and every address `0 ≤ a < 2^24`,
`InformationObject_encodeBase` appends exactly `w` bytes, the little-endian low-order
bytes of `a`, and `InformationObject_getFromBuffer` on those bytes yields `a mod 256^w`,
hence `a` itself whenever `a < 256^w`. -/
theorem C3_address_width (self other : InformationObject) (frame : Frame) (w : Nat)
    (hw : w = 1 ∨ w = 2 ∨ w = 3) (h0 : 0 ≤ self.objectAddress)
    (h1 : self.objectAddress < 2 ^ 24) :
    InformationObject_encodeBase self frame ⟨(w : Int)⟩ =
      frame ++ (List.range w).map (fun i => (self.objectAddress / 256 ^ i % 256).toNat) ∧
    (InformationObject_encodeBase self frame ⟨(w : Int)⟩).length = frame.length + w ∧
    (InformationObject_getFromBuffer other ⟨(w : Int)⟩
        (InformationObject_encodeBase self frame ⟨(w : Int)⟩)
        (frame.length : Int)).objectAddress = self.objectAddress % 256 ^ w ∧
    (self.objectAddress < 256 ^ w →
      (InformationObject_getFromBuffer other ⟨(w : Int)⟩
        (InformationObject_encodeBase self frame ⟨(w : Int)⟩)
        (frame.length : Int)).objectAddress = self.objectAddress) := by
  have hdec := getFromBuffer_encodeBase self other frame [] w hw h0
  rw [List.append_nil] at hdec
  refine ⟨?_, ?_, hdec, ?_⟩
  · rw [encodeBase_append, encodeBase_bytes self w hw h0]
  · rw [encodeBase_append, List.length_append, encodeBase_length self w hw]
  · intro hlt
    rw [hdec]
    exact Int.emod_eq_of_lt h0 hlt

theorem C3_address_width_witness :
    InformationObject_encodeBase ⟨0x12345, TypeID.unset, InformationObjectVFT.null⟩ [7]
        ⟨((2 : Nat) : Int)⟩ =
      [7] ++ (List.range 2).map (fun i => ((0x12345 : Int) / 256 ^ i % 256).toNat) ∧
    (InformationObject_getFromBuffer InformationObject.zeroed ⟨((2 : Nat) : Int)⟩
        (InformationObject_encodeBase ⟨0x12345, TypeID.unset, InformationObjectVFT.null⟩ [7]
          ⟨((2 : Nat) : Int)⟩)
        (([7] : List Nat).length : Int)).objectAddress = (0x12345 : Int) % 256 ^ 2 :=
  have h := C3_address_width ⟨0x12345, TypeID.unset, InformationObjectVFT.null⟩
    InformationObject.zeroed [7] 2 (by decide) (by decide) (by decide)
  ⟨h.1, h.2.2.1⟩

/-! ### Measured values -/

/-- Decoding what `MeasuredValueScaled_encode` appended: the address modulo `256^w`, the
two value bytes and the quality byte of the encoded object. -/
theorem MeasuredValueScaled_getFromBuffer_encode (obj : MeasuredValueScaled)
    (storage : Option MeasuredValueScaled) (frame : Frame) (msgSize : Int) (w : Nat)
    (hw : w = 1 ∨ w = 2 ∨ w = 3) (h0 : 0 ≤ obj.objectAddress) :
    (MeasuredValueScaled_getFromBuffer storage ⟨(w : Int)⟩
        (MeasuredValueScaled_encode obj frame ⟨(w : Int)⟩) msgSize
        (frame.length : Int)).objectAddress = obj.objectAddress % 256 ^ w ∧
    (MeasuredValueScaled_getFromBuffer storage ⟨(w : Int)⟩
        (MeasuredValueScaled_encode obj frame ⟨(w : Int)⟩) msgSize
        (frame.length : Int)).encodedValue = obj.encodedValue ∧
    (MeasuredValueScaled_getFromBuffer storage ⟨(w : Int)⟩
        (MeasuredValueScaled_encode obj frame ⟨(w : Int)⟩) msgSize
        (frame.length : Int)).quality = obj.quality % 256 := by
  have henc : MeasuredValueScaled_encode obj frame ⟨(w : Int)⟩ =
      InformationObject_encodeBase obj.toInformationObject frame ⟨(w : Int)⟩ ++
        [obj.encodedValue.1, obj.encodedValue.2, obj.quality % 256] := by
    simp [MeasuredValueScaled_encode, MeasuredValueNormalized_encode,
      MeasuredValueScaled.asNormalized, Frame_setNextByte]
  have hlen : (InformationObject_encodeBase obj.toInformationObject frame ⟨(w : Int)⟩).length
      = frame.length + w := by
    rw [encodeBase_append, List.length_append, encodeBase_length _ w hw]
  have r0 := readByte_append (InformationObject_encodeBase obj.toInformationObject frame ⟨(w : Int)⟩)
    [obj.encodedValue.1, obj.encodedValue.2, obj.quality % 256] 0
  have r1 := readByte_append (InformationObject_encodeBase obj.toInformationObject frame ⟨(w : Int)⟩)
    [obj.encodedValue.1, obj.encodedValue.2, obj.quality % 256] 1
  have r2 := readByte_append (InformationObject_encodeBase obj.toInformationObject frame ⟨(w : Int)⟩)
    [obj.encodedValue.1, obj.encodedValue.2, obj.quality % 256] 2
  rw [hlen] at r0 r1 r2
  simp only [Nat.cast_zero, add_zero, Nat.cast_one, Nat.cast_ofNat, Nat.cast_add,
    List.getD_cons_zero, List.getD_cons_succ] at r0 r1 r2
  rw [henc]
  refine ⟨?_, ?_, ?_⟩
  · have ha := getFromBuffer_encodeBase obj.toInformationObject
      (match storage with
        | none => MeasuredValueScaled_initialize MeasuredValueScaled.zeroed
        | some s => s).toInformationObject frame
      [obj.encodedValue.1, obj.encodedValue.2, obj.quality % 256] w hw h0
    simpa [MeasuredValueScaled_getFromBuffer] using ha
  · simp only [MeasuredValueScaled_getFromBuffer, r0, r1]
  · have e : ((frame.length : Int) + (w : Int) + 1 + 1) = (frame.length : Int) + (w : Int) + 2 := by
      omega
    simp only [MeasuredValueScaled_getFromBuffer, e, r2]

/-- C4: for every width `w ∈ {1,2,3}`, address `0 ≤ a < 256^w`, value `v ∈ [-32768, 32767]`
and quality byte `q`, decoding with `MeasuredValueScaled_getFromBuffer` the bytes produced
by encoding `MeasuredValueScaled_create(a, v, q)` yields an object with address `a`,
`MeasuredValueScaled_getValue = v` and `MeasuredValueScaled_getQuality = q`. -/
theorem C4_MeasuredValueScaled_roundtrip (self storage : Option MeasuredValueScaled)
    (frame : Frame) (msgSize : Int) (w : Nat) (a v : Int) (q : Nat)
    (hw : w = 1 ∨ w = 2 ∨ w = 3) (ha0 : 0 ≤ a) (ha1 : a < 256 ^ w)
    (hv0 : -32768 ≤ v) (hv1 : v ≤ 32767) (hq : q < 256) :
    (MeasuredValueScaled_getFromBuffer storage ⟨(w : Int)⟩
        (MeasuredValueScaled_encode (MeasuredValueScaled_create self a v q) frame ⟨(w : Int)⟩)
        msgSize (frame.length : Int)).objectAddress = a ∧
    MeasuredValueScaled_getValue
      (MeasuredValueScaled_getFromBuffer storage ⟨(w : Int)⟩
        (MeasuredValueScaled_encode (MeasuredValueScaled_create self a v q) frame ⟨(w : Int)⟩)
        msgSize (frame.length : Int)) = v ∧
    MeasuredValueScaled_getQuality
      (MeasuredValueScaled_getFromBuffer storage ⟨(w : Int)⟩
        (MeasuredValueScaled_encode (MeasuredValueScaled_create self a v q) frame ⟨(w : Int)⟩)
        msgSize (frame.length : Int)) = q := by
  have hobj : (MeasuredValueScaled_create self a v q).objectAddress = a := rfl
  have hval : (MeasuredValueScaled_create self a v q).encodedValue = setScaledValue v := rfl
  have hqual : (MeasuredValueScaled_create self a v q).quality = q := rfl
  obtain ⟨h1, h2, h3⟩ := MeasuredValueScaled_getFromBuffer_encode
    (MeasuredValueScaled_create self a v q) storage frame msgSize w hw (by rw [hobj]; exact ha0)
  refine ⟨?_, ?_, ?_⟩
  · rw [h1, hobj]
    exact Int.emod_eq_of_lt ha0 ha1
  · unfold MeasuredValueScaled_getValue
    rw [h2, hval]
    exact getScaledValue_setScaledValue v hv0 hv1
  · unfold MeasuredValueScaled_getQuality
    rw [h3, hqual]
    exact Nat.mod_eq_of_lt hq

theorem C4_MeasuredValueScaled_roundtrip_witness :
    (MeasuredValueScaled_getFromBuffer none ⟨((2 : Nat) : Int)⟩
        (MeasuredValueScaled_encode (MeasuredValueScaled_create none 300 (-2) 0x80) [1, 2]
          ⟨((2 : Nat) : Int)⟩)
        5 (([1, 2] : List Nat).length : Int)).objectAddress = 300 ∧
    MeasuredValueScaled_getValue
      (MeasuredValueScaled_getFromBuffer none ⟨((2 : Nat) : Int)⟩
        (MeasuredValueScaled_encode (MeasuredValueScaled_create none 300 (-2) 0x80) [1, 2]
          ⟨((2 : Nat) : Int)⟩)
        5 (([1, 2] : List Nat).length : Int)) = -2 ∧
    MeasuredValueScaled_getQuality
      (MeasuredValueScaled_getFromBuffer none ⟨((2 : Nat) : Int)⟩
        (MeasuredValueScaled_encode (MeasuredValueScaled_create none 300 (-2) 0x80) [1, 2]
          ⟨((2 : Nat) : Int)⟩)
        5 (([1, 2] : List Nat).length : Int)) = 0x80 :=
  C4_MeasuredValueScaled_roundtrip none none [1, 2] 5 2 300 (-2) 0x80 (by decide) (by decide)
    (by decide) (by decide) (by decide) (by decide)

/-! ### Concrete scenarios -/

/-- C5: encoding `SinglePointInformation_create(address=100, value=true, quality=0)` with
`sizeOfIOA = 2` appends exactly the bytes `[0x64, 0x00, 0x01]`, and
`SinglePointInformation_getFromBuffer` on those bytes with `sizeOfIOA = 2` yields address
100, value true and quality 0. -/
theorem C5_SinglePointInformation_scenario (self storage : Option SinglePointInformation)
    (frame : Frame) (msgSize : Int) :
    SinglePointInformation_encode (SinglePointInformation_create self 100 true 0) frame ⟨2⟩ =
      frame ++ [0x64, 0x00, 0x01] ∧
    (SinglePointInformation_getFromBuffer storage ⟨2⟩ [0x64, 0x00, 0x01] msgSize
      0).objectAddress = 100 ∧
    SinglePointInformation_getValue
      (SinglePointInformation_getFromBuffer storage ⟨2⟩ [0x64, 0x00, 0x01] msgSize 0) = true ∧
    SinglePointInformation_getQuality
      (SinglePointInformation_getFromBuffer storage ⟨2⟩ [0x64, 0x00, 0x01] msgSize 0) = 0 := by
  refine ⟨?_, ?_, ?_, ?_⟩
  · rw [SinglePointInformation_encode, encodeBase_append]
    have hb : InformationObject_encodeBase
        (SinglePointInformation_create self 100 true 0).toInformationObject [] ⟨2⟩ =
        [0x64, 0x00] := by
      cases self <;> rfl
    have hq : (SinglePointInformation_create self 100 true 0).quality = 0 := rfl
    have hv : (SinglePointInformation_create self 100 true 0).value = true := rfl
    simp [hb, hq, hv, Frame_setNextByte]
  · cases storage <;> rfl
  · cases storage <;> rfl
  · cases storage <;> rfl

/-- C6: encoding `SingleCommand_create(ioa=5, command=true, selectCommand=true, qu=3)`
with `sizeOfIOA = 1` appends exactly the bytes `[0x05, 0x8D]`. -/
theorem C6_SingleCommand_scenario (self : Option SingleCommand) (frame : Frame) :
    SingleCommand_encode (SingleCommand_create self 5 true true 3) frame ⟨1⟩ =
      frame ++ [0x05, 0x8D] := by
  rw [SingleCommand_encode, encodeBase_append]
  have hb : InformationObject_encodeBase
      (SingleCommand_create self 5 true true 3).toInformationObject [] ⟨1⟩ = [0x05] := by
    cases self <;> rfl
  have hs : (SingleCommand_create self 5 true true 3).sco = 0x8D := by
    cases self <;> rfl
  simp [hb, hs, Frame_setNextByte]

/-- C7: `MeasuredValueScaled_create` with value `-1` and quality 0 stores the
`encodedValue` bytes `[0xFF, 0xFF]`, and its encoding is the address bytes followed by
`0xFF, 0xFF, 0x00`. -/
theorem C7_MeasuredValueScaled_minus_one (self : Option MeasuredValueScaled) (ioa : Int)
    (frame : Frame) (parameters : ConnectionParameters) :
    (MeasuredValueScaled_create self ioa (-1) 0).encodedValue = (0xFF, 0xFF) ∧
    MeasuredValueScaled_encode (MeasuredValueScaled_create self ioa (-1) 0) frame parameters =
      InformationObject_encodeBase
        (MeasuredValueScaled_create self ioa (-1) 0).toInformationObject frame parameters ++
        [0xFF, 0xFF, 0x00] := by
  have he : (MeasuredValueScaled_create self ioa (-1) 0).encodedValue = (0xFF, 0xFF) := by
    show setScaledValue (-1) = (0xFF, 0xFF)
    decide
  have hq : (MeasuredValueScaled_create self ioa (-1) 0).quality = 0 := rfl
  refine ⟨he, ?_⟩
  simp [MeasuredValueScaled_encode, MeasuredValueNormalized_encode,
    MeasuredValueScaled.asNormalized, Frame_setNextByte, he, hq]

/-! ### Step position -/

theorem vti_bits : ∀ n : Nat, n < 128 →
    ((n ||| 0x80) % 256) &&& 0x7f = n ∧ ((n ||| 0x80) % 256) &&& 0x80 = 0x80 ∧
    n &&& 0x7f = n ∧ n &&& 0x80 = 0 := by
  decide

/-- The value and transient flag read from a freshly created step position: the value is
the requested one clamped to `-64..63`. -/
theorem StepPositionInformation_create_read (self : Option StepPositionInformation)
    (ioa value : Int) (isTransient : Bool) (quality : Nat) :
    StepPositionInformation_getValue
      (StepPositionInformation_create self ioa value isTransient quality) =
      (if value > 63 then 63 else if value < -64 then -64 else value) ∧
    StepPositionInformation_isTransient
      (StepPositionInformation_create self ioa value isTransient quality) = isTransient := by
  generalize hc : (if value > 63 then (63 : Int) else if value < -64 then -64 else value) = c
  have hc0 : -64 ≤ c := by rw [← hc]; split <;> [omega; split <;> omega]
  have hc1 : c ≤ 63 := by rw [← hc]; split <;> [omega; split <;> omega]
  generalize hn : toU8 (if c < 0 then c + 128 else c) = n
  have hn0 : n < 128 := by
    rw [← hn]; unfold toU8; split <;> omega
  have hn1 : (n : Int) = if c < 0 then c + 128 else c := by
    rw [← hn]; unfold toU8; split <;> omega
  have hvti : (StepPositionInformation_create self ioa value isTransient quality).vti =
      if isTransient then (n ||| 0x80) % 256 else n := by
    rw [← hn, ← hc]; rfl
  obtain ⟨b1, b2, b3, b4⟩ := vti_bits n hn0
  unfold StepPositionInformation_getValue StepPositionInformation_isTransient
  rw [hvti]
  cases isTransient
  · simp only [Bool.false_eq_true, if_false, b3, b4]
    refine ⟨?_, by decide⟩
    split at hn1 <;> split <;> omega
  · simp only [if_true, b1, b2]
    refine ⟨?_, by decide⟩
    split at hn1 <;> split <;> omega

/-- Decoding what `StepPositionInformation_encode` appended: the value-with-transient
byte and the quality byte of the encoded object. -/
theorem StepPositionInformation_getFromBuffer_encode (obj : StepPositionInformation)
    (storage : Option StepPositionInformation) (frame : Frame) (msgSize : Int) (w : Nat)
    (hw : w = 1 ∨ w = 2 ∨ w = 3) :
    (StepPositionInformation_getFromBuffer storage ⟨(w : Int)⟩
        (StepPositionInformation_encode obj frame ⟨(w : Int)⟩) msgSize
        (frame.length : Int)).vti = obj.vti ∧
    (StepPositionInformation_getFromBuffer storage ⟨(w : Int)⟩
        (StepPositionInformation_encode obj frame ⟨(w : Int)⟩) msgSize
        (frame.length : Int)).quality = obj.quality % 256 := by
  have henc : StepPositionInformation_encode obj frame ⟨(w : Int)⟩ =
      InformationObject_encodeBase obj.toInformationObject frame ⟨(w : Int)⟩ ++
        [obj.vti, obj.quality % 256] := by
    simp [StepPositionInformation_encode, Frame_setNextByte]
  have hlen : (InformationObject_encodeBase obj.toInformationObject frame ⟨(w : Int)⟩).length
      = frame.length + w := by
    rw [encodeBase_append, List.length_append, encodeBase_length _ w hw]
  have r0 := readByte_append
    (InformationObject_encodeBase obj.toInformationObject frame ⟨(w : Int)⟩)
    [obj.vti, obj.quality % 256] 0
  have r1 := readByte_append
    (InformationObject_encodeBase obj.toInformationObject frame ⟨(w : Int)⟩)
    [obj.vti, obj.quality % 256] 1
  rw [hlen] at r0 r1
  simp only [Nat.cast_zero, add_zero, Nat.cast_one, Nat.cast_add,
    List.getD_cons_zero, List.getD_cons_succ] at r0 r1
  rw [henc]
  refine ⟨?_, ?_⟩
  · simp only [StepPositionInformation_getFromBuffer, r0]
  · simp only [StepPositionInformation_getFromBuffer, r1]

/-- C8: for every step position `-64 ≤ p ≤ 63`, every transient flag `t` and every quality
byte `q`, the object built by `StepPositionInformation_create(p, t, q)`, encoded and decoded
again with `StepPositionInformation_getFromBuffer` (address width 1, 2 or 3), has
`StepPositionInformation_getValue = p`, `StepPositionInformation_isTransient = t` and
quality `q`. -/
theorem C8_StepPositionInformation_roundtrip (self storage : Option StepPositionInformation)
    (frame : Frame) (msgSize : Int) (w : Nat) (ioa p : Int) (t : Bool) (q : Nat)
    (hw : w = 1 ∨ w = 2 ∨ w = 3) (hp0 : -64 ≤ p) (hp1 : p ≤ 63) (hq : q < 256) :
    StepPositionInformation_getValue
      (StepPositionInformation_getFromBuffer storage ⟨(w : Int)⟩
        (StepPositionInformation_encode (StepPositionInformation_create self ioa p t q) frame
          ⟨(w : Int)⟩) msgSize (frame.length : Int)) = p ∧
    StepPositionInformation_isTransient
      (StepPositionInformation_getFromBuffer storage ⟨(w : Int)⟩
        (StepPositionInformation_encode (StepPositionInformation_create self ioa p t q) frame
          ⟨(w : Int)⟩) msgSize (frame.length : Int)) = t ∧
    StepPositionInformation_getQuality
      (StepPositionInformation_getFromBuffer storage ⟨(w : Int)⟩
        (StepPositionInformation_encode (StepPositionInformation_create self ioa p t q) frame
          ⟨(w : Int)⟩) msgSize (frame.length : Int)) = q := by
  obtain ⟨h1, h2⟩ := StepPositionInformation_getFromBuffer_encode
    (StepPositionInformation_create self ioa p t q) storage frame msgSize w hw
  obtain ⟨g1, g2⟩ := StepPositionInformation_create_read self ioa p t q
  have hqual : (StepPositionInformation_create self ioa p t q).quality = q := rfl
  unfold StepPositionInformation_getValue at g1
  unfold StepPositionInformation_isTransient at g2
  unfold StepPositionInformation_getValue StepPositionInformation_isTransient
    StepPositionInformation_getQuality
  rw [h1, h2, hqual]
  refine ⟨?_, g2, Nat.mod_eq_of_lt hq⟩
  rw [g1]
  split <;> [omega; split <;> omega]

theorem C8_StepPositionInformation_roundtrip_witness :
    StepPositionInformation_getValue
      (StepPositionInformation_getFromBuffer none ⟨((1 : Nat) : Int)⟩
        (StepPositionInformation_encode (StepPositionInformation_create none 9 (-64) true 0x10)
          [] ⟨((1 : Nat) : Int)⟩) 3 (([] : List Nat).length : Int)) = -64 ∧
    StepPositionInformation_isTransient
      (StepPositionInformation_getFromBuffer none ⟨((1 : Nat) : Int)⟩
        (StepPositionInformation_encode (StepPositionInformation_create none 9 (-64) true 0x10)
          [] ⟨((1 : Nat) : Int)⟩) 3 (([] : List Nat).length : Int)) = true ∧
    StepPositionInformation_getQuality
      (StepPositionInformation_getFromBuffer none ⟨((1 : Nat) : Int)⟩
        (StepPositionInformation_encode (StepPositionInformation_create none 9 (-64) true 0x10)
          [] ⟨((1 : Nat) : Int)⟩) 3 (([] : List Nat).length : Int)) = 0x10 :=
  C8_StepPositionInformation_roundtrip none none [] 3 1 9 (-64) true 0x10 (by decide)
    (by decide) (by decide) (by decide)

/-- C9: for every integer `p > 63`, `StepPositionInformation_getValue` of
`StepPositionInformation_create(p, t, q)` is 63, and for every integer `p < -64` it is
`-64`, in both cases with the transient flag read back equal to `t` (so 64 clamps to 63
and -65 clamps to -64). -/
theorem C9_StepPositionInformation_clamp (self : Option StepPositionInformation)
    (ioa p : Int) (t : Bool) (q : Nat) :
    (p > 63 →
      StepPositionInformation_getValue (StepPositionInformation_create self ioa p t q) = 63 ∧
      StepPositionInformation_isTransient (StepPositionInformation_create self ioa p t q)
        = t) ∧
    (p < -64 →
      StepPositionInformation_getValue (StepPositionInformation_create self ioa p t q) = -64 ∧
      StepPositionInformation_isTransient (StepPositionInformation_create self ioa p t q)
        = t) := by
  obtain ⟨g1, g2⟩ := StepPositionInformation_create_read self ioa p t q
  refine ⟨fun h => ⟨?_, g2⟩, fun h => ⟨?_, g2⟩⟩
  · rw [g1, if_pos h]
  · rw [g1, if_neg (by omega), if_pos h]

theorem C9_StepPositionInformation_clamp_witness :
    (StepPositionInformation_getValue (StepPositionInformation_create none 1 64 true 0) = 63 ∧
      StepPositionInformation_isTransient (StepPositionInformation_create none 1 64 true 0)
        = true) ∧
    (StepPositionInformation_getValue (StepPositionInformation_create none 1 (-65) false 0)
        = -64 ∧
      StepPositionInformation_isTransient (StepPositionInformation_create none 1 (-65) false 0)
        = false) :=
  ⟨(C9_StepPositionInformation_clamp none 1 64 true 0).1 (by decide),
   (C9_StepPositionInformation_clamp none 1 (-65) false 0).2 (by decide)⟩

/-! ### Rounding to binary32 -/

theorem roundHalfEven_eq_of_near (z : ℚ) (m : Int) (h : |z - (m : ℚ)| < 1 / 2) :
    roundHalfEven z = m := by
  obtain ⟨h1, h2⟩ := abs_lt.mp h
  unfold roundHalfEven
  by_cases hz : (m : ℚ) ≤ z
  · have hf : ⌊z⌋ = m := by
      rw [Int.floor_eq_iff]
      constructor
      · exact hz
      · linarith
    rw [hf, if_pos (by linarith)]
  · have hz2 : z < m := not_le.mp hz
    have hf : ⌊z⌋ = m - 1 := by
      rw [Int.floor_eq_iff]
      push_cast
      constructor <;> linarith
    rw [hf]
    push_cast
    rw [if_neg (by linarith), if_pos (by linarith)]
    ring

theorem roundHalfEven_intCast (m : Int) : roundHalfEven (m : ℚ) = m :=
  roundHalfEven_eq_of_near _ m (by simp)

theorem roundHalfEven_sub_le (z : ℚ) : |(roundHalfEven z : ℚ) - z| ≤ 1 / 2 := by
  have f1 : ((⌊z⌋ : Int) : ℚ) ≤ z := Int.floor_le z
  have f2 : z < ((⌊z⌋ : Int) : ℚ) + 1 := Int.lt_floor_add_one z
  unfold roundHalfEven
  rw [abs_le]
  split_ifs with h1 h2 h3
  · constructor <;> linarith
  · push_cast; constructor <;> linarith
  · constructor <;> linarith
  · push_cast; constructor <;> linarith

theorem roundHalfEven_mono {a b : ℚ} (h : a ≤ b) : roundHalfEven a ≤ roundHalfEven b := by
  have fm : ⌊a⌋ ≤ ⌊b⌋ := Int.floor_mono h
  have a1 : ((⌊a⌋ : Int) : ℚ) ≤ a := Int.floor_le a
  have a2 : a < ((⌊a⌋ : Int) : ℚ) + 1 := Int.lt_floor_add_one a
  have b1 : ((⌊b⌋ : Int) : ℚ) ≤ b := Int.floor_le b
  have b2 : b < ((⌊b⌋ : Int) : ℚ) + 1 := Int.lt_floor_add_one b
  rcases eq_or_lt_of_le fm with he | hl
  · -- same floor
    unfold roundHalfEven
    rw [← he]
    split_ifs <;> first | omega | (exfalso; linarith)
  · have hl2 : ⌊a⌋ + 1 ≤ ⌊b⌋ := hl
    have ra : roundHalfEven a ≤ ⌊a⌋ + 1 := by
      unfold roundHalfEven; split_ifs <;> omega
    have rb : ⌊b⌋ ≤ roundHalfEven b := by
      unfold roundHalfEven; split_ifs <;> omega
    omega

theorem roundHalfEven_neg (z : ℚ) : roundHalfEven (-z) = -roundHalfEven z := by
  have f1 : ((⌊z⌋ : Int) : ℚ) ≤ z := Int.floor_le z
  have f2 : z < ((⌊z⌋ : Int) : ℚ) + 1 := Int.lt_floor_add_one z
  by_cases hz : z = (⌊z⌋ : ℚ)
  · rw [hz, ← Int.cast_neg, roundHalfEven_intCast, roundHalfEven_intCast]
  · have hlt : ((⌊z⌋ : Int) : ℚ) < z := lt_of_le_of_ne f1 (Ne.symm hz)
    have hn : ⌊-z⌋ = -⌊z⌋ - 1 := by
      rw [Int.floor_eq_iff]
      push_cast
      constructor <;> linarith
    unfold roundHalfEven
    rw [hn]
    push_cast
    split_ifs <;> first | omega | (exfalso; linarith)

theorem roundHalfEven_nonneg {z : ℚ} (h : 0 ≤ z) : 0 ≤ roundHalfEven z := by
  have := roundHalfEven_mono h
  rwa [show ((0 : ℚ)) = ((0 : Int) : ℚ) by simp, roundHalfEven_intCast] at this

/-! ### The binary32 quantum -/

theorem f32Quantum_pos (q : ℚ) : 0 < f32Quantum q := by
  unfold f32Quantum
  positivity

theorem f32Quantum_neg (q : ℚ) : f32Quantum (-q) = f32Quantum q := by
  unfold f32Quantum
  rw [abs_neg]

theorem log_two_eq {q : ℚ} {e : Int} (h1 : (2 : ℚ) ^ e ≤ q) (h2 : q < (2 : ℚ) ^ (e + 1)) :
    Int.log 2 q = e := by
  have hq : 0 < q := lt_of_lt_of_le (by positivity) h1
  have a : e ≤ Int.log 2 q := by
    rw [← Int.zpow_le_iff_le_log (by norm_num) hq]
    simpa using h1
  have b : Int.log 2 q < e + 1 := by
    rw [← Int.lt_zpow_iff_log_lt (by norm_num) hq]
    simpa using h2
  omega

theorem log_two_le {q : ℚ} {e : Int} (hq : 0 < q) (h2 : q < (2 : ℚ) ^ (e + 1)) :
    Int.log 2 q ≤ e := by
  have b : Int.log 2 q < e + 1 := by
    rw [← Int.lt_zpow_iff_log_lt (by norm_num) hq]
    simpa using h2
  omega

theorem two_zpow_log_le {q : ℚ} (hq : 0 < q) : (2 : ℚ) ^ Int.log 2 q ≤ q := by
  have := Int.zpow_log_le_self (b := 2) (by norm_num) hq
  simpa using this

theorem lt_two_zpow_log_succ (q : ℚ) : q < (2 : ℚ) ^ (Int.log 2 q + 1) := by
  have := Int.lt_zpow_succ_log_self (b := 2) (by norm_num) q
  simpa using this

/-- The quantum in a binade of the normal range. -/
theorem f32Quantum_of_binade {q : ℚ} {e : Int} (h1 : (2 : ℚ) ^ e ≤ |q|)
    (h2 : |q| < (2 : ℚ) ^ (e + 1)) (he : -126 ≤ e) : f32Quantum q = 2 ^ (e - 23) := by
  unfold f32Quantum
  rw [log_two_eq h1 h2, max_eq_left he]

theorem f32Quantum_le {q : ℚ} {e : Int} (hq : q ≠ 0) (h2 : |q| < (2 : ℚ) ^ (e + 1))
    (he : -126 ≤ e) : f32Quantum q ≤ 2 ^ (e - 23) := by
  unfold f32Quantum
  apply zpow_le_zpow_right₀ (by norm_num)
  have hp : 0 < |q| := abs_pos.mpr hq
  have := log_two_le hp h2
  have : max (Int.log 2 |q|) (-126) ≤ e := max_le this he
  omega

/-! ### Rounding to binary32 -/

theorem f32_neg (q : ℚ) : f32 (-q) = -f32 q := by
  unfold f32
  rw [f32Quantum_neg, neg_div, roundHalfEven_neg]
  push_cast
  ring

theorem f32_zero : f32 0 = 0 := by
  unfold f32
  rw [zero_div, show ((0 : ℚ)) = ((0 : Int) : ℚ) by simp, roundHalfEven_intCast]
  simp

theorem f32_nonneg {q : ℚ} (h : 0 ≤ q) : 0 ≤ f32 q := by
  unfold f32
  have hu := f32Quantum_pos q
  have : 0 ≤ roundHalfEven (q / f32Quantum q) := roundHalfEven_nonneg (div_nonneg h hu.le)
  have : (0 : ℚ) ≤ (roundHalfEven (q / f32Quantum q) : ℚ) := by exact_mod_cast this
  positivity

/-- The rounding error is at most half the quantum. -/
theorem f32_sub_le (q : ℚ) : |f32 q - q| ≤ f32Quantum q / 2 := by
  have hu := f32Quantum_pos q
  have h := roundHalfEven_sub_le (q / f32Quantum q)
  unfold f32
  have e : (roundHalfEven (q / f32Quantum q) : ℚ) * f32Quantum q - q =
      ((roundHalfEven (q / f32Quantum q) : ℚ) - q / f32Quantum q) * f32Quantum q := by
    field_simp
  rw [e, abs_mul, abs_of_pos hu]
  calc |(roundHalfEven (q / f32Quantum q) : ℚ) - q / f32Quantum q| * f32Quantum q
      ≤ 1 / 2 * f32Quantum q := mul_le_mul_of_nonneg_right h hu.le
    _ = f32Quantum q / 2 := by ring

/-- A rational closer than half a quantum to a multiple of the quantum is rounded to that
multiple. -/
theorem f32_eq_of_near {q : ℚ} {e : Int} (m : Int) (h1 : (2 : ℚ) ^ e ≤ |q|)
    (h2 : |q| < (2 : ℚ) ^ (e + 1)) (he : -126 ≤ e)
    (hm : |q - (m : ℚ) * 2 ^ (e - 23)| < 2 ^ (e - 23) / 2) :
    f32 q = (m : ℚ) * 2 ^ (e - 23) := by
  unfold f32
  rw [f32Quantum_of_binade h1 h2 he]
  have hu : (0 : ℚ) < 2 ^ (e - 23) := by positivity
  rw [roundHalfEven_eq_of_near _ m]
  have e1 : q / 2 ^ (e - 23) - (m : ℚ) = (q - (m : ℚ) * 2 ^ (e - 23)) / 2 ^ (e - 23) := by
    rw [sub_div, mul_div_assoc, div_self hu.ne', mul_one]
  rw [e1, abs_div, abs_of_pos hu, div_lt_iff₀ hu]
  linarith

/-- The binary32 values are the multiples of their quantum. -/
theorem f32_eq_self_iff (q : ℚ) : f32 q = q ↔ ∃ m : Int, q = (m : ℚ) * f32Quantum q := by
  have hu := f32Quantum_pos q
  constructor
  · intro h
    exact ⟨roundHalfEven (q / f32Quantum q), h.symm⟩
  · rintro ⟨m, hm⟩
    unfold f32
    have : q / f32Quantum q = (m : ℚ) := by
      rw [div_eq_iff hu.ne']
      exact hm
    rw [this, roundHalfEven_intCast]
    exact hm.symm

/-- The rounding error of a rational below `2 ^ (e + 1)` in magnitude is at most
`2 ^ (e - 24)`. -/
theorem f32_sub_le_of_lt {q : ℚ} {e : Int} (h2 : |q| < (2 : ℚ) ^ (e + 1)) (he : -126 ≤ e) :
    |f32 q - q| ≤ 2 ^ (e - 23) / 2 := by
  by_cases hq : q = 0
  · subst hq
    rw [f32_zero, sub_zero, abs_zero]
    positivity
  · have := f32_sub_le q
    have := f32Quantum_le hq h2 he
    linarith

/-- Integers below `2 ^ 24` in magnitude are binary32 values. -/
theorem f32_intCast (n : Int) (h : |n| < 2 ^ 24) : f32 (n : ℚ) = n := by
  by_cases hn : n = 0
  · subst hn
    simpa using f32_zero
  rw [f32_eq_self_iff]
  have hpos : (0 : ℚ) < |(n : ℚ)| := abs_pos.mpr (by exact_mod_cast hn)
  have hone : (1 : ℚ) ≤ |(n : ℚ)| := by
    have : (1 : Int) ≤ |n| := Int.one_le_abs hn
    exact_mod_cast this
  have hlt : |(n : ℚ)| < 2 ^ ((23 : Int) + 1) := by
    have h' : |(n : ℚ)| < 16777216 := by
      have : ((|n| : Int) : ℚ) < 16777216 := by exact_mod_cast h
      simpa using this
    have e : (2 : ℚ) ^ ((23 : Int) + 1) = 16777216 := by norm_num
    rw [e]
    exact h'
  have h0 : (0 : Int) ≤ Int.log 2 |(n : ℚ)| := by
    rw [← Int.zpow_le_iff_le_log (by norm_num) hpos]
    simpa using hone
  have h23 : Int.log 2 |(n : ℚ)| ≤ 23 := log_two_le hpos hlt
  unfold f32Quantum
  rw [max_eq_left (by omega)]
  obtain ⟨k, hk⟩ : ∃ k : Nat, Int.log 2 |(n : ℚ)| = 23 - (k : Int) :=
    ⟨(23 - Int.log 2 |(n : ℚ)|).toNat, by omega⟩
  refine ⟨n * 2 ^ k, ?_⟩
  rw [hk]
  have : (23 : Int) - (k : Int) - 23 = -(k : Int) := by ring
  rw [this, zpow_neg, zpow_natCast]
  push_cast
  field_simp

theorem two_pow_23_cast : ((2 ^ 23 : Int) : ℚ) = (2 : ℚ) ^ (23 : Int) := by norm_num

theorem two_pow_24_cast : ((2 ^ 24 : Int) : ℚ) = (2 : ℚ) ^ (24 : Int) := by norm_num

/-- Rounding does not go below the power of two at or below the rational. -/
theorem f32_ge_of_ge {q : ℚ} {e : Int} (h1 : (2 : ℚ) ^ e ≤ q) (he : -126 ≤ e) :
    (2 : ℚ) ^ e ≤ f32 q := by
  have hq : 0 < q := lt_of_lt_of_le (by positivity) h1
  have hL : e ≤ Int.log 2 q := by
    rw [← Int.zpow_le_iff_le_log (by norm_num) hq]
    simpa using h1
  have hu : f32Quantum q = 2 ^ (Int.log 2 q - 23) := by
    unfold f32Quantum
    rw [abs_of_pos hq, max_eq_left (by omega)]
  have hup : (0 : ℚ) < 2 ^ (Int.log 2 q - 23) := by positivity
  have hz : ((2 ^ 23 : Int) : ℚ) ≤ q / 2 ^ (Int.log 2 q - 23) := by
    rw [le_div_iff₀ hup, two_pow_23_cast, ← zpow_add₀ (by norm_num : (2 : ℚ) ≠ 0)]
    have : (23 : Int) + (Int.log 2 q - 23) = Int.log 2 q := by ring
    rw [this]
    exact two_zpow_log_le hq
  have hr := roundHalfEven_mono hz
  rw [roundHalfEven_intCast] at hr
  have hr2 : ((2 ^ 23 : Int) : ℚ) ≤ (roundHalfEven (q / 2 ^ (Int.log 2 q - 23)) : ℚ) := by
    exact_mod_cast hr
  unfold f32
  rw [hu]
  calc (2 : ℚ) ^ e ≤ 2 ^ Int.log 2 q := zpow_le_zpow_right₀ (by norm_num) hL
    _ = ((2 ^ 23 : Int) : ℚ) * 2 ^ (Int.log 2 q - 23) := by
        rw [two_pow_23_cast, ← zpow_add₀ (by norm_num : (2 : ℚ) ≠ 0)]
        congr 1
        ring
    _ ≤ _ := mul_le_mul_of_nonneg_right hr2 hup.le

/-- Rounding does not go above the power of two above the rational. -/
theorem f32_le_of_lt {q : ℚ} {e : Int} (h0 : 0 ≤ q) (h2 : q < (2 : ℚ) ^ (e + 1))
    (he : -126 ≤ e) : f32 q ≤ (2 : ℚ) ^ (e + 1) := by
  rcases eq_or_lt_of_le h0 with hq0 | hq
  · rw [← hq0, f32_zero]
    positivity
  have hL : Int.log 2 q ≤ e := log_two_le hq h2
  have hE : max (Int.log 2 q) (-126) ≤ e := max_le hL he
  have hLE : Int.log 2 q ≤ max (Int.log 2 q) (-126) := le_max_left _ _
  have hu : f32Quantum q = 2 ^ (max (Int.log 2 q) (-126) - 23) := by
    unfold f32Quantum
    rw [abs_of_pos hq]
  have hup : (0 : ℚ) < 2 ^ (max (Int.log 2 q) (-126) - 23) := by positivity
  have hz : q / 2 ^ (max (Int.log 2 q) (-126) - 23) ≤ ((2 ^ 24 : Int) : ℚ) := by
    rw [div_le_iff₀ hup, two_pow_24_cast, ← zpow_add₀ (by norm_num : (2 : ℚ) ≠ 0)]
    have : (24 : Int) + (max (Int.log 2 q) (-126) - 23) = max (Int.log 2 q) (-126) + 1 := by
      ring
    rw [this]
    calc q ≤ 2 ^ (Int.log 2 q + 1) := (lt_two_zpow_log_succ q).le
      _ ≤ _ := zpow_le_zpow_right₀ (by norm_num) (by omega)
  have hr := roundHalfEven_mono hz
  rw [roundHalfEven_intCast] at hr
  have hr2 : (roundHalfEven (q / 2 ^ (max (Int.log 2 q) (-126) - 23)) : ℚ) ≤
      ((2 ^ 24 : Int) : ℚ) := by exact_mod_cast hr
  unfold f32
  rw [hu]
  calc _ ≤ ((2 ^ 24 : Int) : ℚ) * 2 ^ (max (Int.log 2 q) (-126) - 23) :=
        mul_le_mul_of_nonneg_right hr2 hup.le
    _ = 2 ^ (max (Int.log 2 q) (-126) + 1) := by
        rw [two_pow_24_cast, ← zpow_add₀ (by norm_num : (2 : ℚ) ≠ 0)]
        congr 1
        ring
    _ ≤ _ := zpow_le_zpow_right₀ (by norm_num) (by omega)

theorem f32_mono_of_pos {a b : ℚ} (ha : 0 < a) (h : a ≤ b) : f32 a ≤ f32 b := by
  have hb : 0 < b := lt_of_lt_of_le ha h
  have hL : Int.log 2 a ≤ Int.log 2 b := Int.log_mono_right ha h
  have hua : f32Quantum a = 2 ^ (max (Int.log 2 a) (-126) - 23) := by
    unfold f32Quantum
    rw [abs_of_pos ha]
  have hub : f32Quantum b = 2 ^ (max (Int.log 2 b) (-126) - 23) := by
    unfold f32Quantum
    rw [abs_of_pos hb]
  by_cases hE : max (Int.log 2 a) (-126) = max (Int.log 2 b) (-126)
  · have hu : f32Quantum a = f32Quantum b := by rw [hua, hub, hE]
    have hup := f32Quantum_pos b
    unfold f32
    rw [hu]
    have hz : a / f32Quantum b ≤ b / f32Quantum b := div_le_div_of_nonneg_right h hup.le
    have hr := roundHalfEven_mono hz
    have hr2 : (roundHalfEven (a / f32Quantum b) : ℚ) ≤
        (roundHalfEven (b / f32Quantum b) : ℚ) := by exact_mod_cast hr
    exact mul_le_mul_of_nonneg_right hr2 hup.le
  · have hlt : max (Int.log 2 a) (-126) < Int.log 2 b := by
      rcases le_total (Int.log 2 a) (-126) with h1 | h1
      · rw [max_eq_right h1] at hE ⊢
        by_contra hc
        apply hE
        rw [max_eq_right (by omega)]
      · rw [max_eq_left h1] at hE ⊢
        by_contra hc
        apply hE
        rw [max_eq_left (by omega)]
        omega
    have h126 : -126 ≤ max (Int.log 2 a) (-126) := le_max_right _ _
    have hA : f32 a ≤ 2 ^ (max (Int.log 2 a) (-126) + 1) := by
      apply f32_le_of_lt ha.le _ h126
      calc a < 2 ^ (Int.log 2 a + 1) := lt_two_zpow_log_succ a
        _ ≤ _ := zpow_le_zpow_right₀ (by norm_num) (by
          have := le_max_left (Int.log 2 a) (-126)
          omega)
    have hB : (2 : ℚ) ^ Int.log 2 b ≤ f32 b :=
      f32_ge_of_ge (two_zpow_log_le hb) (by omega)
    calc f32 a ≤ 2 ^ (max (Int.log 2 a) (-126) + 1) := hA
      _ ≤ 2 ^ Int.log 2 b := zpow_le_zpow_right₀ (by norm_num) (by omega)
      _ ≤ f32 b := hB

/-- Rounding to binary32 is monotone. -/
theorem f32_mono {a b : ℚ} (h : a ≤ b) : f32 a ≤ f32 b := by
  rcases lt_trichotomy a 0 with ha | ha | ha
  · rcases lt_or_le b 0 with hb | hb
    · have := f32_mono_of_pos (a := -b) (b := -a) (by linarith) (by linarith)
      rw [f32_neg, f32_neg] at this
      linarith
    · have h1 : 0 ≤ f32 (-a) := f32_nonneg (by linarith)
      rw [f32_neg] at h1
      have h2 := f32_nonneg hb
      linarith
  · subst ha
    rw [f32_zero]
    exact f32_nonneg h
  · exact f32_mono_of_pos ha h


/-! ### Round trip of the normalized wire values through binary32 -/

theorem f32_eq_of_near_pow {q P : ℚ} {e : Int} (m : Int) (hP : P = 2 ^ e) (he : -126 ≤ e)
    (h1 : P ≤ |q|) (h2 : |q| < 2 * P)
    (hm : |q - (m : ℚ) * (P / 8388608)| < P / 16777216) :
    f32 q = (m : ℚ) * (P / 8388608) := by
  have e1 : (2 : ℚ) ^ (e + 1) = 2 * P := by
    rw [zpow_add₀ (by norm_num : (2 : ℚ) ≠ 0), hP]
    ring
  have e2 : (2 : ℚ) ^ (e - 23) = P / 8388608 := by
    rw [zpow_sub₀ (by norm_num : (2 : ℚ) ≠ 0), hP]
    norm_num
  have := f32_eq_of_near (q := q) (e := e) m (by rw [← hP]; exact h1) (by rw [e1]; exact h2) he
    (by rw [e2]; linarith)
  rw [e2] at this
  exact this

theorem f32_sub_le_pow {q P : ℚ} {e : Int} (hP : P = 2 ^ e) (he : -126 ≤ e)
    (h2 : |q| < 2 * P) : |f32 q - q| ≤ P / 16777216 := by
  have e1 : (2 : ℚ) ^ (e + 1) = 2 * P := by
    rw [zpow_add₀ (by norm_num : (2 : ℚ) ≠ 0), hP]
    ring
  have e2 : (2 : ℚ) ^ (e - 23) = P / 8388608 := by
    rw [zpow_sub₀ (by norm_num : (2 : ℚ) ≠ 0), hP]
    norm_num
  have := f32_sub_le_of_lt (q := q) (e := e) (by rw [e1]; exact h2) he
  rw [e2] at this
  linarith

theorem two_zpow_natCast_sub (j k : Nat) :
    (2 : ℚ) ^ ((j : Int) - (k : Int)) = (2 : ℚ) ^ j / (2 : ℚ) ^ k := by
  rw [zpow_sub₀ (by norm_num : (2 : ℚ) ≠ 0), zpow_natCast, zpow_natCast]

/-- Every positive integer lies in a binade. -/
theorem exists_binade (n : Nat) (h : 0 < n) : ∃ j : Nat, 2 ^ j ≤ n ∧ n < 2 ^ (j + 1) :=
  ⟨Nat.log 2 n, Nat.pow_log_le_self 2 (by omega), Nat.lt_pow_succ_log_self (by norm_num) n⟩

/-- The quotient of a power of two by 32767, rounded to binary32. -/
theorem f32_two_pow_div (j : Nat) (hj : j ≤ 15) :
    f32 ((2 : ℚ) ^ j / 32767) = 8388864 * ((2 : ℚ) ^ j / 274877906944) := by
  have hP : (0 : ℚ) < 2 ^ j := by positivity
  have key := f32_eq_of_near_pow (q := (2 : ℚ) ^ j / 32767) (P := (2 : ℚ) ^ j / 32768)
    (e := (j : Int) - (15 : Nat)) 8388864
    (by rw [two_zpow_natCast_sub]; norm_num) (by omega)
    (by rw [abs_of_pos (by positivity)]
        rw [div_le_div_iff₀ (by norm_num) (by norm_num)]
        nlinarith)
    (by rw [abs_of_pos (by positivity)]
        rw [div_lt_iff₀ (by norm_num)]
        nlinarith)
    (by rw [abs_lt]
        constructor <;> (field_simp; nlinarith))
  rw [key]
  push_cast
  ring

/-- A power of two shrunk by `2 ^ -30` is rounded back to that power of two. -/
theorem f32_two_pow_shrunk (j : Nat) (hj : j ≤ 15) :
    f32 (8388864 * ((2 : ℚ) ^ j / 274877906944) * 32767) = (2 : ℚ) ^ j := by
  have hP : (0 : ℚ) < 2 ^ j := by positivity
  have key := f32_eq_of_near_pow
    (q := 8388864 * ((2 : ℚ) ^ j / 274877906944) * 32767) (P := (2 : ℚ) ^ j / 2)
    (e := (j : Int) - (1 : Nat)) 16777216
    (by rw [two_zpow_natCast_sub]; norm_num) (by omega)
    (by rw [abs_of_pos (by positivity)]
        nlinarith)
    (by rw [abs_of_pos (by positivity)]
        nlinarith)
    (by rw [abs_lt]
        constructor <;> nlinarith)
  rw [key]
  push_cast
  ring

/-- The value decoded from a positive normalized wire value, scaled again and rounded, is
that wire value. -/
theorem f32_roundtrip_pos (n : Nat) (h0 : 0 < n) (h1 : n ≤ 32767) :
    f32 (f32 ((n : ℚ) / 32767) * 32767) = (n : ℚ) := by
  rcases Nat.eq_or_lt_of_le h1 with h32767 | hlt
  · subst h32767
    have e1 : ((32767 : Nat) : ℚ) / 32767 = ((1 : Int) : ℚ) := by norm_num
    have e2 : (((1 : Int) : ℚ)) * 32767 = ((32767 : Int) : ℚ) := by norm_num
    rw [e1, f32_intCast 1 (by decide), e2, f32_intCast 32767 (by decide)]
    norm_num
  obtain ⟨j, hj1, hj2⟩ := exists_binade n h0
  have hj15 : j ≤ 14 := by
    by_contra hc
    have : 2 ^ 15 ≤ 2 ^ j := Nat.pow_le_pow_right (by norm_num) (by omega)
    omega
  rcases Nat.eq_or_lt_of_le hj1 with hpow | hgt
  · rw [← hpow]
    push_cast
    rw [f32_two_pow_div j (by omega), f32_two_pow_shrunk j (by omega)]
  -- the wire value is not a power of two
  have hP : (0 : ℚ) < 2 ^ j := by positivity
  have hP14 : (2 : ℚ) ^ j ≤ 16384 := by
    have : (2 : ℚ) ^ j ≤ 2 ^ 14 := pow_le_pow_right₀ (by norm_num) hj15
    norm_num at this
    exact this
  have hn1 : (2 : ℚ) ^ j + 1 ≤ (n : ℚ) := by exact_mod_cast hgt
  have hn2 : (n : ℚ) + 1 ≤ 2 * 2 ^ j := by
    have : n + 1 ≤ 2 * 2 ^ j := by rw [pow_succ] at hj2; omega
    exact_mod_cast this
  have hn3 : (n : ℚ) ≤ 32766 := by
    have : n ≤ 32766 := by omega
    exact_mod_cast this
  have hq0 : (0 : ℚ) < (n : ℚ) / 32767 := by positivity
  -- error of the decoded value
  have herr := f32_sub_le_pow (q := (n : ℚ) / 32767) (P := (2 : ℚ) ^ j / 32768)
    (e := (j : Int) - (15 : Nat))
    (by rw [two_zpow_natCast_sub]; norm_num) (by omega)
    (by rw [abs_of_pos hq0, div_lt_iff₀ (by norm_num)]
        nlinarith)
  obtain ⟨he1, he2⟩ := abs_le.mp herr
  have key := f32_eq_of_near_pow (q := f32 ((n : ℚ) / 32767) * 32767) (P := (2 : ℚ) ^ j)
    (e := (j : Int)) ((n : Int) * 2 ^ (23 - j))
    (by rw [zpow_natCast]) (by omega)
    (by rw [abs_of_pos (by nlinarith)]
        nlinarith)
    (by rw [abs_of_pos (by nlinarith)]
        nlinarith)
    (by have hm : (((n : Int) * 2 ^ (23 - j) : Int) : ℚ) * ((2 : ℚ) ^ j / 8388608) = (n : ℚ) := by
          push_cast
          have : (2 : ℚ) ^ (23 - j) * 2 ^ j = 8388608 := by
            rw [← pow_add, Nat.sub_add_cancel (by omega)]
            norm_num
          field_simp
          linear_combination (n : ℚ) * this
        rw [hm, abs_lt]
        constructor <;> nlinarith)
  rw [key]
  push_cast
  have : (2 : ℚ) ^ (23 - j) * 2 ^ j = 8388608 := by
    rw [← pow_add, Nat.sub_add_cancel (by omega)]
    norm_num
  field_simp
  linear_combination (n : ℚ) * this


/-! ### No overshoot -/


theorem floatToInt_intCast (n : Int) : floatToInt (n : ℚ) = n := by
  simp [floatToInt]

/-- A product that is an integer below `2 ^ 24` in magnitude is exact in binary32. -/
theorem floatMul_of_intCast (a b : ℚ) (n : Int) (h : a * b = (n : ℚ)) (hn : |n| < 2 ^ 24) :
    floatMul a b = (n : ℚ) := by
  unfold floatMul
  rw [h, f32_intCast n hn]

/-- The conversion of an `int` below `2 ^ 24` in magnitude to `float` is exact. -/
theorem intToFloat_eq (n : Int) (hn : |n| < 2 ^ 24) : intToFloat n = (n : ℚ) :=
  f32_intCast n hn

/-- Evaluation of a rounding to binary32: `r` is a multiple of the spacing in the binade of
`q` and lies closer to `q` than half the spacing. -/
theorem f32_eval {q r : ℚ} (e m : Int) (h1 : (2 : ℚ) ^ e ≤ |q|) (h2 : |q| < (2 : ℚ) ^ (e + 1))
    (he : -126 ≤ e) (hr : r = (m : ℚ) * 2 ^ (e - 23)) (hm : |q - r| < 2 ^ (e - 23) / 2) :
    f32 q = r := by
  rw [hr] at hm ⊢
  exact f32_eq_of_near m h1 h2 he hm

/-- The wire value decoded to `float`, for wire bytes. -/
theorem MeasuredValueNormalized_getValue_eq (self : MeasuredValueNormalized) (b0 b1 : Nat)
    (h0 : b0 < 256) (h1 : b1 < 256) (he : self.encodedValue = (b0, b1)) :
    MeasuredValueNormalized_getValue self =
      f32 (((getScaledValue (b0, b1) : Int) : ℚ) / 32767) := by
  have hr : -32768 ≤ getScaledValue (b0, b1) ∧ getScaledValue (b0, b1) ≤ 32767 := by
    unfold getScaledValue
    simp only
    split <;> omega
  unfold MeasuredValueNormalized_getValue floatDiv
  rw [he, intToFloat_eq _ (by rw [abs_lt]; omega)]

/-- The bytes stored for a value at or above the upper clamp bound. -/
theorem MeasuredValueNormalized_setValue_ge_one (self : MeasuredValueNormalized) (v : ℚ)
    (h : 1 ≤ v) : (MeasuredValueNormalized_setValue self v).encodedValue = (0xFF, 0x7F) := by
  have hv : (if v > 1 then (1 : ℚ) else if v < -1 then -1 else v) = 1 := by
    by_cases h1 : v > 1
    · rw [if_pos h1]
    · have : v = 1 := le_antisymm (not_lt.mp h1) h
      subst this
      norm_num
  have hs : floatToInt (floatMul (1 : ℚ) 32767) = 32767 := by
    rw [floatMul_of_intCast 1 32767 32767 (by norm_num) (by decide)]
    exact floatToInt_intCast 32767
  show setScaledValue
    (floatToInt (floatMul (if v > 1 then (1 : ℚ) else if v < -1 then -1 else v) 32767))
    = (0xFF, 0x7F)
  rw [hv, hs]
  decide

/-- The bytes stored for a value at or below the lower clamp bound. -/
theorem MeasuredValueNormalized_setValue_le_neg_one (self : MeasuredValueNormalized) (v : ℚ)
    (h : v ≤ -1) : (MeasuredValueNormalized_setValue self v).encodedValue = (0x01, 0x80) := by
  have hv : (if v > 1 then (1 : ℚ) else if v < -1 then -1 else v) = -1 := by
    have h1 : ¬ v > 1 := by
      intro h1
      linarith
    rw [if_neg h1]
    by_cases h2 : v < -1
    · rw [if_pos h2]
    · rw [if_neg h2]
      exact le_antisymm h (not_lt.mp h2)
  have hs : floatToInt (floatMul (-1 : ℚ) 32767) = -32767 := by
    rw [floatMul_of_intCast (-1) 32767 (-32767) (by norm_num) (by decide)]
    exact floatToInt_intCast (-32767)
  show setScaledValue
    (floatToInt (floatMul (if v > 1 then (1 : ℚ) else if v < -1 then -1 else v) 32767))
    = (0x01, 0x80)
  rw [hv, hs]
  decide

/-- C10: for every value `v > 1.0`, `MeasuredValueNormalized_setValue(v)` stores the same
two bytes as `MeasuredValueNormalized_setValue(1.0)`, namely `[0xFF, 0x7F]`, and for every
`v < -1.0` it stores the same two bytes as `MeasuredValueNormalized_setValue(-1.0)`, namely
`[0x01, 0x80]`. -/
theorem C10_MeasuredValueNormalized_clamp (self : MeasuredValueNormalized) (v : ℚ) :
    (v > 1 →
      (MeasuredValueNormalized_setValue self v).encodedValue =
        (MeasuredValueNormalized_setValue self 1).encodedValue ∧
      (MeasuredValueNormalized_setValue self 1).encodedValue = (0xFF, 0x7F)) ∧
    (v < -1 →
      (MeasuredValueNormalized_setValue self v).encodedValue =
        (MeasuredValueNormalized_setValue self (-1)).encodedValue ∧
      (MeasuredValueNormalized_setValue self (-1)).encodedValue = (0x01, 0x80)) := by
  refine ⟨fun h => ?_, fun h => ?_⟩
  · rw [MeasuredValueNormalized_setValue_ge_one self v (le_of_lt h),
      MeasuredValueNormalized_setValue_ge_one self 1 (le_refl 1)]
    exact ⟨rfl, rfl⟩
  · rw [MeasuredValueNormalized_setValue_le_neg_one self v (le_of_lt h),
      MeasuredValueNormalized_setValue_le_neg_one self (-1) (le_refl (-1))]
    exact ⟨rfl, rfl⟩

theorem C10_MeasuredValueNormalized_clamp_witness :
    ((MeasuredValueNormalized_setValue MeasuredValueNormalized.zeroed (3 / 2)).encodedValue =
        (MeasuredValueNormalized_setValue MeasuredValueNormalized.zeroed 1).encodedValue ∧
      (MeasuredValueNormalized_setValue MeasuredValueNormalized.zeroed 1).encodedValue =
        (0xFF, 0x7F)) ∧
    ((MeasuredValueNormalized_setValue MeasuredValueNormalized.zeroed (-2)).encodedValue =
        (MeasuredValueNormalized_setValue MeasuredValueNormalized.zeroed (-1)).encodedValue ∧
      (MeasuredValueNormalized_setValue MeasuredValueNormalized.zeroed (-1)).encodedValue =
        (0x01, 0x80)) :=
  ⟨(C10_MeasuredValueNormalized_clamp MeasuredValueNormalized.zeroed (3 / 2)).1 (by norm_num),
   (C10_MeasuredValueNormalized_clamp MeasuredValueNormalized.zeroed (-2)).2 (by norm_num)⟩

/-! ### Bit masks on `int` -/

theorem ldiff_mask (k m : Nat) : Nat.ldiff (2 ^ k - 1) m = 2 ^ k - 1 - m % 2 ^ k := by
  apply Nat.eq_of_testBit_eq
  intro i
  have hlt : m % 2 ^ k < 2 ^ k := Nat.mod_lt _ (Nat.two_pow_pos k)
  have e : 2 ^ k - 1 - m % 2 ^ k = 2 ^ k - (m % 2 ^ k + 1) := by omega
  rw [Nat.testBit_ldiff, Nat.testBit_two_pow_sub_one, e, Nat.testBit_two_pow_sub_succ hlt,
    Nat.testBit_mod_two_pow]
  by_cases h : i < k <;> simp [h]

/-- The C expression `qu & 0x1f` on an `int`: the non-negative remainder modulo 32, for
negative `qu` too. -/
theorem land_0x1f (qu : Int) : Int.land qu 0x1f = qu % 32 := by
  cases qu with
  | ofNat n =>
    show ((n &&& (2 ^ 5 - 1) : Nat) : Int) = _
    rw [Nat.and_pow_two_sub_one_eq_mod]
    simp
  | negSucc m =>
    show ((Nat.ldiff (2 ^ 5 - 1) m : Nat) : Int) = _
    rw [ldiff_mask, Int.negSucc_eq]
    omega

/-- The C expression `command & 0x03` on an `int`: the non-negative remainder modulo 4. -/
theorem land_0x03 (c : Int) : Int.land c 0x03 = c % 4 := by
  cases c with
  | ofNat n =>
    show ((n &&& (2 ^ 2 - 1) : Nat) : Int) = _
    rw [Nat.and_pow_two_sub_one_eq_mod]
    simp
  | negSucc m =>
    show ((Nat.ldiff (2 ^ 2 - 1) m : Nat) : Int) = _
    rw [ldiff_mask, Int.negSucc_eq]
    omega

/-! ### Normalized value against the specification's wording -/

/-- The C conversion `(int) f` truncates toward zero: it is the specification's
truncation. -/
theorem floatToInt_eq_truncSpec (q : ℚ) : floatToInt q = truncSpec q := by
  unfold floatToInt truncSpec
  have hden : (0 : Int) ≤ (q.den : Int) := Int.ofNat_nonneg _
  by_cases h : 0 ≤ q
  · rw [if_pos h, Rat.floor_def]
    exact Int.tdiv_eq_ediv (Rat.num_nonneg.mpr h) hden
  · rw [if_neg h]
    have hq : q < 0 := not_le.mp h
    have hnum : q.num < 0 := Rat.num_neg.mpr hq
    have hceil : ⌈q⌉ = -⌊-q⌋ := by
      rw [Int.floor_neg, neg_neg]
    rw [hceil, Rat.floor_def, Rat.num_neg_eq_neg_num, Rat.den_neg_eq_den]
    have h1 : Int.tdiv q.num (q.den : Int) = -(Int.tdiv (-q.num) (q.den : Int)) := by
      rw [Int.neg_tdiv, neg_neg]
    rw [h1, Int.tdiv_eq_ediv (by omega) hden]

/-- The two-sided guard of `MeasuredValueNormalized_setValue` is the specification's
`clamp(value, -1, 1)`. -/
theorem clamp_guard_eq_clampSpec (v : ℚ) :
    (if v > 1 then (1 : ℚ) else if v < -1 then -1 else v) = clampSpec v (-1) 1 := by
  unfold clampSpec
  by_cases h1 : v > 1
  · rw [if_pos h1, min_eq_right (le_of_lt h1)]
    norm_num
  · rw [if_neg h1, min_eq_left (not_lt.mp h1)]
    by_cases h2 : v < -1
    · rw [if_pos h2, max_eq_left (le_of_lt h2)]
    · rw [if_neg h2, max_eq_right (not_lt.mp h2)]

theorem truncSpec_eq_floor {q : ℚ} (h : 0 ≤ q) : truncSpec q = ⌊q⌋ := by
  unfold truncSpec
  rw [if_pos h]

/-- The binary32 value `32769 / 65536 = 0.5 + 2 ^ -16`. -/
theorem isBinary32_example : isBinary32 (32769 / 65536) := by
  refine ⟨?_, ?_⟩
  · exact f32_eval (-1) 8388864 (by rw [abs_of_pos (by norm_num)]; norm_num)
      (by rw [abs_of_pos (by norm_num)]; norm_num) (by decide) (by norm_num) (by norm_num)
  · rw [abs_of_pos (by norm_num)]
    norm_num

/-- The quotient `-32768 / 32767` in binary32: `-(1 + 2 ^ -15)`. -/
theorem f32_min_wire_value : f32 (((-32768 : Int) : ℚ) / 32767) = -32769 / 32768 := by
  have e : (((-32768 : Int) : ℚ) / 32767) = -(32768 / 32767) := by norm_num
  rw [e, f32_neg]
  have := f32_eval (q := (32768 : ℚ) / 32767) (r := 32769 / 32768) 0 8388864
    (by rw [abs_of_pos (by norm_num)]; norm_num)
    (by rw [abs_of_pos (by norm_num)]; norm_num) (by decide) (by norm_num)
    (by rw [abs_of_pos (by norm_num)]; norm_num)
  rw [this]
  norm_num

/-- The value read from the wire bytes `(0x00, 0x80)`. -/
theorem MeasuredValueNormalized_getValue_min_wire_value :
    MeasuredValueNormalized_getValue
      { MeasuredValueNormalized.zeroed with encodedValue := (0x00, 0x80) } =
      -32769 / 32768 := by
  rw [MeasuredValueNormalized_getValue_eq _ 0x00 0x80 (by decide) (by decide) rfl]
  have : getScaledValue (0x00, 0x80) = -32768 := by decide
  rw [this]
  exact f32_min_wire_value

/-- C11 (as stated, refuted): for the binary32 value `v = 32769/65536` the product
`v * 32767 = 16384 - 2 ^ -16` is rounded to the binary32 value 16384 before the conversion
to `int`, so `MeasuredValueNormalized_setValue` stores `(0x00, 0x40)`, where the bytes of
`trunc(clamp(v, -1, 1) * 32767) = 16383` are `(0xFF, 0x3F)`; and for the wire bytes
`(0x00, 0x80)` `MeasuredValueNormalized_getValue` returns the binary32 quotient
`-32769/32768`, not `-32768/32767`. -/
theorem C11_counterexample :
    isBinary32 (32769 / 65536) ∧
    (MeasuredValueNormalized_setValue MeasuredValueNormalized.zeroed
      (32769 / 65536)).encodedValue = (0x00, 0x40) ∧
    encodeNormalizedSpec (32769 / 65536) = (0xFF, 0x3F) ∧
    MeasuredValueNormalized_getValue
      { MeasuredValueNormalized.zeroed with encodedValue := (0x00, 0x80) } =
      -32769 / 32768 ∧
    decodeNormalizedSpec (0x00, 0x80) = -32768 / 32767 := by
  refine ⟨isBinary32_example, ?_, ?_, MeasuredValueNormalized_getValue_min_wire_value, ?_⟩
  · have hg : (if (32769 / 65536 : ℚ) > 1 then (1 : ℚ)
        else if (32769 / 65536 : ℚ) < -1 then -1 else 32769 / 65536) = 32769 / 65536 := by
      norm_num
    have hm : floatMul (32769 / 65536) 32767 = ((16384 : Int) : ℚ) := by
      unfold floatMul
      exact f32_eval 13 16777216 (by rw [abs_of_pos (by norm_num)]; norm_num)
        (by rw [abs_of_pos (by norm_num)]; norm_num) (by decide) (by norm_num)
        (by rw [abs_lt]; constructor <;> norm_num)
    show setScaledValue (floatToInt (floatMul
      (if (32769 / 65536 : ℚ) > 1 then (1 : ℚ)
        else if (32769 / 65536 : ℚ) < -1 then -1 else 32769 / 65536) 32767)) = (0x00, 0x40)
    rw [hg, hm, floatToInt_intCast]
    decide
  · unfold encodeNormalizedSpec
    have hc : clampSpec (32769 / 65536) (-1) 1 = 32769 / 65536 := by
      unfold clampSpec
      rw [min_eq_left (by norm_num), max_eq_right (by norm_num)]
    have ht : truncSpec ((32769 / 65536 : ℚ) * 32767) = 16383 := by
      rw [truncSpec_eq_floor (by norm_num), Int.floor_eq_iff]
      constructor <;> norm_num
    rw [hc, ht]
    decide
  · unfold decodeNormalizedSpec
    have : getScaledValue (0x00, 0x80) = -32768 := by decide
    rw [this]
    norm_num

/-- C11 (amended): for every binary32 value `v`, `MeasuredValueNormalized_setValue` stores
the scaled-codec bytes of `trunc(round(clamp(v, -1, 1) * 32767))`, where `round` rounds the
product to binary32 and the truncation is toward zero, and for wire bytes `(b0, b1)`
`MeasuredValueNormalized_getValue` returns `round(getScaledValue(bytes) / 32767)`. -/
theorem C11_MeasuredValueNormalized_refines_rounded_spec (self : MeasuredValueNormalized)
    (v : ℚ) (b0 b1 : Nat) (hv : isBinary32 v) (h0 : b0 < 256) (h1 : b1 < 256)
    (he : self.encodedValue = (b0, b1)) :
    (MeasuredValueNormalized_setValue self v).encodedValue = encodeNormalizedRoundedSpec v ∧
    MeasuredValueNormalized_getValue self = decodeNormalizedRoundedSpec self.encodedValue := by
  constructor
  · show setScaledValue (floatToInt (floatMul
      (if v > 1 then (1 : ℚ) else if v < -1 then -1 else v) 32767)) = _
    rw [clamp_guard_eq_clampSpec, floatToInt_eq_truncSpec]
    rfl
  · rw [MeasuredValueNormalized_getValue_eq self b0 b1 h0 h1 he, he]
    rfl

theorem C11_MeasuredValueNormalized_refines_rounded_spec_witness :
    (MeasuredValueNormalized_setValue
      { MeasuredValueNormalized.zeroed with encodedValue := (0x00, 0x80) }
      (32769 / 65536)).encodedValue = encodeNormalizedRoundedSpec (32769 / 65536) ∧
    MeasuredValueNormalized_getValue
      { MeasuredValueNormalized.zeroed with encodedValue := (0x00, 0x80) } =
      decodeNormalizedRoundedSpec (0x00, 0x80) :=
  C11_MeasuredValueNormalized_refines_rounded_spec
    { MeasuredValueNormalized.zeroed with encodedValue := (0x00, 0x80) } (32769 / 65536)
    0x00 0x80 isBinary32_example (by decide) (by decide) rfl

/-- The value decoded from a normalized wire value other than `-32768`, scaled again and
rounded, is that wire value. -/
theorem f32_roundtrip (n : Int) (h : |n| ≤ 32767) :
    f32 (f32 ((n : ℚ) / 32767) * 32767) = (n : ℚ) := by
  obtain ⟨hlo, hhi⟩ := abs_le.mp h
  rcases lt_trichotomy n 0 with hn | hn | hn
  · have hk := f32_roundtrip_pos (-n).toNat (by omega) (by omega)
    have hc : (((-n).toNat : Nat) : ℚ) = -(n : ℚ) := by
      have : (((-n).toNat : Nat) : Int) = -n := Int.toNat_of_nonneg (by omega)
      exact_mod_cast this
    rw [hc] at hk
    have e1 : (n : ℚ) / 32767 = -(-(n : ℚ) / 32767) := by ring
    rw [e1, f32_neg, neg_mul, f32_neg, hk]
    ring
  · subst hn
    have e1 : ((0 : Int) : ℚ) / 32767 = 0 := by norm_num
    rw [e1, f32_zero]
    have e2 : (0 : ℚ) * 32767 = 0 := by norm_num
    rw [e2, f32_zero]
    norm_num
  · have hk := f32_roundtrip_pos n.toNat (by omega) (by omega)
    have hc : ((n.toNat : Nat) : ℚ) = (n : ℚ) := by
      have : ((n.toNat : Nat) : Int) = n := Int.toNat_of_nonneg (by omega)
      exact_mod_cast this
    rw [hc] at hk
    exact hk

/-- The value decoded from a normalized wire value other than `-32768` lies in `[-1, 1]`. -/
theorem f32_wire_value_bounds (n : Int) (h : |n| ≤ 32767) :
    -1 ≤ f32 ((n : ℚ) / 32767) ∧ f32 ((n : ℚ) / 32767) ≤ 1 := by
  obtain ⟨hlo, hhi⟩ := abs_le.mp h
  have hloq : (-32767 : ℚ) ≤ (n : ℚ) := by exact_mod_cast hlo
  have hhiq : (n : ℚ) ≤ 32767 := by exact_mod_cast hhi
  have h1 : f32 ((n : ℚ) / 32767) ≤ f32 (((1 : Int) : ℚ)) :=
    f32_mono (by rw [div_le_iff₀ (by norm_num)]; push_cast; linarith)
  have h2 : f32 (((-1 : Int) : ℚ)) ≤ f32 ((n : ℚ) / 32767) :=
    f32_mono (by rw [le_div_iff₀ (by norm_num)]; push_cast; linarith)
  rw [f32_intCast 1 (by decide)] at h1
  rw [f32_intCast (-1) (by decide)] at h2
  constructor
  · have : (((-1 : Int)) : ℚ) = -1 := by norm_num
    linarith
  · have : (((1 : Int)) : ℚ) = 1 := by norm_num
    linarith

/-- Storing back the value read from wire bytes whose scaled value is not `-32768`. -/
theorem MeasuredValueNormalized_setValue_getValue (self : MeasuredValueNormalized)
    (b0 b1 : Nat) (h0 : b0 < 256) (h1 : b1 < 256) (he : self.encodedValue = (b0, b1))
    (hne : getScaledValue (b0, b1) ≠ -32768) :
    (MeasuredValueNormalized_setValue self (MeasuredValueNormalized_getValue self)).encodedValue
      = (b0, b1) := by
  have hr : -32768 ≤ getScaledValue (b0, b1) ∧ getScaledValue (b0, b1) ≤ 32767 := by
    unfold getScaledValue
    simp only
    split <;> omega
  have habs : |getScaledValue (b0, b1)| ≤ 32767 := by rw [abs_le]; omega
  have hv := MeasuredValueNormalized_getValue_eq self b0 b1 h0 h1 he
  obtain ⟨g1, g2⟩ := f32_wire_value_bounds _ habs
  show setScaledValue (floatToInt (floatMul
    (if MeasuredValueNormalized_getValue self > 1 then (1 : ℚ)
      else if MeasuredValueNormalized_getValue self < -1 then -1
      else MeasuredValueNormalized_getValue self) 32767)) = (b0, b1)
  rw [hv, if_neg (not_lt.mpr g2), if_neg (not_lt.mpr g1)]
  unfold floatMul
  rw [f32_roundtrip _ habs, floatToInt_intCast]
  exact setScaledValue_getScaledValue b0 b1 h0 h1

/-- C12 (as stated, refuted): the wire bytes `(0x00, 0x80)` (scaled value `-32768`) decode
to the binary32 value `-32769/32768`, below `-1`, and storing that value back writes
`(0x01, 0x80)`. -/
theorem C12_counterexample :
    MeasuredValueNormalized_getValue
      { MeasuredValueNormalized.zeroed with encodedValue := (0x00, 0x80) } = -32769 / 32768 ∧
    (MeasuredValueNormalized_setValue
      { MeasuredValueNormalized.zeroed with encodedValue := (0x00, 0x80) }
      (MeasuredValueNormalized_getValue
        { MeasuredValueNormalized.zeroed with encodedValue := (0x00, 0x80) })).encodedValue
      = (0x01, 0x80) ∧
    (MeasuredValueNormalized_setValue
      { MeasuredValueNormalized.zeroed with encodedValue := (0x00, 0x80) }
      (MeasuredValueNormalized_getValue
        { MeasuredValueNormalized.zeroed with encodedValue := (0x00, 0x80) })).encodedValue
      ≠ (0x00, 0x80) := by
  have hg := MeasuredValueNormalized_getValue_min_wire_value
  have hs := MeasuredValueNormalized_setValue_le_neg_one
    { MeasuredValueNormalized.zeroed with encodedValue := (0x00, 0x80) }
    (MeasuredValueNormalized_getValue
      { MeasuredValueNormalized.zeroed with encodedValue := (0x00, 0x80) })
    (by rw [hg]; norm_num)
  refine ⟨hg, hs, ?_⟩
  rw [hs]
  decide

/-- C12 (amended): for every pair of wire bytes `(b0, b1)` other than `(0x00, 0x80)` held
by a `MeasuredValueNormalized`, calling `MeasuredValueNormalized_setValue` with the result
of `MeasuredValueNormalized_getValue` stores `(b0, b1)` again: every wire value in
`-32767..32767` round-trips exactly through the decoded binary32 value (the quotient and
the product both rounded to binary32). -/
theorem C12_MeasuredValueNormalized_roundtrip (self : MeasuredValueNormalized)
    (b0 b1 : Nat) (h0 : b0 < 256) (h1 : b1 < 256) (he : self.encodedValue = (b0, b1))
    (hne : (b0, b1) ≠ (0x00, 0x80)) :
    (MeasuredValueNormalized_setValue self (MeasuredValueNormalized_getValue self)).encodedValue
      = (b0, b1) := by
  apply MeasuredValueNormalized_setValue_getValue self b0 b1 h0 h1 he
  intro hs
  apply hne
  have hb : setScaledValue (getScaledValue (b0, b1)) = (b0, b1) :=
    setScaledValue_getScaledValue b0 b1 h0 h1
  rw [hs] at hb
  rw [← hb]
  decide

theorem C12_MeasuredValueNormalized_roundtrip_witness :
    (MeasuredValueNormalized_setValue
      { MeasuredValueNormalized.zeroed with encodedValue := (0x01, 0x80) }
      (MeasuredValueNormalized_getValue
        { MeasuredValueNormalized.zeroed with encodedValue := (0x01, 0x80) })).encodedValue
      = (0x01, 0x80) :=
  C12_MeasuredValueNormalized_roundtrip
    { MeasuredValueNormalized.zeroed with encodedValue := (0x01, 0x80) } 0x01 0x80
    (by decide) (by decide) rfl (by decide)

/-! ### Reading the payload that follows the address field -/

/-- The byte at offset `k` after the address field, in a buffer that holds from
`frame.length` on the address bytes of `obj` followed by `payload`. -/
theorem readByte_encodeBase_payload (obj : InformationObject) (frame : Frame) (w : Nat)
    (hw : w = 1 ∨ w = 2 ∨ w = 3) (payload : List Nat) (k : Nat) :
    readByte (InformationObject_encodeBase obj frame ⟨(w : Int)⟩ ++ payload)
      ((frame.length : Int) + (w : Int) + (k : Int)) = payload.getD k 0 := by
  have hlen : (InformationObject_encodeBase obj frame ⟨(w : Int)⟩).length
      = frame.length + w := by
    rw [encodeBase_append, List.length_append, encodeBase_length _ w hw]
  have r := readByte_append (InformationObject_encodeBase obj frame ⟨(w : Int)⟩) payload k
  rw [hlen, Nat.cast_add] at r
  exact r

theorem readByte_encodeBase_payload_zero (obj : InformationObject) (frame : Frame) (w : Nat)
    (hw : w = 1 ∨ w = 2 ∨ w = 3) (payload : List Nat) :
    readByte (InformationObject_encodeBase obj frame ⟨(w : Int)⟩ ++ payload)
      ((frame.length : Int) + (w : Int)) = payload.getD 0 0 := by
  have r := readByte_encodeBase_payload obj frame w hw payload 0
  simpa using r

/-! ### Quality flags -/


theorem siq_bits : ∀ q : Nat, q < 256 → q % 16 = 0 →
    ((((q % 256 + 1) % 256) &&& 0x01) == 0x01) = true ∧
    (((q % 256 + 1) % 256) &&& 0xf0) % 256 = q ∧
    (((q % 256) &&& 0x01) == 0x01) = false ∧
    ((q % 256) &&& 0xf0) % 256 = q := by
  decide

/-- Decoding what `SinglePointInformation_encode` appended, for a quality whose low nibble
is zero. -/
theorem SinglePointInformation_getFromBuffer_encode (obj : SinglePointInformation)
    (storage : Option SinglePointInformation) (frame : Frame) (msgSize : Int) (w : Nat)
    (hw : w = 1 ∨ w = 2 ∨ w = 3) (hq : obj.quality < 256) (hq0 : obj.quality % 16 = 0) :
    (SinglePointInformation_getFromBuffer storage ⟨(w : Int)⟩
        (SinglePointInformation_encode obj frame ⟨(w : Int)⟩) msgSize
        (frame.length : Int)).value = obj.value ∧
    (SinglePointInformation_getFromBuffer storage ⟨(w : Int)⟩
        (SinglePointInformation_encode obj frame ⟨(w : Int)⟩) msgSize
        (frame.length : Int)).quality = obj.quality := by
  have henc : SinglePointInformation_encode obj frame ⟨(w : Int)⟩ =
      InformationObject_encodeBase obj.toInformationObject frame ⟨(w : Int)⟩ ++
        [if obj.value then (obj.quality % 256 + 1) % 256 else obj.quality % 256] := by
    simp [SinglePointInformation_encode, Frame_setNextByte]
  have r0 := readByte_encodeBase_payload_zero obj.toInformationObject frame w hw
    [if obj.value then (obj.quality % 256 + 1) % 256 else obj.quality % 256]
  simp only [List.getD_cons_zero] at r0
  obtain ⟨b1, b2, b3, b4⟩ := siq_bits obj.quality hq hq0
  rw [henc]
  simp only [SinglePointInformation_getFromBuffer, r0]
  cases hv : obj.value
  · simp only [Bool.false_eq_true, if_false]
    exact ⟨b3, b4⟩
  · simp only [if_true]
    exact ⟨b1, b2⟩

/-- C13 (as stated, refuted): with the quality `OVERFLOW` (0x01) and value `false`, the
encoder writes the byte `0x01`, which decodes to value `true` and quality 0. -/
theorem C13_counterexample :
    SinglePointInformation_encode (SinglePointInformation_create none 100 false 0x01) []
      ⟨1⟩ = [100, 0x01] ∧
    SinglePointInformation_getQuality
      (SinglePointInformation_getFromBuffer none ⟨1⟩
        (SinglePointInformation_encode (SinglePointInformation_create none 100 false 0x01) []
          ⟨1⟩) 2 0) = 0 ∧
    SinglePointInformation_getValue
      (SinglePointInformation_getFromBuffer none ⟨1⟩
        (SinglePointInformation_encode (SinglePointInformation_create none 100 false 0x01) []
          ⟨1⟩) 2 0) = true ∧
    ¬ (SinglePointInformation_getQuality
        (SinglePointInformation_getFromBuffer none ⟨1⟩
          (SinglePointInformation_encode (SinglePointInformation_create none 100 false 0x01) []
            ⟨1⟩) 2 0) = 0x01 ∧
      SinglePointInformation_getValue
        (SinglePointInformation_getFromBuffer none ⟨1⟩
          (SinglePointInformation_encode (SinglePointInformation_create none 100 false 0x01) []
            ⟨1⟩) 2 0) = false) := by
  decide

/-- C13 (amended): for every subset `q` of the quality flags `{BLOCKED 0x10,
SUBSTITUTED 0x20, NON_TOPICAL 0x40, INVALID 0x80}` (the bytes whose low nibble is zero) and
every boolean `v`, decoding with `SinglePointInformation_getFromBuffer` the encoding of
`SinglePointInformation_create(a, v, q)` yields quality exactly `q` and value exactly
`v`. -/
theorem C13_SinglePointInformation_quality (self storage : Option SinglePointInformation)
    (frame : Frame) (msgSize : Int) (w : Nat) (a : Int) (v : Bool) (q : Nat)
    (hw : w = 1 ∨ w = 2 ∨ w = 3) (hq : q < 256) (hq0 : q % 16 = 0) :
    SinglePointInformation_getQuality
      (SinglePointInformation_getFromBuffer storage ⟨(w : Int)⟩
        (SinglePointInformation_encode (SinglePointInformation_create self a v q) frame
          ⟨(w : Int)⟩) msgSize (frame.length : Int)) = q ∧
    SinglePointInformation_getValue
      (SinglePointInformation_getFromBuffer storage ⟨(w : Int)⟩
        (SinglePointInformation_encode (SinglePointInformation_create self a v q) frame
          ⟨(w : Int)⟩) msgSize (frame.length : Int)) = v := by
  have hqual : (SinglePointInformation_create self a v q).quality = q := rfl
  have hval : (SinglePointInformation_create self a v q).value = v := rfl
  obtain ⟨h1, h2⟩ := SinglePointInformation_getFromBuffer_encode
    (SinglePointInformation_create self a v q) storage frame msgSize w hw
    (by rw [hqual]; exact hq) (by rw [hqual]; exact hq0)
  unfold SinglePointInformation_getQuality SinglePointInformation_getValue
  rw [h1, h2, hqual, hval]
  exact ⟨rfl, rfl⟩

theorem C13_SinglePointInformation_quality_witness :
    SinglePointInformation_getQuality
      (SinglePointInformation_getFromBuffer none ⟨((2 : Nat) : Int)⟩
        (SinglePointInformation_encode (SinglePointInformation_create none 100 true 0xF0) []
          ⟨((2 : Nat) : Int)⟩) 3 (([] : List Nat).length : Int)) = 0xF0 ∧
    SinglePointInformation_getValue
      (SinglePointInformation_getFromBuffer none ⟨((2 : Nat) : Int)⟩
        (SinglePointInformation_encode (SinglePointInformation_create none 100 true 0xF0) []
          ⟨((2 : Nat) : Int)⟩) 3 (([] : List Nat).length : Int)) = true :=
  C13_SinglePointInformation_quality none none [] 3 2 100 true 0xF0 (by decide) (by decide)
    (by decide)

/-- The value and quality bytes decoded from what `MeasuredValueScaled_encode` appended,
whatever the address. -/
theorem MeasuredValueScaled_getFromBuffer_encode_payload (obj : MeasuredValueScaled)
    (storage : Option MeasuredValueScaled) (frame : Frame) (msgSize : Int) (w : Nat)
    (hw : w = 1 ∨ w = 2 ∨ w = 3) :
    (MeasuredValueScaled_getFromBuffer storage ⟨(w : Int)⟩
        (MeasuredValueScaled_encode obj frame ⟨(w : Int)⟩) msgSize
        (frame.length : Int)).encodedValue = obj.encodedValue ∧
    (MeasuredValueScaled_getFromBuffer storage ⟨(w : Int)⟩
        (MeasuredValueScaled_encode obj frame ⟨(w : Int)⟩) msgSize
        (frame.length : Int)).quality = obj.quality % 256 := by
  have henc : MeasuredValueScaled_encode obj frame ⟨(w : Int)⟩ =
      InformationObject_encodeBase obj.toInformationObject frame ⟨(w : Int)⟩ ++
        [obj.encodedValue.1, obj.encodedValue.2, obj.quality % 256] := by
    simp [MeasuredValueScaled_encode, MeasuredValueNormalized_encode,
      MeasuredValueScaled.asNormalized, Frame_setNextByte]
  have r0 := readByte_encodeBase_payload_zero obj.toInformationObject frame w hw
    [obj.encodedValue.1, obj.encodedValue.2, obj.quality % 256]
  have r1 := readByte_encodeBase_payload obj.toInformationObject frame w hw
    [obj.encodedValue.1, obj.encodedValue.2, obj.quality % 256] 1
  have r2 := readByte_encodeBase_payload obj.toInformationObject frame w hw
    [obj.encodedValue.1, obj.encodedValue.2, obj.quality % 256] 2
  have e : ((frame.length : Int) + (w : Int) + 1 + 1) = (frame.length : Int) + (w : Int) + 2 := by
    omega
  simp only [Nat.cast_one, Nat.cast_ofNat, List.getD_cons_zero, List.getD_cons_succ]
    at r0 r1 r2
  rw [henc]
  simp only [MeasuredValueScaled_getFromBuffer, r0, r1, e, r2]
  exact ⟨trivial, trivial⟩

/-- The value and quality bytes decoded from what `MeasuredValueNormalized_encode`
appended, whatever the address. -/
theorem MeasuredValueNormalized_getFromBuffer_encode_payload (obj : MeasuredValueNormalized)
    (storage : Option MeasuredValueNormalized) (frame : Frame) (msgSize : Int) (w : Nat)
    (hw : w = 1 ∨ w = 2 ∨ w = 3) :
    (MeasuredValueNormalized_getFromBuffer storage ⟨(w : Int)⟩
        (MeasuredValueNormalized_encode obj frame ⟨(w : Int)⟩) msgSize
        (frame.length : Int)).encodedValue = obj.encodedValue ∧
    (MeasuredValueNormalized_getFromBuffer storage ⟨(w : Int)⟩
        (MeasuredValueNormalized_encode obj frame ⟨(w : Int)⟩) msgSize
        (frame.length : Int)).quality = obj.quality % 256 := by
  have henc : MeasuredValueNormalized_encode obj frame ⟨(w : Int)⟩ =
      InformationObject_encodeBase obj.toInformationObject frame ⟨(w : Int)⟩ ++
        [obj.encodedValue.1, obj.encodedValue.2, obj.quality % 256] := by
    simp [MeasuredValueNormalized_encode, Frame_setNextByte]
  have r0 := readByte_encodeBase_payload_zero obj.toInformationObject frame w hw
    [obj.encodedValue.1, obj.encodedValue.2, obj.quality % 256]
  have r1 := readByte_encodeBase_payload obj.toInformationObject frame w hw
    [obj.encodedValue.1, obj.encodedValue.2, obj.quality % 256] 1
  have r2 := readByte_encodeBase_payload obj.toInformationObject frame w hw
    [obj.encodedValue.1, obj.encodedValue.2, obj.quality % 256] 2
  have e : ((frame.length : Int) + (w : Int) + 1 + 1) = (frame.length : Int) + (w : Int) + 2 := by
    omega
  simp only [Nat.cast_one, Nat.cast_ofNat, List.getD_cons_zero, List.getD_cons_succ]
    at r0 r1 r2
  rw [henc]
  simp only [MeasuredValueNormalized_getFromBuffer, r0, r1, e, r2]
  exact ⟨trivial, trivial⟩

/-- C14: for every 8-bit quality `q` (in particular every subset of the quality flags),
encoding then decoding a `MeasuredValueScaled`, a `MeasuredValueNormalized` or a
`StepPositionInformation` created with quality `q` yields `getQuality = q`, and the value
field read back is the same for any other quality `q'`. -/
theorem C14_quality_byte_roundtrip (frame : Frame) (msgSize : Int) (w : Nat) (ioa : Int)
    (q q' : Nat) (hw : w = 1 ∨ w = 2 ∨ w = 3) (hq : q < 256) :
    (∀ (self storage : Option MeasuredValueScaled) (v : Int),
      MeasuredValueScaled_getQuality
        (MeasuredValueScaled_getFromBuffer storage ⟨(w : Int)⟩
          (MeasuredValueScaled_encode (MeasuredValueScaled_create self ioa v q) frame
            ⟨(w : Int)⟩) msgSize (frame.length : Int)) = q ∧
      MeasuredValueScaled_getValue
        (MeasuredValueScaled_getFromBuffer storage ⟨(w : Int)⟩
          (MeasuredValueScaled_encode (MeasuredValueScaled_create self ioa v q) frame
            ⟨(w : Int)⟩) msgSize (frame.length : Int)) =
      MeasuredValueScaled_getValue
        (MeasuredValueScaled_getFromBuffer storage ⟨(w : Int)⟩
          (MeasuredValueScaled_encode (MeasuredValueScaled_create self ioa v q') frame
            ⟨(w : Int)⟩) msgSize (frame.length : Int))) ∧
    (∀ (self storage : Option MeasuredValueNormalized) (v : ℚ),
      MeasuredValueNormalized_getQuality
        (MeasuredValueNormalized_getFromBuffer storage ⟨(w : Int)⟩
          (MeasuredValueNormalized_encode (MeasuredValueNormalized_create self ioa v q) frame
            ⟨(w : Int)⟩) msgSize (frame.length : Int)) = q ∧
      MeasuredValueNormalized_getValue
        (MeasuredValueNormalized_getFromBuffer storage ⟨(w : Int)⟩
          (MeasuredValueNormalized_encode (MeasuredValueNormalized_create self ioa v q) frame
            ⟨(w : Int)⟩) msgSize (frame.length : Int)) =
      MeasuredValueNormalized_getValue
        (MeasuredValueNormalized_getFromBuffer storage ⟨(w : Int)⟩
          (MeasuredValueNormalized_encode (MeasuredValueNormalized_create self ioa v q') frame
            ⟨(w : Int)⟩) msgSize (frame.length : Int))) ∧
    (∀ (self storage : Option StepPositionInformation) (p : Int) (t : Bool),
      StepPositionInformation_getQuality
        (StepPositionInformation_getFromBuffer storage ⟨(w : Int)⟩
          (StepPositionInformation_encode (StepPositionInformation_create self ioa p t q) frame
            ⟨(w : Int)⟩) msgSize (frame.length : Int)) = q ∧
      StepPositionInformation_getValue
        (StepPositionInformation_getFromBuffer storage ⟨(w : Int)⟩
          (StepPositionInformation_encode (StepPositionInformation_create self ioa p t q) frame
            ⟨(w : Int)⟩) msgSize (frame.length : Int)) =
      StepPositionInformation_getValue
        (StepPositionInformation_getFromBuffer storage ⟨(w : Int)⟩
          (StepPositionInformation_encode (StepPositionInformation_create self ioa p t q') frame
            ⟨(w : Int)⟩) msgSize (frame.length : Int)) ∧
      StepPositionInformation_isTransient
        (StepPositionInformation_getFromBuffer storage ⟨(w : Int)⟩
          (StepPositionInformation_encode (StepPositionInformation_create self ioa p t q) frame
            ⟨(w : Int)⟩) msgSize (frame.length : Int)) =
      StepPositionInformation_isTransient
        (StepPositionInformation_getFromBuffer storage ⟨(w : Int)⟩
          (StepPositionInformation_encode (StepPositionInformation_create self ioa p t q') frame
            ⟨(w : Int)⟩) msgSize (frame.length : Int))) := by
  refine ⟨?_, ?_, ?_⟩
  · intro self storage v
    obtain ⟨h1, h2⟩ := MeasuredValueScaled_getFromBuffer_encode_payload
      (MeasuredValueScaled_create self ioa v q) storage frame msgSize w hw
    obtain ⟨h1', _⟩ := MeasuredValueScaled_getFromBuffer_encode_payload
      (MeasuredValueScaled_create self ioa v q') storage frame msgSize w hw
    unfold MeasuredValueScaled_getQuality MeasuredValueScaled_getValue
    rw [h1, h2, h1']
    exact ⟨Nat.mod_eq_of_lt hq, rfl⟩
  · intro self storage v
    obtain ⟨h1, h2⟩ := MeasuredValueNormalized_getFromBuffer_encode_payload
      (MeasuredValueNormalized_create self ioa v q) storage frame msgSize w hw
    obtain ⟨h1', _⟩ := MeasuredValueNormalized_getFromBuffer_encode_payload
      (MeasuredValueNormalized_create self ioa v q') storage frame msgSize w hw
    unfold MeasuredValueNormalized_getQuality MeasuredValueNormalized_getValue
    rw [h1, h2, h1']
    exact ⟨Nat.mod_eq_of_lt hq, rfl⟩
  · intro self storage p t
    obtain ⟨h1, h2⟩ := StepPositionInformation_getFromBuffer_encode
      (StepPositionInformation_create self ioa p t q) storage frame msgSize w hw
    obtain ⟨h1', _⟩ := StepPositionInformation_getFromBuffer_encode
      (StepPositionInformation_create self ioa p t q') storage frame msgSize w hw
    unfold StepPositionInformation_getQuality StepPositionInformation_getValue
      StepPositionInformation_isTransient
    rw [h1, h2, h1']
    exact ⟨Nat.mod_eq_of_lt hq, rfl, rfl⟩

theorem C14_quality_byte_roundtrip_witness :
    MeasuredValueScaled_getQuality
        (MeasuredValueScaled_getFromBuffer none ⟨((1 : Nat) : Int)⟩
          (MeasuredValueScaled_encode (MeasuredValueScaled_create none 7 5 0x81) []
            ⟨((1 : Nat) : Int)⟩) 4 (([] : List Nat).length : Int)) = 0x81 ∧
    MeasuredValueNormalized_getQuality
        (MeasuredValueNormalized_getFromBuffer none ⟨((1 : Nat) : Int)⟩
          (MeasuredValueNormalized_encode (MeasuredValueNormalized_create none 7 (1 / 2) 0x81)
            [] ⟨((1 : Nat) : Int)⟩) 4 (([] : List Nat).length : Int)) = 0x81 ∧
    StepPositionInformation_getQuality
        (StepPositionInformation_getFromBuffer none ⟨((1 : Nat) : Int)⟩
          (StepPositionInformation_encode (StepPositionInformation_create none 7 5 true 0x81)
            [] ⟨((1 : Nat) : Int)⟩) 4 (([] : List Nat).length : Int)) = 0x81 :=
  have h := C14_quality_byte_roundtrip [] 4 1 7 0x81 0 (by decide) (by decide)
  ⟨(h.1 none none 5).1, (h.2.1 none none (1 / 2)).1, (h.2.2 none none 5 true).1⟩

/-! ### Double point and bit string: what the decoders and the encoder do -/

/-- C15 (the code departs from the claim): `DoublePointInformation_getFromBuffer` takes
the value from `(siq & 0x01) == 0x03`, which never holds, so the decoded value is
`IEC60870_DOUBLE_POINT_INTERMEDIATE` (0) for every buffer; the value `ON` (2) with quality
0 is encoded as the byte `0x02` and decoded as 0, the quality being read back as 0. -/
theorem C15_DoublePointInformation_decodes_intermediate :
    (∀ (storage : Option DoublePointInformation) (parameters : ConnectionParameters)
        (msg : List Nat) (msgSize startIndex : Int),
      DoublePointInformation_getValue
        (DoublePointInformation_getFromBuffer storage parameters msg msgSize startIndex) =
        IEC60870_DOUBLE_POINT_INTERMEDIATE) ∧
    DoublePointInformation_encode
      (DoublePointInformation_create none 1 IEC60870_DOUBLE_POINT_ON 0) [] ⟨1⟩ =
      [0x01, 0x02] ∧
    DoublePointInformation_getValue
      (DoublePointInformation_getFromBuffer none ⟨1⟩
        (DoublePointInformation_encode
          (DoublePointInformation_create none 1 IEC60870_DOUBLE_POINT_ON 0) [] ⟨1⟩) 2 0) = 0 ∧
    DoublePointInformation_getQuality
      (DoublePointInformation_getFromBuffer none ⟨1⟩
        (DoublePointInformation_encode
          (DoublePointInformation_create none 1 IEC60870_DOUBLE_POINT_ON 0) [] ⟨1⟩) 2 0) = 0 := by
  refine ⟨?_, by decide, by decide, by decide⟩
  intro storage parameters msg msgSize startIndex
  have hle : ∀ siq : Nat, ((siq &&& 0x01) == 0x03) = false := by
    intro siq
    have h : siq &&& 0x01 ≤ 0x01 := Nat.and_le_right
    have hne : siq &&& 0x01 ≠ 0x03 := by omega
    simpa using hne
  unfold DoublePointInformation_getValue DoublePointInformation_getFromBuffer
  simp only [hle, Bool.false_eq_true, if_false]
  rfl

/-- C16 (the code departs from the claim): `BitString32_getFromBuffer` sums the four value
bytes into a local variable and never stores it, so the decoded object keeps the value the
storage held before (caller-supplied storage) or the indeterminate content of fresh
storage; the value `0x12345678` is encoded as `78 56 34 12` and decoding those bytes into
storage that holds 0 leaves `BitString32_getValue = 0`. -/
theorem C16_BitString32_value_not_decoded :
    (∀ (s : BitString32) (parameters : ConnectionParameters) (msg : List Nat)
        (msgSize startIndex : Int) (mallocContent : BitString32),
      BitString32_getValue
        (BitString32_getFromBuffer (some s) parameters msg msgSize startIndex mallocContent) =
        s.value) ∧
    (∀ (parameters : ConnectionParameters) (msg : List Nat) (msgSize startIndex : Int)
        (mallocContent : BitString32),
      BitString32_getValue
        (BitString32_getFromBuffer none parameters msg msgSize startIndex mallocContent) =
        mallocContent.value) ∧
    BitString32_encode (BitString32_create none 1 0x12345678) [] ⟨1⟩ =
      [0x01, 0x78, 0x56, 0x34, 0x12, 0x00] ∧
    BitString32_getValue
      (BitString32_getFromBuffer (some (BitString32_create none 0 0)) ⟨1⟩
        (BitString32_encode (BitString32_create none 1 0x12345678) [] ⟨1⟩) 6 0
        BitString32.zeroed) = 0 := by
  refine ⟨?_, ?_, by decide, by decide⟩
  · intro s parameters msg msgSize startIndex mallocContent
    rfl
  · intro parameters msg msgSize startIndex mallocContent
    rfl

/-- C17 (the code departs from the claim): the encoders first convert the `uint32_t` value
to `int`; for `0xFFFFFFFF` that is `-1`, and the truncating divisions give the bytes
`FF 00 00 00` instead of `FF FF FF FF`, in `BitString32_encode` and in both time-tagged
variants. -/
theorem C17_BitString32_encode_high_values :
    BitString32_encode (BitString32_create none 1 0xFFFFFFFF) [] ⟨1⟩ =
      [0x01, 0xFF, 0x00, 0x00, 0x00, 0x00] ∧
    Bitstring32WithCP24Time2a_encode
      (Bitstring32WithCP24Time2a_create none 1 0xFFFFFFFF ⟨[1, 2, 3]⟩) [] ⟨1⟩ =
      [0x01, 0xFF, 0x00, 0x00, 0x00, 0x00, 1, 2, 3] ∧
    Bitstring32WithCP56Time2a_encode
      (Bitstring32WithCP56Time2a_create none 1 0xFFFFFFFF ⟨[1, 2, 3, 4, 5, 6, 7]⟩) [] ⟨1⟩ =
      [0x01, 0xFF, 0x00, 0x00, 0x00, 0x00, 1, 2, 3, 4, 5, 6, 7] ∧
    (0xFFFFFFFF / 2 ^ 8) % 256 = 0xFF := by
  decide

/-- Where the little-endian layout does hold: for a value below `2^31` the conversion to
`int` keeps the value and `BitString32_encode` appends its four little-endian bytes and the
quality byte after the address. -/
theorem BitString32_encode_below_two_pow_31 (self : BitString32) (frame : Frame)
    (parameters : ConnectionParameters) (h : self.value < 2 ^ 31) :
    BitString32_encode self frame parameters =
      InformationObject_encodeBase self.toInformationObject frame parameters ++
        [self.value % 256, self.value / 2 ^ 8 % 256, self.value / 2 ^ 16 % 256,
          self.value / 2 ^ 24, self.quality % 256] := by
  have hv : toInt32 self.value = (self.value : Int) := by
    unfold toInt32
    have hm : self.value % 2 ^ 32 = self.value := Nat.mod_eq_of_lt (by omega)
    rw [hm, if_pos h]
  have n0 : (0 : Int) ≤ (self.value : Int) := Int.ofNat_nonneg _
  have d1 : Int.tdiv (self.value : Int) 0x100 = (self.value : Int) / 256 :=
    Int.tdiv_eq_ediv n0 (by decide)
  have d2 : Int.tdiv (self.value : Int) 0x10000 = (self.value : Int) / 65536 :=
    Int.tdiv_eq_ediv n0 (by decide)
  have d3 : Int.tdiv (self.value : Int) 0x1000000 = (self.value : Int) / 16777216 :=
    Int.tdiv_eq_ediv n0 (by decide)
  have m0 : Int.tmod (self.value : Int) 0x100 = (self.value : Int) % 256 :=
    Int.tmod_eq_emod n0 (by decide)
  have m1 : Int.tmod ((self.value : Int) / 256) 0x100 = (self.value : Int) / 256 % 256 :=
    Int.tmod_eq_emod (by omega) (by decide)
  have m2 : Int.tmod ((self.value : Int) / 65536) 0x100 = (self.value : Int) / 65536 % 256 :=
    Int.tmod_eq_emod (by omega) (by decide)
  have b0 : toU8 ((self.value : Int) % 256) = self.value % 256 := by unfold toU8; omega
  have b1 : toU8 ((self.value : Int) / 256 % 256) = self.value / 2 ^ 8 % 256 := by
    unfold toU8; omega
  have b2 : toU8 ((self.value : Int) / 65536 % 256) = self.value / 2 ^ 16 % 256 := by
    unfold toU8; omega
  have b3 : toU8 ((self.value : Int) / 16777216) = self.value / 2 ^ 24 := by
    unfold toU8; omega
  unfold BitString32_encode
  simp only [hv, d1, d2, d3, m0, m1, m2, b0, b1, b2, b3, Frame_setNextByte, List.append_assoc,
    List.singleton_append, List.cons_append, List.nil_append]

/-! ### Integrated totals -/

theorem range5_getD (l : List Nat) (h : l.length = 5) :
    (List.range 5).map (fun i => l.getD i 0) = l := by
  match l, h with
  | [a, b, c, d, e], _ => rfl

/-- C18: for every 5-byte binary counter reading `r`, width `w ∈ {1,2,3}` and address
`0 ≤ a < 256^w`, decoding with `IntegratedTotals_getFromBuffer` the encoding of
`IntegratedTotals_create(a, r)` yields address `a` and a reading whose 5 bytes equal `r`
byte for byte. -/
theorem C18_IntegratedTotals_roundtrip (self storage : Option IntegratedTotals)
    (frame : Frame) (msgSize : Int) (w : Nat) (a : Int) (r : BinaryCounterReading)
    (hw : w = 1 ∨ w = 2 ∨ w = 3) (ha0 : 0 ≤ a) (ha1 : a < 256 ^ w)
    (hr : r.encodedValue.length = 5) :
    (IntegratedTotals_getFromBuffer storage ⟨(w : Int)⟩
        (IntegratedTotals_encode (IntegratedTotals_create self a r) frame ⟨(w : Int)⟩)
        msgSize (frame.length : Int)).objectAddress = a ∧
    IntegratedTotals_getBCR
      (IntegratedTotals_getFromBuffer storage ⟨(w : Int)⟩
        (IntegratedTotals_encode (IntegratedTotals_create self a r) frame ⟨(w : Int)⟩)
        msgSize (frame.length : Int)) = r ∧
    (IntegratedTotals_getBCR
      (IntegratedTotals_getFromBuffer storage ⟨(w : Int)⟩
        (IntegratedTotals_encode (IntegratedTotals_create self a r) frame ⟨(w : Int)⟩)
        msgSize (frame.length : Int))).encodedValue = r.encodedValue := by
  have hobj : (IntegratedTotals_create self a r).objectAddress = a := rfl
  have htot : (IntegratedTotals_create self a r).totals = r := rfl
  have henc : IntegratedTotals_encode (IntegratedTotals_create self a r) frame ⟨(w : Int)⟩ =
      InformationObject_encodeBase (IntegratedTotals_create self a r).toInformationObject frame
        ⟨(w : Int)⟩ ++ r.encodedValue := by
    unfold IntegratedTotals_encode Frame_appendBytes
    rw [htot, List.take_of_length_le (le_of_eq hr)]
  have hbytes : ∀ i : Nat,
      readByte (InformationObject_encodeBase
        (IntegratedTotals_create self a r).toInformationObject frame ⟨(w : Int)⟩ ++
          r.encodedValue) ((frame.length : Int) + (w : Int) + (i : Int)) =
        r.encodedValue.getD i 0 :=
    fun i => readByte_encodeBase_payload _ frame w hw r.encodedValue i
  have haddr := getFromBuffer_encodeBase (IntegratedTotals_create self a r).toInformationObject
    (match storage with
      | none => IntegratedTotals_initialize IntegratedTotals.zeroed
      | some s => s).toInformationObject frame r.encodedValue w hw (by rw [hobj]; exact ha0)
  have hbcr : IntegratedTotals_getBCR
      (IntegratedTotals_getFromBuffer storage ⟨(w : Int)⟩
        (IntegratedTotals_encode (IntegratedTotals_create self a r) frame ⟨(w : Int)⟩)
        msgSize (frame.length : Int)) = r := by
    rw [henc]
    unfold IntegratedTotals_getBCR IntegratedTotals_getFromBuffer
    simp only [hbytes, range5_getD r.encodedValue hr]
  refine ⟨?_, hbcr, by rw [hbcr]⟩
  rw [henc]
  unfold IntegratedTotals_getFromBuffer
  simp only
  rw [haddr, hobj]
  exact Int.emod_eq_of_lt ha0 ha1

theorem C18_IntegratedTotals_roundtrip_witness :
    (IntegratedTotals_getFromBuffer none ⟨((3 : Nat) : Int)⟩
        (IntegratedTotals_encode
          (IntegratedTotals_create none 0x010203 ⟨[0x78, 0x56, 0x34, 0x12, 0xE5]⟩) [9]
          ⟨((3 : Nat) : Int)⟩)
        9 (([9] : List Nat).length : Int)).objectAddress = 0x010203 ∧
    IntegratedTotals_getBCR
      (IntegratedTotals_getFromBuffer none ⟨((3 : Nat) : Int)⟩
        (IntegratedTotals_encode
          (IntegratedTotals_create none 0x010203 ⟨[0x78, 0x56, 0x34, 0x12, 0xE5]⟩) [9]
          ⟨((3 : Nat) : Int)⟩)
        9 (([9] : List Nat).length : Int)) = ⟨[0x78, 0x56, 0x34, 0x12, 0xE5]⟩ :=
  have h := C18_IntegratedTotals_roundtrip none none [9] 9 3 0x010203
    ⟨[0x78, 0x56, 0x34, 0x12, 0xE5]⟩ (by decide) (by decide) (by decide) rfl
  ⟨h.1, h.2.1⟩

/-! ### Command bytes -/

theorem sco_bits : ∀ k : Nat, k < 32 → ∀ c s : Bool,
    ((if s then ((if c then (4 * k ||| 0x01) % 256 else 4 * k) ||| 0x80) % 256
        else (if c then (4 * k ||| 0x01) % 256 else 4 * k)) &&& 0x7c) / 4 = k ∧
    (((if s then ((if c then (4 * k ||| 0x01) % 256 else 4 * k) ||| 0x80) % 256
        else (if c then (4 * k ||| 0x01) % 256 else 4 * k)) &&& 0x01) == 0x01) = c ∧
    (((if s then ((if c then (4 * k ||| 0x01) % 256 else 4 * k) ||| 0x80) % 256
        else (if c then (4 * k ||| 0x01) % 256 else 4 * k)) &&& 0x80) == 0x80) = s ∧
    (if s then ((if c then (4 * k ||| 0x01) % 256 else 4 * k) ||| 0x80) % 256
        else (if c then (4 * k ||| 0x01) % 256 else 4 * k)) =
      4 * k + (if c then 1 else 0) + (if s then 128 else 0) := by
  decide

theorem dcq_bits : ∀ k : Nat, k < 32 → ∀ c : Nat, c < 4 → ∀ s : Bool,
    ((if s then ((4 * k + c) % 256 ||| 0x80) % 256 else (4 * k + c) % 256) &&& 0x7c) / 4 = k ∧
    (if s then ((4 * k + c) % 256 ||| 0x80) % 256 else (4 * k + c) % 256) &&& 0x03 = c ∧
    (((if s then ((4 * k + c) % 256 ||| 0x80) % 256 else (4 * k + c) % 256) &&& 0x80)
      == 0x80) = s ∧
    (if s then ((4 * k + c) % 256 ||| 0x80) % 256 else (4 * k + c) % 256) =
      4 * k + c + (if s then 128 else 0) := by
  decide

/-- The qualifier part of a command byte: `(uint8_t) ((qu & 0x1f) * 4)`. -/
theorem qu_part (qu : Int) : toU8 ((Int.land qu 0x1f) * 4) = 4 * (qu % 32).toNat := by
  rw [land_0x1f]
  unfold toU8
  omega

/-- The state part of a double or step command byte: `(uint8_t) (command & 0x03)`. -/
theorem state_part (c : Int) (h0 : 0 ≤ c) (h1 : c ≤ 3) : toU8 (Int.land c 0x03) = c.toNat := by
  rw [land_0x03]
  unfold toU8
  omega

theorem tdiv_four_natCast (n : Nat) : Int.tdiv (n : Int) 4 = ((n / 4 : Nat) : Int) := by
  rw [Int.tdiv_eq_ediv (Int.ofNat_nonneg _) (by decide)]
  omega

theorem SingleCommand_create_fields (self : Option SingleCommand) (ioa qu : Int)
    (c s : Bool) :
    SingleCommand_getQU (SingleCommand_create self ioa c s qu) = qu % 32 ∧
    SingleCommand_getState (SingleCommand_create self ioa c s qu) = c ∧
    SingleCommand_isSelect (SingleCommand_create self ioa c s qu) = s ∧
    ((SingleCommand_create self ioa c s qu).sco : Int) =
      (qu % 32) * 4 + (if c then 1 else 0) + (if s then 128 else 0) := by
  generalize hk : (qu % 32).toNat = k
  have hk32 : k < 32 := by omega
  have hkq : (k : Int) = qu % 32 := by omega
  have hsco : (SingleCommand_create self ioa c s qu).sco =
      (if s then ((if c then (4 * k ||| 0x01) % 256 else 4 * k) ||| 0x80) % 256
        else (if c then (4 * k ||| 0x01) % 256 else 4 * k)) := by
    unfold SingleCommand_create
    simp only [qu_part, hk]
  obtain ⟨b1, b2, b3, b4⟩ := sco_bits k hk32 c s
  unfold SingleCommand_getQU SingleCommand_getState SingleCommand_isSelect
  rw [hsco, tdiv_four_natCast, b1, b2, b3, b4, ← hkq]
  refine ⟨rfl, rfl, rfl, ?_⟩
  cases c <;> cases s <;> simp <;> omega

theorem DoubleCommand_create_fields (self : Option DoubleCommand) (ioa qu c : Int)
    (s : Bool) (h0 : 0 ≤ c) (h1 : c ≤ 3) :
    DoubleCommand_getQU (DoubleCommand_create self ioa c s qu) = qu % 32 ∧
    DoubleCommand_getState (DoubleCommand_create self ioa c s qu) = c ∧
    DoubleCommand_isSelect (DoubleCommand_create self ioa c s qu) = s ∧
    ((DoubleCommand_create self ioa c s qu).dcq : Int) =
      (qu % 32) * 4 + c + (if s then 128 else 0) := by
  generalize hk : (qu % 32).toNat = k
  have hk32 : k < 32 := by omega
  have hkq : (k : Int) = qu % 32 := by omega
  generalize hn : c.toNat = n
  have hn4 : n < 4 := by omega
  have hnc : (n : Int) = c := by omega
  have hdcq : (DoubleCommand_create self ioa c s qu).dcq =
      (if s then ((4 * k + n) % 256 ||| 0x80) % 256 else (4 * k + n) % 256) := by
    unfold DoubleCommand_create
    simp only [qu_part, state_part c h0 h1, hk, hn]
  obtain ⟨b1, b2, b3, b4⟩ := dcq_bits k hk32 n hn4 s
  unfold DoubleCommand_getQU DoubleCommand_getState DoubleCommand_isSelect
  rw [hdcq, tdiv_four_natCast, b1, b2, b3, b4, ← hkq, ← hnc]
  refine ⟨rfl, rfl, rfl, ?_⟩
  cases s <;> simp <;> omega

theorem StepCommand_create_fields (self : Option StepCommand) (ioa qu c : Int)
    (s : Bool) (h0 : 0 ≤ c) (h1 : c ≤ 3) :
    StepCommand_getQU (StepCommand_create self ioa c s qu) = qu % 32 ∧
    StepCommand_getState (StepCommand_create self ioa c s qu) = c ∧
    StepCommand_isSelect (StepCommand_create self ioa c s qu) = s ∧
    ((StepCommand_create self ioa c s qu).dcq : Int) =
      (qu % 32) * 4 + c + (if s then 128 else 0) := by
  generalize hk : (qu % 32).toNat = k
  have hk32 : k < 32 := by omega
  have hkq : (k : Int) = qu % 32 := by omega
  generalize hn : c.toNat = n
  have hn4 : n < 4 := by omega
  have hnc : (n : Int) = c := by omega
  have hdcq : (StepCommand_create self ioa c s qu).dcq =
      (if s then ((4 * k + n) % 256 ||| 0x80) % 256 else (4 * k + n) % 256) := by
    unfold StepCommand_create
    simp only [qu_part, state_part c h0 h1, hk, hn]
  obtain ⟨b1, b2, b3, b4⟩ := dcq_bits k hk32 n hn4 s
  unfold StepCommand_getQU StepCommand_getState StepCommand_isSelect
  rw [hdcq, tdiv_four_natCast, b1, b2, b3, b4, ← hkq, ← hnc]
  refine ⟨rfl, rfl, rfl, ?_⟩
  cases s <;> simp <;> omega

/-- C19: for every select flag `s` and command state `c`, the command byte built by
`SingleCommand_create` (`c` boolean, bit 0), `DoubleCommand_create` and
`StepCommand_create` (`c` in `0..3`, bits 0-1) holds the qualifier in bits 2-6 and `s` in
bit 7: `getQU` returns `qu mod 32` (so `qu` itself for `qu` in `0..31`), `getState` returns
`c` and `isSelect` returns `s`, for every integer `qu`. -/
theorem C19_command_byte_layout (qu : Int) (s : Bool) :
    (∀ (self : Option SingleCommand) (ioa : Int) (c : Bool),
      SingleCommand_getQU (SingleCommand_create self ioa c s qu) = qu % 32 ∧
      SingleCommand_getState (SingleCommand_create self ioa c s qu) = c ∧
      SingleCommand_isSelect (SingleCommand_create self ioa c s qu) = s ∧
      ((SingleCommand_create self ioa c s qu).sco : Int) =
        (qu % 32) * 4 + (if c then 1 else 0) + (if s then 128 else 0) ∧
      (0 ≤ qu → qu ≤ 31 → SingleCommand_getQU (SingleCommand_create self ioa c s qu) = qu)) ∧
    (∀ (self : Option DoubleCommand) (ioa c : Int), 0 ≤ c → c ≤ 3 →
      DoubleCommand_getQU (DoubleCommand_create self ioa c s qu) = qu % 32 ∧
      DoubleCommand_getState (DoubleCommand_create self ioa c s qu) = c ∧
      DoubleCommand_isSelect (DoubleCommand_create self ioa c s qu) = s ∧
      ((DoubleCommand_create self ioa c s qu).dcq : Int) =
        (qu % 32) * 4 + c + (if s then 128 else 0) ∧
      (0 ≤ qu → qu ≤ 31 → DoubleCommand_getQU (DoubleCommand_create self ioa c s qu) = qu)) ∧
    (∀ (self : Option StepCommand) (ioa c : Int), 0 ≤ c → c ≤ 3 →
      StepCommand_getQU (StepCommand_create self ioa c s qu) = qu % 32 ∧
      StepCommand_getState (StepCommand_create self ioa c s qu) = c ∧
      StepCommand_isSelect (StepCommand_create self ioa c s qu) = s ∧
      ((StepCommand_create self ioa c s qu).dcq : Int) =
        (qu % 32) * 4 + c + (if s then 128 else 0) ∧
      (0 ≤ qu → qu ≤ 31 → StepCommand_getQU (StepCommand_create self ioa c s qu) = qu)) := by
  refine ⟨?_, ?_, ?_⟩
  · intro self ioa c
    obtain ⟨h1, h2, h3, h4⟩ := SingleCommand_create_fields self ioa qu c s
    exact ⟨h1, h2, h3, h4, fun a b => by rw [h1]; omega⟩
  · intro self ioa c h0 h1'
    obtain ⟨h1, h2, h3, h4⟩ := DoubleCommand_create_fields self ioa qu c s h0 h1'
    exact ⟨h1, h2, h3, h4, fun a b => by rw [h1]; omega⟩
  · intro self ioa c h0 h1'
    obtain ⟨h1, h2, h3, h4⟩ := StepCommand_create_fields self ioa qu c s h0 h1'
    exact ⟨h1, h2, h3, h4, fun a b => by rw [h1]; omega⟩

theorem C19_command_byte_layout_witness :
    (SingleCommand_getQU (SingleCommand_create none 5 true true 37) = 37 % 32 ∧
      SingleCommand_getState (SingleCommand_create none 5 true true 37) = true ∧
      SingleCommand_isSelect (SingleCommand_create none 5 true true 37) = true) ∧
    (DoubleCommand_getQU (DoubleCommand_create none 5 2 true 37) = 37 % 32 ∧
      DoubleCommand_getState (DoubleCommand_create none 5 2 true 37) = 2 ∧
      DoubleCommand_isSelect (DoubleCommand_create none 5 2 true 37) = true) ∧
    (StepCommand_getQU (StepCommand_create none 5 3 true 37) = 37 % 32 ∧
      StepCommand_getState (StepCommand_create none 5 3 true 37) = 3 ∧
      StepCommand_isSelect (StepCommand_create none 5 3 true 37) = true) :=
  have h := C19_command_byte_layout 37 true
  have h1 := h.1 none 5 true
  have h2 := h.2.1 none 5 2 (by decide) (by decide)
  have h3 := h.2.2 none 5 3 (by decide) (by decide)
  ⟨⟨h1.1, h1.2.1, h1.2.2.1⟩, ⟨h2.1, h2.2.1, h2.2.2.1⟩, ⟨h3.1, h3.2.1, h3.2.2.1⟩⟩

theorem command_byte_fields : ∀ b : Nat, b < 256 →
    b &&& 0x03 = b % 4 ∧ (b &&& 0x7c) / 4 = b / 4 % 32 ∧
    ((b &&& 0x80) == 0x80) = decide (128 ≤ b) := by
  decide

theorem readByte_of_getElem? (msg : List Nat) (i : Int) (b : Nat) (hi : 0 ≤ i)
    (hb : msg[i.toNat]? = some b) : readByte msg i = b := by
  unfold readByte
  rw [if_neg (by omega), List.getD_eq_getElem?_getD, hb]
  rfl

/-- C20: for every command byte `b` and width `w ∈ {1,2,3}`, `DoubleCommand_getFromBuffer`
and `StepCommand_getFromBuffer` on a buffer that holds at least `w + 1` bytes from
`startIndex`, the byte at `startIndex + w` being `b`, succeed, and the decoded object has
`getState = b mod 4`, `getQU = (b div 4) mod 32` and `isSelect = (b ≥ 128)`. -/
theorem C20_command_decode_all_bytes (w : Nat) (msg : List Nat) (msgSize startIndex : Int)
    (b : Nat) (hw : w = 1 ∨ w = 2 ∨ w = 3) (hs : 0 ≤ startIndex)
    (hroom : (w : Int) + 1 ≤ msgSize - startIndex)
    (hb : msg[(startIndex + (w : Int)).toNat]? = some b) (hb256 : b < 256) :
    (∀ storage : Option DoubleCommand, ∃ obj : DoubleCommand,
      DoubleCommand_getFromBuffer storage ⟨(w : Int)⟩ msg msgSize startIndex = some obj ∧
      DoubleCommand_getState obj = ((b % 4 : Nat) : Int) ∧
      DoubleCommand_getQU obj = ((b / 4 % 32 : Nat) : Int) ∧
      DoubleCommand_isSelect obj = decide (128 ≤ b)) ∧
    (∀ storage : Option StepCommand, ∃ obj : StepCommand,
      StepCommand_getFromBuffer storage ⟨(w : Int)⟩ msg msgSize startIndex = some obj ∧
      StepCommand_getState obj = ((b % 4 : Nat) : Int) ∧
      StepCommand_getQU obj = ((b / 4 % 32 : Nat) : Int) ∧
      StepCommand_isSelect obj = decide (128 ≤ b)) := by
  have hcheck : ¬ (msgSize - startIndex < (w : Int) + 1) := by omega
  have hread : readByte msg (startIndex + (w : Int)) = b :=
    readByte_of_getElem? msg _ b (by omega) hb
  obtain ⟨b1, b2, b3⟩ := command_byte_fields b hb256
  refine ⟨?_, ?_⟩
  · intro storage
    refine ⟨_, by unfold DoubleCommand_getFromBuffer; rw [if_neg hcheck], ?_, ?_, ?_⟩
    · simp only [DoubleCommand_getState, hread, b1]
    · simp only [DoubleCommand_getQU, hread, tdiv_four_natCast, b2]
    · simp only [DoubleCommand_isSelect, hread, b3]
  · intro storage
    refine ⟨_, by unfold StepCommand_getFromBuffer; rw [if_neg hcheck], ?_, ?_, ?_⟩
    · simp only [StepCommand_getState, hread, b1]
    · simp only [StepCommand_getQU, hread, tdiv_four_natCast, b2]
    · simp only [StepCommand_isSelect, hread, b3]

theorem C20_command_decode_all_bytes_witness :
    (DoubleCommand_getFromBuffer none ⟨((1 : Nat) : Int)⟩ [0x05, 0xFF] 2 0).map
      DoubleCommand_getState = some 3 ∧
    (StepCommand_getFromBuffer none ⟨((1 : Nat) : Int)⟩ [0x05, 0xFF] 2 0).map
      StepCommand_getQU = some 31 := by
  have h := C20_command_decode_all_bytes 1 [0x05, 0xFF] 2 0 0xFF (by decide) (by decide)
    (by decide) rfl (by decide)
  obtain ⟨o1, e1, s1, q1, i1⟩ := h.1 none
  obtain ⟨o2, e2, s2, q2, i2⟩ := h.2 none
  rw [e1, e2, Option.map_some', Option.map_some', s1, q2]
  exact ⟨rfl, rfl⟩

/-! ### Setpoint commands -/

theorem qos_bits : ∀ n : Nat, n < 128 → ∀ s : Bool,
    (if s then (n ||| 0x80) % 256 else n) = n + (if s then 128 else 0) ∧
    (if s then (n ||| 0x80) % 256 else n) &&& 0x7f = n ∧
    (((if s then (n ||| 0x80) % 256 else n) &&& 0x80) == 0x80) = s := by
  decide

/-- The C expression `ql & 0x7f` on an `int`: the non-negative remainder modulo 128. -/
theorem land_0x7f (ql : Int) : Int.land ql 0x7f = ql % 128 := by
  cases ql with
  | ofNat n =>
    show ((n &&& (2 ^ 7 - 1) : Nat) : Int) = _
    rw [Nat.and_pow_two_sub_one_eq_mod]
    simp
  | negSucc m =>
    show ((Nat.ldiff (2 ^ 7 - 1) m : Nat) : Int) = _
    rw [ldiff_mask, Int.negSucc_eq]
    omega

theorem SetpointCommandNormalized_create_qos (self : Option SetpointCommandNormalized)
    (ioa ql : Int) (v : ℚ) (s : Bool) (h0 : 0 ≤ ql) (h1 : ql ≤ 127) :
    ((SetpointCommandNormalized_create self ioa v s ql).qos : Int) =
      ql + (if s then 128 else 0) ∧
    SetPointCommandNormalized_getQL (SetpointCommandNormalized_create self ioa v s ql) = ql ∧
    SetpointCommandNormalized_isSelect (SetpointCommandNormalized_create self ioa v s ql) = s := by
  generalize hn : ql.toNat = n
  have hn128 : n < 128 := by omega
  have hnq : (n : Int) = ql := by omega
  have hu : toU8 ql = n := by unfold toU8; omega
  have hqos : (SetpointCommandNormalized_create self ioa v s ql).qos =
      (if s then (n ||| 0x80) % 256 else n) := by
    unfold SetpointCommandNormalized_create
    simp only [hu]
  obtain ⟨b1, b2, b3⟩ := qos_bits n hn128 s
  unfold SetPointCommandNormalized_getQL SetpointCommandNormalized_isSelect
  rw [hqos, b2, b3, b1, ← hnq]
  refine ⟨?_, rfl, rfl⟩
  cases s <;> simp

theorem SetpointCommandScaled_create_qos (self : Option SetpointCommandScaled)
    (ioa ql : Int) (v : ℚ) (s : Bool) (h0 : 0 ≤ ql) (h1 : ql ≤ 127) :
    ((SetpointCommandScaled_create self ioa v s ql).qos : Int) =
      ql + (if s then 128 else 0) ∧
    SetpointCommandScaled_getQL (SetpointCommandScaled_create self ioa v s ql) = ql ∧
    SetpointCommandScaled_isSelect (SetpointCommandScaled_create self ioa v s ql) = s := by
  generalize hn : ql.toNat = n
  have hn128 : n < 128 := by omega
  have hnq : (n : Int) = ql := by omega
  have hu : toU8 ql = n := by unfold toU8; omega
  have hqos : (SetpointCommandScaled_create self ioa v s ql).qos =
      (if s then (n ||| 0x80) % 256 else n) := by
    unfold SetpointCommandScaled_create
    simp only [hu]
  obtain ⟨b1, b2, b3⟩ := qos_bits n hn128 s
  unfold SetpointCommandScaled_getQL SetpointCommandScaled_isSelect
  rw [hqos, b2, b3, b1, ← hnq]
  refine ⟨?_, rfl, rfl⟩
  cases s <;> simp

/-- The qualifier byte of `SetpointCommandShort_create`, for every integer `ql`: the
level is masked with `0x7f` before the select bit is set. -/
theorem SetpointCommandShort_create_qos (self : Option SetpointCommandShort)
    (ioa ql : Int) (v : Nat) (s : Bool) :
    ((SetpointCommandShort_create self ioa v s ql).qos : Int) =
      ql % 128 + (if s then 128 else 0) ∧
    SetpointCommandShort_getQL (SetpointCommandShort_create self ioa v s ql) = ql % 128 ∧
    SetpointCommandShort_isSelect (SetpointCommandShort_create self ioa v s ql) = s := by
  generalize hn : (ql % 128).toNat = n
  have hn128 : n < 128 := by omega
  have hnq : (n : Int) = ql % 128 := by omega
  have hu : toU8 (Int.land ql 0x7f) = n := by rw [land_0x7f]; unfold toU8; omega
  have hqos : (SetpointCommandShort_create self ioa v s ql).qos =
      (if s then (n ||| 0x80) % 256 else n) := by
    unfold SetpointCommandShort_create
    simp only [hu]
  obtain ⟨b1, b2, b3⟩ := qos_bits n hn128 s
  unfold SetpointCommandShort_getQL SetpointCommandShort_isSelect
  rw [hqos, b2, b3, b1, ← hnq]
  refine ⟨?_, rfl, rfl⟩
  cases s <;> simp

/-- C21: for every qualifier level `ql` in `0..127` and select flag `s`, the objects built
by `SetpointCommandNormalized_create`, `SetpointCommandScaled_create` and
`SetpointCommandShort_create` have qualifier byte `ql + 128*s`, so that `getQL` returns
`ql` and `isSelect` returns `s`, and the qualifier byte is the last byte of the
encoding. -/
theorem C21_setpoint_qualifier_byte (ql : Int) (s : Bool) (h0 : 0 ≤ ql) (h1 : ql ≤ 127) :
    (∀ (self : Option SetpointCommandNormalized) (ioa : Int) (v : ℚ) (frame : Frame)
        (parameters : ConnectionParameters),
      ((SetpointCommandNormalized_create self ioa v s ql).qos : Int) =
        ql + (if s then 128 else 0) ∧
      SetPointCommandNormalized_getQL (SetpointCommandNormalized_create self ioa v s ql) = ql ∧
      SetpointCommandNormalized_isSelect (SetpointCommandNormalized_create self ioa v s ql)
        = s ∧
      (SetpointCommandNormalized_encode (SetpointCommandNormalized_create self ioa v s ql)
        frame parameters).getLast? =
        some (SetpointCommandNormalized_create self ioa v s ql).qos) ∧
    (∀ (self : Option SetpointCommandScaled) (ioa : Int) (v : ℚ) (frame : Frame)
        (parameters : ConnectionParameters),
      ((SetpointCommandScaled_create self ioa v s ql).qos : Int) =
        ql + (if s then 128 else 0) ∧
      SetpointCommandScaled_getQL (SetpointCommandScaled_create self ioa v s ql) = ql ∧
      SetpointCommandScaled_isSelect (SetpointCommandScaled_create self ioa v s ql) = s ∧
      (SetpointCommandScaled_encode (SetpointCommandScaled_create self ioa v s ql)
        frame parameters).getLast? =
        some (SetpointCommandScaled_create self ioa v s ql).qos) ∧
    (∀ (self : Option SetpointCommandShort) (ioa : Int) (v : Nat) (frame : Frame)
        (parameters : ConnectionParameters),
      ((SetpointCommandShort_create self ioa v s ql).qos : Int) =
        ql + (if s then 128 else 0) ∧
      SetpointCommandShort_getQL (SetpointCommandShort_create self ioa v s ql) = ql ∧
      SetpointCommandShort_isSelect (SetpointCommandShort_create self ioa v s ql) = s ∧
      (SetpointCommandShort_encode (SetpointCommandShort_create self ioa v s ql)
        frame parameters).getLast? =
        some (SetpointCommandShort_create self ioa v s ql).qos) := by
  have hmod : ql % 128 = ql := by omega
  refine ⟨?_, ?_, ?_⟩
  · intro self ioa v frame parameters
    obtain ⟨a1, a2, a3⟩ := SetpointCommandNormalized_create_qos self ioa ql v s h0 h1
    refine ⟨a1, a2, a3, ?_⟩
    simp [SetpointCommandNormalized_encode, Frame_setNextByte]
  · intro self ioa v frame parameters
    obtain ⟨a1, a2, a3⟩ := SetpointCommandScaled_create_qos self ioa ql v s h0 h1
    refine ⟨a1, a2, a3, ?_⟩
    simp [SetpointCommandScaled_encode, Frame_setNextByte]
  · intro self ioa v frame parameters
    obtain ⟨a1, a2, a3⟩ := SetpointCommandShort_create_qos self ioa ql v s
    rw [hmod] at a1 a2
    refine ⟨a1, a2, a3, ?_⟩
    simp [SetpointCommandShort_encode, Frame_setNextByte]

theorem C21_setpoint_qualifier_byte_witness :
    (SetPointCommandNormalized_getQL (SetpointCommandNormalized_create none 1 (1 / 2) true 100)
        = 100 ∧
      SetpointCommandNormalized_isSelect
        (SetpointCommandNormalized_create none 1 (1 / 2) true 100) = true) ∧
    (SetpointCommandScaled_getQL (SetpointCommandScaled_create none 1 0 true 100) = 100 ∧
      SetpointCommandScaled_isSelect (SetpointCommandScaled_create none 1 0 true 100) = true) ∧
    (SetpointCommandShort_getQL (SetpointCommandShort_create none 1 0x3F800000 true 100) = 100 ∧
      SetpointCommandShort_isSelect (SetpointCommandShort_create none 1 0x3F800000 true 100)
        = true) :=
  have h := C21_setpoint_qualifier_byte 100 true (by decide) (by decide)
  have h1 := h.1 none 1 (1 / 2) [] ⟨1⟩
  have h2 := h.2.1 none 1 0 [] ⟨1⟩
  have h3 := h.2.2 none 1 0x3F800000 [] ⟨1⟩
  ⟨⟨h1.2.1, h1.2.2.1⟩, ⟨h2.2.1, h2.2.2.1⟩, ⟨h3.2.1, h3.2.2.1⟩⟩

/-- The select bit read from `SetpointCommandNormalized_create` and
`SetpointCommandScaled_create` for every integer `ql`: bit 7 of the unmasked `(uint8_t) ql`
is read as well. -/
theorem setpoint_isSelect_unmasked (ioa ql : Int) (v : ℚ) (s : Bool) :
    (∀ self : Option SetpointCommandNormalized,
      SetpointCommandNormalized_isSelect (SetpointCommandNormalized_create self ioa v s ql) =
        (s || decide (128 ≤ ql % 256))) ∧
    (∀ self : Option SetpointCommandScaled,
      SetpointCommandScaled_isSelect (SetpointCommandScaled_create self ioa v s ql) =
        (s || decide (128 ≤ ql % 256))) := by
  have hb : ∀ n : Nat, n < 256 → ∀ s : Bool,
      (((if s then (n ||| 0x80) % 256 else n) &&& 0x80) == 0x80) = (s || decide (128 ≤ n)) := by
    decide
  generalize hn : toU8 ql = n
  have hn256 : n < 256 := by rw [← hn]; exact toU8_lt ql
  have hd : decide (128 ≤ ql % 256) = decide (128 ≤ n) := by
    have : (n : Int) = ql % 256 := by rw [← hn]; unfold toU8; omega
    by_cases h : 128 ≤ n
    · have h' : 128 ≤ ql % 256 := by omega
      simp [h, h']
    · have h' : ¬ 128 ≤ ql % 256 := by omega
      simp [h, h']
  refine ⟨?_, ?_⟩
  · intro self
    have hqos : (SetpointCommandNormalized_create self ioa v s ql).qos =
        (if s then (n ||| 0x80) % 256 else n) := by
      unfold SetpointCommandNormalized_create
      simp only [hn]
    unfold SetpointCommandNormalized_isSelect
    rw [hqos, hb n hn256 s, hd]
  · intro self
    have hqos : (SetpointCommandScaled_create self ioa v s ql).qos =
        (if s then (n ||| 0x80) % 256 else n) := by
      unfold SetpointCommandScaled_create
      simp only [hn]
    unfold SetpointCommandScaled_isSelect
    rw [hqos, hb n hn256 s, hd]

/-- C22 (the code departs from the claim): `SetpointCommandNormalized_create` and
`SetpointCommandScaled_create` store `(uint8_t) ql` without masking it, so with
`selectCommand = false` and `ql = 128` the qualifier byte is `0x80` and `isSelect` returns
true; `SetpointCommandShort_create`, which masks with `0x7f`, returns false there. -/
theorem C22_setpoint_select_bit_from_ql :
    (SetpointCommandNormalized_create none 1 0 false 128).qos = 0x80 ∧
    SetpointCommandNormalized_isSelect (SetpointCommandNormalized_create none 1 0 false 128)
      = true ∧
    (SetpointCommandScaled_create none 1 0 false 128).qos = 0x80 ∧
    SetpointCommandScaled_isSelect (SetpointCommandScaled_create none 1 0 false 128)
      = true ∧
    SetpointCommandShort_isSelect (SetpointCommandShort_create none 1 0 false 128) = false := by
  refine ⟨rfl, rfl, rfl, rfl, rfl⟩

theorem SetpointCommandNormalized_create_encodedValue_intCast
    (self : Option SetpointCommandNormalized) (ioa ql : Int) (s : Bool) (v : ℚ) (n : Int)
    (h : v * 32767 = (n : ℚ)) (hn : |n| < 2 ^ 24) :
    (SetpointCommandNormalized_create self ioa v s ql).encodedValue = setScaledValue n := by
  show setScaledValue (floatToInt (floatMul v 32767)) = setScaledValue n
  rw [floatMul_of_intCast v 32767 n h hn, floatToInt_intCast]

/-- The binary32 value `32769 / 32768 = 1 + 2 ^ -15`. -/
theorem isBinary32_above_one : isBinary32 (32769 / 32768) := by
  refine ⟨?_, ?_⟩
  · exact f32_eval 0 8388864 (by rw [abs_of_pos (by norm_num)]; norm_num)
      (by rw [abs_of_pos (by norm_num)]; norm_num) (by decide) (by norm_num) (by norm_num)
  · rw [abs_of_pos (by norm_num)]
    norm_num

/-- C23 (the code departs from the claim): `SetpointCommandNormalized_create` scales the
value without clamping it. For `v = 2.0` it stores the bytes `(0xFE, 0xFF)` (the integer
65534), not the bytes `(0xFF, 0x7F)` stored for `v = 1.0`; for the binary32 value
`v = 32769/32768`, just above 1, the product is rounded to 32768, the bytes `(0x00, 0x80)`
are stored, and the value read back is `-32769/32768`, below `-1`. -/
theorem C23_SetpointCommandNormalized_not_clamped :
    (SetpointCommandNormalized_create none 1 2 false 0).encodedValue = (0xFE, 0xFF) ∧
    (SetpointCommandNormalized_create none 1 1 false 0).encodedValue = (0xFF, 0x7F) ∧
    isBinary32 (32769 / 32768) ∧
    (SetpointCommandNormalized_create none 1 (32769 / 32768) false 0).encodedValue =
      (0x00, 0x80) ∧
    SetpointCommandNormalized_getValue
      (SetpointCommandNormalized_create none 1 (32769 / 32768) false 0) = -32769 / 32768 ∧
    SetpointCommandNormalized_getValue
      (SetpointCommandNormalized_create none 1 (32769 / 32768) false 0) < -1 := by
  have e2 := SetpointCommandNormalized_create_encodedValue_intCast none 1 0 false 2 65534
    (by norm_num) (by decide)
  have e1 := SetpointCommandNormalized_create_encodedValue_intCast none 1 0 false 1 32767
    (by norm_num) (by decide)
  have hm : floatMul (32769 / 32768) 32767 = ((32768 : Int) : ℚ) := by
    unfold floatMul
    exact f32_eval 14 16777216 (by rw [abs_of_pos (by norm_num)]; norm_num)
      (by rw [abs_of_pos (by norm_num)]; norm_num) (by decide) (by norm_num)
      (by rw [abs_lt]; constructor <;> norm_num)
  have e3 : (SetpointCommandNormalized_create none 1 (32769 / 32768) false 0).encodedValue =
      setScaledValue 32768 := by
    show setScaledValue (floatToInt (floatMul (32769 / 32768) 32767)) = setScaledValue 32768
    rw [hm, floatToInt_intCast]
  have s2 : setScaledValue 65534 = (0xFE, 0xFF) := by decide
  have s1 : setScaledValue 32767 = (0xFF, 0x7F) := by decide
  have s3 : setScaledValue 32768 = (0x00, 0x80) := by decide
  have g3 : getScaledValue (0x00, 0x80) = -32768 := by decide
  rw [s2] at e2
  rw [s1] at e1
  rw [s3] at e3
  have hg : SetpointCommandNormalized_getValue
      (SetpointCommandNormalized_create none 1 (32769 / 32768) false 0) = -32769 / 32768 := by
    unfold SetpointCommandNormalized_getValue floatDiv
    rw [e3, g3, intToFloat_eq _ (by decide)]
    exact f32_min_wire_value
  refine ⟨e2, e1, isBinary32_above_one, e3, hg, ?_⟩
  rw [hg]
  norm_num

theorem SetpointCommandScaled_create_encodedValue_intCast
    (self : Option SetpointCommandScaled) (ioa ql : Int) (s : Bool) (v : ℚ) (n : Int)
    (h : v * 32767 = (n : ℚ)) (hn : |n| < 2 ^ 24) :
    (SetpointCommandScaled_create self ioa v s ql).encodedValue = setScaledValue n := by
  show setScaledValue (floatToInt (floatMul v 32767)) = setScaledValue n
  rw [floatMul_of_intCast v 32767 n h hn, floatToInt_intCast]

/-- C24 (the code departs from the claim): `SetpointCommandScaled_create` takes a `float`
and stores `(int)(value * 32767.f)`, as the normalized variant does. For `v = 1` the bytes
`(0xFF, 0x7F)` are stored, `SetpointCommandScaled_getValue` returns 32767, and decoding the
encoding returns 32767 as well. -/
theorem C24_SetpointCommandScaled_value_scaled :
    (SetpointCommandScaled_create none 1 1 false 0).encodedValue = (0xFF, 0x7F) ∧
    SetpointCommandScaled_getValue (SetpointCommandScaled_create none 1 1 false 0) = 32767 ∧
    (SetpointCommandScaled_getFromBuffer none ⟨1⟩
      (SetpointCommandScaled_encode (SetpointCommandScaled_create none 1 1 false 0) [] ⟨1⟩)
      4 0).map SetpointCommandScaled_getValue = some 32767 := by
  have e1 := SetpointCommandScaled_create_encodedValue_intCast none 1 0 false 1 32767
    (by norm_num) (by decide)
  have s1 : setScaledValue 32767 = (0xFF, 0x7F) := by decide
  rw [s1] at e1
  have henc : SetpointCommandScaled_encode (SetpointCommandScaled_create none 1 1 false 0) []
      ⟨1⟩ = [0x01, 0xFF, 0x7F, 0x00] := by
    unfold SetpointCommandScaled_encode
    rw [e1]
    rfl
  refine ⟨e1, ?_, ?_⟩
  · unfold SetpointCommandScaled_getValue
    rw [e1]
    decide
  · rw [henc]
    decide

/-- C25 (the code departs from the claim): `MeasuredValueScaled_create` and
`MeasuredValueScaled_setValue` pass the value to `setScaledValue` without checking its
bounds, so an out-of-range value wraps around instead of being clamped: 32768 reads back
as `-32768` and `-32769` reads back as 32767. -/
theorem C25_MeasuredValueScaled_wraps :
    MeasuredValueScaled_getValue (MeasuredValueScaled_create none 1 32768 0) = -32768 ∧
    MeasuredValueScaled_getValue (MeasuredValueScaled_create none 1 (-32769) 0) = 32767 ∧
    MeasuredValueScaled_getValue
      (MeasuredValueScaled_setValue (MeasuredValueScaled_create none 1 0 0) 32768) = -32768 ∧
    MeasuredValueScaled_getValue
      (MeasuredValueScaled_setValue (MeasuredValueScaled_create none 1 0 0) (-32769))
      = 32767 := by
  decide

/-! ### Length checks of the decoders -/

/-- C26: with allocation succeeding, each command decoder returns a decode failure (null)
if and only if `msgSize - startIndex` is less than `sizeOfIOA` plus its fixed payload
size: 1 for `SingleCommand`, `DoubleCommand`, `StepCommand` and `InterrogationCommand`, 3
for `SetpointCommandNormalized` and `SetpointCommandScaled`, 5 for `SetpointCommandShort`,
4 for `Bitstring32Command`, 0 for `ReadCommand` and 7 for `ClockSynchronizationCommand`;
this holds for fresh and for caller-supplied storage, and on failure no updated object is
produced. -/
theorem C26_command_decoders_length_check (parameters : ConnectionParameters)
    (msg : List Nat) (msgSize startIndex : Int) :
    (∀ self : Option SingleCommand,
      SingleCommand_getFromBuffer self parameters msg msgSize startIndex = none ↔
        msgSize - startIndex < parameters.sizeOfIOA + 1) ∧
    (∀ self : Option DoubleCommand,
      DoubleCommand_getFromBuffer self parameters msg msgSize startIndex = none ↔
        msgSize - startIndex < parameters.sizeOfIOA + 1) ∧
    (∀ self : Option StepCommand,
      StepCommand_getFromBuffer self parameters msg msgSize startIndex = none ↔
        msgSize - startIndex < parameters.sizeOfIOA + 1) ∧
    (∀ self : Option InterrogationCommand,
      InterrogationCommand_getFromBuffer self parameters msg msgSize startIndex = none ↔
        msgSize - startIndex < parameters.sizeOfIOA + 1) ∧
    (∀ self : Option SetpointCommandNormalized,
      SetpointCommandNormalized_getFromBuffer self parameters msg msgSize startIndex = none ↔
        msgSize - startIndex < parameters.sizeOfIOA + 3) ∧
    (∀ self : Option SetpointCommandScaled,
      SetpointCommandScaled_getFromBuffer self parameters msg msgSize startIndex = none ↔
        msgSize - startIndex < parameters.sizeOfIOA + 3) ∧
    (∀ self : Option SetpointCommandShort,
      SetpointCommandShort_getFromBuffer self parameters msg msgSize startIndex = none ↔
        msgSize - startIndex < parameters.sizeOfIOA + 5) ∧
    (∀ self : Option Bitstring32Command,
      Bitstring32Command_getFromBuffer self parameters msg msgSize startIndex = none ↔
        msgSize - startIndex < parameters.sizeOfIOA + 4) ∧
    (∀ self : Option ReadCommand,
      ReadCommand_getFromBuffer self parameters msg msgSize startIndex = none ↔
        msgSize - startIndex < parameters.sizeOfIOA + 0) ∧
    (∀ self : Option ClockSynchronizationCommand,
      ClockSynchronizationCommand_getFromBuffer self parameters msg msgSize startIndex = none ↔
        msgSize - startIndex < parameters.sizeOfIOA + 7) := by
  refine ⟨?_, ?_, ?_, ?_, ?_, ?_, ?_, ?_, ?_, ?_⟩
  · intro self
    unfold SingleCommand_getFromBuffer
    by_cases h : msgSize - startIndex < parameters.sizeOfIOA + 1
    · have h' : msgSize - startIndex < parameters.sizeOfIOA + 1 := by omega
      simp [h, h']
    · have h' : ¬ msgSize - startIndex < parameters.sizeOfIOA + 1 := by omega
      simp [h, h']
  · intro self
    unfold DoubleCommand_getFromBuffer
    by_cases h : msgSize - startIndex < parameters.sizeOfIOA + 1
    · have h' : msgSize - startIndex < parameters.sizeOfIOA + 1 := by omega
      simp [h, h']
    · have h' : ¬ msgSize - startIndex < parameters.sizeOfIOA + 1 := by omega
      simp [h, h']
  · intro self
    unfold StepCommand_getFromBuffer
    by_cases h : msgSize - startIndex < parameters.sizeOfIOA + 1
    · have h' : msgSize - startIndex < parameters.sizeOfIOA + 1 := by omega
      simp [h, h']
    · have h' : ¬ msgSize - startIndex < parameters.sizeOfIOA + 1 := by omega
      simp [h, h']
  · intro self
    unfold InterrogationCommand_getFromBuffer
    by_cases h : msgSize - startIndex < parameters.sizeOfIOA + 1
    · have h' : msgSize - startIndex < parameters.sizeOfIOA + 1 := by omega
      simp [h, h']
    · have h' : ¬ msgSize - startIndex < parameters.sizeOfIOA + 1 := by omega
      simp [h, h']
  · intro self
    unfold SetpointCommandNormalized_getFromBuffer
    by_cases h : msgSize - startIndex < parameters.sizeOfIOA + 3
    · have h' : msgSize - startIndex < parameters.sizeOfIOA + 3 := by omega
      simp [h, h']
    · have h' : ¬ msgSize - startIndex < parameters.sizeOfIOA + 3 := by omega
      simp [h, h']
  · intro self
    unfold SetpointCommandScaled_getFromBuffer
    by_cases h : msgSize - startIndex < parameters.sizeOfIOA + 3
    · have h' : msgSize - startIndex < parameters.sizeOfIOA + 3 := by omega
      simp [h, h']
    · have h' : ¬ msgSize - startIndex < parameters.sizeOfIOA + 3 := by omega
      simp [h, h']
  · intro self
    unfold SetpointCommandShort_getFromBuffer
    by_cases h : msgSize - startIndex < parameters.sizeOfIOA + 5
    · have h' : msgSize - startIndex < parameters.sizeOfIOA + 5 := by omega
      simp [h, h']
    · have h' : ¬ msgSize - startIndex < parameters.sizeOfIOA + 5 := by omega
      simp [h, h']
  · intro self
    unfold Bitstring32Command_getFromBuffer
    by_cases h : msgSize - startIndex < parameters.sizeOfIOA + 4
    · have h' : msgSize - startIndex < parameters.sizeOfIOA + 4 := by omega
      simp [h, h']
    · have h' : ¬ msgSize - startIndex < parameters.sizeOfIOA + 4 := by omega
      simp [h, h']
  · intro self
    unfold ReadCommand_getFromBuffer
    by_cases h : msgSize - startIndex < parameters.sizeOfIOA + 0
    · have h' : msgSize - startIndex < parameters.sizeOfIOA := by omega
      simp [h, h']
    · have h' : ¬ msgSize - startIndex < parameters.sizeOfIOA := by omega
      simp [h, h']
  · intro self
    unfold ClockSynchronizationCommand_getFromBuffer
    by_cases h : msgSize - startIndex < parameters.sizeOfIOA + 7
    · have h' : msgSize - startIndex < parameters.sizeOfIOA + 7 := by omega
      simp [h, h']
    · have h' : ¬ msgSize - startIndex < parameters.sizeOfIOA + 7 := by omega
      simp [h, h']

/-- The only length check of `SingleCommandWithCP56Time2a_getFromBuffer`: the address and
the command byte. -/
theorem SingleCommandWithCP56Time2a_getFromBuffer_none_iff
    (self : Option SingleCommandWithCP56Time2a) (parameters : ConnectionParameters)
    (msg : List Nat) (msgSize startIndex : Int) :
    SingleCommandWithCP56Time2a_getFromBuffer self parameters msg msgSize startIndex = none ↔
      msgSize - startIndex < parameters.sizeOfIOA + 1 := by
  unfold SingleCommandWithCP56Time2a_getFromBuffer
  by_cases h : msgSize - startIndex < parameters.sizeOfIOA + 1
  · simp [h]
  · simp [h]

/-- C27 (the code departs from the claim): `SingleCommandWithCP56Time2a_getFromBuffer`
checks only for `sizeOfIOA + 1` bytes. With `sizeOfIOA = 1` and a 2-byte buffer
(`msgSize - startIndex = 2 < 1 + 1 + 7`) it returns an object, with the command byte
`0x81`, instead of a decode failure. -/
theorem C27_SingleCommandWithCP56Time2a_short_buffer_accepted :
    (2 : Int) - 0 < 1 + 1 + 7 ∧
    (SingleCommandWithCP56Time2a_getFromBuffer none ⟨1⟩ [0x05, 0x81] 2 0).isSome = true ∧
    (SingleCommandWithCP56Time2a_getFromBuffer none ⟨1⟩ [0x05, 0x81] 2 0).map
      (fun o => o.sco) = some 0x81 ∧
    (ClockSynchronizationCommand_getFromBuffer none ⟨1⟩ [0x05, 0x81] 2 0).isSome = false := by
  decide

/-- C28 (the code departs from the claim): the monitoring decoders never look at
`msgSize` (`//TODO check message size`). With `msgSize = 0` and `sizeOfIOA = 1`,
`SinglePointInformation_getFromBuffer`, `MeasuredValueScaled_getFromBuffer` and
`IntegratedTotals_getFromBuffer` return objects filled from the array, and for every
`msgSize` they return what they return for any other. -/
theorem C28_monitoring_decoders_ignore_msgSize :
    ((0 : Int) - 0 < 1 + 1 ∧
      SinglePointInformation_getFromBuffer none ⟨1⟩ [0x64, 0x11] 0 0 =
        { objectAddress := 100, type := TypeID.M_SP_NA_1,
          virtualFunctionTable := InformationObjectVFT.singlePointInformationVFT,
          value := true, quality := 0x10 }) ∧
    ((0 : Int) - 0 < 1 + 3 ∧
      MeasuredValueScaled_getFromBuffer none ⟨1⟩ [0x64, 0xFF, 0xFF, 0x80] 0 0 =
        { objectAddress := 100, type := TypeID.M_ME_NB_1,
          virtualFunctionTable := InformationObjectVFT.measuredValueScaledVFT,
          encodedValue := (0xFF, 0xFF), quality := 0x80 }) ∧
    ((0 : Int) - 0 < 1 + 5 ∧
      IntegratedTotals_getFromBuffer none ⟨1⟩ [0x64, 1, 2, 3, 4, 5] 0 0 =
        { objectAddress := 100, type := TypeID.M_IT_NA_1,
          virtualFunctionTable := InformationObjectVFT.integratedTotalsVFT,
          totals := ⟨[1, 2, 3, 4, 5]⟩ }) ∧
    (∀ (self : Option SinglePointInformation) (parameters : ConnectionParameters)
        (msg : List Nat) (msgSize msgSize2 startIndex : Int),
      SinglePointInformation_getFromBuffer self parameters msg msgSize startIndex =
        SinglePointInformation_getFromBuffer self parameters msg msgSize2 startIndex) ∧
    (∀ (self : Option MeasuredValueScaled) (parameters : ConnectionParameters)
        (msg : List Nat) (msgSize msgSize2 startIndex : Int),
      MeasuredValueScaled_getFromBuffer self parameters msg msgSize startIndex =
        MeasuredValueScaled_getFromBuffer self parameters msg msgSize2 startIndex) ∧
    (∀ (self : Option IntegratedTotals) (parameters : ConnectionParameters)
        (msg : List Nat) (msgSize msgSize2 startIndex : Int),
      IntegratedTotals_getFromBuffer self parameters msg msgSize startIndex =
        IntegratedTotals_getFromBuffer self parameters msg msgSize2 startIndex) := by
  refine ⟨⟨by decide, by decide⟩, ⟨by decide, by decide⟩, ⟨by decide, by decide⟩, ?_, ?_, ?_⟩
  · intros; rfl
  · intros; rfl
  · intros; rfl

/-! ### Time-tagged variants -/

/-- The address field depends on the address only. -/
theorem encodeBase_congr (o1 o2 : InformationObject) (frame : Frame)
    (parameters : ConnectionParameters) (h : o1.objectAddress = o2.objectAddress) :
    InformationObject_encodeBase o1 frame parameters =
      InformationObject_encodeBase o2 frame parameters := by
  unfold InformationObject_encodeBase
  rw [h]

theorem range3_getD (l : List Nat) (h : l.length = 3) :
    (List.range 3).map (fun i => l.getD i 0) = l := by
  match l, h with
  | [a, b, c], _ => rfl

theorem range7_getD (l : List Nat) (h : l.length = 7) :
    (List.range 7).map (fun i => l.getD i 0) = l := by
  match l, h with
  | [a, b, c, d, e, f, g], _ => rfl

/-- The copying short time-tag codec, applied where the tag bytes start, yields them. -/
theorem CP24Time2a_getFromBuffer_append (old : CP24Time2a) (pre : List Nat)
    (ts : CP24Time2a) (msgSize : Int) (h : ts.encodedValue.length = 3) :
    CP24Time2a_getFromBuffer old (pre ++ ts.encodedValue) msgSize (pre.length : Int) = ts := by
  unfold CP24Time2a_getFromBuffer
  simp only [readByte_append, range3_getD ts.encodedValue h]

/-- The copying long time-tag codec, applied where the tag bytes start, yields them. -/
theorem CP56Time2a_getFromBuffer_append (old : CP56Time2a) (pre : List Nat)
    (ts : CP56Time2a) (msgSize : Int) (h : ts.encodedValue.length = 7) :
    CP56Time2a_getFromBuffer old (pre ++ ts.encodedValue) msgSize (pre.length : Int) = ts := by
  unfold CP56Time2a_getFromBuffer
  simp only [readByte_append, range7_getD ts.encodedValue h]


/-- Where `MeasuredValueNormalizedWithCP24Time2a_getFromBuffer` invokes the time-tag codec:
at `startIndex + sizeOfIOA + 3`. -/
theorem MeasuredValueNormalizedWithCP24Time2a_timestamp_offset
    (storage : Option MeasuredValueNormalizedWithCP24Time2a)
    (parameters : ConnectionParameters) (msg : List Nat) (msgSize startIndex : Int)
    (old : CP24Time2a) :
    (MeasuredValueNormalizedWithCP24Time2a_getFromBuffer storage parameters msg msgSize
      startIndex).timestamp =
      CP24Time2a_getFromBuffer old msg msgSize (startIndex + parameters.sizeOfIOA + 3) := by
  have e : startIndex + parameters.sizeOfIOA + 1 + 1 + 1 =
      startIndex + parameters.sizeOfIOA + 3 := by omega
  unfold MeasuredValueNormalizedWithCP24Time2a_getFromBuffer
  simp only [e]
  rfl

/-- The time tag of an encoded `MeasuredValueNormalizedWithCP24Time2a` is decoded unchanged. -/
theorem MeasuredValueNormalizedWithCP24Time2a_timestamp_roundtrip
    (obj : MeasuredValueNormalizedWithCP24Time2a)
    (storage : Option MeasuredValueNormalizedWithCP24Time2a) (frame : Frame) (msgSize : Int)
    (w : Nat) (hw : w = 1 ∨ w = 2 ∨ w = 3) (hts : obj.timestamp.encodedValue.length = 3) :
    (MeasuredValueNormalizedWithCP24Time2a_getFromBuffer storage ⟨(w : Int)⟩
      (MeasuredValueNormalizedWithCP24Time2a_encode obj frame ⟨(w : Int)⟩) msgSize
      (frame.length : Int)).timestamp = obj.timestamp := by
  rw [MeasuredValueNormalizedWithCP24Time2a_timestamp_offset _ _ _ _ _ obj.timestamp]
  have henc : MeasuredValueNormalizedWithCP24Time2a_encode obj frame ⟨(w : Int)⟩ =
      (InformationObject_encodeBase obj.toInformationObject frame ⟨(w : Int)⟩ ++
        [obj.encodedValue.1, obj.encodedValue.2, obj.quality % 256]) ++
        obj.timestamp.encodedValue := by
    simp [MeasuredValueNormalizedWithCP24Time2a_encode, MeasuredValueNormalized_encode,
      MeasuredValueNormalizedWithCP24Time2a.asNormalized, Frame_setNextByte,
      Frame_appendBytes, List.take_of_length_le (le_of_eq hts)]
  have hlen : ((InformationObject_encodeBase obj.toInformationObject frame ⟨(w : Int)⟩ ++
      [obj.encodedValue.1, obj.encodedValue.2, obj.quality % 256]).length : Int) =
      (frame.length : Int) + (w : Int) + 3 := by
    rw [List.length_append, encodeBase_append, List.length_append, encodeBase_length _ w hw]
    simp
  rw [henc, ← hlen]
  exact CP24Time2a_getFromBuffer_append _ _ _ _ hts

/-- Where `MeasuredValueNormalizedWithCP56Time2a_getFromBuffer` invokes the time-tag codec:
at `startIndex + sizeOfIOA + 3`. -/
theorem MeasuredValueNormalizedWithCP56Time2a_timestamp_offset
    (storage : Option MeasuredValueNormalizedWithCP56Time2a)
    (parameters : ConnectionParameters) (msg : List Nat) (msgSize startIndex : Int)
    (old : CP56Time2a) :
    (MeasuredValueNormalizedWithCP56Time2a_getFromBuffer storage parameters msg msgSize
      startIndex).timestamp =
      CP56Time2a_getFromBuffer old msg msgSize (startIndex + parameters.sizeOfIOA + 3) := by
  have e : startIndex + parameters.sizeOfIOA + 1 + 1 + 1 =
      startIndex + parameters.sizeOfIOA + 3 := by omega
  unfold MeasuredValueNormalizedWithCP56Time2a_getFromBuffer
  simp only [e]
  rfl

/-- The time tag of an encoded `MeasuredValueNormalizedWithCP56Time2a` is decoded unchanged. -/
theorem MeasuredValueNormalizedWithCP56Time2a_timestamp_roundtrip
    (obj : MeasuredValueNormalizedWithCP56Time2a)
    (storage : Option MeasuredValueNormalizedWithCP56Time2a) (frame : Frame) (msgSize : Int)
    (w : Nat) (hw : w = 1 ∨ w = 2 ∨ w = 3) (hts : obj.timestamp.encodedValue.length = 7) :
    (MeasuredValueNormalizedWithCP56Time2a_getFromBuffer storage ⟨(w : Int)⟩
      (MeasuredValueNormalizedWithCP56Time2a_encode obj frame ⟨(w : Int)⟩) msgSize
      (frame.length : Int)).timestamp = obj.timestamp := by
  rw [MeasuredValueNormalizedWithCP56Time2a_timestamp_offset _ _ _ _ _ obj.timestamp]
  have henc : MeasuredValueNormalizedWithCP56Time2a_encode obj frame ⟨(w : Int)⟩ =
      (InformationObject_encodeBase obj.toInformationObject frame ⟨(w : Int)⟩ ++
        [obj.encodedValue.1, obj.encodedValue.2, obj.quality % 256]) ++
        obj.timestamp.encodedValue := by
    simp [MeasuredValueNormalizedWithCP56Time2a_encode, MeasuredValueNormalized_encode,
      MeasuredValueNormalizedWithCP56Time2a.asNormalized, Frame_setNextByte,
      Frame_appendBytes, List.take_of_length_le (le_of_eq hts)]
  have hlen : ((InformationObject_encodeBase obj.toInformationObject frame ⟨(w : Int)⟩ ++
      [obj.encodedValue.1, obj.encodedValue.2, obj.quality % 256]).length : Int) =
      (frame.length : Int) + (w : Int) + 3 := by
    rw [List.length_append, encodeBase_append, List.length_append, encodeBase_length _ w hw]
    simp
  rw [henc, ← hlen]
  exact CP56Time2a_getFromBuffer_append _ _ _ _ hts

/-- Where `MeasuredValueScaledWithCP24Time2a_getFromBuffer` invokes the time-tag codec:
at `startIndex + sizeOfIOA + 3`. -/
theorem MeasuredValueScaledWithCP24Time2a_timestamp_offset
    (storage : Option MeasuredValueScaledWithCP24Time2a)
    (parameters : ConnectionParameters) (msg : List Nat) (msgSize startIndex : Int)
    (old : CP24Time2a) :
    (MeasuredValueScaledWithCP24Time2a_getFromBuffer storage parameters msg msgSize
      startIndex).timestamp =
      CP24Time2a_getFromBuffer old msg msgSize (startIndex + parameters.sizeOfIOA + 3) := by
  have e : startIndex + parameters.sizeOfIOA + 1 + 1 + 1 =
      startIndex + parameters.sizeOfIOA + 3 := by omega
  unfold MeasuredValueScaledWithCP24Time2a_getFromBuffer
  simp only [e]
  rfl

/-- The time tag of an encoded `MeasuredValueScaledWithCP24Time2a` is decoded unchanged. -/
theorem MeasuredValueScaledWithCP24Time2a_timestamp_roundtrip
    (obj : MeasuredValueScaledWithCP24Time2a)
    (storage : Option MeasuredValueScaledWithCP24Time2a) (frame : Frame) (msgSize : Int)
    (w : Nat) (hw : w = 1 ∨ w = 2 ∨ w = 3) (hts : obj.timestamp.encodedValue.length = 3) :
    (MeasuredValueScaledWithCP24Time2a_getFromBuffer storage ⟨(w : Int)⟩
      (MeasuredValueScaledWithCP24Time2a_encode obj frame ⟨(w : Int)⟩) msgSize
      (frame.length : Int)).timestamp = obj.timestamp := by
  rw [MeasuredValueScaledWithCP24Time2a_timestamp_offset _ _ _ _ _ obj.timestamp]
  have henc : MeasuredValueScaledWithCP24Time2a_encode obj frame ⟨(w : Int)⟩ =
      (InformationObject_encodeBase obj.toInformationObject frame ⟨(w : Int)⟩ ++
        [obj.encodedValue.1, obj.encodedValue.2, obj.quality % 256]) ++
        obj.timestamp.encodedValue := by
    simp [MeasuredValueScaledWithCP24Time2a_encode, MeasuredValueNormalized_encode,
      MeasuredValueScaledWithCP24Time2a.asNormalized, Frame_setNextByte,
      Frame_appendBytes, List.take_of_length_le (le_of_eq hts)]
  have hlen : ((InformationObject_encodeBase obj.toInformationObject frame ⟨(w : Int)⟩ ++
      [obj.encodedValue.1, obj.encodedValue.2, obj.quality % 256]).length : Int) =
      (frame.length : Int) + (w : Int) + 3 := by
    rw [List.length_append, encodeBase_append, List.length_append, encodeBase_length _ w hw]
    simp
  rw [henc, ← hlen]
  exact CP24Time2a_getFromBuffer_append _ _ _ _ hts

/-- Where `MeasuredValueScaledWithCP56Time2a_getFromBuffer` invokes the time-tag codec:
at `startIndex + sizeOfIOA + 3`. -/
theorem MeasuredValueScaledWithCP56Time2a_timestamp_offset
    (storage : Option MeasuredValueScaledWithCP56Time2a)
    (parameters : ConnectionParameters) (msg : List Nat) (msgSize startIndex : Int)
    (old : CP56Time2a) :
    (MeasuredValueScaledWithCP56Time2a_getFromBuffer storage parameters msg msgSize
      startIndex).timestamp =
      CP56Time2a_getFromBuffer old msg msgSize (startIndex + parameters.sizeOfIOA + 3) := by
  have e : startIndex + parameters.sizeOfIOA + 1 + 1 + 1 =
      startIndex + parameters.sizeOfIOA + 3 := by omega
  unfold MeasuredValueScaledWithCP56Time2a_getFromBuffer
  simp only [e]
  rfl

/-- The time tag of an encoded `MeasuredValueScaledWithCP56Time2a` is decoded unchanged. -/
theorem MeasuredValueScaledWithCP56Time2a_timestamp_roundtrip
    (obj : MeasuredValueScaledWithCP56Time2a)
    (storage : Option MeasuredValueScaledWithCP56Time2a) (frame : Frame) (msgSize : Int)
    (w : Nat) (hw : w = 1 ∨ w = 2 ∨ w = 3) (hts : obj.timestamp.encodedValue.length = 7) :
    (MeasuredValueScaledWithCP56Time2a_getFromBuffer storage ⟨(w : Int)⟩
      (MeasuredValueScaledWithCP56Time2a_encode obj frame ⟨(w : Int)⟩) msgSize
      (frame.length : Int)).timestamp = obj.timestamp := by
  rw [MeasuredValueScaledWithCP56Time2a_timestamp_offset _ _ _ _ _ obj.timestamp]
  have henc : MeasuredValueScaledWithCP56Time2a_encode obj frame ⟨(w : Int)⟩ =
      (InformationObject_encodeBase obj.toInformationObject frame ⟨(w : Int)⟩ ++
        [obj.encodedValue.1, obj.encodedValue.2, obj.quality % 256]) ++
        obj.timestamp.encodedValue := by
    simp [MeasuredValueScaledWithCP56Time2a_encode, MeasuredValueNormalized_encode,
      MeasuredValueScaledWithCP56Time2a.asNormalized, Frame_setNextByte,
      Frame_appendBytes, List.take_of_length_le (le_of_eq hts)]
  have hlen : ((InformationObject_encodeBase obj.toInformationObject frame ⟨(w : Int)⟩ ++
      [obj.encodedValue.1, obj.encodedValue.2, obj.quality % 256]).length : Int) =
      (frame.length : Int) + (w : Int) + 3 := by
    rw [List.length_append, encodeBase_append, List.length_append, encodeBase_length _ w hw]
    simp
  rw [henc, ← hlen]
  exact CP56Time2a_getFromBuffer_append _ _ _ _ hts

/-- Where `MeasuredValueShortWithCP24Time2a_getFromBuffer` invokes the time-tag codec:
at `startIndex + sizeOfIOA + 5`. -/
theorem MeasuredValueShortWithCP24Time2a_timestamp_offset
    (storage : Option MeasuredValueShortWithCP24Time2a)
    (parameters : ConnectionParameters) (msg : List Nat) (msgSize startIndex : Int)
    (old : CP24Time2a) :
    (MeasuredValueShortWithCP24Time2a_getFromBuffer storage parameters msg msgSize
      startIndex).timestamp =
      CP24Time2a_getFromBuffer old msg msgSize (startIndex + parameters.sizeOfIOA + 5) := by
  have e : startIndex + parameters.sizeOfIOA + 1 + 1 + 1 + 1 + 1 =
      startIndex + parameters.sizeOfIOA + 5 := by omega
  unfold MeasuredValueShortWithCP24Time2a_getFromBuffer
  simp only [e]
  rfl

/-- The time tag of an encoded `MeasuredValueShortWithCP24Time2a` is decoded unchanged. -/
theorem MeasuredValueShortWithCP24Time2a_timestamp_roundtrip
    (obj : MeasuredValueShortWithCP24Time2a)
    (storage : Option MeasuredValueShortWithCP24Time2a) (frame : Frame) (msgSize : Int)
    (w : Nat) (hw : w = 1 ∨ w = 2 ∨ w = 3) (hts : obj.timestamp.encodedValue.length = 3) :
    (MeasuredValueShortWithCP24Time2a_getFromBuffer storage ⟨(w : Int)⟩
      (MeasuredValueShortWithCP24Time2a_encode obj frame ⟨(w : Int)⟩) msgSize
      (frame.length : Int)).timestamp = obj.timestamp := by
  rw [MeasuredValueShortWithCP24Time2a_timestamp_offset _ _ _ _ _ obj.timestamp]
  have henc : MeasuredValueShortWithCP24Time2a_encode obj frame ⟨(w : Int)⟩ =
      (InformationObject_encodeBase obj.toInformationObject frame ⟨(w : Int)⟩ ++
        (valueBytes obj.value ++ [obj.quality % 256])) ++
        obj.timestamp.encodedValue := by
    simp [MeasuredValueShortWithCP24Time2a_encode, MeasuredValueShort_encode,
      MeasuredValueShortWithCP24Time2a.asShort, Frame_setNextByte,
      Frame_appendBytes, List.take_of_length_le (le_of_eq hts), valueBytes]
  have hlen : ((InformationObject_encodeBase obj.toInformationObject frame ⟨(w : Int)⟩ ++
      (valueBytes obj.value ++ [obj.quality % 256])).length : Int) =
      (frame.length : Int) + (w : Int) + 5 := by
    rw [List.length_append, encodeBase_append, List.length_append, encodeBase_length _ w hw]
    simp [valueBytes]
  rw [henc, ← hlen]
  exact CP24Time2a_getFromBuffer_append _ _ _ _ hts

/-- Where `MeasuredValueShortWithCP56Time2a_getFromBuffer` invokes the time-tag codec:
at `startIndex + sizeOfIOA + 5`. -/
theorem MeasuredValueShortWithCP56Time2a_timestamp_offset
    (storage : Option MeasuredValueShortWithCP56Time2a)
    (parameters : ConnectionParameters) (msg : List Nat) (msgSize startIndex : Int)
    (old : CP56Time2a) :
    (MeasuredValueShortWithCP56Time2a_getFromBuffer storage parameters msg msgSize
      startIndex).timestamp =
      CP56Time2a_getFromBuffer old msg msgSize (startIndex + parameters.sizeOfIOA + 5) := by
  have e : startIndex + parameters.sizeOfIOA + 1 + 1 + 1 + 1 + 1 =
      startIndex + parameters.sizeOfIOA + 5 := by omega
  unfold MeasuredValueShortWithCP56Time2a_getFromBuffer
  simp only [e]
  rfl

/-- The time tag of an encoded `MeasuredValueShortWithCP56Time2a` is decoded unchanged. -/
theorem MeasuredValueShortWithCP56Time2a_timestamp_roundtrip
    (obj : MeasuredValueShortWithCP56Time2a)
    (storage : Option MeasuredValueShortWithCP56Time2a) (frame : Frame) (msgSize : Int)
    (w : Nat) (hw : w = 1 ∨ w = 2 ∨ w = 3) (hts : obj.timestamp.encodedValue.length = 7) :
    (MeasuredValueShortWithCP56Time2a_getFromBuffer storage ⟨(w : Int)⟩
      (MeasuredValueShortWithCP56Time2a_encode obj frame ⟨(w : Int)⟩) msgSize
      (frame.length : Int)).timestamp = obj.timestamp := by
  rw [MeasuredValueShortWithCP56Time2a_timestamp_offset _ _ _ _ _ obj.timestamp]
  have henc : MeasuredValueShortWithCP56Time2a_encode obj frame ⟨(w : Int)⟩ =
      (InformationObject_encodeBase obj.toInformationObject frame ⟨(w : Int)⟩ ++
        (valueBytes obj.value ++ [obj.quality % 256])) ++
        obj.timestamp.encodedValue := by
    simp [MeasuredValueShortWithCP56Time2a_encode, MeasuredValueShort_encode,
      MeasuredValueShortWithCP56Time2a.asShort, Frame_setNextByte,
      Frame_appendBytes, List.take_of_length_le (le_of_eq hts), valueBytes]
  have hlen : ((InformationObject_encodeBase obj.toInformationObject frame ⟨(w : Int)⟩ ++
      (valueBytes obj.value ++ [obj.quality % 256])).length : Int) =
      (frame.length : Int) + (w : Int) + 5 := by
    rw [List.length_append, encodeBase_append, List.length_append, encodeBase_length _ w hw]
    simp [valueBytes]
  rw [henc, ← hlen]
  exact CP56Time2a_getFromBuffer_append _ _ _ _ hts

/-- Where `Bitstring32WithCP24Time2a_getFromBuffer` invokes the time-tag codec:
at `startIndex + sizeOfIOA + 5`. -/
theorem Bitstring32WithCP24Time2a_timestamp_offset
    (storage : Option Bitstring32WithCP24Time2a)
    (parameters : ConnectionParameters) (msg : List Nat) (msgSize startIndex : Int)
    (old : CP24Time2a)
    (mallocContent : Bitstring32WithCP24Time2a) :
    (Bitstring32WithCP24Time2a_getFromBuffer storage parameters msg msgSize
      startIndex mallocContent).timestamp =
      CP24Time2a_getFromBuffer old msg msgSize (startIndex + parameters.sizeOfIOA + 5) := by
  have e : startIndex + parameters.sizeOfIOA + 1 + 1 + 1 + 1 + 1 =
      startIndex + parameters.sizeOfIOA + 5 := by omega
  unfold Bitstring32WithCP24Time2a_getFromBuffer
  simp only [e]
  rfl

/-- The time tag of an encoded `Bitstring32WithCP24Time2a` is decoded unchanged. -/
theorem Bitstring32WithCP24Time2a_timestamp_roundtrip
    (obj : Bitstring32WithCP24Time2a)
    (storage : Option Bitstring32WithCP24Time2a) (frame : Frame) (msgSize : Int)
    (w : Nat) (hw : w = 1 ∨ w = 2 ∨ w = 3) (hts : obj.timestamp.encodedValue.length = 3)
    (mallocContent : Bitstring32WithCP24Time2a) :
    (Bitstring32WithCP24Time2a_getFromBuffer storage ⟨(w : Int)⟩
      (Bitstring32WithCP24Time2a_encode obj frame ⟨(w : Int)⟩) msgSize
      (frame.length : Int) mallocContent).timestamp = obj.timestamp := by
  rw [Bitstring32WithCP24Time2a_timestamp_offset _ _ _ _ _ obj.timestamp]
  have henc : Bitstring32WithCP24Time2a_encode obj frame ⟨(w : Int)⟩ =
      (InformationObject_encodeBase obj.toInformationObject frame ⟨(w : Int)⟩ ++
        [toU8 (Int.tmod (toInt32 obj.value) 0x100),
          toU8 (Int.tmod (Int.tdiv (toInt32 obj.value) 0x100) 0x100),
          toU8 (Int.tmod (Int.tdiv (toInt32 obj.value) 0x10000) 0x100),
          toU8 (Int.tdiv (toInt32 obj.value) 0x1000000), obj.quality % 256]) ++
        obj.timestamp.encodedValue := by
    simp [Bitstring32WithCP24Time2a_encode, Frame_setNextByte,
      Frame_appendBytes, List.take_of_length_le (le_of_eq hts)]
  have hlen : ((InformationObject_encodeBase obj.toInformationObject frame ⟨(w : Int)⟩ ++
      [toU8 (Int.tmod (toInt32 obj.value) 0x100),
          toU8 (Int.tmod (Int.tdiv (toInt32 obj.value) 0x100) 0x100),
          toU8 (Int.tmod (Int.tdiv (toInt32 obj.value) 0x10000) 0x100),
          toU8 (Int.tdiv (toInt32 obj.value) 0x1000000), obj.quality % 256]).length : Int) =
      (frame.length : Int) + (w : Int) + 5 := by
    rw [List.length_append, encodeBase_append, List.length_append, encodeBase_length _ w hw]
    simp
  rw [henc, ← hlen]
  exact CP24Time2a_getFromBuffer_append _ _ _ _ hts

/-- Where `Bitstring32WithCP56Time2a_getFromBuffer` invokes the time-tag codec:
at `startIndex + sizeOfIOA + 5`. -/
theorem Bitstring32WithCP56Time2a_timestamp_offset
    (storage : Option Bitstring32WithCP56Time2a)
    (parameters : ConnectionParameters) (msg : List Nat) (msgSize startIndex : Int)
    (old : CP56Time2a)
    (mallocContent : Bitstring32WithCP56Time2a) :
    (Bitstring32WithCP56Time2a_getFromBuffer storage parameters msg msgSize
      startIndex mallocContent).timestamp =
      CP56Time2a_getFromBuffer old msg msgSize (startIndex + parameters.sizeOfIOA + 5) := by
  have e : startIndex + parameters.sizeOfIOA + 1 + 1 + 1 + 1 + 1 =
      startIndex + parameters.sizeOfIOA + 5 := by omega
  unfold Bitstring32WithCP56Time2a_getFromBuffer
  simp only [e]
  rfl

/-- The time tag of an encoded `Bitstring32WithCP56Time2a` is decoded unchanged. -/
theorem Bitstring32WithCP56Time2a_timestamp_roundtrip
    (obj : Bitstring32WithCP56Time2a)
    (storage : Option Bitstring32WithCP56Time2a) (frame : Frame) (msgSize : Int)
    (w : Nat) (hw : w = 1 ∨ w = 2 ∨ w = 3) (hts : obj.timestamp.encodedValue.length = 7)
    (mallocContent : Bitstring32WithCP56Time2a) :
    (Bitstring32WithCP56Time2a_getFromBuffer storage ⟨(w : Int)⟩
      (Bitstring32WithCP56Time2a_encode obj frame ⟨(w : Int)⟩) msgSize
      (frame.length : Int) mallocContent).timestamp = obj.timestamp := by
  rw [Bitstring32WithCP56Time2a_timestamp_offset _ _ _ _ _ obj.timestamp]
  have henc : Bitstring32WithCP56Time2a_encode obj frame ⟨(w : Int)⟩ =
      (InformationObject_encodeBase obj.toInformationObject frame ⟨(w : Int)⟩ ++
        [toU8 (Int.tmod (toInt32 obj.value) 0x100),
          toU8 (Int.tmod (Int.tdiv (toInt32 obj.value) 0x100) 0x100),
          toU8 (Int.tmod (Int.tdiv (toInt32 obj.value) 0x10000) 0x100),
          toU8 (Int.tdiv (toInt32 obj.value) 0x1000000), obj.quality % 256]) ++
        obj.timestamp.encodedValue := by
    simp [Bitstring32WithCP56Time2a_encode, Frame_setNextByte,
      Frame_appendBytes, List.take_of_length_le (le_of_eq hts)]
  have hlen : ((InformationObject_encodeBase obj.toInformationObject frame ⟨(w : Int)⟩ ++
      [toU8 (Int.tmod (toInt32 obj.value) 0x100),
          toU8 (Int.tmod (Int.tdiv (toInt32 obj.value) 0x100) 0x100),
          toU8 (Int.tmod (Int.tdiv (toInt32 obj.value) 0x10000) 0x100),
          toU8 (Int.tdiv (toInt32 obj.value) 0x1000000), obj.quality % 256]).length : Int) =
      (frame.length : Int) + (w : Int) + 5 := by
    rw [List.length_append, encodeBase_append, List.length_append, encodeBase_length _ w hw]
    simp
  rw [henc, ← hlen]
  exact CP56Time2a_getFromBuffer_append _ _ _ _ hts

/-- Where `IntegratedTotalsWithCP24Time2a_getFromBuffer` invokes the time-tag codec:
at `startIndex + sizeOfIOA + 5`. -/
theorem IntegratedTotalsWithCP24Time2a_timestamp_offset
    (storage : Option IntegratedTotalsWithCP24Time2a)
    (parameters : ConnectionParameters) (msg : List Nat) (msgSize startIndex : Int)
    (old : CP24Time2a) :
    (IntegratedTotalsWithCP24Time2a_getFromBuffer storage parameters msg msgSize
      startIndex).timestamp =
      CP24Time2a_getFromBuffer old msg msgSize (startIndex + parameters.sizeOfIOA + 5) := by
  unfold IntegratedTotalsWithCP24Time2a_getFromBuffer
  rfl

/-- The time tag of an encoded `IntegratedTotalsWithCP24Time2a` is decoded unchanged. -/
theorem IntegratedTotalsWithCP24Time2a_timestamp_roundtrip
    (obj : IntegratedTotalsWithCP24Time2a)
    (storage : Option IntegratedTotalsWithCP24Time2a) (frame : Frame) (msgSize : Int)
    (w : Nat) (hw : w = 1 ∨ w = 2 ∨ w = 3) (hts : obj.timestamp.encodedValue.length = 3)
    (htot : obj.totals.encodedValue.length = 5) :
    (IntegratedTotalsWithCP24Time2a_getFromBuffer storage ⟨(w : Int)⟩
      (IntegratedTotalsWithCP24Time2a_encode obj frame ⟨(w : Int)⟩) msgSize
      (frame.length : Int)).timestamp = obj.timestamp := by
  rw [IntegratedTotalsWithCP24Time2a_timestamp_offset _ _ _ _ _ obj.timestamp]
  have henc : IntegratedTotalsWithCP24Time2a_encode obj frame ⟨(w : Int)⟩ =
      (InformationObject_encodeBase obj.toInformationObject frame ⟨(w : Int)⟩ ++
        obj.totals.encodedValue) ++
        obj.timestamp.encodedValue := by
    simp [IntegratedTotalsWithCP24Time2a_encode, IntegratedTotals_encode,
      IntegratedTotalsWithCP24Time2a.asIntegratedTotals, Frame_setNextByte,
      Frame_appendBytes, List.take_of_length_le (le_of_eq hts),
      List.take_of_length_le (le_of_eq htot)]
  have hlen : ((InformationObject_encodeBase obj.toInformationObject frame ⟨(w : Int)⟩ ++
      obj.totals.encodedValue).length : Int) =
      (frame.length : Int) + (w : Int) + 5 := by
    rw [List.length_append, encodeBase_append, List.length_append, encodeBase_length _ w hw]
    simp [htot]
  rw [henc, ← hlen]
  exact CP24Time2a_getFromBuffer_append _ _ _ _ hts

/-- Where `IntegratedTotalsWithCP56Time2a_getFromBuffer` invokes the time-tag codec:
at `startIndex + sizeOfIOA + 5`. -/
theorem IntegratedTotalsWithCP56Time2a_timestamp_offset
    (storage : Option IntegratedTotalsWithCP56Time2a)
    (parameters : ConnectionParameters) (msg : List Nat) (msgSize startIndex : Int)
    (old : CP56Time2a) :
    (IntegratedTotalsWithCP56Time2a_getFromBuffer storage parameters msg msgSize
      startIndex).timestamp =
      CP56Time2a_getFromBuffer old msg msgSize (startIndex + parameters.sizeOfIOA + 5) := by
  unfold IntegratedTotalsWithCP56Time2a_getFromBuffer
  rfl

/-- The time tag of an encoded `IntegratedTotalsWithCP56Time2a` is decoded unchanged. -/
theorem IntegratedTotalsWithCP56Time2a_timestamp_roundtrip
    (obj : IntegratedTotalsWithCP56Time2a)
    (storage : Option IntegratedTotalsWithCP56Time2a) (frame : Frame) (msgSize : Int)
    (w : Nat) (hw : w = 1 ∨ w = 2 ∨ w = 3) (hts : obj.timestamp.encodedValue.length = 7)
    (htot : obj.totals.encodedValue.length = 5) :
    (IntegratedTotalsWithCP56Time2a_getFromBuffer storage ⟨(w : Int)⟩
      (IntegratedTotalsWithCP56Time2a_encode obj frame ⟨(w : Int)⟩) msgSize
      (frame.length : Int)).timestamp = obj.timestamp := by
  rw [IntegratedTotalsWithCP56Time2a_timestamp_offset _ _ _ _ _ obj.timestamp]
  have henc : IntegratedTotalsWithCP56Time2a_encode obj frame ⟨(w : Int)⟩ =
      (InformationObject_encodeBase obj.toInformationObject frame ⟨(w : Int)⟩ ++
        obj.totals.encodedValue) ++
        obj.timestamp.encodedValue := by
    simp [IntegratedTotalsWithCP56Time2a_encode, IntegratedTotals_encode,
      IntegratedTotalsWithCP56Time2a.asIntegratedTotals, Frame_setNextByte,
      Frame_appendBytes, List.take_of_length_le (le_of_eq hts),
      List.take_of_length_le (le_of_eq htot)]
  have hlen : ((InformationObject_encodeBase obj.toInformationObject frame ⟨(w : Int)⟩ ++
      obj.totals.encodedValue).length : Int) =
      (frame.length : Int) + (w : Int) + 5 := by
    rw [List.length_append, encodeBase_append, List.length_append, encodeBase_length _ w hw]
    simp [htot]
  rw [henc, ← hlen]
  exact CP56Time2a_getFromBuffer_append _ _ _ _ hts

/-- C29: the bytes a time-tagged encoder appends equal the bytes the non-time-tagged
counterpart appends for the same address, value and quality, followed by exactly the 3
stored bytes of the CP24Time2a tag or the 7 stored bytes of the CP56Time2a tag: for
`SinglePointWithCP24Time2a`, `StepPositionWithCP56Time2a` and
`MeasuredValueScaledWithCP56Time2a` against `SinglePointInformation`,
`StepPositionInformation` and `MeasuredValueScaled`. -/
theorem C29_time_tagged_prefix_sharing (frame : Frame) (parameters : ConnectionParameters)
    (ioa : Int) (q : Nat) (ts24 : CP24Time2a) (ts56 : CP56Time2a)
    (h24 : ts24.encodedValue.length = 3) (h56 : ts56.encodedValue.length = 7) :
    (∀ (self : Option SinglePointWithCP24Time2a) (plain : Option SinglePointInformation)
        (v : Bool),
      SinglePointWithCP24Time2a_encode (SinglePointWithCP24Time2a_create self ioa v q ts24)
          frame parameters =
        SinglePointInformation_encode (SinglePointInformation_create plain ioa v q)
          frame parameters ++ ts24.encodedValue) ∧
    (∀ (self : Option StepPositionWithCP56Time2a) (plain : Option StepPositionInformation)
        (p : Int) (t : Bool),
      StepPositionWithCP56Time2a_encode (StepPositionWithCP56Time2a_create self ioa p t q ts56)
          frame parameters =
        StepPositionInformation_encode (StepPositionInformation_create plain ioa p t q)
          frame parameters ++ ts56.encodedValue) ∧
    (∀ (self : Option MeasuredValueScaledWithCP56Time2a) (plain : Option MeasuredValueScaled)
        (v : Int),
      MeasuredValueScaledWithCP56Time2a_encode
          (MeasuredValueScaledWithCP56Time2a_create self ioa v q ts56) frame parameters =
        MeasuredValueScaled_encode (MeasuredValueScaled_create plain ioa v q)
          frame parameters ++ ts56.encodedValue) := by
  refine ⟨?_, ?_, ?_⟩
  · intro self plain v
    have hb := encodeBase_congr
      (SinglePointWithCP24Time2a_create self ioa v q ts24).toInformationObject
      (SinglePointInformation_create plain ioa v q).toInformationObject frame parameters rfl
    have hts : (SinglePointWithCP24Time2a_create self ioa v q ts24).timestamp = ts24 := rfl
    have hq : (SinglePointWithCP24Time2a_create self ioa v q ts24).quality =
        (SinglePointInformation_create plain ioa v q).quality := rfl
    have hv : (SinglePointWithCP24Time2a_create self ioa v q ts24).value =
        (SinglePointInformation_create plain ioa v q).value := rfl
    unfold SinglePointWithCP24Time2a_encode SinglePointInformation_encode Frame_appendBytes
    rw [hb, hts, hq, hv, List.take_of_length_le (le_of_eq h24)]
  · intro self plain p t
    have hb := encodeBase_congr
      (StepPositionWithCP56Time2a_create self ioa p t q ts56).toInformationObject
      (StepPositionInformation_create plain ioa p t q).toInformationObject frame parameters rfl
    have hts : (StepPositionWithCP56Time2a_create self ioa p t q ts56).timestamp = ts56 := rfl
    have hq : (StepPositionWithCP56Time2a_create self ioa p t q ts56).quality =
        (StepPositionInformation_create plain ioa p t q).quality := rfl
    have hv : (StepPositionWithCP56Time2a_create self ioa p t q ts56).vti =
        (StepPositionInformation_create plain ioa p t q).vti := rfl
    unfold StepPositionWithCP56Time2a_encode StepPositionInformation_encode Frame_appendBytes
    rw [hb, hts, hq, hv, List.take_of_length_le (le_of_eq h56)]
  · intro self plain v
    have hb := encodeBase_congr
      (MeasuredValueScaledWithCP56Time2a_create self ioa v q ts56).toInformationObject
      (MeasuredValueScaled_create plain ioa v q).toInformationObject frame parameters rfl
    have hts : (MeasuredValueScaledWithCP56Time2a_create self ioa v q ts56).timestamp = ts56 :=
      rfl
    have hq : (MeasuredValueScaledWithCP56Time2a_create self ioa v q ts56).quality =
        (MeasuredValueScaled_create plain ioa v q).quality := rfl
    have hv : (MeasuredValueScaledWithCP56Time2a_create self ioa v q ts56).encodedValue =
        (MeasuredValueScaled_create plain ioa v q).encodedValue := rfl
    unfold MeasuredValueScaledWithCP56Time2a_encode MeasuredValueScaled_encode
      MeasuredValueNormalized_encode Frame_appendBytes
    simp only [MeasuredValueScaledWithCP56Time2a.asNormalized, MeasuredValueScaled.asNormalized]
    rw [hb, hts, hq, hv, List.take_of_length_le (le_of_eq h56)]

theorem C29_time_tagged_prefix_sharing_witness :
    SinglePointWithCP24Time2a_encode
        (SinglePointWithCP24Time2a_create none 100 true 0x10 ⟨[1, 2, 3]⟩) [] ⟨2⟩ =
      SinglePointInformation_encode (SinglePointInformation_create none 100 true 0x10) [] ⟨2⟩
        ++ [1, 2, 3] ∧
    MeasuredValueScaledWithCP56Time2a_encode
        (MeasuredValueScaledWithCP56Time2a_create none 100 (-1) 0x10 ⟨[1, 2, 3, 4, 5, 6, 7]⟩)
        [] ⟨2⟩ =
      MeasuredValueScaled_encode (MeasuredValueScaled_create none 100 (-1) 0x10) [] ⟨2⟩
        ++ [1, 2, 3, 4, 5, 6, 7] :=
  have h := C29_time_tagged_prefix_sharing [] ⟨2⟩ 100 0x10 ⟨[1, 2, 3]⟩
    ⟨[1, 2, 3, 4, 5, 6, 7]⟩ rfl rfl
  ⟨h.1 none none true, h.2.2 none none (-1)⟩

/-- C30: for the time-tagged measured-value, bitstring and integrated-totals variants, the
decoder invokes the time-tag codec at the offset of the first byte after the value/quality
block (`startIndex + sizeOfIOA + 3` for `MeasuredValueNormalized`/`Scaled` with
CP24/CP56, `startIndex + sizeOfIOA + 5` for `MeasuredValueShort`, `Bitstring32` and
`IntegratedTotals` with CP24/CP56), so that with the time-tag codec that copies its 3 or 7
bytes and an address width `w ∈ {1,2,3}`, decoding the encoding of an object yields the
time-tag bytes of that object. -/
theorem C30_time_tag_offset (w : Nat) (hw : w = 1 ∨ w = 2 ∨ w = 3) :
    (∀ (storage : Option MeasuredValueNormalizedWithCP24Time2a)
        (parameters : ConnectionParameters) (msg : List Nat) (msgSize startIndex : Int)
        (old : CP24Time2a),
      (MeasuredValueNormalizedWithCP24Time2a_getFromBuffer storage parameters msg msgSize
        startIndex).timestamp =
        CP24Time2a_getFromBuffer old msg msgSize (startIndex + parameters.sizeOfIOA + 3)) ∧
    (∀ (storage : Option MeasuredValueNormalizedWithCP56Time2a)
        (parameters : ConnectionParameters) (msg : List Nat) (msgSize startIndex : Int)
        (old : CP56Time2a),
      (MeasuredValueNormalizedWithCP56Time2a_getFromBuffer storage parameters msg msgSize
        startIndex).timestamp =
        CP56Time2a_getFromBuffer old msg msgSize (startIndex + parameters.sizeOfIOA + 3)) ∧
    (∀ (storage : Option MeasuredValueScaledWithCP24Time2a)
        (parameters : ConnectionParameters) (msg : List Nat) (msgSize startIndex : Int)
        (old : CP24Time2a),
      (MeasuredValueScaledWithCP24Time2a_getFromBuffer storage parameters msg msgSize
        startIndex).timestamp =
        CP24Time2a_getFromBuffer old msg msgSize (startIndex + parameters.sizeOfIOA + 3)) ∧
    (∀ (storage : Option MeasuredValueScaledWithCP56Time2a)
        (parameters : ConnectionParameters) (msg : List Nat) (msgSize startIndex : Int)
        (old : CP56Time2a),
      (MeasuredValueScaledWithCP56Time2a_getFromBuffer storage parameters msg msgSize
        startIndex).timestamp =
        CP56Time2a_getFromBuffer old msg msgSize (startIndex + parameters.sizeOfIOA + 3)) ∧
    (∀ (storage : Option MeasuredValueShortWithCP24Time2a)
        (parameters : ConnectionParameters) (msg : List Nat) (msgSize startIndex : Int)
        (old : CP24Time2a),
      (MeasuredValueShortWithCP24Time2a_getFromBuffer storage parameters msg msgSize
        startIndex).timestamp =
        CP24Time2a_getFromBuffer old msg msgSize (startIndex + parameters.sizeOfIOA + 5)) ∧
    (∀ (storage : Option MeasuredValueShortWithCP56Time2a)
        (parameters : ConnectionParameters) (msg : List Nat) (msgSize startIndex : Int)
        (old : CP56Time2a),
      (MeasuredValueShortWithCP56Time2a_getFromBuffer storage parameters msg msgSize
        startIndex).timestamp =
        CP56Time2a_getFromBuffer old msg msgSize (startIndex + parameters.sizeOfIOA + 5)) ∧
    (∀ (storage : Option Bitstring32WithCP24Time2a)
        (parameters : ConnectionParameters) (msg : List Nat) (msgSize startIndex : Int)
        (old : CP24Time2a) (mallocContent : Bitstring32WithCP24Time2a),
      (Bitstring32WithCP24Time2a_getFromBuffer storage parameters msg msgSize
        startIndex mallocContent).timestamp =
        CP24Time2a_getFromBuffer old msg msgSize (startIndex + parameters.sizeOfIOA + 5)) ∧
    (∀ (storage : Option Bitstring32WithCP56Time2a)
        (parameters : ConnectionParameters) (msg : List Nat) (msgSize startIndex : Int)
        (old : CP56Time2a) (mallocContent : Bitstring32WithCP56Time2a),
      (Bitstring32WithCP56Time2a_getFromBuffer storage parameters msg msgSize
        startIndex mallocContent).timestamp =
        CP56Time2a_getFromBuffer old msg msgSize (startIndex + parameters.sizeOfIOA + 5)) ∧
    (∀ (storage : Option IntegratedTotalsWithCP24Time2a)
        (parameters : ConnectionParameters) (msg : List Nat) (msgSize startIndex : Int)
        (old : CP24Time2a),
      (IntegratedTotalsWithCP24Time2a_getFromBuffer storage parameters msg msgSize
        startIndex).timestamp =
        CP24Time2a_getFromBuffer old msg msgSize (startIndex + parameters.sizeOfIOA + 5)) ∧
    (∀ (storage : Option IntegratedTotalsWithCP56Time2a)
        (parameters : ConnectionParameters) (msg : List Nat) (msgSize startIndex : Int)
        (old : CP56Time2a),
      (IntegratedTotalsWithCP56Time2a_getFromBuffer storage parameters msg msgSize
        startIndex).timestamp =
        CP56Time2a_getFromBuffer old msg msgSize (startIndex + parameters.sizeOfIOA + 5)) ∧
    (∀ (obj : MeasuredValueNormalizedWithCP24Time2a)
        (storage : Option MeasuredValueNormalizedWithCP24Time2a) (frame : Frame) (msgSize : Int),
        obj.timestamp.encodedValue.length = 3 →
      (MeasuredValueNormalizedWithCP24Time2a_getFromBuffer storage ⟨(w : Int)⟩
        (MeasuredValueNormalizedWithCP24Time2a_encode obj frame ⟨(w : Int)⟩) msgSize
        (frame.length : Int)).timestamp = obj.timestamp) ∧
    (∀ (obj : MeasuredValueNormalizedWithCP56Time2a)
        (storage : Option MeasuredValueNormalizedWithCP56Time2a) (frame : Frame) (msgSize : Int),
        obj.timestamp.encodedValue.length = 7 →
      (MeasuredValueNormalizedWithCP56Time2a_getFromBuffer storage ⟨(w : Int)⟩
        (MeasuredValueNormalizedWithCP56Time2a_encode obj frame ⟨(w : Int)⟩) msgSize
        (frame.length : Int)).timestamp = obj.timestamp) ∧
    (∀ (obj : MeasuredValueScaledWithCP24Time2a)
        (storage : Option MeasuredValueScaledWithCP24Time2a) (frame : Frame) (msgSize : Int),
        obj.timestamp.encodedValue.length = 3 →
      (MeasuredValueScaledWithCP24Time2a_getFromBuffer storage ⟨(w : Int)⟩
        (MeasuredValueScaledWithCP24Time2a_encode obj frame ⟨(w : Int)⟩) msgSize
        (frame.length : Int)).timestamp = obj.timestamp) ∧
    (∀ (obj : MeasuredValueScaledWithCP56Time2a)
        (storage : Option MeasuredValueScaledWithCP56Time2a) (frame : Frame) (msgSize : Int),
        obj.timestamp.encodedValue.length = 7 →
      (MeasuredValueScaledWithCP56Time2a_getFromBuffer storage ⟨(w : Int)⟩
        (MeasuredValueScaledWithCP56Time2a_encode obj frame ⟨(w : Int)⟩) msgSize
        (frame.length : Int)).timestamp = obj.timestamp) ∧
    (∀ (obj : MeasuredValueShortWithCP24Time2a)
        (storage : Option MeasuredValueShortWithCP24Time2a) (frame : Frame) (msgSize : Int),
        obj.timestamp.encodedValue.length = 3 →
      (MeasuredValueShortWithCP24Time2a_getFromBuffer storage ⟨(w : Int)⟩
        (MeasuredValueShortWithCP24Time2a_encode obj frame ⟨(w : Int)⟩) msgSize
        (frame.length : Int)).timestamp = obj.timestamp) ∧
    (∀ (obj : MeasuredValueShortWithCP56Time2a)
        (storage : Option MeasuredValueShortWithCP56Time2a) (frame : Frame) (msgSize : Int),
        obj.timestamp.encodedValue.length = 7 →
      (MeasuredValueShortWithCP56Time2a_getFromBuffer storage ⟨(w : Int)⟩
        (MeasuredValueShortWithCP56Time2a_encode obj frame ⟨(w : Int)⟩) msgSize
        (frame.length : Int)).timestamp = obj.timestamp) ∧
    (∀ (obj : Bitstring32WithCP24Time2a)
        (storage : Option Bitstring32WithCP24Time2a) (frame : Frame) (msgSize : Int) (mallocContent : Bitstring32WithCP24Time2a),
        obj.timestamp.encodedValue.length = 3 →
      (Bitstring32WithCP24Time2a_getFromBuffer storage ⟨(w : Int)⟩
        (Bitstring32WithCP24Time2a_encode obj frame ⟨(w : Int)⟩) msgSize
        (frame.length : Int) mallocContent).timestamp = obj.timestamp) ∧
    (∀ (obj : Bitstring32WithCP56Time2a)
        (storage : Option Bitstring32WithCP56Time2a) (frame : Frame) (msgSize : Int) (mallocContent : Bitstring32WithCP56Time2a),
        obj.timestamp.encodedValue.length = 7 →
      (Bitstring32WithCP56Time2a_getFromBuffer storage ⟨(w : Int)⟩
        (Bitstring32WithCP56Time2a_encode obj frame ⟨(w : Int)⟩) msgSize
        (frame.length : Int) mallocContent).timestamp = obj.timestamp) ∧
    (∀ (obj : IntegratedTotalsWithCP24Time2a)
        (storage : Option IntegratedTotalsWithCP24Time2a) (frame : Frame) (msgSize : Int),
        obj.timestamp.encodedValue.length = 3 →
        obj.totals.encodedValue.length = 5 →
      (IntegratedTotalsWithCP24Time2a_getFromBuffer storage ⟨(w : Int)⟩
        (IntegratedTotalsWithCP24Time2a_encode obj frame ⟨(w : Int)⟩) msgSize
        (frame.length : Int)).timestamp = obj.timestamp) ∧
    (∀ (obj : IntegratedTotalsWithCP56Time2a)
        (storage : Option IntegratedTotalsWithCP56Time2a) (frame : Frame) (msgSize : Int),
        obj.timestamp.encodedValue.length = 7 →
        obj.totals.encodedValue.length = 5 →
      (IntegratedTotalsWithCP56Time2a_getFromBuffer storage ⟨(w : Int)⟩
        (IntegratedTotalsWithCP56Time2a_encode obj frame ⟨(w : Int)⟩) msgSize
        (frame.length : Int)).timestamp = obj.timestamp) := by
  refine ⟨?_, ?_, ?_, ?_, ?_, ?_, ?_, ?_, ?_, ?_, ?_, ?_, ?_, ?_, ?_, ?_, ?_, ?_, ?_, ?_⟩
  · intro storage parameters msg msgSize startIndex old
    exact MeasuredValueNormalizedWithCP24Time2a_timestamp_offset storage parameters msg msgSize startIndex old
  · intro storage parameters msg msgSize startIndex old
    exact MeasuredValueNormalizedWithCP56Time2a_timestamp_offset storage parameters msg msgSize startIndex old
  · intro storage parameters msg msgSize startIndex old
    exact MeasuredValueScaledWithCP24Time2a_timestamp_offset storage parameters msg msgSize startIndex old
  · intro storage parameters msg msgSize startIndex old
    exact MeasuredValueScaledWithCP56Time2a_timestamp_offset storage parameters msg msgSize startIndex old
  · intro storage parameters msg msgSize startIndex old
    exact MeasuredValueShortWithCP24Time2a_timestamp_offset storage parameters msg msgSize startIndex old
  · intro storage parameters msg msgSize startIndex old
    exact MeasuredValueShortWithCP56Time2a_timestamp_offset storage parameters msg msgSize startIndex old
  · intro storage parameters msg msgSize startIndex old mallocContent
    exact Bitstring32WithCP24Time2a_timestamp_offset storage parameters msg msgSize startIndex old
      mallocContent
  · intro storage parameters msg msgSize startIndex old mallocContent
    exact Bitstring32WithCP56Time2a_timestamp_offset storage parameters msg msgSize startIndex old
      mallocContent
  · intro storage parameters msg msgSize startIndex old
    exact IntegratedTotalsWithCP24Time2a_timestamp_offset storage parameters msg msgSize startIndex old
  · intro storage parameters msg msgSize startIndex old
    exact IntegratedTotalsWithCP56Time2a_timestamp_offset storage parameters msg msgSize startIndex old
  · intro obj storage frame msgSize hts
    exact MeasuredValueNormalizedWithCP24Time2a_timestamp_roundtrip obj storage frame msgSize w hw hts
  · intro obj storage frame msgSize hts
    exact MeasuredValueNormalizedWithCP56Time2a_timestamp_roundtrip obj storage frame msgSize w hw hts
  · intro obj storage frame msgSize hts
    exact MeasuredValueScaledWithCP24Time2a_timestamp_roundtrip obj storage frame msgSize w hw hts
  · intro obj storage frame msgSize hts
    exact MeasuredValueScaledWithCP56Time2a_timestamp_roundtrip obj storage frame msgSize w hw hts
  · intro obj storage frame msgSize hts
    exact MeasuredValueShortWithCP24Time2a_timestamp_roundtrip obj storage frame msgSize w hw hts
  · intro obj storage frame msgSize hts
    exact MeasuredValueShortWithCP56Time2a_timestamp_roundtrip obj storage frame msgSize w hw hts
  · intro obj storage frame msgSize mallocContent hts
    exact Bitstring32WithCP24Time2a_timestamp_roundtrip obj storage frame msgSize w hw hts
      mallocContent
  · intro obj storage frame msgSize mallocContent hts
    exact Bitstring32WithCP56Time2a_timestamp_roundtrip obj storage frame msgSize w hw hts
      mallocContent
  · intro obj storage frame msgSize hts htot
    exact IntegratedTotalsWithCP24Time2a_timestamp_roundtrip obj storage frame msgSize w hw hts htot
  · intro obj storage frame msgSize hts htot
    exact IntegratedTotalsWithCP56Time2a_timestamp_roundtrip obj storage frame msgSize w hw hts htot

theorem C30_time_tag_offset_witness :
    (MeasuredValueScaledWithCP56Time2a_getFromBuffer none ⟨((1 : Nat) : Int)⟩
      (MeasuredValueScaledWithCP56Time2a_encode
        (MeasuredValueScaledWithCP56Time2a_create none 9 (-2) 0x80 ⟨[1, 2, 3, 4, 5, 6, 7]⟩)
        [0xAA] ⟨((1 : Nat) : Int)⟩) 12 (([0xAA] : List Nat).length : Int)).timestamp =
      ⟨[1, 2, 3, 4, 5, 6, 7]⟩ ∧
    (IntegratedTotalsWithCP24Time2a_getFromBuffer none ⟨((1 : Nat) : Int)⟩
      (IntegratedTotalsWithCP24Time2a_encode
        (IntegratedTotalsWithCP24Time2a_create none 9 ⟨[1, 2, 3, 4, 5]⟩ ⟨[7, 8, 9]⟩)
        [] ⟨((1 : Nat) : Int)⟩) 9 (([] : List Nat).length : Int)).timestamp = ⟨[7, 8, 9]⟩ :=
  have h := C30_time_tag_offset 1 (by decide)
  ⟨h.2.2.2.2.2.2.2.2.2.2.2.2.2.1
      (MeasuredValueScaledWithCP56Time2a_create none 9 (-2) 0x80 ⟨[1, 2, 3, 4, 5, 6, 7]⟩)
      none [0xAA] 12 rfl,
   h.2.2.2.2.2.2.2.2.2.2.2.2.2.2.2.2.2.2.1
      (IntegratedTotalsWithCP24Time2a_create none 9 ⟨[1, 2, 3, 4, 5]⟩ ⟨[7, 8, 9]⟩)
      none [] 9 rfl rfl⟩

/-! ### Single events -/

theorem single_event_bits : ∀ x : Nat, x < 256 →
    x &&& 0xfc = x / 4 * 4 ∧ x &&& 0x03 = x % 4 ∧ x &&& 0x3 = x % 4 := by
  decide

/-- C40: for every single-event byte `e` and every event state `s` in `0..3`,
`SingleEvent_getEventState` after `SingleEvent_setEventState(e, s)` is `s` and
`SingleEvent_getQDP` is unchanged; for every quality-for-protection byte `qdp` whose low
two bits are zero, `SingleEvent_getQDP` after `SingleEvent_setQDP(e, qdp)` is `qdp` and
`SingleEvent_getEventState` is unchanged. -/
theorem C40_SingleEvent_fields (e : Nat) (he : e < 256) :
    (∀ s : Nat, s < 4 →
      SingleEvent_getEventState (SingleEvent_setEventState e s) = s ∧
      SingleEvent_getQDP (SingleEvent_setEventState e s) = SingleEvent_getQDP e) ∧
    (∀ qdp : Nat, qdp < 256 → qdp % 4 = 0 →
      SingleEvent_getQDP (SingleEvent_setQDP e qdp) = qdp ∧
      SingleEvent_getEventState (SingleEvent_setQDP e qdp) = SingleEvent_getEventState e) := by
  obtain ⟨e1, e2, e3⟩ := single_event_bits e he
  constructor
  · intro s hs
    have hlt : (e / 4 * 4 % 256 + s) % 256 < 256 := Nat.mod_lt _ (by decide)
    obtain ⟨r1, r2, r3⟩ := single_event_bits _ hlt
    unfold SingleEvent_getEventState SingleEvent_getQDP SingleEvent_setEventState
    simp only [e1, r1, r3]
    omega
  · intro qdp hq hq4
    have hlt : (e % 4 % 256 + qdp) % 256 < 256 := Nat.mod_lt _ (by decide)
    obtain ⟨r1, r2, r3⟩ := single_event_bits _ hlt
    unfold SingleEvent_getEventState SingleEvent_getQDP SingleEvent_setQDP
    simp only [e2, e3, r1, r3]
    omega

theorem C40_SingleEvent_fields_witness :
    (SingleEvent_getEventState (SingleEvent_setEventState 0xA5 2) = 2 ∧
      SingleEvent_getQDP (SingleEvent_setEventState 0xA5 2) = SingleEvent_getQDP 0xA5) ∧
    (SingleEvent_getQDP (SingleEvent_setQDP 0xA5 0x48) = 0x48 ∧
      SingleEvent_getEventState (SingleEvent_setQDP 0xA5 0x48) =
        SingleEvent_getEventState 0xA5) :=
  have h := C40_SingleEvent_fields 0xA5 (by decide)
  ⟨h.1 2 (by decide), h.2 0x48 (by decide) (by decide)⟩

/-! ### Step position byte -/

theorem vti_byte_fields : ∀ n : Nat, n < 256 →
    n &&& 0x7f = n % 128 ∧ ((n &&& 0x80) == 0x80) = decide (128 ≤ n) := by
  decide

/-- C37: for every wire byte `vti` held by a step position object,
`StepPositionInformation_getValue` is the low 7 bits of `vti` read as a 7-bit two's
complement number, hence lies in `-64..63` and depends on the low 7 bits only;
`StepPositionInformation_isTransient` is bit 7 of `vti`; and two bytes that give the same
value and the same transient flag are equal. -/
theorem C37_step_position_byte (obj : StepPositionInformation) (hv : obj.vti < 256) :
    (-64 ≤ StepPositionInformation_getValue obj ∧ StepPositionInformation_getValue obj ≤ 63) ∧
    StepPositionInformation_getValue obj =
      (if obj.vti % 128 > 63 then ((obj.vti % 128 : Nat) : Int) - 128
        else ((obj.vti % 128 : Nat) : Int)) ∧
    StepPositionInformation_isTransient obj = decide (128 ≤ obj.vti) ∧
    (∀ other : StepPositionInformation, other.vti < 256 →
      other.vti % 128 = obj.vti % 128 →
      StepPositionInformation_getValue other = StepPositionInformation_getValue obj) ∧
    (∀ other : StepPositionInformation, other.vti < 256 →
      other.vti / 128 = obj.vti / 128 →
      StepPositionInformation_isTransient other = StepPositionInformation_isTransient obj) ∧
    (∀ other : StepPositionInformation, other.vti < 256 →
      StepPositionInformation_getValue other = StepPositionInformation_getValue obj →
      StepPositionInformation_isTransient other = StepPositionInformation_isTransient obj →
      other.vti = obj.vti) := by
  have key : ∀ o : StepPositionInformation, o.vti < 256 →
      StepPositionInformation_getValue o =
        (if o.vti % 128 > 63 then ((o.vti % 128 : Nat) : Int) - 128
          else ((o.vti % 128 : Nat) : Int)) ∧
      StepPositionInformation_isTransient o = decide (128 ≤ o.vti) := by
    intro o ho
    obtain ⟨a, b⟩ := vti_byte_fields o.vti ho
    unfold StepPositionInformation_getValue StepPositionInformation_isTransient
    rw [a, b]
    refine ⟨?_, rfl⟩
    by_cases h : o.vti % 128 > 63
    · have h2 : ((o.vti % 128 : Nat) : Int) > 63 := by omega
      simp only [h, h2, if_true]
    · have h2 : ¬ ((o.vti % 128 : Nat) : Int) > 63 := by omega
      simp only [h, h2, if_false]
  obtain ⟨kv, kt⟩ := key obj hv
  refine ⟨?_, kv, kt, ?_, ?_, ?_⟩
  · rw [kv]; split <;> omega
  · intro other ho hm
    rw [(key other ho).1, kv, hm]
  · intro other ho hm
    rw [(key other ho).2, kt]
    have : (128 ≤ other.vti) ↔ (128 ≤ obj.vti) := by omega
    simp only [this]
  · intro other ho hval htr
    rw [(key other ho).1, kv] at hval
    rw [(key other ho).2, kt] at htr
    have ht : (128 ≤ other.vti) ↔ (128 ≤ obj.vti) := by
      simpa using htr
    split at hval <;> split at hval <;> omega

theorem C37_step_position_byte_witness :
    (-64 ≤ StepPositionInformation_getValue
        (StepPositionInformation_create none 1 (-3) true 0) ∧
      StepPositionInformation_getValue
        (StepPositionInformation_create none 1 (-3) true 0) ≤ 63) ∧
    StepPositionInformation_isTransient (StepPositionInformation_create none 1 (-3) true 0) =
      decide (128 ≤ (StepPositionInformation_create none 1 (-3) true 0).vti) :=
  have h := C37_step_position_byte (StepPositionInformation_create none 1 (-3) true 0)
    (by decide)
  ⟨h.1, h.2.2.1⟩

/-! ### Rebuilding a command byte from its fields -/

theorem sco_state_bit : ∀ b : Nat, b < 256 →
    ((b &&& 0x01) == 0x01) = decide (b % 2 = 1) ∧ b &&& 0xFD = b - (b / 2 % 2) * 2 := by
  decide

/-- C38: for every command byte `b`, the fields read from a `DoubleCommand` holding `b`
are `getState = b mod 4`, `isSelect = (b ≥ 128)` and `getQU = (b div 4) mod 32`, and
`DoubleCommand_create` called with them stores exactly `b`; for a `SingleCommand` holding
`b`, `SingleCommand_create` called with the fields read from it stores `b` with bit 1
cleared. -/
theorem C38_command_byte_reconstruction (b : Nat) (hb : b < 256) :
    (∀ (src : DoubleCommand) (self : Option DoubleCommand) (ioa : Int), src.dcq = b →
      DoubleCommand_getState src = ((b % 4 : Nat) : Int) ∧
      DoubleCommand_isSelect src = decide (128 ≤ b) ∧
      DoubleCommand_getQU src = ((b / 4 % 32 : Nat) : Int) ∧
      (DoubleCommand_create self ioa (DoubleCommand_getState src) (DoubleCommand_isSelect src)
        (DoubleCommand_getQU src)).dcq = b) ∧
    (∀ (src : SingleCommand) (self : Option SingleCommand) (ioa : Int), src.sco = b →
      (SingleCommand_create self ioa (SingleCommand_getState src) (SingleCommand_isSelect src)
        (SingleCommand_getQU src)).sco = b &&& 0xFD) := by
  obtain ⟨f1, f2, f3⟩ := command_byte_fields b hb
  obtain ⟨g1, g2⟩ := sco_state_bit b hb
  constructor
  · intro src self ioa hsrc
    have hst : DoubleCommand_getState src = ((b % 4 : Nat) : Int) := by
      unfold DoubleCommand_getState; rw [hsrc, f1]
    have hsel : DoubleCommand_isSelect src = decide (128 ≤ b) := by
      unfold DoubleCommand_isSelect; rw [hsrc, f3]
    have hqu : DoubleCommand_getQU src = ((b / 4 % 32 : Nat) : Int) := by
      unfold DoubleCommand_getQU; rw [hsrc, tdiv_four_natCast, f2]
    refine ⟨hst, hsel, hqu, ?_⟩
    have h := (DoubleCommand_create_fields self ioa (DoubleCommand_getQU src)
      (DoubleCommand_getState src) (DoubleCommand_isSelect src)
      (by rw [hst]; omega) (by rw [hst]; omega)).2.2.2
    rw [hst, hsel, hqu] at h ⊢
    by_cases h128 : 128 ≤ b
    · simp only [h128, decide_True, if_true] at h ⊢; omega
    · simp only [h128, decide_False, Bool.false_eq_true, if_false] at h ⊢; omega
  · intro src self ioa hsrc
    have hst : SingleCommand_getState src = decide (b % 2 = 1) := by
      unfold SingleCommand_getState; rw [hsrc, g1]
    have hsel : SingleCommand_isSelect src = decide (128 ≤ b) := by
      unfold SingleCommand_isSelect; rw [hsrc, f3]
    have hqu : SingleCommand_getQU src = ((b / 4 % 32 : Nat) : Int) := by
      unfold SingleCommand_getQU; rw [hsrc, tdiv_four_natCast, f2]
    have h := (SingleCommand_create_fields self ioa (SingleCommand_getQU src)
      (SingleCommand_getState src) (SingleCommand_isSelect src)).2.2.2
    rw [hst, hsel, hqu] at h ⊢
    rw [g2]
    by_cases h128 : 128 ≤ b <;> by_cases h2 : b % 2 = 1 <;>
      simp only [h128, h2, decide_True, decide_False, Bool.false_eq_true, if_true,
        if_false] at h ⊢ <;> omega

theorem C38_command_byte_reconstruction_witness :
    (DoubleCommand_create none 7
        (DoubleCommand_getState (DoubleCommand_create none 7 3 true 21))
        (DoubleCommand_isSelect (DoubleCommand_create none 7 3 true 21))
        (DoubleCommand_getQU (DoubleCommand_create none 7 3 true 21))).dcq = 0xD7 ∧
    (SingleCommand_create none 7
        (SingleCommand_getState ⟨InformationObject.zeroed, 0xD7⟩)
        (SingleCommand_isSelect ⟨InformationObject.zeroed, 0xD7⟩)
        (SingleCommand_getQU ⟨InformationObject.zeroed, 0xD7⟩)).sco = 0xD7 &&& 0xFD :=
  have h := C38_command_byte_reconstruction 0xD7 (by decide)
  ⟨(h.1 (DoubleCommand_create none 7 3 true 21) none 7 (by decide)).2.2.2,
   h.2 ⟨InformationObject.zeroed, 0xD7⟩ none 7 rfl⟩

/-! ### Time tags of the point and step-position variants -/

/-- The copying short time-tag codec, applied one byte before the tag bytes start, yields
that byte and the first two bytes of the tag. -/
theorem CP24Time2a_getFromBuffer_shifted (old : CP24Time2a) (pre : List Nat) (b : Nat)
    (ts : List Nat) (msgSize : Int) (h : ts.length = 3) :
    CP24Time2a_getFromBuffer old (pre ++ b :: ts) msgSize (pre.length : Int) =
      ⟨(b :: ts).take 3⟩ := by
  unfold CP24Time2a_getFromBuffer
  simp only [readByte_append]
  match ts, h with
  | [x, y, z], _ => rfl

/-- The copying long time-tag codec, applied one byte before the tag bytes start, yields
that byte and the first six bytes of the tag. -/
theorem CP56Time2a_getFromBuffer_shifted (old : CP56Time2a) (pre : List Nat) (b : Nat)
    (ts : List Nat) (msgSize : Int) (h : ts.length = 7) :
    CP56Time2a_getFromBuffer old (pre ++ b :: ts) msgSize (pre.length : Int) =
      ⟨(b :: ts).take 7⟩ := by
  unfold CP56Time2a_getFromBuffer
  simp only [readByte_append]
  match ts, h with
  | [x1, x2, x3, x4, x5, x6, x7], _ => rfl

/-- Where `SinglePointWithCP24Time2a_getFromBuffer` invokes the time-tag codec: at
`startIndex + sizeOfIOA`, the index of the byte `siq` it has just read. -/
theorem SinglePointWithCP24Time2a_timestamp_read
    (storage : Option SinglePointWithCP24Time2a)
    (parameters : ConnectionParameters) (msg : List Nat) (msgSize startIndex : Int)
    (old : CP24Time2a) :
    (SinglePointWithCP24Time2a_getFromBuffer storage parameters msg msgSize
      startIndex).timestamp =
      CP24Time2a_getFromBuffer old msg msgSize (startIndex + parameters.sizeOfIOA) := by
  unfold SinglePointWithCP24Time2a_getFromBuffer
  rfl

/-- The time tag decoded from an encoded `SinglePointWithCP24Time2a`: the value/quality
byte followed by the first two bytes of the tag. -/
theorem SinglePointWithCP24Time2a_timestamp_decoded
    (obj : SinglePointWithCP24Time2a)
    (storage : Option SinglePointWithCP24Time2a) (frame : Frame) (msgSize : Int)
    (w : Nat) (hw : w = 1 ∨ w = 2 ∨ w = 3) (hts : obj.timestamp.encodedValue.length = 3) :
    (SinglePointWithCP24Time2a_getFromBuffer storage ⟨(w : Int)⟩
      (SinglePointWithCP24Time2a_encode obj frame ⟨(w : Int)⟩) msgSize
      (frame.length : Int)).timestamp =
      ⟨((if obj.value then (obj.quality % 256 + 1) % 256 else obj.quality % 256) :: obj.timestamp.encodedValue).take 3⟩ := by
  rw [SinglePointWithCP24Time2a_timestamp_read _ _ _ _ _ obj.timestamp]
  have henc : SinglePointWithCP24Time2a_encode obj frame ⟨(w : Int)⟩ =
      InformationObject_encodeBase obj.toInformationObject frame ⟨(w : Int)⟩ ++
        ((if obj.value then (obj.quality % 256 + 1) % 256 else obj.quality % 256) :: obj.timestamp.encodedValue) := by
    simp [SinglePointWithCP24Time2a_encode, Frame_setNextByte,
      Frame_appendBytes, List.take_of_length_le (le_of_eq hts)]
  have hlen : ((InformationObject_encodeBase obj.toInformationObject frame ⟨(w : Int)⟩).length
      : Int) = (frame.length : Int) + (w : Int) := by
    rw [encodeBase_append, List.length_append, encodeBase_length _ w hw]
    simp
  rw [henc, ← hlen]
  exact CP24Time2a_getFromBuffer_shifted _ _ _ _ _ hts

/-- Where `SinglePointWithCP56Time2a_getFromBuffer` invokes the time-tag codec: at
`startIndex + sizeOfIOA`, the index of the byte `siq` it has just read. -/
theorem SinglePointWithCP56Time2a_timestamp_read
    (storage : Option SinglePointWithCP56Time2a)
    (parameters : ConnectionParameters) (msg : List Nat) (msgSize startIndex : Int)
    (old : CP56Time2a) :
    (SinglePointWithCP56Time2a_getFromBuffer storage parameters msg msgSize
      startIndex).timestamp =
      CP56Time2a_getFromBuffer old msg msgSize (startIndex + parameters.sizeOfIOA) := by
  unfold SinglePointWithCP56Time2a_getFromBuffer
  rfl

/-- The time tag decoded from an encoded `SinglePointWithCP56Time2a`: the value/quality
byte followed by the first six bytes of the tag. -/
theorem SinglePointWithCP56Time2a_timestamp_decoded
    (obj : SinglePointWithCP56Time2a)
    (storage : Option SinglePointWithCP56Time2a) (frame : Frame) (msgSize : Int)
    (w : Nat) (hw : w = 1 ∨ w = 2 ∨ w = 3) (hts : obj.timestamp.encodedValue.length = 7) :
    (SinglePointWithCP56Time2a_getFromBuffer storage ⟨(w : Int)⟩
      (SinglePointWithCP56Time2a_encode obj frame ⟨(w : Int)⟩) msgSize
      (frame.length : Int)).timestamp =
      ⟨((if obj.value then (obj.quality % 256 + 1) % 256 else obj.quality % 256) :: obj.timestamp.encodedValue).take 7⟩ := by
  rw [SinglePointWithCP56Time2a_timestamp_read _ _ _ _ _ obj.timestamp]
  have henc : SinglePointWithCP56Time2a_encode obj frame ⟨(w : Int)⟩ =
      InformationObject_encodeBase obj.toInformationObject frame ⟨(w : Int)⟩ ++
        ((if obj.value then (obj.quality % 256 + 1) % 256 else obj.quality % 256) :: obj.timestamp.encodedValue) := by
    simp [SinglePointWithCP56Time2a_encode, Frame_setNextByte,
      Frame_appendBytes, List.take_of_length_le (le_of_eq hts)]
  have hlen : ((InformationObject_encodeBase obj.toInformationObject frame ⟨(w : Int)⟩).length
      : Int) = (frame.length : Int) + (w : Int) := by
    rw [encodeBase_append, List.length_append, encodeBase_length _ w hw]
    simp
  rw [henc, ← hlen]
  exact CP56Time2a_getFromBuffer_shifted _ _ _ _ _ hts

/-- Where `DoublePointWithCP24Time2a_getFromBuffer` invokes the time-tag codec: at
`startIndex + sizeOfIOA`, the index of the byte `siq` it has just read. -/
theorem DoublePointWithCP24Time2a_timestamp_read
    (storage : Option DoublePointWithCP24Time2a)
    (parameters : ConnectionParameters) (msg : List Nat) (msgSize startIndex : Int)
    (old : CP24Time2a) :
    (DoublePointWithCP24Time2a_getFromBuffer storage parameters msg msgSize
      startIndex).timestamp =
      CP24Time2a_getFromBuffer old msg msgSize (startIndex + parameters.sizeOfIOA) := by
  unfold DoublePointWithCP24Time2a_getFromBuffer
  rfl

/-- The time tag decoded from an encoded `DoublePointWithCP24Time2a`: the value/quality
byte followed by the first two bytes of the tag. -/
theorem DoublePointWithCP24Time2a_timestamp_decoded
    (obj : DoublePointWithCP24Time2a)
    (storage : Option DoublePointWithCP24Time2a) (frame : Frame) (msgSize : Int)
    (w : Nat) (hw : w = 1 ∨ w = 2 ∨ w = 3) (hts : obj.timestamp.encodedValue.length = 3) :
    (DoublePointWithCP24Time2a_getFromBuffer storage ⟨(w : Int)⟩
      (DoublePointWithCP24Time2a_encode obj frame ⟨(w : Int)⟩) msgSize
      (frame.length : Int)).timestamp =
      ⟨(((obj.quality % 256 + obj.value) % 256) :: obj.timestamp.encodedValue).take 3⟩ := by
  rw [DoublePointWithCP24Time2a_timestamp_read _ _ _ _ _ obj.timestamp]
  have henc : DoublePointWithCP24Time2a_encode obj frame ⟨(w : Int)⟩ =
      InformationObject_encodeBase obj.toInformationObject frame ⟨(w : Int)⟩ ++
        (((obj.quality % 256 + obj.value) % 256) :: obj.timestamp.encodedValue) := by
    simp [DoublePointWithCP24Time2a_encode, Frame_setNextByte,
      Frame_appendBytes, List.take_of_length_le (le_of_eq hts)]
  have hlen : ((InformationObject_encodeBase obj.toInformationObject frame ⟨(w : Int)⟩).length
      : Int) = (frame.length : Int) + (w : Int) := by
    rw [encodeBase_append, List.length_append, encodeBase_length _ w hw]
    simp
  rw [henc, ← hlen]
  exact CP24Time2a_getFromBuffer_shifted _ _ _ _ _ hts

/-- Where `DoublePointWithCP56Time2a_getFromBuffer` invokes the time-tag codec: at
`startIndex + sizeOfIOA`, the index of the byte `siq` it has just read. -/
theorem DoublePointWithCP56Time2a_timestamp_read
    (storage : Option DoublePointWithCP56Time2a)
    (parameters : ConnectionParameters) (msg : List Nat) (msgSize startIndex : Int)
    (old : CP56Time2a) :
    (DoublePointWithCP56Time2a_getFromBuffer storage parameters msg msgSize
      startIndex).timestamp =
      CP56Time2a_getFromBuffer old msg msgSize (startIndex + parameters.sizeOfIOA) := by
  unfold DoublePointWithCP56Time2a_getFromBuffer
  rfl

/-- The time tag decoded from an encoded `DoublePointWithCP56Time2a`: the value/quality
byte followed by the first six bytes of the tag. -/
theorem DoublePointWithCP56Time2a_timestamp_decoded
    (obj : DoublePointWithCP56Time2a)
    (storage : Option DoublePointWithCP56Time2a) (frame : Frame) (msgSize : Int)
    (w : Nat) (hw : w = 1 ∨ w = 2 ∨ w = 3) (hts : obj.timestamp.encodedValue.length = 7) :
    (DoublePointWithCP56Time2a_getFromBuffer storage ⟨(w : Int)⟩
      (DoublePointWithCP56Time2a_encode obj frame ⟨(w : Int)⟩) msgSize
      (frame.length : Int)).timestamp =
      ⟨(((obj.quality % 256 + obj.value) % 256) :: obj.timestamp.encodedValue).take 7⟩ := by
  rw [DoublePointWithCP56Time2a_timestamp_read _ _ _ _ _ obj.timestamp]
  have henc : DoublePointWithCP56Time2a_encode obj frame ⟨(w : Int)⟩ =
      InformationObject_encodeBase obj.toInformationObject frame ⟨(w : Int)⟩ ++
        (((obj.quality % 256 + obj.value) % 256) :: obj.timestamp.encodedValue) := by
    simp [DoublePointWithCP56Time2a_encode, Frame_setNextByte,
      Frame_appendBytes, List.take_of_length_le (le_of_eq hts)]
  have hlen : ((InformationObject_encodeBase obj.toInformationObject frame ⟨(w : Int)⟩).length
      : Int) = (frame.length : Int) + (w : Int) := by
    rw [encodeBase_append, List.length_append, encodeBase_length _ w hw]
    simp
  rw [henc, ← hlen]
  exact CP56Time2a_getFromBuffer_shifted _ _ _ _ _ hts

/-- Where `StepPositionWithCP24Time2a_getFromBuffer` invokes the time-tag codec: at
`startIndex + sizeOfIOA + 1`, the index of the quality byte it has just read. -/
theorem StepPositionWithCP24Time2a_timestamp_read
    (storage : Option StepPositionWithCP24Time2a)
    (parameters : ConnectionParameters) (msg : List Nat) (msgSize startIndex : Int)
    (old : CP24Time2a) :
    (StepPositionWithCP24Time2a_getFromBuffer storage parameters msg msgSize
      startIndex).timestamp =
      CP24Time2a_getFromBuffer old msg msgSize (startIndex + parameters.sizeOfIOA + 1) := by
  unfold StepPositionWithCP24Time2a_getFromBuffer
  rfl

/-- The time tag decoded from an encoded `StepPositionWithCP24Time2a`: the quality byte
followed by the first two bytes of the tag. -/
theorem StepPositionWithCP24Time2a_timestamp_decoded
    (obj : StepPositionWithCP24Time2a)
    (storage : Option StepPositionWithCP24Time2a) (frame : Frame) (msgSize : Int)
    (w : Nat) (hw : w = 1 ∨ w = 2 ∨ w = 3) (hts : obj.timestamp.encodedValue.length = 3) :
    (StepPositionWithCP24Time2a_getFromBuffer storage ⟨(w : Int)⟩
      (StepPositionWithCP24Time2a_encode obj frame ⟨(w : Int)⟩) msgSize
      (frame.length : Int)).timestamp =
      ⟨((obj.quality % 256) :: obj.timestamp.encodedValue).take 3⟩ := by
  rw [StepPositionWithCP24Time2a_timestamp_read _ _ _ _ _ obj.timestamp]
  have henc : StepPositionWithCP24Time2a_encode obj frame ⟨(w : Int)⟩ =
      (InformationObject_encodeBase obj.toInformationObject frame ⟨(w : Int)⟩ ++ [obj.vti]) ++
        ((obj.quality % 256) :: obj.timestamp.encodedValue) := by
    simp [StepPositionWithCP24Time2a_encode, Frame_setNextByte,
      Frame_appendBytes, List.take_of_length_le (le_of_eq hts)]
  have hlen : ((InformationObject_encodeBase obj.toInformationObject frame ⟨(w : Int)⟩ ++
      [obj.vti]).length : Int) = (frame.length : Int) + (w : Int) + 1 := by
    rw [List.length_append, encodeBase_append, List.length_append, encodeBase_length _ w hw]
    simp
  rw [henc, ← hlen]
  exact CP24Time2a_getFromBuffer_shifted _ _ _ _ _ hts

/-- Where `StepPositionWithCP56Time2a_getFromBuffer` invokes the time-tag codec: at
`startIndex + sizeOfIOA + 1`, the index of the quality byte it has just read. -/
theorem StepPositionWithCP56Time2a_timestamp_read
    (storage : Option StepPositionWithCP56Time2a)
    (parameters : ConnectionParameters) (msg : List Nat) (msgSize startIndex : Int)
    (old : CP56Time2a) :
    (StepPositionWithCP56Time2a_getFromBuffer storage parameters msg msgSize
      startIndex).timestamp =
      CP56Time2a_getFromBuffer old msg msgSize (startIndex + parameters.sizeOfIOA + 1) := by
  unfold StepPositionWithCP56Time2a_getFromBuffer
  rfl

/-- The time tag decoded from an encoded `StepPositionWithCP56Time2a`: the quality byte
followed by the first six bytes of the tag. -/
theorem StepPositionWithCP56Time2a_timestamp_decoded
    (obj : StepPositionWithCP56Time2a)
    (storage : Option StepPositionWithCP56Time2a) (frame : Frame) (msgSize : Int)
    (w : Nat) (hw : w = 1 ∨ w = 2 ∨ w = 3) (hts : obj.timestamp.encodedValue.length = 7) :
    (StepPositionWithCP56Time2a_getFromBuffer storage ⟨(w : Int)⟩
      (StepPositionWithCP56Time2a_encode obj frame ⟨(w : Int)⟩) msgSize
      (frame.length : Int)).timestamp =
      ⟨((obj.quality % 256) :: obj.timestamp.encodedValue).take 7⟩ := by
  rw [StepPositionWithCP56Time2a_timestamp_read _ _ _ _ _ obj.timestamp]
  have henc : StepPositionWithCP56Time2a_encode obj frame ⟨(w : Int)⟩ =
      (InformationObject_encodeBase obj.toInformationObject frame ⟨(w : Int)⟩ ++ [obj.vti]) ++
        ((obj.quality % 256) :: obj.timestamp.encodedValue) := by
    simp [StepPositionWithCP56Time2a_encode, Frame_setNextByte,
      Frame_appendBytes, List.take_of_length_le (le_of_eq hts)]
  have hlen : ((InformationObject_encodeBase obj.toInformationObject frame ⟨(w : Int)⟩ ++
      [obj.vti]).length : Int) = (frame.length : Int) + (w : Int) + 1 := by
    rw [List.length_append, encodeBase_append, List.length_append, encodeBase_length _ w hw]
    simp
  rw [henc, ← hlen]
  exact CP56Time2a_getFromBuffer_shifted _ _ _ _ _ hts

/-- C31 (the code departs from the claim): the decoders of `SinglePointWithCP24Time2a`,
`SinglePointWithCP56Time2a`, `DoublePointWithCP24Time2a` and `DoublePointWithCP56Time2a`
invoke the time-tag codec at `startIndex + sizeOfIOA`, the index of the value/quality byte,
and those of `StepPositionWithCP24Time2a` and `StepPositionWithCP56Time2a` at
`startIndex + sizeOfIOA + 1`, the index of the quality byte: one byte before the time tag.
With the time-tag codec that copies its 3 or 7 bytes and an address width `w ∈ {1,2,3}`,
decoding the encoding of an object yields the last value/quality byte followed by all but
the last byte of the object's time tag; for the single point `(ioa 1, true, quality 0,
tag 11 22 33)` the decoded tag is `01 11 22`. -/
theorem C31_point_step_time_tag_one_byte_early (w : Nat) (hw : w = 1 ∨ w = 2 ∨ w = 3) :
    (∀ (storage : Option SinglePointWithCP24Time2a)
        (parameters : ConnectionParameters) (msg : List Nat) (msgSize startIndex : Int)
        (old : CP24Time2a),
      (SinglePointWithCP24Time2a_getFromBuffer storage parameters msg msgSize
        startIndex).timestamp =
        CP24Time2a_getFromBuffer old msg msgSize (startIndex + parameters.sizeOfIOA)) ∧
    (∀ (storage : Option SinglePointWithCP56Time2a)
        (parameters : ConnectionParameters) (msg : List Nat) (msgSize startIndex : Int)
        (old : CP56Time2a),
      (SinglePointWithCP56Time2a_getFromBuffer storage parameters msg msgSize
        startIndex).timestamp =
        CP56Time2a_getFromBuffer old msg msgSize (startIndex + parameters.sizeOfIOA)) ∧
    (∀ (storage : Option DoublePointWithCP24Time2a)
        (parameters : ConnectionParameters) (msg : List Nat) (msgSize startIndex : Int)
        (old : CP24Time2a),
      (DoublePointWithCP24Time2a_getFromBuffer storage parameters msg msgSize
        startIndex).timestamp =
        CP24Time2a_getFromBuffer old msg msgSize (startIndex + parameters.sizeOfIOA)) ∧
    (∀ (storage : Option DoublePointWithCP56Time2a)
        (parameters : ConnectionParameters) (msg : List Nat) (msgSize startIndex : Int)
        (old : CP56Time2a),
      (DoublePointWithCP56Time2a_getFromBuffer storage parameters msg msgSize
        startIndex).timestamp =
        CP56Time2a_getFromBuffer old msg msgSize (startIndex + parameters.sizeOfIOA)) ∧
    (∀ (storage : Option StepPositionWithCP24Time2a)
        (parameters : ConnectionParameters) (msg : List Nat) (msgSize startIndex : Int)
        (old : CP24Time2a),
      (StepPositionWithCP24Time2a_getFromBuffer storage parameters msg msgSize
        startIndex).timestamp =
        CP24Time2a_getFromBuffer old msg msgSize (startIndex + parameters.sizeOfIOA + 1)) ∧
    (∀ (storage : Option StepPositionWithCP56Time2a)
        (parameters : ConnectionParameters) (msg : List Nat) (msgSize startIndex : Int)
        (old : CP56Time2a),
      (StepPositionWithCP56Time2a_getFromBuffer storage parameters msg msgSize
        startIndex).timestamp =
        CP56Time2a_getFromBuffer old msg msgSize (startIndex + parameters.sizeOfIOA + 1)) ∧
    (∀ (obj : SinglePointWithCP24Time2a) (storage : Option SinglePointWithCP24Time2a)
        (frame : Frame) (msgSize : Int), obj.timestamp.encodedValue.length = 3 →
      (SinglePointWithCP24Time2a_getFromBuffer storage ⟨(w : Int)⟩
        (SinglePointWithCP24Time2a_encode obj frame ⟨(w : Int)⟩) msgSize
        (frame.length : Int)).timestamp =
        ⟨((if obj.value then (obj.quality % 256 + 1) % 256 else obj.quality % 256) :: obj.timestamp.encodedValue).take 3⟩) ∧
    (∀ (obj : SinglePointWithCP56Time2a) (storage : Option SinglePointWithCP56Time2a)
        (frame : Frame) (msgSize : Int), obj.timestamp.encodedValue.length = 7 →
      (SinglePointWithCP56Time2a_getFromBuffer storage ⟨(w : Int)⟩
        (SinglePointWithCP56Time2a_encode obj frame ⟨(w : Int)⟩) msgSize
        (frame.length : Int)).timestamp =
        ⟨((if obj.value then (obj.quality % 256 + 1) % 256 else obj.quality % 256) :: obj.timestamp.encodedValue).take 7⟩) ∧
    (∀ (obj : DoublePointWithCP24Time2a) (storage : Option DoublePointWithCP24Time2a)
        (frame : Frame) (msgSize : Int), obj.timestamp.encodedValue.length = 3 →
      (DoublePointWithCP24Time2a_getFromBuffer storage ⟨(w : Int)⟩
        (DoublePointWithCP24Time2a_encode obj frame ⟨(w : Int)⟩) msgSize
        (frame.length : Int)).timestamp =
        ⟨(((obj.quality % 256 + obj.value) % 256) :: obj.timestamp.encodedValue).take 3⟩) ∧
    (∀ (obj : DoublePointWithCP56Time2a) (storage : Option DoublePointWithCP56Time2a)
        (frame : Frame) (msgSize : Int), obj.timestamp.encodedValue.length = 7 →
      (DoublePointWithCP56Time2a_getFromBuffer storage ⟨(w : Int)⟩
        (DoublePointWithCP56Time2a_encode obj frame ⟨(w : Int)⟩) msgSize
        (frame.length : Int)).timestamp =
        ⟨(((obj.quality % 256 + obj.value) % 256) :: obj.timestamp.encodedValue).take 7⟩) ∧
    (∀ (obj : StepPositionWithCP24Time2a) (storage : Option StepPositionWithCP24Time2a)
        (frame : Frame) (msgSize : Int), obj.timestamp.encodedValue.length = 3 →
      (StepPositionWithCP24Time2a_getFromBuffer storage ⟨(w : Int)⟩
        (StepPositionWithCP24Time2a_encode obj frame ⟨(w : Int)⟩) msgSize
        (frame.length : Int)).timestamp =
        ⟨((obj.quality % 256) :: obj.timestamp.encodedValue).take 3⟩) ∧
    (∀ (obj : StepPositionWithCP56Time2a) (storage : Option StepPositionWithCP56Time2a)
        (frame : Frame) (msgSize : Int), obj.timestamp.encodedValue.length = 7 →
      (StepPositionWithCP56Time2a_getFromBuffer storage ⟨(w : Int)⟩
        (StepPositionWithCP56Time2a_encode obj frame ⟨(w : Int)⟩) msgSize
        (frame.length : Int)).timestamp =
        ⟨((obj.quality % 256) :: obj.timestamp.encodedValue).take 7⟩) ∧
    ((SinglePointWithCP24Time2a_encode
        (SinglePointWithCP24Time2a_create none 1 true 0 ⟨[0x11, 0x22, 0x33]⟩) [] ⟨1⟩ =
        [0x01, 0x01, 0x11, 0x22, 0x33]) ∧
      (SinglePointWithCP24Time2a_getFromBuffer none ⟨1⟩ [0x01, 0x01, 0x11, 0x22, 0x33] 5
        0).timestamp = ⟨[0x01, 0x11, 0x22]⟩ ∧
      (SinglePointWithCP24Time2a_getFromBuffer none ⟨1⟩ [0x01, 0x01, 0x11, 0x22, 0x33] 5
        0).timestamp ≠ ⟨[0x11, 0x22, 0x33]⟩) ∧
    ((StepPositionWithCP56Time2a_encode
        (StepPositionWithCP56Time2a_create none 1 5 false 0x80 ⟨[1, 2, 3, 4, 5, 6, 7]⟩) []
        ⟨1⟩ = [0x01, 0x05, 0x80, 1, 2, 3, 4, 5, 6, 7]) ∧
      (StepPositionWithCP56Time2a_getFromBuffer none ⟨1⟩
        [0x01, 0x05, 0x80, 1, 2, 3, 4, 5, 6, 7] 10 0).timestamp =
        ⟨[0x80, 1, 2, 3, 4, 5, 6]⟩ ∧
      (StepPositionWithCP56Time2a_getFromBuffer none ⟨1⟩
        [0x01, 0x05, 0x80, 1, 2, 3, 4, 5, 6, 7] 10 0).timestamp ≠
        ⟨[1, 2, 3, 4, 5, 6, 7]⟩) := by
  refine ⟨?_, ?_, ?_, ?_, ?_, ?_, ?_, ?_, ?_, ?_, ?_, ?_, ?_, ?_⟩
  · exact SinglePointWithCP24Time2a_timestamp_read
  · exact SinglePointWithCP56Time2a_timestamp_read
  · exact DoublePointWithCP24Time2a_timestamp_read
  · exact DoublePointWithCP56Time2a_timestamp_read
  · exact StepPositionWithCP24Time2a_timestamp_read
  · exact StepPositionWithCP56Time2a_timestamp_read
  · intro obj storage frame msgSize hts
    exact SinglePointWithCP24Time2a_timestamp_decoded obj storage frame msgSize w hw hts
  · intro obj storage frame msgSize hts
    exact SinglePointWithCP56Time2a_timestamp_decoded obj storage frame msgSize w hw hts
  · intro obj storage frame msgSize hts
    exact DoublePointWithCP24Time2a_timestamp_decoded obj storage frame msgSize w hw hts
  · intro obj storage frame msgSize hts
    exact DoublePointWithCP56Time2a_timestamp_decoded obj storage frame msgSize w hw hts
  · intro obj storage frame msgSize hts
    exact StepPositionWithCP24Time2a_timestamp_decoded obj storage frame msgSize w hw hts
  · intro obj storage frame msgSize hts
    exact StepPositionWithCP56Time2a_timestamp_decoded obj storage frame msgSize w hw hts
  · decide
  · decide

theorem C31_point_step_time_tag_one_byte_early_witness :
    (DoublePointWithCP24Time2a_getFromBuffer none ⟨((1 : Nat) : Int)⟩
      (DoublePointWithCP24Time2a_encode
        (DoublePointWithCP24Time2a_create none 9 2 0x10 ⟨[7, 8, 9]⟩) [0xAA]
        ⟨((1 : Nat) : Int)⟩) 6 (([0xAA] : List Nat).length : Int)).timestamp =
      ⟨[0x12, 7, 8]⟩ :=
  (C31_point_step_time_tag_one_byte_early 1 (by decide)).2.2.2.2.2.2.2.2.1
    (DoublePointWithCP24Time2a_create none 9 2 0x10 ⟨[7, 8, 9]⟩) none [0xAA] 6 rfl

/-! ### SingleCommandWithCP56Time2a -/

/-- What `SingleCommandWithCP56Time2a_getFromBuffer` yields on the encoding of an object:
the command byte, and as time tag the command byte followed by the first six bytes of the
tag. -/
theorem SingleCommandWithCP56Time2a_decode_encode (obj : SingleCommandWithCP56Time2a)
    (storage : Option SingleCommandWithCP56Time2a) (frame : Frame) (msgSize : Int)
    (w : Nat) (hw : w = 1 ∨ w = 2 ∨ w = 3) (hts : obj.timestamp.encodedValue.length = 7)
    (hroom : (w : Int) + 1 ≤ msgSize - (frame.length : Int)) :
    (SingleCommandWithCP56Time2a_getFromBuffer storage ⟨(w : Int)⟩
      (SingleCommandWithCP56Time2a_encode obj frame ⟨(w : Int)⟩) msgSize
      (frame.length : Int)).map (fun o => (o.sco, o.timestamp)) =
      some (obj.sco, ⟨(obj.sco :: obj.timestamp.encodedValue).take 7⟩) := by
  have henc : SingleCommandWithCP56Time2a_encode obj frame ⟨(w : Int)⟩ =
      InformationObject_encodeBase obj.toInformationObject frame ⟨(w : Int)⟩ ++
        (obj.sco :: obj.timestamp.encodedValue) := by
    simp [SingleCommandWithCP56Time2a_encode, SingleCommand_encode,
      SingleCommandWithCP56Time2a.asSingleCommand, Frame_setNextByte,
      Frame_appendBytes, List.take_of_length_le (le_of_eq hts)]
  have hlen : ((InformationObject_encodeBase obj.toInformationObject frame ⟨(w : Int)⟩).length
      : Int) = (frame.length : Int) + (w : Int) := by
    rw [encodeBase_append, List.length_append, encodeBase_length _ w hw]
    simp
  have hsco : readByte (InformationObject_encodeBase obj.toInformationObject frame ⟨(w : Int)⟩
      ++ (obj.sco :: obj.timestamp.encodedValue)) ((frame.length : Int) + (w : Int)) =
      obj.sco := by
    rw [readByte_encodeBase_payload_zero _ _ _ hw]
    rfl
  have hcodec : ∀ old : CP56Time2a, CP56Time2a_getFromBuffer old
      (InformationObject_encodeBase obj.toInformationObject frame ⟨(w : Int)⟩
        ++ (obj.sco :: obj.timestamp.encodedValue)) msgSize ((frame.length : Int) + (w : Int)) =
      ⟨(obj.sco :: obj.timestamp.encodedValue).take 7⟩ := by
    intro old
    rw [← hlen]
    exact CP56Time2a_getFromBuffer_shifted _ _ _ _ _ hts
  unfold SingleCommandWithCP56Time2a_getFromBuffer
  have hn : ¬ (msgSize - (frame.length : Int) < (w : Int) + 1) := by omega
  rw [henc]
  simp only [hn, if_false, Option.map_some', hsco, hcodec]

/-- C32 (the code departs from the claim): `SingleCommandWithCP56Time2a_getFromBuffer`
invokes the time-tag codec at `startIndex + sizeOfIOA`, the index of the command byte. For
an object built by `SingleCommandWithCP56Time2a_create` with a 7-byte tag and encoded with
an address width `w ∈ {1,2,3}`, the decoder (time-tag codec copying 7 bytes) yields the
same command byte, but as time tag the command byte followed by the first six bytes of the
tag; for `(ioa 1, command on, select, qu 0, tag 1..7)` the decoded tag is `81 01 .. 06`. -/
theorem C32_SingleCommandWithCP56Time2a_time_tag_one_byte_early (w : Nat)
    (hw : w = 1 ∨ w = 2 ∨ w = 3) :
    (∀ (self storage : Option SingleCommandWithCP56Time2a) (ioa qu : Int)
        (command selectCommand : Bool) (timestamp : CP56Time2a) (frame : Frame)
        (msgSize : Int), timestamp.encodedValue.length = 7 →
        (w : Int) + 1 ≤ msgSize - (frame.length : Int) →
      (SingleCommandWithCP56Time2a_create self ioa command selectCommand qu
        timestamp).timestamp = timestamp ∧
      (SingleCommandWithCP56Time2a_getFromBuffer storage ⟨(w : Int)⟩
        (SingleCommandWithCP56Time2a_encode
          (SingleCommandWithCP56Time2a_create self ioa command selectCommand qu timestamp)
          frame ⟨(w : Int)⟩) msgSize
        (frame.length : Int)).map (fun o => (o.sco, o.timestamp)) =
        some ((SingleCommandWithCP56Time2a_create self ioa command selectCommand qu
            timestamp).sco,
          ⟨((SingleCommandWithCP56Time2a_create self ioa command selectCommand qu
            timestamp).sco :: timestamp.encodedValue).take 7⟩)) ∧
    (SingleCommandWithCP56Time2a_encode
        (SingleCommandWithCP56Time2a_create none 1 true true 0 ⟨[1, 2, 3, 4, 5, 6, 7]⟩) []
        ⟨1⟩ = [0x01, 0x81, 1, 2, 3, 4, 5, 6, 7]) ∧
    (SingleCommandWithCP56Time2a_getFromBuffer none ⟨1⟩ [0x01, 0x81, 1, 2, 3, 4, 5, 6, 7] 9
        0).map (fun o => (o.sco, SingleCommandWithCP56Time2a_getTimestamp o)) =
      some (0x81, ⟨[0x81, 1, 2, 3, 4, 5, 6]⟩) ∧
    (SingleCommandWithCP56Time2a_getFromBuffer none ⟨1⟩ [0x01, 0x81, 1, 2, 3, 4, 5, 6, 7] 9
        0).map (fun o => SingleCommandWithCP56Time2a_getTimestamp o) ≠
      some ⟨[1, 2, 3, 4, 5, 6, 7]⟩ := by
  refine ⟨?_, by decide, by decide, by decide⟩
  intro self storage ioa qu command selectCommand timestamp frame msgSize hts hroom
  have hcopy : (SingleCommandWithCP56Time2a_create self ioa command selectCommand qu
      timestamp).timestamp = timestamp := by
    unfold SingleCommandWithCP56Time2a_create
    simp only [range7_getD timestamp.encodedValue hts]
  refine ⟨hcopy, ?_⟩
  have h := SingleCommandWithCP56Time2a_decode_encode
    (SingleCommandWithCP56Time2a_create self ioa command selectCommand qu timestamp)
    storage frame msgSize w hw (by rw [hcopy]; exact hts) hroom
  rw [hcopy] at h
  exact h

theorem C32_SingleCommandWithCP56Time2a_time_tag_one_byte_early_witness :
    (SingleCommandWithCP56Time2a_getFromBuffer none ⟨((2 : Nat) : Int)⟩
      (SingleCommandWithCP56Time2a_encode
        (SingleCommandWithCP56Time2a_create none 300 false true 3 ⟨[1, 2, 3, 4, 5, 6, 7]⟩)
        [0xAA] ⟨((2 : Nat) : Int)⟩) 11
      (([0xAA] : List Nat).length : Int)).map (fun o => (o.sco, o.timestamp)) =
      some ((SingleCommandWithCP56Time2a_create none 300 false true 3
          ⟨[1, 2, 3, 4, 5, 6, 7]⟩).sco,
        ⟨((SingleCommandWithCP56Time2a_create none 300 false true 3
          ⟨[1, 2, 3, 4, 5, 6, 7]⟩).sco :: [1, 2, 3, 4, 5, 6, 7]).take 7⟩) :=
  ((C32_SingleCommandWithCP56Time2a_time_tag_one_byte_early 2 (by decide)).1 none none 300 3
    false true ⟨[1, 2, 3, 4, 5, 6, 7]⟩ [0xAA] 11 rfl (by decide)).2

/-! ### Decoding into supplied storage -/

/-- C33 (the code departs from the claim for the bit-string decoders): decoding into
caller-supplied storage keeps the type tag and the dispatch table of the storage and, for
`SinglePointInformation_getFromBuffer`, `MeasuredValueScaled_getFromBuffer` and
`SingleCommand_getFromBuffer` (when its length check passes), sets the address
and the payload fields from the buffer whatever the storage held; but
`BitString32_getFromBuffer` leaves the payload field `value` as the storage held it:
decoding `01 78 56 34 12 00` into storage holding the value 5 gives the value 5, not
`0x12345678`. -/
theorem C33_decode_into_supplied_storage :
    (∀ (s : SinglePointInformation) (parameters : ConnectionParameters) (msg : List Nat)
        (msgSize startIndex : Int),
      SinglePointInformation_getFromBuffer (some s) parameters msg msgSize startIndex =
        { type := s.type, virtualFunctionTable := s.virtualFunctionTable,
          objectAddress := (InformationObject_getFromBuffer InformationObject.zeroed
            parameters msg startIndex).objectAddress,
          value := ((readByte msg (startIndex + parameters.sizeOfIOA) &&& 0x01) == 0x01),
          quality := (readByte msg (startIndex + parameters.sizeOfIOA) &&& 0xf0) % 256 }) ∧
    (∀ (s : MeasuredValueScaled) (parameters : ConnectionParameters) (msg : List Nat)
        (msgSize startIndex : Int),
      MeasuredValueScaled_getFromBuffer (some s) parameters msg msgSize startIndex =
        { type := s.type, virtualFunctionTable := s.virtualFunctionTable,
          objectAddress := (InformationObject_getFromBuffer InformationObject.zeroed
            parameters msg startIndex).objectAddress,
          encodedValue := (readByte msg (startIndex + parameters.sizeOfIOA),
            readByte msg (startIndex + parameters.sizeOfIOA + 1)),
          quality := readByte msg (startIndex + parameters.sizeOfIOA + 1 + 1) }) ∧
    (∀ (s : SingleCommand) (parameters : ConnectionParameters) (msg : List Nat)
        (msgSize startIndex : Int),
      SingleCommand_getFromBuffer (some s) parameters msg msgSize startIndex =
        if (msgSize - startIndex) < (parameters.sizeOfIOA + 1) then none
        else some { type := s.type, virtualFunctionTable := s.virtualFunctionTable,
                    objectAddress := (InformationObject_getFromBuffer InformationObject.zeroed
                      parameters msg startIndex).objectAddress,
                    sco := readByte msg (startIndex + parameters.sizeOfIOA) }) ∧
    (∀ (s : BitString32) (parameters : ConnectionParameters) (msg : List Nat)
        (msgSize startIndex : Int) (mallocContent : BitString32),
      (BitString32_getFromBuffer (some s) parameters msg msgSize startIndex
        mallocContent).value = s.value) ∧
    BitString32_getValue
      (BitString32_getFromBuffer (some (BitString32_create none 0 5)) ⟨1⟩
        [0x01, 0x78, 0x56, 0x34, 0x12, 0x00] 6 0 BitString32.zeroed) = 5 ∧
    BitString32_getValue
      (BitString32_getFromBuffer (some (BitString32_create none 0 5)) ⟨1⟩
        [0x01, 0x78, 0x56, 0x34, 0x12, 0x00] 6 0 BitString32.zeroed) ≠ 0x12345678 ∧
    Bitstring32Command_getFromBuffer (some (Bitstring32Command_create none 0 5)) ⟨1⟩
        [0x01, 0x78, 0x56, 0x34, 0x12] 5 0 =
      some (Bitstring32Command_create none 1 0x12345678) := by
  refine ⟨?_, ?_, ?_, ?_, by decide, by decide, by decide⟩
  · intro s parameters msg msgSize startIndex
    rfl
  · intro s parameters msg msgSize startIndex
    rfl
  · intro s parameters msg msgSize startIndex
    rfl
  · intro s parameters msg msgSize startIndex mallocContent
    rfl

/-! ### ClockSynchronizationCommand_create -/

/-- C34 (the code departs from the claim): the definition of
`ClockSynchronizationCommand_create` takes `(self, ioa)` only, although the header declares
a third parameter `timestamp`, and assigns the address alone. The object it returns has as
time tag what the storage held before (reused storage) or the indeterminate content of the
fresh storage, and its encoding is the address bytes followed by those bytes: with reused
storage holding the tag `09 .. 09`, `ClockSynchronizationCommand_getTime` is `09 .. 09`
whatever 7-byte timestamp (say `01 .. 07`) the caller meant to set. -/
theorem C34_ClockSynchronizationCommand_create_drops_timestamp :
    (∀ (s mallocContent : ClockSynchronizationCommand) (ioa : Int),
      ClockSynchronizationCommand_getTime
        (ClockSynchronizationCommand_create (some s) ioa mallocContent) = s.timestamp) ∧
    (∀ (mallocContent : ClockSynchronizationCommand) (ioa : Int),
      ClockSynchronizationCommand_getTime
        (ClockSynchronizationCommand_create none ioa mallocContent) =
        mallocContent.timestamp) ∧
    (∀ (s mallocContent : ClockSynchronizationCommand) (ioa : Int) (frame : Frame)
        (parameters : ConnectionParameters),
      ClockSynchronizationCommand_encode
        (ClockSynchronizationCommand_create (some s) ioa mallocContent) frame parameters =
        InformationObject_encodeBase { s.toInformationObject with objectAddress := ioa } frame
          parameters ++ s.timestamp.encodedValue.take 7) ∧
    ClockSynchronizationCommand_getTime
      (ClockSynchronizationCommand_create
        (some { ClockSynchronizationCommand_initialize ClockSynchronizationCommand.zeroed with
          timestamp := ⟨[9, 9, 9, 9, 9, 9, 9]⟩ }) 1 ClockSynchronizationCommand.zeroed) =
      ⟨[9, 9, 9, 9, 9, 9, 9]⟩ ∧
    ClockSynchronizationCommand_getTime
      (ClockSynchronizationCommand_create
        (some { ClockSynchronizationCommand_initialize ClockSynchronizationCommand.zeroed with
          timestamp := ⟨[9, 9, 9, 9, 9, 9, 9]⟩ }) 1 ClockSynchronizationCommand.zeroed) ≠
      ⟨[1, 2, 3, 4, 5, 6, 7]⟩ ∧
    ClockSynchronizationCommand_encode
      (ClockSynchronizationCommand_create
        (some { ClockSynchronizationCommand_initialize ClockSynchronizationCommand.zeroed with
          timestamp := ⟨[9, 9, 9, 9, 9, 9, 9]⟩ }) 1 ClockSynchronizationCommand.zeroed) []
      ⟨1⟩ = [0x01, 9, 9, 9, 9, 9, 9, 9] := by
  refine ⟨?_, ?_, ?_, by decide, by decide, by decide⟩
  · intro s mallocContent ioa
    rfl
  · intro mallocContent ioa
    rfl
  · intro s mallocContent ioa frame parameters
    rfl

/-! ### Accuracy of the normalized value -/

/-- The address decoder reads the first `w` bytes at `startIndex`, and depends on them
only. -/
theorem InformationObject_getFromBuffer_congr (self : InformationObject) (w : Nat)
    (hw : w = 1 ∨ w = 2 ∨ w = 3) (msg1 msg2 : List Nat) (startIndex : Int)
    (h : ∀ i : Int, startIndex ≤ i → i < startIndex + (w : Int) →
      readByte msg1 i = readByte msg2 i) :
    InformationObject_getFromBuffer self ⟨(w : Int)⟩ msg1 startIndex =
      InformationObject_getFromBuffer self ⟨(w : Int)⟩ msg2 startIndex := by
  unfold InformationObject_getFromBuffer
  rcases hw with rfl | rfl | rfl
  · rw [h startIndex (by omega) (by omega)]
    simp
  · rw [h startIndex (by omega) (by omega), h (startIndex + 1) (by omega) (by omega)]
    simp
  · rw [h startIndex (by omega) (by omega), h (startIndex + 1) (by omega) (by omega),
      h (startIndex + 2) (by omega) (by omega)]

theorem InformationObject_getFromBuffer_reads_eq (w : Nat) (hw : w = 1 ∨ w = 2 ∨ w = 3)
    (startIndex : Int) :
    InformationObject_getFromBuffer_reads ⟨(w : Int)⟩ startIndex =
      (List.range w).map (fun (k : Nat) => startIndex + (k : Int)) := by
  unfold InformationObject_getFromBuffer_reads
  rcases hw with rfl | rfl | rfl <;> simp [List.range_succ]

/-- The indices read by `SingleCommand_getFromBuffer` when it returns an object: the
`w + 1` indices from `startIndex` on. -/
theorem SingleCommand_getFromBuffer_reads_eq (w : Nat) (hw : w = 1 ∨ w = 2 ∨ w = 3)
    (msgSize startIndex : Int) :
    SingleCommand_getFromBuffer_reads ⟨(w : Int)⟩ msgSize startIndex =
      if msgSize - startIndex < (w : Int) + 1 then []
      else (List.range (w + 1)).map (fun (k : Nat) => startIndex + (k : Int)) := by
  unfold SingleCommand_getFromBuffer_reads
  rw [InformationObject_getFromBuffer_reads_eq w hw]
  by_cases hc : msgSize - startIndex < (w : Int) + 1
  · simp only [hc, if_true]
  · simp only [hc, if_false]
    rcases hw with rfl | rfl | rfl <;> simp [List.range_succ]

/-- Whether `SingleCommand_getFromBuffer` returns an object is decided by its length
check. -/
theorem SingleCommand_getFromBuffer_isSome (storage : Option SingleCommand)
    (parameters : ConnectionParameters) (msg : List Nat) (msgSize startIndex : Int) :
    (SingleCommand_getFromBuffer storage parameters msg msgSize startIndex).isSome =
      !decide (msgSize - startIndex < parameters.sizeOfIOA + 1) := by
  unfold SingleCommand_getFromBuffer
  by_cases hc : msgSize - startIndex < parameters.sizeOfIOA + 1
  · simp [hc]
  · simp [hc]

/-- The result of `SingleCommand_getFromBuffer` depends only on the bytes at the
`w + 1` indices from `startIndex` on. -/
theorem SingleCommand_getFromBuffer_congr (storage : Option SingleCommand) (w : Nat)
    (hw : w = 1 ∨ w = 2 ∨ w = 3) (msg1 msg2 : List Nat) (msgSize startIndex : Int)
    (h : ∀ i : Int, startIndex ≤ i → i < startIndex + (w : Int) + 1 →
      readByte msg1 i = readByte msg2 i) :
    SingleCommand_getFromBuffer storage ⟨(w : Int)⟩ msg1 msgSize startIndex =
      SingleCommand_getFromBuffer storage ⟨(w : Int)⟩ msg2 msgSize startIndex := by
  have hb : ∀ self : InformationObject,
      InformationObject_getFromBuffer self ⟨(w : Int)⟩ msg1 startIndex =
        InformationObject_getFromBuffer self ⟨(w : Int)⟩ msg2 startIndex :=
    fun self => InformationObject_getFromBuffer_congr self w hw msg1 msg2 startIndex
      (fun i h1 h2 => h i h1 (by omega))
  unfold SingleCommand_getFromBuffer
  simp only [hb]
  rw [h (startIndex + (w : Int)) (by omega) (by omega)]

/-- The indices read by `SetpointCommandNormalized_getFromBuffer` when it returns an object: the
`w + 3` indices from `startIndex` on. -/
theorem SetpointCommandNormalized_getFromBuffer_reads_eq (w : Nat) (hw : w = 1 ∨ w = 2 ∨ w = 3)
    (msgSize startIndex : Int) :
    SetpointCommandNormalized_getFromBuffer_reads ⟨(w : Int)⟩ msgSize startIndex =
      if msgSize - startIndex < (w : Int) + 3 then []
      else (List.range (w + 3)).map (fun (k : Nat) => startIndex + (k : Int)) := by
  unfold SetpointCommandNormalized_getFromBuffer_reads
  rw [InformationObject_getFromBuffer_reads_eq w hw]
  by_cases hc : msgSize - startIndex < (w : Int) + 3
  · simp only [hc, if_true]
  · simp only [hc, if_false]
    rcases hw with rfl | rfl | rfl <;> simp [List.range_succ] <;> omega

/-- Whether `SetpointCommandNormalized_getFromBuffer` returns an object is decided by its length
check. -/
theorem SetpointCommandNormalized_getFromBuffer_isSome (storage : Option SetpointCommandNormalized)
    (parameters : ConnectionParameters) (msg : List Nat) (msgSize startIndex : Int) :
    (SetpointCommandNormalized_getFromBuffer storage parameters msg msgSize startIndex).isSome =
      !decide (msgSize - startIndex < parameters.sizeOfIOA + 3) := by
  unfold SetpointCommandNormalized_getFromBuffer
  by_cases hc : msgSize - startIndex < parameters.sizeOfIOA + 3
  · simp [hc]
  · simp [hc]

/-- The result of `SetpointCommandNormalized_getFromBuffer` depends only on the bytes at the
`w + 3` indices from `startIndex` on. -/
theorem SetpointCommandNormalized_getFromBuffer_congr (storage : Option SetpointCommandNormalized) (w : Nat)
    (hw : w = 1 ∨ w = 2 ∨ w = 3) (msg1 msg2 : List Nat) (msgSize startIndex : Int)
    (h : ∀ i : Int, startIndex ≤ i → i < startIndex + (w : Int) + 3 →
      readByte msg1 i = readByte msg2 i) :
    SetpointCommandNormalized_getFromBuffer storage ⟨(w : Int)⟩ msg1 msgSize startIndex =
      SetpointCommandNormalized_getFromBuffer storage ⟨(w : Int)⟩ msg2 msgSize startIndex := by
  have hb : ∀ self : InformationObject,
      InformationObject_getFromBuffer self ⟨(w : Int)⟩ msg1 startIndex =
        InformationObject_getFromBuffer self ⟨(w : Int)⟩ msg2 startIndex :=
    fun self => InformationObject_getFromBuffer_congr self w hw msg1 msg2 startIndex
      (fun i h1 h2 => h i h1 (by omega))
  unfold SetpointCommandNormalized_getFromBuffer
  simp only [hb]
  rw [h (startIndex + (w : Int)) (by omega) (by omega), h (startIndex + (w : Int) + 1) (by omega) (by omega), h (startIndex + (w : Int) + 1 + 1) (by omega) (by omega)]

/-- The indices read by `SetpointCommandShort_getFromBuffer` when it returns an object: the
`w + 5` indices from `startIndex` on. -/
theorem SetpointCommandShort_getFromBuffer_reads_eq (w : Nat) (hw : w = 1 ∨ w = 2 ∨ w = 3)
    (msgSize startIndex : Int) :
    SetpointCommandShort_getFromBuffer_reads ⟨(w : Int)⟩ msgSize startIndex =
      if msgSize - startIndex < (w : Int) + 5 then []
      else (List.range (w + 5)).map (fun (k : Nat) => startIndex + (k : Int)) := by
  unfold SetpointCommandShort_getFromBuffer_reads
  rw [InformationObject_getFromBuffer_reads_eq w hw]
  by_cases hc : msgSize - startIndex < (w : Int) + 5
  · simp only [hc, if_true]
  · simp only [hc, if_false]
    rcases hw with rfl | rfl | rfl <;> simp [List.range_succ] <;> omega

/-- Whether `SetpointCommandShort_getFromBuffer` returns an object is decided by its length
check. -/
theorem SetpointCommandShort_getFromBuffer_isSome (storage : Option SetpointCommandShort)
    (parameters : ConnectionParameters) (msg : List Nat) (msgSize startIndex : Int) :
    (SetpointCommandShort_getFromBuffer storage parameters msg msgSize startIndex).isSome =
      !decide (msgSize - startIndex < parameters.sizeOfIOA + 5) := by
  unfold SetpointCommandShort_getFromBuffer
  by_cases hc : msgSize - startIndex < parameters.sizeOfIOA + 5
  · simp [hc]
  · simp [hc]

/-- The result of `SetpointCommandShort_getFromBuffer` depends only on the bytes at the
`w + 5` indices from `startIndex` on. -/
theorem SetpointCommandShort_getFromBuffer_congr (storage : Option SetpointCommandShort) (w : Nat)
    (hw : w = 1 ∨ w = 2 ∨ w = 3) (msg1 msg2 : List Nat) (msgSize startIndex : Int)
    (h : ∀ i : Int, startIndex ≤ i → i < startIndex + (w : Int) + 5 →
      readByte msg1 i = readByte msg2 i) :
    SetpointCommandShort_getFromBuffer storage ⟨(w : Int)⟩ msg1 msgSize startIndex =
      SetpointCommandShort_getFromBuffer storage ⟨(w : Int)⟩ msg2 msgSize startIndex := by
  have hb : ∀ self : InformationObject,
      InformationObject_getFromBuffer self ⟨(w : Int)⟩ msg1 startIndex =
        InformationObject_getFromBuffer self ⟨(w : Int)⟩ msg2 startIndex :=
    fun self => InformationObject_getFromBuffer_congr self w hw msg1 msg2 startIndex
      (fun i h1 h2 => h i h1 (by omega))
  unfold SetpointCommandShort_getFromBuffer
  simp only [hb]
  rw [h (startIndex + (w : Int)) (by omega) (by omega), h (startIndex + (w : Int) + 1) (by omega) (by omega), h (startIndex + (w : Int) + 1 + 1) (by omega) (by omega), h (startIndex + (w : Int) + 1 + 1 + 1) (by omega) (by omega), h (startIndex + (w : Int) + 1 + 1 + 1 + 1) (by omega) (by omega)]

/-- The indices read by `Bitstring32Command_getFromBuffer` when it returns an object: the
`w + 4` indices from `startIndex` on. -/
theorem Bitstring32Command_getFromBuffer_reads_eq (w : Nat) (hw : w = 1 ∨ w = 2 ∨ w = 3)
    (msgSize startIndex : Int) :
    Bitstring32Command_getFromBuffer_reads ⟨(w : Int)⟩ msgSize startIndex =
      if msgSize - startIndex < (w : Int) + 4 then []
      else (List.range (w + 4)).map (fun (k : Nat) => startIndex + (k : Int)) := by
  unfold Bitstring32Command_getFromBuffer_reads
  rw [InformationObject_getFromBuffer_reads_eq w hw]
  by_cases hc : msgSize - startIndex < (w : Int) + 4
  · simp only [hc, if_true]
  · simp only [hc, if_false]
    rcases hw with rfl | rfl | rfl <;> simp [List.range_succ] <;> omega

/-- Whether `Bitstring32Command_getFromBuffer` returns an object is decided by its length
check. -/
theorem Bitstring32Command_getFromBuffer_isSome (storage : Option Bitstring32Command)
    (parameters : ConnectionParameters) (msg : List Nat) (msgSize startIndex : Int) :
    (Bitstring32Command_getFromBuffer storage parameters msg msgSize startIndex).isSome =
      !decide (msgSize - startIndex < parameters.sizeOfIOA + 4) := by
  unfold Bitstring32Command_getFromBuffer
  by_cases hc : msgSize - startIndex < parameters.sizeOfIOA + 4
  · simp [hc]
  · simp [hc]

/-- The result of `Bitstring32Command_getFromBuffer` depends only on the bytes at the
`w + 4` indices from `startIndex` on. -/
theorem Bitstring32Command_getFromBuffer_congr (storage : Option Bitstring32Command) (w : Nat)
    (hw : w = 1 ∨ w = 2 ∨ w = 3) (msg1 msg2 : List Nat) (msgSize startIndex : Int)
    (h : ∀ i : Int, startIndex ≤ i → i < startIndex + (w : Int) + 4 →
      readByte msg1 i = readByte msg2 i) :
    Bitstring32Command_getFromBuffer storage ⟨(w : Int)⟩ msg1 msgSize startIndex =
      Bitstring32Command_getFromBuffer storage ⟨(w : Int)⟩ msg2 msgSize startIndex := by
  have hb : ∀ self : InformationObject,
      InformationObject_getFromBuffer self ⟨(w : Int)⟩ msg1 startIndex =
        InformationObject_getFromBuffer self ⟨(w : Int)⟩ msg2 startIndex :=
    fun self => InformationObject_getFromBuffer_congr self w hw msg1 msg2 startIndex
      (fun i h1 h2 => h i h1 (by omega))
  unfold Bitstring32Command_getFromBuffer
  simp only [hb]
  rw [h (startIndex + (w : Int)) (by omega) (by omega), h (startIndex + (w : Int) + 1) (by omega) (by omega), h (startIndex + (w : Int) + 1 + 1) (by omega) (by omega), h (startIndex + (w : Int) + 1 + 1 + 1) (by omega) (by omega)]

/-- The indices read by `ReadCommand_getFromBuffer` when it returns an object: the
`w` indices from `startIndex` on. -/
theorem ReadCommand_getFromBuffer_reads_eq (w : Nat) (hw : w = 1 ∨ w = 2 ∨ w = 3)
    (msgSize startIndex : Int) :
    ReadCommand_getFromBuffer_reads ⟨(w : Int)⟩ msgSize startIndex =
      if msgSize - startIndex < (w : Int) then []
      else (List.range (w)).map (fun (k : Nat) => startIndex + (k : Int)) := by
  unfold ReadCommand_getFromBuffer_reads
  rw [InformationObject_getFromBuffer_reads_eq w hw]


/-- Whether `ReadCommand_getFromBuffer` returns an object is decided by its length
check. -/
theorem ReadCommand_getFromBuffer_isSome (storage : Option ReadCommand)
    (parameters : ConnectionParameters) (msg : List Nat) (msgSize startIndex : Int) :
    (ReadCommand_getFromBuffer storage parameters msg msgSize startIndex).isSome =
      !decide (msgSize - startIndex < parameters.sizeOfIOA) := by
  unfold ReadCommand_getFromBuffer
  by_cases hc : msgSize - startIndex < parameters.sizeOfIOA
  · simp [hc]
  · simp [hc]

/-- The result of `ReadCommand_getFromBuffer` depends only on the bytes at the
`w` indices from `startIndex` on. -/
theorem ReadCommand_getFromBuffer_congr (storage : Option ReadCommand) (w : Nat)
    (hw : w = 1 ∨ w = 2 ∨ w = 3) (msg1 msg2 : List Nat) (msgSize startIndex : Int)
    (h : ∀ i : Int, startIndex ≤ i → i < startIndex + (w : Int) →
      readByte msg1 i = readByte msg2 i) :
    ReadCommand_getFromBuffer storage ⟨(w : Int)⟩ msg1 msgSize startIndex =
      ReadCommand_getFromBuffer storage ⟨(w : Int)⟩ msg2 msgSize startIndex := by
  have hb : ∀ self : InformationObject,
      InformationObject_getFromBuffer self ⟨(w : Int)⟩ msg1 startIndex =
        InformationObject_getFromBuffer self ⟨(w : Int)⟩ msg2 startIndex :=
    fun self => InformationObject_getFromBuffer_congr self w hw msg1 msg2 startIndex
      (fun i h1 h2 => h i h1 (by omega))
  unfold ReadCommand_getFromBuffer
  simp only [hb]

/-- The indices read by `InterrogationCommand_getFromBuffer` when it returns an object: the
`w + 1` indices from `startIndex` on. -/
theorem InterrogationCommand_getFromBuffer_reads_eq (w : Nat) (hw : w = 1 ∨ w = 2 ∨ w = 3)
    (msgSize startIndex : Int) :
    InterrogationCommand_getFromBuffer_reads ⟨(w : Int)⟩ msgSize startIndex =
      if msgSize - startIndex < (w : Int) + 1 then []
      else (List.range (w + 1)).map (fun (k : Nat) => startIndex + (k : Int)) := by
  unfold InterrogationCommand_getFromBuffer_reads
  rw [InformationObject_getFromBuffer_reads_eq w hw]
  by_cases hc : msgSize - startIndex < (w : Int) + 1
  · simp only [hc, if_true]
  · simp only [hc, if_false]
    rcases hw with rfl | rfl | rfl <;> simp [List.range_succ]

/-- Whether `InterrogationCommand_getFromBuffer` returns an object is decided by its length
check. -/
theorem InterrogationCommand_getFromBuffer_isSome (storage : Option InterrogationCommand)
    (parameters : ConnectionParameters) (msg : List Nat) (msgSize startIndex : Int) :
    (InterrogationCommand_getFromBuffer storage parameters msg msgSize startIndex).isSome =
      !decide (msgSize - startIndex < parameters.sizeOfIOA + 1) := by
  unfold InterrogationCommand_getFromBuffer
  by_cases hc : msgSize - startIndex < parameters.sizeOfIOA + 1
  · simp [hc]
  · simp [hc]

/-- The result of `InterrogationCommand_getFromBuffer` depends only on the bytes at the
`w + 1` indices from `startIndex` on. -/
theorem InterrogationCommand_getFromBuffer_congr (storage : Option InterrogationCommand) (w : Nat)
    (hw : w = 1 ∨ w = 2 ∨ w = 3) (msg1 msg2 : List Nat) (msgSize startIndex : Int)
    (h : ∀ i : Int, startIndex ≤ i → i < startIndex + (w : Int) + 1 →
      readByte msg1 i = readByte msg2 i) :
    InterrogationCommand_getFromBuffer storage ⟨(w : Int)⟩ msg1 msgSize startIndex =
      InterrogationCommand_getFromBuffer storage ⟨(w : Int)⟩ msg2 msgSize startIndex := by
  have hb : ∀ self : InformationObject,
      InformationObject_getFromBuffer self ⟨(w : Int)⟩ msg1 startIndex =
        InformationObject_getFromBuffer self ⟨(w : Int)⟩ msg2 startIndex :=
    fun self => InformationObject_getFromBuffer_congr self w hw msg1 msg2 startIndex
      (fun i h1 h2 => h i h1 (by omega))
  unfold InterrogationCommand_getFromBuffer
  simp only [hb]
  rw [h (startIndex + (w : Int)) (by omega) (by omega)]

/-- C39: for `startIndex ≥ 0` and `sizeOfIOA = w ∈ {1,2,3}`, whenever
`SingleCommand_getFromBuffer`, `SetpointCommandNormalized_getFromBuffer`,
`SetpointCommandShort_getFromBuffer`, `Bitstring32Command_getFromBuffer`,
`ReadCommand_getFromBuffer` or `InterrogationCommand_getFromBuffer` returns an object, the
buffer indices it read are `startIndex .. startIndex + w + payloadSize - 1` (payload sizes
1, 3, 5, 4, 0 and 1), each of which lies in `[startIndex, msgSize)`; and the result is the
same for two buffers that hold the same bytes at those indices. -/
theorem C39_command_decoders_reads_in_bounds (w : Nat) (hw : w = 1 ∨ w = 2 ∨ w = 3)
    (msgSize startIndex : Int) (hs : 0 ≤ startIndex) :
    ((∀ (storage : Option SingleCommand) (msg : List Nat),
        (SingleCommand_getFromBuffer storage ⟨(w : Int)⟩ msg msgSize startIndex).isSome = true →
        SingleCommand_getFromBuffer_reads ⟨(w : Int)⟩ msgSize startIndex =
          (List.range (w + 1)).map (fun (k : Nat) => startIndex + (k : Int)) ∧
        ∀ i ∈ SingleCommand_getFromBuffer_reads ⟨(w : Int)⟩ msgSize startIndex,
          0 ≤ i ∧ startIndex ≤ i ∧ i < msgSize) ∧
      (∀ (storage : Option SingleCommand) (msg1 msg2 : List Nat),
        (∀ i : Int, startIndex ≤ i → i < startIndex + (w : Int) + 1 →
          readByte msg1 i = readByte msg2 i) →
        SingleCommand_getFromBuffer storage ⟨(w : Int)⟩ msg1 msgSize startIndex =
          SingleCommand_getFromBuffer storage ⟨(w : Int)⟩ msg2 msgSize startIndex)) ∧
    ((∀ (storage : Option SetpointCommandNormalized) (msg : List Nat),
        (SetpointCommandNormalized_getFromBuffer storage ⟨(w : Int)⟩ msg msgSize startIndex).isSome = true →
        SetpointCommandNormalized_getFromBuffer_reads ⟨(w : Int)⟩ msgSize startIndex =
          (List.range (w + 3)).map (fun (k : Nat) => startIndex + (k : Int)) ∧
        ∀ i ∈ SetpointCommandNormalized_getFromBuffer_reads ⟨(w : Int)⟩ msgSize startIndex,
          0 ≤ i ∧ startIndex ≤ i ∧ i < msgSize) ∧
      (∀ (storage : Option SetpointCommandNormalized) (msg1 msg2 : List Nat),
        (∀ i : Int, startIndex ≤ i → i < startIndex + (w : Int) + 3 →
          readByte msg1 i = readByte msg2 i) →
        SetpointCommandNormalized_getFromBuffer storage ⟨(w : Int)⟩ msg1 msgSize startIndex =
          SetpointCommandNormalized_getFromBuffer storage ⟨(w : Int)⟩ msg2 msgSize startIndex)) ∧
    ((∀ (storage : Option SetpointCommandShort) (msg : List Nat),
        (SetpointCommandShort_getFromBuffer storage ⟨(w : Int)⟩ msg msgSize startIndex).isSome = true →
        SetpointCommandShort_getFromBuffer_reads ⟨(w : Int)⟩ msgSize startIndex =
          (List.range (w + 5)).map (fun (k : Nat) => startIndex + (k : Int)) ∧
        ∀ i ∈ SetpointCommandShort_getFromBuffer_reads ⟨(w : Int)⟩ msgSize startIndex,
          0 ≤ i ∧ startIndex ≤ i ∧ i < msgSize) ∧
      (∀ (storage : Option SetpointCommandShort) (msg1 msg2 : List Nat),
        (∀ i : Int, startIndex ≤ i → i < startIndex + (w : Int) + 5 →
          readByte msg1 i = readByte msg2 i) →
        SetpointCommandShort_getFromBuffer storage ⟨(w : Int)⟩ msg1 msgSize startIndex =
          SetpointCommandShort_getFromBuffer storage ⟨(w : Int)⟩ msg2 msgSize startIndex)) ∧
    ((∀ (storage : Option Bitstring32Command) (msg : List Nat),
        (Bitstring32Command_getFromBuffer storage ⟨(w : Int)⟩ msg msgSize startIndex).isSome = true →
        Bitstring32Command_getFromBuffer_reads ⟨(w : Int)⟩ msgSize startIndex =
          (List.range (w + 4)).map (fun (k : Nat) => startIndex + (k : Int)) ∧
        ∀ i ∈ Bitstring32Command_getFromBuffer_reads ⟨(w : Int)⟩ msgSize startIndex,
          0 ≤ i ∧ startIndex ≤ i ∧ i < msgSize) ∧
      (∀ (storage : Option Bitstring32Command) (msg1 msg2 : List Nat),
        (∀ i : Int, startIndex ≤ i → i < startIndex + (w : Int) + 4 →
          readByte msg1 i = readByte msg2 i) →
        Bitstring32Command_getFromBuffer storage ⟨(w : Int)⟩ msg1 msgSize startIndex =
          Bitstring32Command_getFromBuffer storage ⟨(w : Int)⟩ msg2 msgSize startIndex)) ∧
    ((∀ (storage : Option ReadCommand) (msg : List Nat),
        (ReadCommand_getFromBuffer storage ⟨(w : Int)⟩ msg msgSize startIndex).isSome = true →
        ReadCommand_getFromBuffer_reads ⟨(w : Int)⟩ msgSize startIndex =
          (List.range (w)).map (fun (k : Nat) => startIndex + (k : Int)) ∧
        ∀ i ∈ ReadCommand_getFromBuffer_reads ⟨(w : Int)⟩ msgSize startIndex,
          0 ≤ i ∧ startIndex ≤ i ∧ i < msgSize) ∧
      (∀ (storage : Option ReadCommand) (msg1 msg2 : List Nat),
        (∀ i : Int, startIndex ≤ i → i < startIndex + (w : Int) →
          readByte msg1 i = readByte msg2 i) →
        ReadCommand_getFromBuffer storage ⟨(w : Int)⟩ msg1 msgSize startIndex =
          ReadCommand_getFromBuffer storage ⟨(w : Int)⟩ msg2 msgSize startIndex)) ∧
    ((∀ (storage : Option InterrogationCommand) (msg : List Nat),
        (InterrogationCommand_getFromBuffer storage ⟨(w : Int)⟩ msg msgSize startIndex).isSome = true →
        InterrogationCommand_getFromBuffer_reads ⟨(w : Int)⟩ msgSize startIndex =
          (List.range (w + 1)).map (fun (k : Nat) => startIndex + (k : Int)) ∧
        ∀ i ∈ InterrogationCommand_getFromBuffer_reads ⟨(w : Int)⟩ msgSize startIndex,
          0 ≤ i ∧ startIndex ≤ i ∧ i < msgSize) ∧
      (∀ (storage : Option InterrogationCommand) (msg1 msg2 : List Nat),
        (∀ i : Int, startIndex ≤ i → i < startIndex + (w : Int) + 1 →
          readByte msg1 i = readByte msg2 i) →
        InterrogationCommand_getFromBuffer storage ⟨(w : Int)⟩ msg1 msgSize startIndex =
          InterrogationCommand_getFromBuffer storage ⟨(w : Int)⟩ msg2 msgSize startIndex)) := by
  refine ⟨?_, ?_, ?_, ?_, ?_, ?_⟩
  · refine ⟨?_, fun storage msg1 msg2 h =>
      SingleCommand_getFromBuffer_congr storage w hw msg1 msg2 msgSize startIndex h⟩
    intro storage msg hsome
    rw [SingleCommand_getFromBuffer_isSome] at hsome
    have hc : ¬ (msgSize - startIndex < (w : Int) + 1) := by simpa using hsome
    rw [SingleCommand_getFromBuffer_reads_eq w hw, if_neg hc]
    refine ⟨rfl, ?_⟩
    intro i hi
    obtain ⟨k, hk, rfl⟩ := List.mem_map.mp hi
    have hk2 := List.mem_range.mp hk
    omega
  · refine ⟨?_, fun storage msg1 msg2 h =>
      SetpointCommandNormalized_getFromBuffer_congr storage w hw msg1 msg2 msgSize startIndex h⟩
    intro storage msg hsome
    rw [SetpointCommandNormalized_getFromBuffer_isSome] at hsome
    have hc : ¬ (msgSize - startIndex < (w : Int) + 3) := by simpa using hsome
    rw [SetpointCommandNormalized_getFromBuffer_reads_eq w hw, if_neg hc]
    refine ⟨rfl, ?_⟩
    intro i hi
    obtain ⟨k, hk, rfl⟩ := List.mem_map.mp hi
    have hk2 := List.mem_range.mp hk
    omega
  · refine ⟨?_, fun storage msg1 msg2 h =>
      SetpointCommandShort_getFromBuffer_congr storage w hw msg1 msg2 msgSize startIndex h⟩
    intro storage msg hsome
    rw [SetpointCommandShort_getFromBuffer_isSome] at hsome
    have hc : ¬ (msgSize - startIndex < (w : Int) + 5) := by simpa using hsome
    rw [SetpointCommandShort_getFromBuffer_reads_eq w hw, if_neg hc]
    refine ⟨rfl, ?_⟩
    intro i hi
    obtain ⟨k, hk, rfl⟩ := List.mem_map.mp hi
    have hk2 := List.mem_range.mp hk
    omega
  · refine ⟨?_, fun storage msg1 msg2 h =>
      Bitstring32Command_getFromBuffer_congr storage w hw msg1 msg2 msgSize startIndex h⟩
    intro storage msg hsome
    rw [Bitstring32Command_getFromBuffer_isSome] at hsome
    have hc : ¬ (msgSize - startIndex < (w : Int) + 4) := by simpa using hsome
    rw [Bitstring32Command_getFromBuffer_reads_eq w hw, if_neg hc]
    refine ⟨rfl, ?_⟩
    intro i hi
    obtain ⟨k, hk, rfl⟩ := List.mem_map.mp hi
    have hk2 := List.mem_range.mp hk
    omega
  · refine ⟨?_, fun storage msg1 msg2 h =>
      ReadCommand_getFromBuffer_congr storage w hw msg1 msg2 msgSize startIndex h⟩
    intro storage msg hsome
    rw [ReadCommand_getFromBuffer_isSome] at hsome
    have hc : ¬ (msgSize - startIndex < (w : Int)) := by simpa using hsome
    rw [ReadCommand_getFromBuffer_reads_eq w hw, if_neg hc]
    refine ⟨rfl, ?_⟩
    intro i hi
    obtain ⟨k, hk, rfl⟩ := List.mem_map.mp hi
    have hk2 := List.mem_range.mp hk
    omega
  · refine ⟨?_, fun storage msg1 msg2 h =>
      InterrogationCommand_getFromBuffer_congr storage w hw msg1 msg2 msgSize startIndex h⟩
    intro storage msg hsome
    rw [InterrogationCommand_getFromBuffer_isSome] at hsome
    have hc : ¬ (msgSize - startIndex < (w : Int) + 1) := by simpa using hsome
    rw [InterrogationCommand_getFromBuffer_reads_eq w hw, if_neg hc]
    refine ⟨rfl, ?_⟩
    intro i hi
    obtain ⟨k, hk, rfl⟩ := List.mem_map.mp hi
    have hk2 := List.mem_range.mp hk
    omega

theorem C39_command_decoders_reads_in_bounds_witness :
    SetpointCommandNormalized_getFromBuffer_reads ⟨((2 : Nat) : Int)⟩ 8 3 =
      (List.range (2 + 3)).map (fun (k : Nat) => (3 : Int) + (k : Int)) ∧
    SetpointCommandNormalized_getFromBuffer none ⟨((2 : Nat) : Int)⟩
        [9, 9, 9, 0x2C, 0x01, 0xFF, 0x7F, 0x80] 8 3 =
      SetpointCommandNormalized_getFromBuffer none ⟨((2 : Nat) : Int)⟩
        [0, 0, 0, 0x2C, 0x01, 0xFF, 0x7F, 0x80, 7] 8 3 :=
  have h := (C39_command_decoders_reads_in_bounds 2 (by decide) 8 3 (by decide)).2.1
  ⟨(h.1 none [9, 9, 9, 0x2C, 0x01, 0xFF, 0x7F, 0x80] (by decide)).1,
   h.2 none [9, 9, 9, 0x2C, 0x01, 0xFF, 0x7F, 0x80] [0, 0, 0, 0x2C, 0x01, 0xFF, 0x7F, 0x80, 7]
     (by decide)⟩

/-! ### Frame effect of the encoders -/

/-- Embeds the frame effect of `SinglePointInformation_encode`: the bytes already
written stay, and `w + 1` bytes follow them. -/
theorem SinglePointInformation_encode_appends (obj : SinglePointInformation) (frame : Frame)
    (w : Nat) (hw : w = 1 ∨ w = 2 ∨ w = 3) :
    ∃ appended : List Nat,
      SinglePointInformation_encode obj frame ⟨(w : Int)⟩ = frame ++ appended ∧
      appended.length = w + 1 := by
  simp only [SinglePointInformation_encode,
    Frame_setNextByte,
    Frame_appendBytes]
  rw [encodeBase_append]
  simp only [List.append_assoc]
  refine ⟨_, rfl, ?_⟩
  simp [encodeBase_length _ w hw, valueBytes]

/-- Embeds the frame effect of `DoublePointInformation_encode`: the bytes already
written stay, and `w + 1` bytes follow them. -/
theorem DoublePointInformation_encode_appends (obj : DoublePointInformation) (frame : Frame)
    (w : Nat) (hw : w = 1 ∨ w = 2 ∨ w = 3) :
    ∃ appended : List Nat,
      DoublePointInformation_encode obj frame ⟨(w : Int)⟩ = frame ++ appended ∧
      appended.length = w + 1 := by
  simp only [DoublePointInformation_encode,
    Frame_setNextByte,
    Frame_appendBytes]
  rw [encodeBase_append]
  simp only [List.append_assoc]
  refine ⟨_, rfl, ?_⟩
  simp [encodeBase_length _ w hw, valueBytes]

/-- Embeds the frame effect of `SingleCommand_encode`: the bytes already
written stay, and `w + 1` bytes follow them. -/
theorem SingleCommand_encode_appends (obj : SingleCommand) (frame : Frame)
    (w : Nat) (hw : w = 1 ∨ w = 2 ∨ w = 3) :
    ∃ appended : List Nat,
      SingleCommand_encode obj frame ⟨(w : Int)⟩ = frame ++ appended ∧
      appended.length = w + 1 := by
  simp only [SingleCommand_encode,
    Frame_setNextByte,
    Frame_appendBytes]
  rw [encodeBase_append]
  simp only [List.append_assoc]
  refine ⟨_, rfl, ?_⟩
  simp [encodeBase_length _ w hw, valueBytes]

/-- Embeds the frame effect of `DoubleCommand_encode`: the bytes already
written stay, and `w + 1` bytes follow them. -/
theorem DoubleCommand_encode_appends (obj : DoubleCommand) (frame : Frame)
    (w : Nat) (hw : w = 1 ∨ w = 2 ∨ w = 3) :
    ∃ appended : List Nat,
      DoubleCommand_encode obj frame ⟨(w : Int)⟩ = frame ++ appended ∧
      appended.length = w + 1 := by
  simp only [DoubleCommand_encode,
    Frame_setNextByte,
    Frame_appendBytes]
  rw [encodeBase_append]
  simp only [List.append_assoc]
  refine ⟨_, rfl, ?_⟩
  simp [encodeBase_length _ w hw, valueBytes]

/-- Embeds the frame effect of `StepCommand_encode`: the bytes already
written stay, and `w + 1` bytes follow them. -/
theorem StepCommand_encode_appends (obj : StepCommand) (frame : Frame)
    (w : Nat) (hw : w = 1 ∨ w = 2 ∨ w = 3) :
    ∃ appended : List Nat,
      StepCommand_encode obj frame ⟨(w : Int)⟩ = frame ++ appended ∧
      appended.length = w + 1 := by
  simp only [StepCommand_encode,
    Frame_setNextByte,
    Frame_appendBytes]
  rw [encodeBase_append]
  simp only [List.append_assoc]
  refine ⟨_, rfl, ?_⟩
  simp [encodeBase_length _ w hw, valueBytes]

/-- Embeds the frame effect of `InterrogationCommand_encode`: the bytes already
written stay, and `w + 1` bytes follow them. -/
theorem InterrogationCommand_encode_appends (obj : InterrogationCommand) (frame : Frame)
    (w : Nat) (hw : w = 1 ∨ w = 2 ∨ w = 3) :
    ∃ appended : List Nat,
      InterrogationCommand_encode obj frame ⟨(w : Int)⟩ = frame ++ appended ∧
      appended.length = w + 1 := by
  simp only [InterrogationCommand_encode,
    Frame_setNextByte,
    Frame_appendBytes]
  rw [encodeBase_append]
  simp only [List.append_assoc]
  refine ⟨_, rfl, ?_⟩
  simp [encodeBase_length _ w hw, valueBytes]

/-- Embeds the frame effect of `StepPositionInformation_encode`: the bytes already
written stay, and `w + 2` bytes follow them. -/
theorem StepPositionInformation_encode_appends (obj : StepPositionInformation) (frame : Frame)
    (w : Nat) (hw : w = 1 ∨ w = 2 ∨ w = 3) :
    ∃ appended : List Nat,
      StepPositionInformation_encode obj frame ⟨(w : Int)⟩ = frame ++ appended ∧
      appended.length = w + 2 := by
  simp only [StepPositionInformation_encode,
    Frame_setNextByte,
    Frame_appendBytes]
  rw [encodeBase_append]
  simp only [List.append_assoc]
  refine ⟨_, rfl, ?_⟩
  simp [encodeBase_length _ w hw, valueBytes]

/-- Embeds the frame effect of `MeasuredValueNormalized_encode`: the bytes already
written stay, and `w + 3` bytes follow them. -/
theorem MeasuredValueNormalized_encode_appends (obj : MeasuredValueNormalized) (frame : Frame)
    (w : Nat) (hw : w = 1 ∨ w = 2 ∨ w = 3) :
    ∃ appended : List Nat,
      MeasuredValueNormalized_encode obj frame ⟨(w : Int)⟩ = frame ++ appended ∧
      appended.length = w + 3 := by
  simp only [MeasuredValueNormalized_encode,
    Frame_setNextByte,
    Frame_appendBytes]
  rw [encodeBase_append]
  simp only [List.append_assoc]
  refine ⟨_, rfl, ?_⟩
  simp [encodeBase_length _ w hw, valueBytes]

/-- Embeds the frame effect of `MeasuredValueScaled_encode`: the bytes already
written stay, and `w + 3` bytes follow them. -/
theorem MeasuredValueScaled_encode_appends (obj : MeasuredValueScaled) (frame : Frame)
    (w : Nat) (hw : w = 1 ∨ w = 2 ∨ w = 3) :
    ∃ appended : List Nat,
      MeasuredValueScaled_encode obj frame ⟨(w : Int)⟩ = frame ++ appended ∧
      appended.length = w + 3 := by
  simp only [MeasuredValueScaled_encode,
    MeasuredValueNormalized_encode,
    MeasuredValueScaled.asNormalized,
    Frame_setNextByte,
    Frame_appendBytes]
  rw [encodeBase_append]
  simp only [List.append_assoc]
  refine ⟨_, rfl, ?_⟩
  simp [encodeBase_length _ w hw, valueBytes]

/-- Embeds the frame effect of `SetpointCommandNormalized_encode`: the bytes already
written stay, and `w + 3` bytes follow them. -/
theorem SetpointCommandNormalized_encode_appends (obj : SetpointCommandNormalized) (frame : Frame)
    (w : Nat) (hw : w = 1 ∨ w = 2 ∨ w = 3) :
    ∃ appended : List Nat,
      SetpointCommandNormalized_encode obj frame ⟨(w : Int)⟩ = frame ++ appended ∧
      appended.length = w + 3 := by
  simp only [SetpointCommandNormalized_encode,
    Frame_setNextByte,
    Frame_appendBytes]
  rw [encodeBase_append]
  simp only [List.append_assoc]
  refine ⟨_, rfl, ?_⟩
  simp [encodeBase_length _ w hw, valueBytes]

/-- Embeds the frame effect of `SetpointCommandScaled_encode`: the bytes already
written stay, and `w + 3` bytes follow them. -/
theorem SetpointCommandScaled_encode_appends (obj : SetpointCommandScaled) (frame : Frame)
    (w : Nat) (hw : w = 1 ∨ w = 2 ∨ w = 3) :
    ∃ appended : List Nat,
      SetpointCommandScaled_encode obj frame ⟨(w : Int)⟩ = frame ++ appended ∧
      appended.length = w + 3 := by
  simp only [SetpointCommandScaled_encode,
    Frame_setNextByte,
    Frame_appendBytes]
  rw [encodeBase_append]
  simp only [List.append_assoc]
  refine ⟨_, rfl, ?_⟩
  simp [encodeBase_length _ w hw, valueBytes]

/-- Embeds the frame effect of `Bitstring32Command_encode`: the bytes already
written stay, and `w + 4` bytes follow them. -/
theorem Bitstring32Command_encode_appends (obj : Bitstring32Command) (frame : Frame)
    (w : Nat) (hw : w = 1 ∨ w = 2 ∨ w = 3) :
    ∃ appended : List Nat,
      Bitstring32Command_encode obj frame ⟨(w : Int)⟩ = frame ++ appended ∧
      appended.length = w + 4 := by
  simp only [Bitstring32Command_encode,
    Frame_setNextByte,
    Frame_appendBytes]
  rw [encodeBase_append]
  simp only [List.append_assoc]
  refine ⟨_, rfl, ?_⟩
  simp [encodeBase_length _ w hw, valueBytes]

/-- Embeds the frame effect of `BitString32_encode`: the bytes already
written stay, and `w + 5` bytes follow them. -/
theorem BitString32_encode_appends (obj : BitString32) (frame : Frame)
    (w : Nat) (hw : w = 1 ∨ w = 2 ∨ w = 3) :
    ∃ appended : List Nat,
      BitString32_encode obj frame ⟨(w : Int)⟩ = frame ++ appended ∧
      appended.length = w + 5 := by
  simp only [BitString32_encode,
    Frame_setNextByte,
    Frame_appendBytes]
  rw [encodeBase_append]
  simp only [List.append_assoc]
  refine ⟨_, rfl, ?_⟩
  simp [encodeBase_length _ w hw, valueBytes]

/-- Embeds the frame effect of `MeasuredValueShort_encode`: the bytes already
written stay, and `w + 5` bytes follow them. -/
theorem MeasuredValueShort_encode_appends (obj : MeasuredValueShort) (frame : Frame)
    (w : Nat) (hw : w = 1 ∨ w = 2 ∨ w = 3) :
    ∃ appended : List Nat,
      MeasuredValueShort_encode obj frame ⟨(w : Int)⟩ = frame ++ appended ∧
      appended.length = w + 5 := by
  simp only [MeasuredValueShort_encode,
    Frame_setNextByte,
    Frame_appendBytes]
  rw [encodeBase_append]
  simp only [List.append_assoc]
  refine ⟨_, rfl, ?_⟩
  simp [encodeBase_length _ w hw, valueBytes]

/-- Embeds the frame effect of `IntegratedTotals_encode`: the bytes already
written stay, and `w + 5` bytes follow them. -/
theorem IntegratedTotals_encode_appends (obj : IntegratedTotals) (frame : Frame)
    (w : Nat) (hw : w = 1 ∨ w = 2 ∨ w = 3) (htot : obj.totals.encodedValue.length = 5) :
    ∃ appended : List Nat,
      IntegratedTotals_encode obj frame ⟨(w : Int)⟩ = frame ++ appended ∧
      appended.length = w + 5 := by
  simp only [IntegratedTotals_encode,
    Frame_setNextByte,
    Frame_appendBytes]
  rw [encodeBase_append]
  simp only [List.append_assoc]
  refine ⟨_, rfl, ?_⟩
  simp [encodeBase_length _ w hw, valueBytes, htot]

/-- Embeds the frame effect of `SetpointCommandShort_encode`: the bytes already
written stay, and `w + 5` bytes follow them. -/
theorem SetpointCommandShort_encode_appends (obj : SetpointCommandShort) (frame : Frame)
    (w : Nat) (hw : w = 1 ∨ w = 2 ∨ w = 3) :
    ∃ appended : List Nat,
      SetpointCommandShort_encode obj frame ⟨(w : Int)⟩ = frame ++ appended ∧
      appended.length = w + 5 := by
  simp only [SetpointCommandShort_encode,
    Frame_setNextByte,
    Frame_appendBytes]
  rw [encodeBase_append]
  simp only [List.append_assoc]
  refine ⟨_, rfl, ?_⟩
  simp [encodeBase_length _ w hw, valueBytes]

/-- Embeds the frame effect of `ReadCommand_encode`: the bytes already
written stay, and `w` bytes follow them. -/
theorem ReadCommand_encode_appends (obj : ReadCommand) (frame : Frame)
    (w : Nat) (hw : w = 1 ∨ w = 2 ∨ w = 3) :
    ∃ appended : List Nat,
      ReadCommand_encode obj frame ⟨(w : Int)⟩ = frame ++ appended ∧
      appended.length = w := by
  simp only [ReadCommand_encode,
    Frame_setNextByte,
    Frame_appendBytes]
  rw [encodeBase_append]
  refine ⟨_, rfl, ?_⟩
  simp [encodeBase_length _ w hw, valueBytes]

/-- Embeds the frame effect of `ClockSynchronizationCommand_encode`: the bytes already
written stay, and `w + 7` bytes follow them. -/
theorem ClockSynchronizationCommand_encode_appends (obj : ClockSynchronizationCommand) (frame : Frame)
    (w : Nat) (hw : w = 1 ∨ w = 2 ∨ w = 3) (hts : obj.timestamp.encodedValue.length = 7) :
    ∃ appended : List Nat,
      ClockSynchronizationCommand_encode obj frame ⟨(w : Int)⟩ = frame ++ appended ∧
      appended.length = w + 7 := by
  simp only [ClockSynchronizationCommand_encode,
    Frame_setNextByte,
    Frame_appendBytes]
  rw [encodeBase_append]
  simp only [List.append_assoc]
  refine ⟨_, rfl, ?_⟩
  simp [encodeBase_length _ w hw, valueBytes, hts]

/-- Embeds the frame effect of `SinglePointWithCP24Time2a_encode`: the bytes already
written stay, and `w + 4` bytes follow them. -/
theorem SinglePointWithCP24Time2a_encode_appends (obj : SinglePointWithCP24Time2a) (frame : Frame)
    (w : Nat) (hw : w = 1 ∨ w = 2 ∨ w = 3) (hts : obj.timestamp.encodedValue.length = 3) :
    ∃ appended : List Nat,
      SinglePointWithCP24Time2a_encode obj frame ⟨(w : Int)⟩ = frame ++ appended ∧
      appended.length = w + 4 := by
  simp only [SinglePointWithCP24Time2a_encode,
    Frame_setNextByte,
    Frame_appendBytes]
  rw [encodeBase_append]
  simp only [List.append_assoc]
  refine ⟨_, rfl, ?_⟩
  simp [encodeBase_length _ w hw, valueBytes, hts]

/-- Embeds the frame effect of `DoublePointWithCP24Time2a_encode`: the bytes already
written stay, and `w + 4` bytes follow them. -/
theorem DoublePointWithCP24Time2a_encode_appends (obj : DoublePointWithCP24Time2a) (frame : Frame)
    (w : Nat) (hw : w = 1 ∨ w = 2 ∨ w = 3) (hts : obj.timestamp.encodedValue.length = 3) :
    ∃ appended : List Nat,
      DoublePointWithCP24Time2a_encode obj frame ⟨(w : Int)⟩ = frame ++ appended ∧
      appended.length = w + 4 := by
  simp only [DoublePointWithCP24Time2a_encode,
    Frame_setNextByte,
    Frame_appendBytes]
  rw [encodeBase_append]
  simp only [List.append_assoc]
  refine ⟨_, rfl, ?_⟩
  simp [encodeBase_length _ w hw, valueBytes, hts]

/-- Embeds the frame effect of `StepPositionWithCP24Time2a_encode`: the bytes already
written stay, and `w + 5` bytes follow them. -/
theorem StepPositionWithCP24Time2a_encode_appends (obj : StepPositionWithCP24Time2a) (frame : Frame)
    (w : Nat) (hw : w = 1 ∨ w = 2 ∨ w = 3) (hts : obj.timestamp.encodedValue.length = 3) :
    ∃ appended : List Nat,
      StepPositionWithCP24Time2a_encode obj frame ⟨(w : Int)⟩ = frame ++ appended ∧
      appended.length = w + 5 := by
  simp only [StepPositionWithCP24Time2a_encode,
    Frame_setNextByte,
    Frame_appendBytes]
  rw [encodeBase_append]
  simp only [List.append_assoc]
  refine ⟨_, rfl, ?_⟩
  simp [encodeBase_length _ w hw, valueBytes, hts]

/-- Embeds the frame effect of `Bitstring32WithCP24Time2a_encode`: the bytes already
written stay, and `w + 8` bytes follow them. -/
theorem Bitstring32WithCP24Time2a_encode_appends (obj : Bitstring32WithCP24Time2a) (frame : Frame)
    (w : Nat) (hw : w = 1 ∨ w = 2 ∨ w = 3) (hts : obj.timestamp.encodedValue.length = 3) :
    ∃ appended : List Nat,
      Bitstring32WithCP24Time2a_encode obj frame ⟨(w : Int)⟩ = frame ++ appended ∧
      appended.length = w + 8 := by
  simp only [Bitstring32WithCP24Time2a_encode,
    Frame_setNextByte,
    Frame_appendBytes]
  rw [encodeBase_append]
  simp only [List.append_assoc]
  refine ⟨_, rfl, ?_⟩
  simp [encodeBase_length _ w hw, valueBytes, hts]

/-- Embeds the frame effect of `MeasuredValueNormalizedWithCP24Time2a_encode`: the bytes already
written stay, and `w + 6` bytes follow them. -/
theorem MeasuredValueNormalizedWithCP24Time2a_encode_appends (obj : MeasuredValueNormalizedWithCP24Time2a) (frame : Frame)
    (w : Nat) (hw : w = 1 ∨ w = 2 ∨ w = 3) (hts : obj.timestamp.encodedValue.length = 3) :
    ∃ appended : List Nat,
      MeasuredValueNormalizedWithCP24Time2a_encode obj frame ⟨(w : Int)⟩ = frame ++ appended ∧
      appended.length = w + 6 := by
  simp only [MeasuredValueNormalizedWithCP24Time2a_encode,
    MeasuredValueNormalized_encode,
    MeasuredValueNormalizedWithCP24Time2a.asNormalized,
    Frame_setNextByte,
    Frame_appendBytes]
  rw [encodeBase_append]
  simp only [List.append_assoc]
  refine ⟨_, rfl, ?_⟩
  simp [encodeBase_length _ w hw, valueBytes, hts]

/-- Embeds the frame effect of `MeasuredValueScaledWithCP24Time2a_encode`: the bytes already
written stay, and `w + 6` bytes follow them. -/
theorem MeasuredValueScaledWithCP24Time2a_encode_appends (obj : MeasuredValueScaledWithCP24Time2a) (frame : Frame)
    (w : Nat) (hw : w = 1 ∨ w = 2 ∨ w = 3) (hts : obj.timestamp.encodedValue.length = 3) :
    ∃ appended : List Nat,
      MeasuredValueScaledWithCP24Time2a_encode obj frame ⟨(w : Int)⟩ = frame ++ appended ∧
      appended.length = w + 6 := by
  simp only [MeasuredValueScaledWithCP24Time2a_encode,
    MeasuredValueNormalized_encode,
    MeasuredValueScaledWithCP24Time2a.asNormalized,
    Frame_setNextByte,
    Frame_appendBytes]
  rw [encodeBase_append]
  simp only [List.append_assoc]
  refine ⟨_, rfl, ?_⟩
  simp [encodeBase_length _ w hw, valueBytes, hts]

/-- Embeds the frame effect of `MeasuredValueShortWithCP24Time2a_encode`: the bytes already
written stay, and `w + 8` bytes follow them. -/
theorem MeasuredValueShortWithCP24Time2a_encode_appends (obj : MeasuredValueShortWithCP24Time2a) (frame : Frame)
    (w : Nat) (hw : w = 1 ∨ w = 2 ∨ w = 3) (hts : obj.timestamp.encodedValue.length = 3) :
    ∃ appended : List Nat,
      MeasuredValueShortWithCP24Time2a_encode obj frame ⟨(w : Int)⟩ = frame ++ appended ∧
      appended.length = w + 8 := by
  simp only [MeasuredValueShortWithCP24Time2a_encode,
    MeasuredValueShort_encode,
    MeasuredValueShortWithCP24Time2a.asShort,
    Frame_setNextByte,
    Frame_appendBytes]
  rw [encodeBase_append]
  simp only [List.append_assoc]
  refine ⟨_, rfl, ?_⟩
  simp [encodeBase_length _ w hw, valueBytes, hts]

/-- Embeds the frame effect of `IntegratedTotalsWithCP24Time2a_encode`: the bytes already
written stay, and `w + 8` bytes follow them. -/
theorem IntegratedTotalsWithCP24Time2a_encode_appends (obj : IntegratedTotalsWithCP24Time2a) (frame : Frame)
    (w : Nat) (hw : w = 1 ∨ w = 2 ∨ w = 3) (htot : obj.totals.encodedValue.length = 5) (hts : obj.timestamp.encodedValue.length = 3) :
    ∃ appended : List Nat,
      IntegratedTotalsWithCP24Time2a_encode obj frame ⟨(w : Int)⟩ = frame ++ appended ∧
      appended.length = w + 8 := by
  simp only [IntegratedTotalsWithCP24Time2a_encode,
    IntegratedTotals_encode,
    IntegratedTotalsWithCP24Time2a.asIntegratedTotals,
    Frame_setNextByte,
    Frame_appendBytes]
  rw [encodeBase_append]
  simp only [List.append_assoc]
  refine ⟨_, rfl, ?_⟩
  simp [encodeBase_length _ w hw, valueBytes, htot, hts]

/-- Embeds the frame effect of `SinglePointWithCP56Time2a_encode`: the bytes already
written stay, and `w + 8` bytes follow them. -/
theorem SinglePointWithCP56Time2a_encode_appends (obj : SinglePointWithCP56Time2a) (frame : Frame)
    (w : Nat) (hw : w = 1 ∨ w = 2 ∨ w = 3) (hts : obj.timestamp.encodedValue.length = 7) :
    ∃ appended : List Nat,
      SinglePointWithCP56Time2a_encode obj frame ⟨(w : Int)⟩ = frame ++ appended ∧
      appended.length = w + 8 := by
  simp only [SinglePointWithCP56Time2a_encode,
    Frame_setNextByte,
    Frame_appendBytes]
  rw [encodeBase_append]
  simp only [List.append_assoc]
  refine ⟨_, rfl, ?_⟩
  simp [encodeBase_length _ w hw, valueBytes, hts]

/-- Embeds the frame effect of `DoublePointWithCP56Time2a_encode`: the bytes already
written stay, and `w + 8` bytes follow them. -/
theorem DoublePointWithCP56Time2a_encode_appends (obj : DoublePointWithCP56Time2a) (frame : Frame)
    (w : Nat) (hw : w = 1 ∨ w = 2 ∨ w = 3) (hts : obj.timestamp.encodedValue.length = 7) :
    ∃ appended : List Nat,
      DoublePointWithCP56Time2a_encode obj frame ⟨(w : Int)⟩ = frame ++ appended ∧
      appended.length = w + 8 := by
  simp only [DoublePointWithCP56Time2a_encode,
    Frame_setNextByte,
    Frame_appendBytes]
  rw [encodeBase_append]
  simp only [List.append_assoc]
  refine ⟨_, rfl, ?_⟩
  simp [encodeBase_length _ w hw, valueBytes, hts]

/-- Embeds the frame effect of `StepPositionWithCP56Time2a_encode`: the bytes already
written stay, and `w + 9` bytes follow them. -/
theorem StepPositionWithCP56Time2a_encode_appends (obj : StepPositionWithCP56Time2a) (frame : Frame)
    (w : Nat) (hw : w = 1 ∨ w = 2 ∨ w = 3) (hts : obj.timestamp.encodedValue.length = 7) :
    ∃ appended : List Nat,
      StepPositionWithCP56Time2a_encode obj frame ⟨(w : Int)⟩ = frame ++ appended ∧
      appended.length = w + 9 := by
  simp only [StepPositionWithCP56Time2a_encode,
    Frame_setNextByte,
    Frame_appendBytes]
  rw [encodeBase_append]
  simp only [List.append_assoc]
  refine ⟨_, rfl, ?_⟩
  simp [encodeBase_length _ w hw, valueBytes, hts]

/-- Embeds the frame effect of `Bitstring32WithCP56Time2a_encode`: the bytes already
written stay, and `w + 12` bytes follow them. -/
theorem Bitstring32WithCP56Time2a_encode_appends (obj : Bitstring32WithCP56Time2a) (frame : Frame)
    (w : Nat) (hw : w = 1 ∨ w = 2 ∨ w = 3) (hts : obj.timestamp.encodedValue.length = 7) :
    ∃ appended : List Nat,
      Bitstring32WithCP56Time2a_encode obj frame ⟨(w : Int)⟩ = frame ++ appended ∧
      appended.length = w + 12 := by
  simp only [Bitstring32WithCP56Time2a_encode,
    Frame_setNextByte,
    Frame_appendBytes]
  rw [encodeBase_append]
  simp only [List.append_assoc]
  refine ⟨_, rfl, ?_⟩
  simp [encodeBase_length _ w hw, valueBytes, hts]

/-- Embeds the frame effect of `MeasuredValueNormalizedWithCP56Time2a_encode`: the bytes already
written stay, and `w + 10` bytes follow them. -/
theorem MeasuredValueNormalizedWithCP56Time2a_encode_appends (obj : MeasuredValueNormalizedWithCP56Time2a) (frame : Frame)
    (w : Nat) (hw : w = 1 ∨ w = 2 ∨ w = 3) (hts : obj.timestamp.encodedValue.length = 7) :
    ∃ appended : List Nat,
      MeasuredValueNormalizedWithCP56Time2a_encode obj frame ⟨(w : Int)⟩ = frame ++ appended ∧
      appended.length = w + 10 := by
  simp only [MeasuredValueNormalizedWithCP56Time2a_encode,
    MeasuredValueNormalized_encode,
    MeasuredValueNormalizedWithCP56Time2a.asNormalized,
    Frame_setNextByte,
    Frame_appendBytes]
  rw [encodeBase_append]
  simp only [List.append_assoc]
  refine ⟨_, rfl, ?_⟩
  simp [encodeBase_length _ w hw, valueBytes, hts]

/-- Embeds the frame effect of `MeasuredValueScaledWithCP56Time2a_encode`: the bytes already
written stay, and `w + 10` bytes follow them. -/
theorem MeasuredValueScaledWithCP56Time2a_encode_appends (obj : MeasuredValueScaledWithCP56Time2a) (frame : Frame)
    (w : Nat) (hw : w = 1 ∨ w = 2 ∨ w = 3) (hts : obj.timestamp.encodedValue.length = 7) :
    ∃ appended : List Nat,
      MeasuredValueScaledWithCP56Time2a_encode obj frame ⟨(w : Int)⟩ = frame ++ appended ∧
      appended.length = w + 10 := by
  simp only [MeasuredValueScaledWithCP56Time2a_encode,
    MeasuredValueNormalized_encode,
    MeasuredValueScaledWithCP56Time2a.asNormalized,
    Frame_setNextByte,
    Frame_appendBytes]
  rw [encodeBase_append]
  simp only [List.append_assoc]
  refine ⟨_, rfl, ?_⟩
  simp [encodeBase_length _ w hw, valueBytes, hts]

/-- Embeds the frame effect of `MeasuredValueShortWithCP56Time2a_encode`: the bytes already
written stay, and `w + 12` bytes follow them. -/
theorem MeasuredValueShortWithCP56Time2a_encode_appends (obj : MeasuredValueShortWithCP56Time2a) (frame : Frame)
    (w : Nat) (hw : w = 1 ∨ w = 2 ∨ w = 3) (hts : obj.timestamp.encodedValue.length = 7) :
    ∃ appended : List Nat,
      MeasuredValueShortWithCP56Time2a_encode obj frame ⟨(w : Int)⟩ = frame ++ appended ∧
      appended.length = w + 12 := by
  simp only [MeasuredValueShortWithCP56Time2a_encode,
    MeasuredValueShort_encode,
    MeasuredValueShortWithCP56Time2a.asShort,
    Frame_setNextByte,
    Frame_appendBytes]
  rw [encodeBase_append]
  simp only [List.append_assoc]
  refine ⟨_, rfl, ?_⟩
  simp [encodeBase_length _ w hw, valueBytes, hts]

/-- Embeds the frame effect of `IntegratedTotalsWithCP56Time2a_encode`: the bytes already
written stay, and `w + 12` bytes follow them. -/
theorem IntegratedTotalsWithCP56Time2a_encode_appends (obj : IntegratedTotalsWithCP56Time2a) (frame : Frame)
    (w : Nat) (hw : w = 1 ∨ w = 2 ∨ w = 3) (htot : obj.totals.encodedValue.length = 5) (hts : obj.timestamp.encodedValue.length = 7) :
    ∃ appended : List Nat,
      IntegratedTotalsWithCP56Time2a_encode obj frame ⟨(w : Int)⟩ = frame ++ appended ∧
      appended.length = w + 12 := by
  simp only [IntegratedTotalsWithCP56Time2a_encode,
    IntegratedTotals_encode,
    IntegratedTotalsWithCP56Time2a.asIntegratedTotals,
    Frame_setNextByte,
    Frame_appendBytes]
  rw [encodeBase_append]
  simp only [List.append_assoc]
  refine ⟨_, rfl, ?_⟩
  simp [encodeBase_length _ w hw, valueBytes, htot, hts]

/-- Embeds the frame effect of `SingleCommandWithCP56Time2a_encode`: the bytes already
written stay, and `w + 8` bytes follow them. -/
theorem SingleCommandWithCP56Time2a_encode_appends (obj : SingleCommandWithCP56Time2a) (frame : Frame)
    (w : Nat) (hw : w = 1 ∨ w = 2 ∨ w = 3) (hts : obj.timestamp.encodedValue.length = 7) :
    ∃ appended : List Nat,
      SingleCommandWithCP56Time2a_encode obj frame ⟨(w : Int)⟩ = frame ++ appended ∧
      appended.length = w + 8 := by
  simp only [SingleCommandWithCP56Time2a_encode,
    SingleCommand_encode,
    SingleCommandWithCP56Time2a.asSingleCommand,
    Frame_setNextByte,
    Frame_appendBytes]
  rw [encodeBase_append]
  simp only [List.append_assoc]
  refine ⟨_, rfl, ?_⟩
  simp [encodeBase_length _ w hw, valueBytes, hts]

theorem appends_take_length (frame result appended : List Nat) (k : Nat)
    (h : result = frame ++ appended) (hl : appended.length = k) :
    result.take frame.length = frame ∧ result.length = frame.length + k := by
  subst h
  simp [hl]

/-- C35: for `sizeOfIOA = w ∈ {1,2,3}`, every encoder leaves the bytes already written to
the frame unchanged and appends exactly `w + n` bytes, where `n` is 1 for
`SinglePointInformation`, `DoublePointInformation`, `SingleCommand`, `DoubleCommand`,
`StepCommand` and `InterrogationCommand`, 2 for `StepPositionInformation`, 3 for
`MeasuredValueNormalized`, `MeasuredValueScaled`, `SetpointCommandNormalized` and
`SetpointCommandScaled`, 4 for `Bitstring32Command`, 5 for `BitString32`,
`MeasuredValueShort`, `IntegratedTotals` and `SetpointCommandShort`, 0 for `ReadCommand`
and 7 for `ClockSynchronizationCommand`, plus 3 for a variant with `CP24Time2a` and plus 7
for a variant with `CP56Time2a`; the time tag held by the object has 3 or 7 bytes and the
counter reading 5 bytes. -/
theorem C35_encoders_append_exact_length (w : Nat) (hw : w = 1 ∨ w = 2 ∨ w = 3) :
    (∀ (obj : SinglePointInformation) (frame : Frame),
      (SinglePointInformation_encode obj frame ⟨(w : Int)⟩).take frame.length = frame ∧
      (SinglePointInformation_encode obj frame ⟨(w : Int)⟩).length = frame.length + (w + 1)) ∧
    (∀ (obj : DoublePointInformation) (frame : Frame),
      (DoublePointInformation_encode obj frame ⟨(w : Int)⟩).take frame.length = frame ∧
      (DoublePointInformation_encode obj frame ⟨(w : Int)⟩).length = frame.length + (w + 1)) ∧
    (∀ (obj : SingleCommand) (frame : Frame),
      (SingleCommand_encode obj frame ⟨(w : Int)⟩).take frame.length = frame ∧
      (SingleCommand_encode obj frame ⟨(w : Int)⟩).length = frame.length + (w + 1)) ∧
    (∀ (obj : DoubleCommand) (frame : Frame),
      (DoubleCommand_encode obj frame ⟨(w : Int)⟩).take frame.length = frame ∧
      (DoubleCommand_encode obj frame ⟨(w : Int)⟩).length = frame.length + (w + 1)) ∧
    (∀ (obj : StepCommand) (frame : Frame),
      (StepCommand_encode obj frame ⟨(w : Int)⟩).take frame.length = frame ∧
      (StepCommand_encode obj frame ⟨(w : Int)⟩).length = frame.length + (w + 1)) ∧
    (∀ (obj : InterrogationCommand) (frame : Frame),
      (InterrogationCommand_encode obj frame ⟨(w : Int)⟩).take frame.length = frame ∧
      (InterrogationCommand_encode obj frame ⟨(w : Int)⟩).length = frame.length + (w + 1)) ∧
    (∀ (obj : StepPositionInformation) (frame : Frame),
      (StepPositionInformation_encode obj frame ⟨(w : Int)⟩).take frame.length = frame ∧
      (StepPositionInformation_encode obj frame ⟨(w : Int)⟩).length = frame.length + (w + 2)) ∧
    (∀ (obj : MeasuredValueNormalized) (frame : Frame),
      (MeasuredValueNormalized_encode obj frame ⟨(w : Int)⟩).take frame.length = frame ∧
      (MeasuredValueNormalized_encode obj frame ⟨(w : Int)⟩).length = frame.length + (w + 3)) ∧
    (∀ (obj : MeasuredValueScaled) (frame : Frame),
      (MeasuredValueScaled_encode obj frame ⟨(w : Int)⟩).take frame.length = frame ∧
      (MeasuredValueScaled_encode obj frame ⟨(w : Int)⟩).length = frame.length + (w + 3)) ∧
    (∀ (obj : SetpointCommandNormalized) (frame : Frame),
      (SetpointCommandNormalized_encode obj frame ⟨(w : Int)⟩).take frame.length = frame ∧
      (SetpointCommandNormalized_encode obj frame ⟨(w : Int)⟩).length = frame.length + (w + 3)) ∧
    (∀ (obj : SetpointCommandScaled) (frame : Frame),
      (SetpointCommandScaled_encode obj frame ⟨(w : Int)⟩).take frame.length = frame ∧
      (SetpointCommandScaled_encode obj frame ⟨(w : Int)⟩).length = frame.length + (w + 3)) ∧
    (∀ (obj : Bitstring32Command) (frame : Frame),
      (Bitstring32Command_encode obj frame ⟨(w : Int)⟩).take frame.length = frame ∧
      (Bitstring32Command_encode obj frame ⟨(w : Int)⟩).length = frame.length + (w + 4)) ∧
    (∀ (obj : BitString32) (frame : Frame),
      (BitString32_encode obj frame ⟨(w : Int)⟩).take frame.length = frame ∧
      (BitString32_encode obj frame ⟨(w : Int)⟩).length = frame.length + (w + 5)) ∧
    (∀ (obj : MeasuredValueShort) (frame : Frame),
      (MeasuredValueShort_encode obj frame ⟨(w : Int)⟩).take frame.length = frame ∧
      (MeasuredValueShort_encode obj frame ⟨(w : Int)⟩).length = frame.length + (w + 5)) ∧
    (∀ (obj : IntegratedTotals) (frame : Frame),
      obj.totals.encodedValue.length = 5 →
      (IntegratedTotals_encode obj frame ⟨(w : Int)⟩).take frame.length = frame ∧
      (IntegratedTotals_encode obj frame ⟨(w : Int)⟩).length = frame.length + (w + 5)) ∧
    (∀ (obj : SetpointCommandShort) (frame : Frame),
      (SetpointCommandShort_encode obj frame ⟨(w : Int)⟩).take frame.length = frame ∧
      (SetpointCommandShort_encode obj frame ⟨(w : Int)⟩).length = frame.length + (w + 5)) ∧
    (∀ (obj : ReadCommand) (frame : Frame),
      (ReadCommand_encode obj frame ⟨(w : Int)⟩).take frame.length = frame ∧
      (ReadCommand_encode obj frame ⟨(w : Int)⟩).length = frame.length + w) ∧
    (∀ (obj : ClockSynchronizationCommand) (frame : Frame),
      obj.timestamp.encodedValue.length = 7 →
      (ClockSynchronizationCommand_encode obj frame ⟨(w : Int)⟩).take frame.length = frame ∧
      (ClockSynchronizationCommand_encode obj frame ⟨(w : Int)⟩).length = frame.length + (w + 7)) ∧
    (∀ (obj : SinglePointWithCP24Time2a) (frame : Frame),
      obj.timestamp.encodedValue.length = 3 →
      (SinglePointWithCP24Time2a_encode obj frame ⟨(w : Int)⟩).take frame.length = frame ∧
      (SinglePointWithCP24Time2a_encode obj frame ⟨(w : Int)⟩).length = frame.length + (w + 4)) ∧
    (∀ (obj : DoublePointWithCP24Time2a) (frame : Frame),
      obj.timestamp.encodedValue.length = 3 →
      (DoublePointWithCP24Time2a_encode obj frame ⟨(w : Int)⟩).take frame.length = frame ∧
      (DoublePointWithCP24Time2a_encode obj frame ⟨(w : Int)⟩).length = frame.length + (w + 4)) ∧
    (∀ (obj : StepPositionWithCP24Time2a) (frame : Frame),
      obj.timestamp.encodedValue.length = 3 →
      (StepPositionWithCP24Time2a_encode obj frame ⟨(w : Int)⟩).take frame.length = frame ∧
      (StepPositionWithCP24Time2a_encode obj frame ⟨(w : Int)⟩).length = frame.length + (w + 5)) ∧
    (∀ (obj : Bitstring32WithCP24Time2a) (frame : Frame),
      obj.timestamp.encodedValue.length = 3 →
      (Bitstring32WithCP24Time2a_encode obj frame ⟨(w : Int)⟩).take frame.length = frame ∧
      (Bitstring32WithCP24Time2a_encode obj frame ⟨(w : Int)⟩).length = frame.length + (w + 8)) ∧
    (∀ (obj : MeasuredValueNormalizedWithCP24Time2a) (frame : Frame),
      obj.timestamp.encodedValue.length = 3 →
      (MeasuredValueNormalizedWithCP24Time2a_encode obj frame ⟨(w : Int)⟩).take frame.length = frame ∧
      (MeasuredValueNormalizedWithCP24Time2a_encode obj frame ⟨(w : Int)⟩).length = frame.length + (w + 6)) ∧
    (∀ (obj : MeasuredValueScaledWithCP24Time2a) (frame : Frame),
      obj.timestamp.encodedValue.length = 3 →
      (MeasuredValueScaledWithCP24Time2a_encode obj frame ⟨(w : Int)⟩).take frame.length = frame ∧
      (MeasuredValueScaledWithCP24Time2a_encode obj frame ⟨(w : Int)⟩).length = frame.length + (w + 6)) ∧
    (∀ (obj : MeasuredValueShortWithCP24Time2a) (frame : Frame),
      obj.timestamp.encodedValue.length = 3 →
      (MeasuredValueShortWithCP24Time2a_encode obj frame ⟨(w : Int)⟩).take frame.length = frame ∧
      (MeasuredValueShortWithCP24Time2a_encode obj frame ⟨(w : Int)⟩).length = frame.length + (w + 8)) ∧
    (∀ (obj : IntegratedTotalsWithCP24Time2a) (frame : Frame),
      obj.totals.encodedValue.length = 5 →
      obj.timestamp.encodedValue.length = 3 →
      (IntegratedTotalsWithCP24Time2a_encode obj frame ⟨(w : Int)⟩).take frame.length = frame ∧
      (IntegratedTotalsWithCP24Time2a_encode obj frame ⟨(w : Int)⟩).length = frame.length + (w + 8)) ∧
    (∀ (obj : SinglePointWithCP56Time2a) (frame : Frame),
      obj.timestamp.encodedValue.length = 7 →
      (SinglePointWithCP56Time2a_encode obj frame ⟨(w : Int)⟩).take frame.length = frame ∧
      (SinglePointWithCP56Time2a_encode obj frame ⟨(w : Int)⟩).length = frame.length + (w + 8)) ∧
    (∀ (obj : DoublePointWithCP56Time2a) (frame : Frame),
      obj.timestamp.encodedValue.length = 7 →
      (DoublePointWithCP56Time2a_encode obj frame ⟨(w : Int)⟩).take frame.length = frame ∧
      (DoublePointWithCP56Time2a_encode obj frame ⟨(w : Int)⟩).length = frame.length + (w + 8)) ∧
    (∀ (obj : StepPositionWithCP56Time2a) (frame : Frame),
      obj.timestamp.encodedValue.length = 7 →
      (StepPositionWithCP56Time2a_encode obj frame ⟨(w : Int)⟩).take frame.length = frame ∧
      (StepPositionWithCP56Time2a_encode obj frame ⟨(w : Int)⟩).length = frame.length + (w + 9)) ∧
    (∀ (obj : Bitstring32WithCP56Time2a) (frame : Frame),
      obj.timestamp.encodedValue.length = 7 →
      (Bitstring32WithCP56Time2a_encode obj frame ⟨(w : Int)⟩).take frame.length = frame ∧
      (Bitstring32WithCP56Time2a_encode obj frame ⟨(w : Int)⟩).length = frame.length + (w + 12)) ∧
    (∀ (obj : MeasuredValueNormalizedWithCP56Time2a) (frame : Frame),
      obj.timestamp.encodedValue.length = 7 →
      (MeasuredValueNormalizedWithCP56Time2a_encode obj frame ⟨(w : Int)⟩).take frame.length = frame ∧
      (MeasuredValueNormalizedWithCP56Time2a_encode obj frame ⟨(w : Int)⟩).length = frame.length + (w + 10)) ∧
    (∀ (obj : MeasuredValueScaledWithCP56Time2a) (frame : Frame),
      obj.timestamp.encodedValue.length = 7 →
      (MeasuredValueScaledWithCP56Time2a_encode obj frame ⟨(w : Int)⟩).take frame.length = frame ∧
      (MeasuredValueScaledWithCP56Time2a_encode obj frame ⟨(w : Int)⟩).length = frame.length + (w + 10)) ∧
    (∀ (obj : MeasuredValueShortWithCP56Time2a) (frame : Frame),
      obj.timestamp.encodedValue.length = 7 →
      (MeasuredValueShortWithCP56Time2a_encode obj frame ⟨(w : Int)⟩).take frame.length = frame ∧
      (MeasuredValueShortWithCP56Time2a_encode obj frame ⟨(w : Int)⟩).length = frame.length + (w + 12)) ∧
    (∀ (obj : IntegratedTotalsWithCP56Time2a) (frame : Frame),
      obj.totals.encodedValue.length = 5 →
      obj.timestamp.encodedValue.length = 7 →
      (IntegratedTotalsWithCP56Time2a_encode obj frame ⟨(w : Int)⟩).take frame.length = frame ∧
      (IntegratedTotalsWithCP56Time2a_encode obj frame ⟨(w : Int)⟩).length = frame.length + (w + 12)) ∧
    (∀ (obj : SingleCommandWithCP56Time2a) (frame : Frame),
      obj.timestamp.encodedValue.length = 7 →
      (SingleCommandWithCP56Time2a_encode obj frame ⟨(w : Int)⟩).take frame.length = frame ∧
      (SingleCommandWithCP56Time2a_encode obj frame ⟨(w : Int)⟩).length = frame.length + (w + 8)) := by
  refine ⟨?_, ?_, ?_, ?_, ?_, ?_, ?_, ?_, ?_, ?_, ?_, ?_, ?_, ?_, ?_, ?_, ?_, ?_, ?_, ?_, ?_, ?_, ?_, ?_, ?_, ?_, ?_, ?_, ?_, ?_, ?_, ?_, ?_, ?_, ?_⟩
  · intro obj frame 
    obtain ⟨appended, h1, h2⟩ := SinglePointInformation_encode_appends obj frame w hw 
    exact appends_take_length _ _ _ _ h1 h2
  · intro obj frame 
    obtain ⟨appended, h1, h2⟩ := DoublePointInformation_encode_appends obj frame w hw 
    exact appends_take_length _ _ _ _ h1 h2
  · intro obj frame 
    obtain ⟨appended, h1, h2⟩ := SingleCommand_encode_appends obj frame w hw 
    exact appends_take_length _ _ _ _ h1 h2
  · intro obj frame 
    obtain ⟨appended, h1, h2⟩ := DoubleCommand_encode_appends obj frame w hw 
    exact appends_take_length _ _ _ _ h1 h2
  · intro obj frame 
    obtain ⟨appended, h1, h2⟩ := StepCommand_encode_appends obj frame w hw 
    exact appends_take_length _ _ _ _ h1 h2
  · intro obj frame 
    obtain ⟨appended, h1, h2⟩ := InterrogationCommand_encode_appends obj frame w hw 
    exact appends_take_length _ _ _ _ h1 h2
  · intro obj frame 
    obtain ⟨appended, h1, h2⟩ := StepPositionInformation_encode_appends obj frame w hw 
    exact appends_take_length _ _ _ _ h1 h2
  · intro obj frame 
    obtain ⟨appended, h1, h2⟩ := MeasuredValueNormalized_encode_appends obj frame w hw 
    exact appends_take_length _ _ _ _ h1 h2
  · intro obj frame 
    obtain ⟨appended, h1, h2⟩ := MeasuredValueScaled_encode_appends obj frame w hw 
    exact appends_take_length _ _ _ _ h1 h2
  · intro obj frame 
    obtain ⟨appended, h1, h2⟩ := SetpointCommandNormalized_encode_appends obj frame w hw 
    exact appends_take_length _ _ _ _ h1 h2
  · intro obj frame 
    obtain ⟨appended, h1, h2⟩ := SetpointCommandScaled_encode_appends obj frame w hw 
    exact appends_take_length _ _ _ _ h1 h2
  · intro obj frame 
    obtain ⟨appended, h1, h2⟩ := Bitstring32Command_encode_appends obj frame w hw 
    exact appends_take_length _ _ _ _ h1 h2
  · intro obj frame 
    obtain ⟨appended, h1, h2⟩ := BitString32_encode_appends obj frame w hw 
    exact appends_take_length _ _ _ _ h1 h2
  · intro obj frame 
    obtain ⟨appended, h1, h2⟩ := MeasuredValueShort_encode_appends obj frame w hw 
    exact appends_take_length _ _ _ _ h1 h2
  · intro obj frame htot
    obtain ⟨appended, h1, h2⟩ := IntegratedTotals_encode_appends obj frame w hw htot
    exact appends_take_length _ _ _ _ h1 h2
  · intro obj frame 
    obtain ⟨appended, h1, h2⟩ := SetpointCommandShort_encode_appends obj frame w hw 
    exact appends_take_length _ _ _ _ h1 h2
  · intro obj frame 
    obtain ⟨appended, h1, h2⟩ := ReadCommand_encode_appends obj frame w hw 
    exact appends_take_length _ _ _ _ h1 h2
  · intro obj frame hts
    obtain ⟨appended, h1, h2⟩ := ClockSynchronizationCommand_encode_appends obj frame w hw hts
    exact appends_take_length _ _ _ _ h1 h2
  · intro obj frame hts
    obtain ⟨appended, h1, h2⟩ := SinglePointWithCP24Time2a_encode_appends obj frame w hw hts
    exact appends_take_length _ _ _ _ h1 h2
  · intro obj frame hts
    obtain ⟨appended, h1, h2⟩ := DoublePointWithCP24Time2a_encode_appends obj frame w hw hts
    exact appends_take_length _ _ _ _ h1 h2
  · intro obj frame hts
    obtain ⟨appended, h1, h2⟩ := StepPositionWithCP24Time2a_encode_appends obj frame w hw hts
    exact appends_take_length _ _ _ _ h1 h2
  · intro obj frame hts
    obtain ⟨appended, h1, h2⟩ := Bitstring32WithCP24Time2a_encode_appends obj frame w hw hts
    exact appends_take_length _ _ _ _ h1 h2
  · intro obj frame hts
    obtain ⟨appended, h1, h2⟩ := MeasuredValueNormalizedWithCP24Time2a_encode_appends obj frame w hw hts
    exact appends_take_length _ _ _ _ h1 h2
  · intro obj frame hts
    obtain ⟨appended, h1, h2⟩ := MeasuredValueScaledWithCP24Time2a_encode_appends obj frame w hw hts
    exact appends_take_length _ _ _ _ h1 h2
  · intro obj frame hts
    obtain ⟨appended, h1, h2⟩ := MeasuredValueShortWithCP24Time2a_encode_appends obj frame w hw hts
    exact appends_take_length _ _ _ _ h1 h2
  · intro obj frame htot hts
    obtain ⟨appended, h1, h2⟩ := IntegratedTotalsWithCP24Time2a_encode_appends obj frame w hw htot hts
    exact appends_take_length _ _ _ _ h1 h2
  · intro obj frame hts
    obtain ⟨appended, h1, h2⟩ := SinglePointWithCP56Time2a_encode_appends obj frame w hw hts
    exact appends_take_length _ _ _ _ h1 h2
  · intro obj frame hts
    obtain ⟨appended, h1, h2⟩ := DoublePointWithCP56Time2a_encode_appends obj frame w hw hts
    exact appends_take_length _ _ _ _ h1 h2
  · intro obj frame hts
    obtain ⟨appended, h1, h2⟩ := StepPositionWithCP56Time2a_encode_appends obj frame w hw hts
    exact appends_take_length _ _ _ _ h1 h2
  · intro obj frame hts
    obtain ⟨appended, h1, h2⟩ := Bitstring32WithCP56Time2a_encode_appends obj frame w hw hts
    exact appends_take_length _ _ _ _ h1 h2
  · intro obj frame hts
    obtain ⟨appended, h1, h2⟩ := MeasuredValueNormalizedWithCP56Time2a_encode_appends obj frame w hw hts
    exact appends_take_length _ _ _ _ h1 h2
  · intro obj frame hts
    obtain ⟨appended, h1, h2⟩ := MeasuredValueScaledWithCP56Time2a_encode_appends obj frame w hw hts
    exact appends_take_length _ _ _ _ h1 h2
  · intro obj frame hts
    obtain ⟨appended, h1, h2⟩ := MeasuredValueShortWithCP56Time2a_encode_appends obj frame w hw hts
    exact appends_take_length _ _ _ _ h1 h2
  · intro obj frame htot hts
    obtain ⟨appended, h1, h2⟩ := IntegratedTotalsWithCP56Time2a_encode_appends obj frame w hw htot hts
    exact appends_take_length _ _ _ _ h1 h2
  · intro obj frame hts
    obtain ⟨appended, h1, h2⟩ := SingleCommandWithCP56Time2a_encode_appends obj frame w hw hts
    exact appends_take_length _ _ _ _ h1 h2

theorem C35_encoders_append_exact_length_witness :
    ((MeasuredValueShort_encode (MeasuredValueShort_create none 70000 0x3F800000 0x10)
        [0xAA, 0xBB] ⟨((3 : Nat) : Int)⟩).take ([0xAA, 0xBB] : List Nat).length =
        [0xAA, 0xBB] ∧
      (MeasuredValueShort_encode (MeasuredValueShort_create none 70000 0x3F800000 0x10)
        [0xAA, 0xBB] ⟨((3 : Nat) : Int)⟩).length =
        ([0xAA, 0xBB] : List Nat).length + (3 + 5)) ∧
    ((IntegratedTotalsWithCP56Time2a_encode
        (IntegratedTotalsWithCP56Time2a_create none 9 ⟨[1, 2, 3, 4, 5]⟩
          ⟨[1, 2, 3, 4, 5, 6, 7]⟩) [] ⟨((3 : Nat) : Int)⟩).take ([] : List Nat).length = [] ∧
      (IntegratedTotalsWithCP56Time2a_encode
        (IntegratedTotalsWithCP56Time2a_create none 9 ⟨[1, 2, 3, 4, 5]⟩
          ⟨[1, 2, 3, 4, 5, 6, 7]⟩) [] ⟨((3 : Nat) : Int)⟩).length =
        ([] : List Nat).length + (3 + 12)) :=
  have h := C35_encoders_append_exact_length 3 (by decide)
  ⟨h.2.2.2.2.2.2.2.2.2.2.2.2.2.1 (MeasuredValueShort_create none 70000 0x3F800000 0x10) [0xAA, 0xBB],
   h.2.2.2.2.2.2.2.2.2.2.2.2.2.2.2.2.2.2.2.2.2.2.2.2.2.2.2.2.2.2.2.2.2.1
     (IntegratedTotalsWithCP56Time2a_create none 9 ⟨[1, 2, 3, 4, 5]⟩ ⟨[1, 2, 3, 4, 5, 6, 7]⟩)
     [] rfl rfl⟩

end IEC60870
